import Mathlib

/-!
# GRU layer of textnet: embedding and verified properties

Shallow embedding of `src/layer/common/gru_layer-inl.hpp` (class `GruLayer`) and of
`Node::Resize` and `Node::Init` of `src/layer/node.h`.

Modelling conventions.

* Numbers (`float` in the source) are elements of a commutative ring `α`; rounding is not
  modelled.
* A `Tensor2D` of shape `m × n` is a function `Fin m → Fin n → α`. The arithmetic operators of
  mshadow (`+`, `*`, `1 - z`, ...) are elementwise, which is what the operators on functions
  are. `dot` is the matrix product and `T` the transpose.
* The one-row slice `t.Slice(row_idx, row_idx+1)` of a per-pair buffer is `Slice t row_idx`; a
  write through such a view is `setSlice`.
* The activation functors `op::sigmoid`, `op::tanh`, `op::sigmoid_grad`, `op::tanh_grad` live
  in a header that is not part of the two source files. They are taken as the parameter `Ops`.
* `utils::Check` / `utils::Assert` failures are results `Except.error`.
-/

namespace textnet
namespace layer

/-- Fatal conditions of the layer. `seqLength` is "GruLayer: sequence length error.", `gate` is
"GruLayer: gate problem.". `sliceRange` is raised by no function of the source: mshadow
slices are unchecked. It is the result of the instrumented drivers (`SliceChecked` and the
`...Checked` definitions) when a slice index lies outside the view it is taken from. -/
inductive GruError where
  | seqLength
  | gate
  | sliceRange
  deriving DecidableEq, Repr

/-- An `m × n` matrix, `mshadow::Tensor<xpu, 2>`. -/
abbrev Tensor2D (α : Type) (m n : Nat) := Fin m → Fin n → α

/-- The buffer of one (batch, sequence) pair, `t[batch_idx][seq_idx]`: time index, then
feature index. -/
abbrev Rows (α : Type) (n : Nat) := Nat → Fin n → α

/-- A four-axis tensor `mshadow::Tensor<xpu, 4>` with feature width `n`: batch index,
sequence index, time index, feature index. -/
abbrev Tensor4D (α : Type) (n : Nat) := Nat → Nat → Rows α n

/-- The activation functors of namespace `op` used by the layer. -/
structure Ops (α : Type) where
  sigmoid : α → α
  tanh : α → α
  sigmoid_grad : α → α
  tanh_grad : α → α

/-- One entry of `params`: the value tensor `data[0][0]` and its gradient accumulator
`diff[0][0]`. -/
structure Param (α : Type) (m n : Nat) where
  data : Tensor2D α m n
  diff : Tensor2D α m n

/-- A `Node`: the shape of `data` on the batch, sequence and time axes, the tensors `data` and
`diff`, and the per-pair `length` array read by the layer. -/
structure Node (α : Type) (n : Nat) where
  size0 : Nat
  size1 : Nat
  size2 : Nat
  data : Tensor4D α n
  diff : Tensor4D α n
  length : Nat → Nat → Int

/-- The fields of `GruLayer` that `Forward` and `Backprop` read or write. -/
structure GruLayer (α : Type) (d_input d_mem : Nat) where
  reverse : Bool
  params0 : Param α d_input (2 * d_mem)
  params1 : Param α d_mem (2 * d_mem)
  params2 : Param α 1 (2 * d_mem)
  params3 : Param α d_input d_mem
  params4 : Param α d_mem d_mem
  params5 : Param α 1 d_mem
  c : Tensor4D α d_mem
  g : Tensor4D α (2 * d_mem)
  c_er : Tensor4D α d_mem
  g_er : Tensor4D α (2 * d_mem)
  begin_h : Tensor2D α 1 d_mem
  begin_h_er : Tensor2D α 1 d_mem

section Model

variable {α : Type} [CommRing α] {d_input d_mem : Nat}

/-- Matrix product `dot(A, B)`. -/
def dot {m k n : Nat} (A : Tensor2D α m k) (B : Tensor2D α k n) : Tensor2D α m n :=
  fun i j => ∑ l, A i l * B l j

/-- Transpose `A.T()`. -/
def T {m n : Nat} (A : Tensor2D α m n) : Tensor2D α n m :=
  fun i j => A j i

/-- Elementwise map `mshadow::expr::F<f>(A)`. -/
def F {m n : Nat} (f : α → α) (A : Tensor2D α m n) : Tensor2D α m n :=
  fun i j => f (A i j)

/-- The view `t.Slice(row_idx, row_idx + 1)`. -/
def Slice {n : Nat} (t : Rows α n) (row_idx : Nat) : Tensor2D α 1 n :=
  fun _ j => t row_idx j

/-- Effect on the buffer `t` of assigning `v` through the view `t.Slice(row_idx, row_idx + 1)`. -/
def setSlice {n : Nat} (t : Rows α n) (row_idx : Nat) (v : Tensor2D α 1 n) : Rows α n :=
  Function.update t row_idx (v 0)

/-- Effect on the tensor `t` of writing the pair buffer `t[batch_idx][seq_idx]`. -/
def setPair {n : Nat} (t : Tensor4D α n) (batch_idx seq_idx : Nat) (v : Rows α n) :
    Tensor4D α n :=
  Function.update t batch_idx (Function.update (t batch_idx) seq_idx v)

/-- `SplitGate`: after the one-row check, `r` views the first `d_mem` entries of `g.dptr_` and
`z` the `d_mem` entries from `g.dptr_ + 1 * d_mem`. -/
def SplitGate {rows : Nat} (g : Tensor2D α rows (2 * d_mem)) :
    Except GruError (Tensor2D α 1 d_mem × Tensor2D α 1 d_mem) :=
  if h : rows = 1 then
    .ok (fun _ j => g ⟨0, by omega⟩ ⟨j.1, by omega⟩,
         fun _ j => g ⟨0, by omega⟩ ⟨1 * d_mem + j.1, by omega⟩)
  else .error .gate

/-- The one-row gate buffer whose views by `SplitGate` are `r` and `z`: the model of the
content of `cur_g_er` after writes through its two views. -/
def JoinGate (r z : Tensor2D α 1 d_mem) : Tensor2D α 1 (2 * d_mem) :=
  fun i k => if h : k.1 < d_mem then r i ⟨k.1, h⟩ else z i ⟨k.1 - d_mem, by omega⟩

/-- `ForwardOneStep`: the values written to the output slots `cur_g`, `cur_c`, `cur_h`
(all three are assigned, their previous content is not read). -/
def ForwardOneStep (op : Ops α) (L : GruLayer α d_input d_mem)
    (pre_h : Tensor2D α 1 d_mem) (x : Tensor2D α 1 d_input) :
    Except GruError (Tensor2D α 1 (2 * d_mem) × Tensor2D α 1 d_mem × Tensor2D α 1 d_mem) := do
  let w_g_data := L.params0.data
  let u_g_data := L.params1.data
  let w_c_data := L.params3.data
  let u_c_data := L.params4.data
  let cur_g := dot x w_g_data
  let cur_g := cur_g + dot pre_h u_g_data
  let cur_g := F op.sigmoid cur_g
  let (r, z) ← SplitGate cur_g
  let cur_c := dot x w_c_data
  let r_mul_pre_h := r * pre_h
  let cur_c := cur_c + dot r_mul_pre_h u_c_data
  let cur_c := F op.tanh cur_c
  let cur_h := z * pre_h + (1 - z) * cur_c
  pure (cur_g, cur_c, cur_h)

/-- The slots and accumulators `BpOneStep` writes: the layer (its four weight gradient
accumulators `params[0,1,3,4].diff`) and the slices `cur_c_er`, `cur_g_er`, `pre_h_er`, `x_er`. -/
structure BpOut (α : Type) (d_input d_mem : Nat) where
  layer : GruLayer α d_input d_mem
  cur_c_er : Tensor2D α 1 d_mem
  cur_g_er : Tensor2D α 1 (2 * d_mem)
  pre_h_er : Tensor2D α 1 d_mem
  x_er : Tensor2D α 1 d_input

/-- `BpOneStep`, statement by statement. `r_er` and `z_er` are the two views of `cur_g_er`;
the buffer `cur_g_er` read by the last four statements is `JoinGate r_er z_er`. -/
def BpOneStep (op : Ops α) (L : GruLayer α d_input d_mem)
    (cur_h_er pre_h : Tensor2D α 1 d_mem) (x : Tensor2D α 1 d_input)
    (cur_g : Tensor2D α 1 (2 * d_mem)) (cur_c _cur_h : Tensor2D α 1 d_mem)
    (cur_c_er : Tensor2D α 1 d_mem) (cur_g_er : Tensor2D α 1 (2 * d_mem))
    (pre_h_er : Tensor2D α 1 d_mem) (x_er : Tensor2D α 1 d_input) :
    Except GruError (BpOut α d_input d_mem) := do
  let w_g_data := L.params0.data
  let u_g_data := L.params1.data
  let w_c_data := L.params3.data
  let u_c_data := L.params4.data
  let w_g_er := L.params0.diff
  let u_g_er := L.params1.diff
  let w_c_er := L.params3.diff
  let u_c_er := L.params4.diff
  let (r, z) ← SplitGate cur_g
  let (_, z_er) ← SplitGate cur_g_er
  let pre_h_er := pre_h_er + cur_h_er * z
  let cur_c_er := cur_c_er + cur_h_er * (1 - z)
  let z_er := z_er + cur_h_er * pre_h
  let z_er := z_er + cur_h_er * ((-1 : α) • cur_c)
  let cur_c_er := cur_c_er * F op.tanh_grad cur_c
  let x_er := x_er + dot cur_c_er (T w_c_data)
  let w_c_er := w_c_er + dot (T x) cur_c_er
  let r_er := dot cur_c_er (T u_c_data)
  let r_er := r_er * pre_h
  let tmp := dot cur_c_er (T u_c_data)
  let pre_h_er := pre_h_er + r * tmp
  let r_mul_pre_h := r * pre_h
  let u_c_er := u_c_er + dot (T r_mul_pre_h) cur_c_er
  let z_er := z_er * F op.sigmoid_grad z
  let r_er := r_er * F op.sigmoid_grad r
  let cur_g_er := JoinGate r_er z_er
  let x_er := x_er + dot cur_g_er (T w_g_data)
  let pre_h_er := pre_h_er + dot cur_g_er (T u_g_data)
  let w_g_er := w_g_er + dot (T x) cur_g_er
  let u_g_er := u_g_er + dot (T pre_h) cur_g_er
  pure { layer := { L with params0 := { L.params0 with diff := w_g_er },
                           params1 := { L.params1 with diff := u_g_er },
                           params3 := { L.params3 with diff := w_c_er },
                           params4 := { L.params4 with diff := u_c_er } },
         cur_c_er := cur_c_er, cur_g_er := cur_g_er, pre_h_er := pre_h_er, x_er := x_er }

/-- The per-pair buffers the forward drivers write: `g`, `c` and `out`. -/
structure FwdSeq (α : Type) (d_mem : Nat) where
  g : Rows α (2 * d_mem)
  c : Rows α d_mem
  out : Rows α d_mem

/-- Body of the loop of `ForwardLeft2Right` at `row_idx` (`begin = 0`). -/
def fwdBodyL2R (op : Ops α) (L : GruLayer α d_input d_mem) (inp : Rows α d_input)
    (st : FwdSeq α d_mem) (row_idx : Nat) : Except GruError (FwdSeq α d_mem) := do
  let pre_h := if row_idx = 0 then L.begin_h else Slice st.out (row_idx - 1)
  let (cur_g, cur_c, cur_h) ← ForwardOneStep op L pre_h (Slice inp row_idx)
  pure { g := setSlice st.g row_idx cur_g, c := setSlice st.c row_idx cur_c,
         out := setSlice st.out row_idx cur_h }

/-- `ForwardLeft2Right` on the views `Slice(0, end)` of the pair buffers: `row_idx` runs
from `0` up to `end - 1`. -/
def ForwardLeft2Right (op : Ops α) (L : GruLayer α d_input d_mem) (end_ : Nat)
    (inp : Rows α d_input) (st : FwdSeq α d_mem) : Except GruError (FwdSeq α d_mem) :=
  (List.range end_).foldlM (fwdBodyL2R op L inp) st

/-- Body of the loop of `ForwardRight2Left` at `row_idx`, for views of `end` rows. -/
def fwdBodyR2L (op : Ops α) (L : GruLayer α d_input d_mem) (end_ : Nat) (inp : Rows α d_input)
    (st : FwdSeq α d_mem) (row_idx : Nat) : Except GruError (FwdSeq α d_mem) := do
  let pre_h := if row_idx = end_ - 1 then L.begin_h else Slice st.out (row_idx + 1)
  let (cur_g, cur_c, cur_h) ← ForwardOneStep op L pre_h (Slice inp row_idx)
  pure { g := setSlice st.g row_idx cur_g, c := setSlice st.c row_idx cur_c,
         out := setSlice st.out row_idx cur_h }

/-- `ForwardRight2Left` on the views `Slice(0, end)` of the pair buffers: `row_idx` runs
from `end - 1` down to `0`. -/
def ForwardRight2Left (op : Ops α) (L : GruLayer α d_input d_mem) (end_ : Nat)
    (inp : Rows α d_input) (st : FwdSeq α d_mem) : Except GruError (FwdSeq α d_mem) :=
  (List.range end_).reverse.foldlM (fwdBodyR2L op L end_ inp) st

/-- Body of the double loop of `Forward` for the pair `(batch_idx, seq_idx)`: the assertion
`len >= 0`, then the driver selected by `reverse` on the views `Slice(0, len)` of the pair
buffers. As in the source, `len` is not compared with the time capacity `size2`. -/
def fwdPair (op : Ops α) (bottom : Node α d_input)
    (st : GruLayer α d_input d_mem × Node α d_mem) (batch_idx seq_idx : Nat) :
    Except GruError (GruLayer α d_input d_mem × Node α d_mem) := do
  let L := st.1
  let top := st.2
  let len := bottom.length batch_idx seq_idx
  if len < 0 then throw GruError.seqLength
  let bufs : FwdSeq α d_mem :=
    { g := L.g batch_idx seq_idx, c := L.c batch_idx seq_idx, out := top.data batch_idx seq_idx }
  let r ← if !L.reverse then ForwardLeft2Right op L len.toNat (bottom.data batch_idx seq_idx) bufs
          else ForwardRight2Left op L len.toNat (bottom.data batch_idx seq_idx) bufs
  pure ({ L with g := setPair L.g batch_idx seq_idx r.g, c := setPair L.c batch_idx seq_idx r.c },
        { top with data := setPair top.data batch_idx seq_idx r.out })

/-- `Forward`: copies the length array, zeroes the output and the four caches, then visits
every pair. Returns the layer and the top node after the call. -/
def Forward (op : Ops α) (L : GruLayer α d_input d_mem) (bottom : Node α d_input)
    (top : Node α d_mem) : Except GruError (GruLayer α d_input d_mem × Node α d_mem) := do
  let top := { top with length := bottom.length }
  let top := { top with data := 0 }
  let L := { L with c := 0, g := 0, c_er := 0, g_er := 0 }
  (List.range bottom.size0).foldlM (fun st batch_idx =>
    (List.range bottom.size1).foldlM (fun st seq_idx => fwdPair op bottom st batch_idx seq_idx) st)
    (L, top)

/-- What the backward drivers write for one pair: the layer (weight gradient accumulators
and `begin_h_er`) and the pair buffers `top_diff`, `c_er`, `g_er`, `bottom_diff`. -/
structure BpSeq (α : Type) (d_input d_mem : Nat) where
  layer : GruLayer α d_input d_mem
  top_diff : Rows α d_mem
  c_er : Rows α d_mem
  g_er : Rows α (2 * d_mem)
  bottom_diff : Rows α d_input

/-- Body of the loop of `BackpropForLeft2RightLstm` at `row_idx` (`begin = 0`): `pre_h_er` is
`begin_h_er` at the first row and the view of row `row_idx - 1` of `top_diff` otherwise. -/
def bpBodyL2R (op : Ops α) (top_data c : Rows α d_mem) (g : Rows α (2 * d_mem))
    (bottom_data : Rows α d_input) (st : BpSeq α d_input d_mem) (row_idx : Nat) :
    Except GruError (BpSeq α d_input d_mem) := do
  let pre_h := if row_idx = 0 then st.layer.begin_h else Slice top_data (row_idx - 1)
  let pre_h_er := if row_idx = 0 then st.layer.begin_h_er else Slice st.top_diff (row_idx - 1)
  let o ← BpOneStep op st.layer (Slice st.top_diff row_idx) pre_h (Slice bottom_data row_idx)
    (Slice g row_idx) (Slice c row_idx) (Slice top_data row_idx)
    (Slice st.c_er row_idx) (Slice st.g_er row_idx) pre_h_er (Slice st.bottom_diff row_idx)
  pure { layer := if row_idx = 0 then { o.layer with begin_h_er := o.pre_h_er } else o.layer,
         top_diff := if row_idx = 0 then st.top_diff
                     else setSlice st.top_diff (row_idx - 1) o.pre_h_er,
         c_er := setSlice st.c_er row_idx o.cur_c_er,
         g_er := setSlice st.g_er row_idx o.cur_g_er,
         bottom_diff := setSlice st.bottom_diff row_idx o.x_er }

/-- `BackpropForLeft2RightLstm` on the views `Slice(0, end)`: `row_idx` runs from `end - 1`
down to `0`. -/
def BackpropForLeft2RightLstm (op : Ops α) (end_ : Nat) (top_data c : Rows α d_mem)
    (g : Rows α (2 * d_mem)) (bottom_data : Rows α d_input) (st : BpSeq α d_input d_mem) :
    Except GruError (BpSeq α d_input d_mem) :=
  (List.range end_).reverse.foldlM (bpBodyL2R op top_data c g bottom_data) st

/-- Body of the loop of `BackpropForRight2LeftLstm` at `row_idx`, for views of `end` rows:
`pre_h_er` is `begin_h_er` at the last row and the view of row `row_idx + 1` of `top_diff`
otherwise. -/
def bpBodyR2L (op : Ops α) (end_ : Nat) (top_data c : Rows α d_mem) (g : Rows α (2 * d_mem))
    (bottom_data : Rows α d_input) (st : BpSeq α d_input d_mem) (row_idx : Nat) :
    Except GruError (BpSeq α d_input d_mem) := do
  let pre_h := if row_idx = end_ - 1 then st.layer.begin_h else Slice top_data (row_idx + 1)
  let pre_h_er :=
    if row_idx = end_ - 1 then st.layer.begin_h_er else Slice st.top_diff (row_idx + 1)
  let o ← BpOneStep op st.layer (Slice st.top_diff row_idx) pre_h (Slice bottom_data row_idx)
    (Slice g row_idx) (Slice c row_idx) (Slice top_data row_idx)
    (Slice st.c_er row_idx) (Slice st.g_er row_idx) pre_h_er (Slice st.bottom_diff row_idx)
  pure { layer := if row_idx = end_ - 1 then { o.layer with begin_h_er := o.pre_h_er }
                  else o.layer,
         top_diff := if row_idx = end_ - 1 then st.top_diff
                     else setSlice st.top_diff (row_idx + 1) o.pre_h_er,
         c_er := setSlice st.c_er row_idx o.cur_c_er,
         g_er := setSlice st.g_er row_idx o.cur_g_er,
         bottom_diff := setSlice st.bottom_diff row_idx o.x_er }

/-- `BackpropForRight2LeftLstm` on the views `Slice(0, end)`: `row_idx` runs from `0` up to
`end - 1`. -/
def BackpropForRight2LeftLstm (op : Ops α) (end_ : Nat) (top_data c : Rows α d_mem)
    (g : Rows α (2 * d_mem)) (bottom_data : Rows α d_input) (st : BpSeq α d_input d_mem) :
    Except GruError (BpSeq α d_input d_mem) :=
  (List.range end_).foldlM (bpBodyR2L op end_ top_data c g bottom_data) st

/-- State threaded through the double loop of `Backprop`: the layer, the bottom node (its
`diff` is written) and the top node (its `diff` is written). -/
structure BpState (α : Type) (d_input d_mem : Nat) where
  layer : GruLayer α d_input d_mem
  bottom : Node α d_input
  top : Node α d_mem

/-- Body of the double loop of `Backprop` for the pair `(batch_idx, seq_idx)`: the assertion
`len >= 0`, then the driver selected by `reverse` on the views `Slice(0, len)` of the pair
buffers. As in the source, `len` is not compared with the time capacity `size2`. -/
def bpPair (op : Ops α) (st : BpState α d_input d_mem) (batch_idx seq_idx : Nat) :
    Except GruError (BpState α d_input d_mem) := do
  let L := st.layer
  let len := st.bottom.length batch_idx seq_idx
  if len < 0 then throw GruError.seqLength
  let bufs : BpSeq α d_input d_mem :=
    { layer := L, top_diff := st.top.diff batch_idx seq_idx, c_er := L.c_er batch_idx seq_idx,
      g_er := L.g_er batch_idx seq_idx, bottom_diff := st.bottom.diff batch_idx seq_idx }
  let r ← if !L.reverse then
            BackpropForLeft2RightLstm op len.toNat (st.top.data batch_idx seq_idx)
              (L.c batch_idx seq_idx) (L.g batch_idx seq_idx) (st.bottom.data batch_idx seq_idx) bufs
          else
            BackpropForRight2LeftLstm op len.toNat (st.top.data batch_idx seq_idx)
              (L.c batch_idx seq_idx) (L.g batch_idx seq_idx) (st.bottom.data batch_idx seq_idx) bufs
  pure { layer := { r.layer with c_er := setPair L.c_er batch_idx seq_idx r.c_er,
                                 g_er := setPair L.g_er batch_idx seq_idx r.g_er },
         bottom := { st.bottom with diff := setPair st.bottom.diff batch_idx seq_idx r.bottom_diff },
         top := { st.top with diff := setPair st.top.diff batch_idx seq_idx r.top_diff } }

/-- `Backprop`: zeroes `begin_h_er`, `g_er` and `c_er`, then visits every pair. -/
def Backprop (op : Ops α) (L : GruLayer α d_input d_mem) (bottom : Node α d_input)
    (top : Node α d_mem) : Except GruError (BpState α d_input d_mem) := do
  let L := { L with begin_h_er := 0, g_er := 0, c_er := 0 }
  (List.range bottom.size0).foldlM (fun st batch_idx =>
    (List.range bottom.size1).foldlM (fun st seq_idx => bpPair op st batch_idx seq_idx) st)
    { layer := L, bottom := bottom, top := top }

/-! ### Reference transition, written from the specification (section 4.2) -/

/-- Specification step 1 and 2: `g = sigmoid(x·W_gate_in + h₋·W_gate_hidden)`, no bias. -/
def refGate (op : Ops α) (W_gate_in : Tensor2D α d_input (2 * d_mem))
    (W_gate_hidden : Tensor2D α d_mem (2 * d_mem))
    (h_prev : Tensor2D α 1 d_mem) (x : Tensor2D α 1 d_input) : Tensor2D α 1 (2 * d_mem) :=
  fun i k => op.sigmoid ((∑ l, x i l * W_gate_in l k) + ∑ l, h_prev i l * W_gate_hidden l k)

/-- Reset gate of the specification: the first `H` columns of `g`. -/
def refReset (g : Tensor2D α 1 (2 * d_mem)) : Tensor2D α 1 d_mem :=
  fun i j => g i ⟨j.1, by omega⟩

/-- Update gate of the specification: the next `H` columns of `g`. -/
def refUpdate (g : Tensor2D α 1 (2 * d_mem)) : Tensor2D α 1 d_mem :=
  fun i j => g i ⟨d_mem + j.1, by omega⟩

/-- Specification step 3 and 4: `c = tanh(x·W_cand_in + (r ⊙ h₋)·W_cand_hidden)`, no bias. -/
def refCand (op : Ops α) (W_cand_in : Tensor2D α d_input d_mem)
    (W_cand_hidden : Tensor2D α d_mem d_mem) (r : Tensor2D α 1 d_mem)
    (h_prev : Tensor2D α 1 d_mem) (x : Tensor2D α 1 d_input) : Tensor2D α 1 d_mem :=
  fun i j => op.tanh ((∑ l, x i l * W_cand_in l j) + ∑ l, (r i l * h_prev i l) * W_cand_hidden l j)

/-- Specification step 5: `h = z ⊙ h₋ + (1 − z) ⊙ c`. -/
def refHidden (z h_prev c : Tensor2D α 1 d_mem) : Tensor2D α 1 d_mem :=
  fun i j => z i j * h_prev i j + (1 - z i j) * c i j

/-- The reference GRU transition as a function of the previous hidden state, the input and
the four weight matrices only: gate, candidate and new hidden state. -/
def refStep (op : Ops α) (W_gate_in : Tensor2D α d_input (2 * d_mem))
    (W_gate_hidden : Tensor2D α d_mem (2 * d_mem)) (W_cand_in : Tensor2D α d_input d_mem)
    (W_cand_hidden : Tensor2D α d_mem d_mem)
    (h_prev : Tensor2D α 1 d_mem) (x : Tensor2D α 1 d_input) :
    Tensor2D α 1 (2 * d_mem) × Tensor2D α 1 d_mem × Tensor2D α 1 d_mem :=
  let g := refGate op W_gate_in W_gate_hidden h_prev x
  let c := refCand op W_cand_in W_cand_hidden (refReset g) h_prev x
  (g, c, refHidden (refUpdate g) h_prev c)

/-! ### Reference backward transition, written from the specification (section 4.3) -/

/-- The quantities of the reference backward step: the candidate and gate pre-activation
gradients `dc`, `dg`, and what the step adds to `pre_h_er`, to `x_er` and to the gradient
accumulators of `W_gate_in`, `W_gate_hidden`, `W_cand_in`, `W_cand_hidden`. -/
structure StepGrad (α : Type) (d_input d_mem : Nat) where
  dc : Tensor2D α 1 d_mem
  dg : Tensor2D α 1 (2 * d_mem)
  d_pre_h : Tensor2D α 1 d_mem
  d_x : Tensor2D α 1 d_input
  d_w_g : Tensor2D α d_input (2 * d_mem)
  d_u_g : Tensor2D α d_mem (2 * d_mem)
  d_w_c : Tensor2D α d_input d_mem
  d_u_c : Tensor2D α d_mem d_mem

/-- The reference backward step for an upstream gradient `cur_h_er`, with `r`, `z` the reset
and update halves of the cached gate `g`:
`dc = cur_h_er ⊙ (1 − z) ⊙ tanh′(c)`, `tmp = dc · W_cand_hiddenᵗ`,
`dz = cur_h_er ⊙ (h₋ − c) ⊙ sigmoid′(z)`, `dr = tmp ⊙ h₋ ⊙ sigmoid′(r)`, `dg = [dr | dz]`. -/
def refBpStep (op : Ops α) (W_gate_in : Tensor2D α d_input (2 * d_mem))
    (W_gate_hidden : Tensor2D α d_mem (2 * d_mem)) (W_cand_in : Tensor2D α d_input d_mem)
    (W_cand_hidden : Tensor2D α d_mem d_mem)
    (cur_h_er h_prev : Tensor2D α 1 d_mem) (x : Tensor2D α 1 d_input)
    (g : Tensor2D α 1 (2 * d_mem)) (c : Tensor2D α 1 d_mem) : StepGrad α d_input d_mem :=
  let r := refReset g
  let z := refUpdate g
  let dc : Tensor2D α 1 d_mem := fun i j => cur_h_er i j * (1 - z i j) * op.tanh_grad (c i j)
  let tmp := dot dc (T W_cand_hidden)
  let dz : Tensor2D α 1 d_mem :=
    fun i j => cur_h_er i j * (h_prev i j - c i j) * op.sigmoid_grad (z i j)
  let dr : Tensor2D α 1 d_mem := fun i j => tmp i j * h_prev i j * op.sigmoid_grad (r i j)
  let dg := JoinGate dr dz
  { dc := dc
    dg := dg
    d_pre_h := cur_h_er * z + r * tmp + dot dg (T W_gate_hidden)
    d_x := dot dc (T W_cand_in) + dot dg (T W_gate_in)
    d_w_g := dot (T x) dg
    d_u_g := dot (T h_prev) dg
    d_w_c := dot (T x) dc
    d_u_c := dot (T (r * h_prev)) dc }

/-- The layer after the quantities of one reference backward step have been added to the
four weight gradient accumulators. -/
def addGrad (L : GruLayer α d_input d_mem) (sg : StepGrad α d_input d_mem) :
    GruLayer α d_input d_mem :=
  { L with params0 := { L.params0 with diff := L.params0.diff + sg.d_w_g },
           params1 := { L.params1 with diff := L.params1.diff + sg.d_u_g },
           params3 := { L.params3 with diff := L.params3.diff + sg.d_w_c },
           params4 := { L.params4 with diff := L.params4.diff + sg.d_u_c } }

/-- The reference backward step of the layer `L` (its four weight matrices). -/
def layerBpStep (op : Ops α) (L : GruLayer α d_input d_mem)
    (cur_h_er h_prev : Tensor2D α 1 d_mem) (x : Tensor2D α 1 d_input)
    (g : Tensor2D α 1 (2 * d_mem)) (c : Tensor2D α 1 d_mem) : StepGrad α d_input d_mem :=
  refBpStep op L.params0.data L.params1.data L.params3.data L.params4.data cur_h_er h_prev x g c

/-! ### Vocabulary of the statements -/

/-- The reference forward transition with the four weight matrices of the layer `L`. -/
def layerStep (op : Ops α) (L : GruLayer α d_input d_mem)
    (h_prev : Tensor2D α 1 d_mem) (x : Tensor2D α 1 d_input) :
    Tensor2D α 1 (2 * d_mem) × Tensor2D α 1 d_mem × Tensor2D α 1 d_mem :=
  refStep op L.params0.data L.params1.data L.params3.data L.params4.data h_prev x

/-- Previous hidden state at time index `t` in forward-in-time order: the initial state at
index `0`, else the hidden state at index `t - 1` of `out`. -/
def preL2R (begin_h : Tensor2D α 1 d_mem) (out : Rows α d_mem) (t : Nat) : Tensor2D α 1 d_mem :=
  if t = 0 then begin_h else Slice out (t - 1)

/-- Previous hidden state at time index `t` in reverse-in-time order over `len` rows: the initial
state at index `len - 1`, else the hidden state at index `t + 1` of `out`. -/
def preR2L (begin_h : Tensor2D α 1 d_mem) (len : Nat) (out : Rows α d_mem) (t : Nat) :
    Tensor2D α 1 d_mem :=
  if t = len - 1 then begin_h else Slice out (t + 1)

/-- Gate, candidate and hidden-state rows of the pair buffers at time index `t`. -/
def rowTriple (s : FwdSeq α d_mem) (t : Nat) :
    Tensor2D α 1 (2 * d_mem) × Tensor2D α 1 d_mem × Tensor2D α 1 d_mem :=
  (Slice s.g t, Slice s.c t, Slice s.out t)

/-- State of the pair buffers after `k` iterations of the loop of `ForwardLeft2Right` started
from `st0`: rows below `k` hold the transition of their row, the other rows are untouched. -/
def FwdInvL2R (op : Ops α) (L : GruLayer α d_input d_mem) (inp : Rows α d_input)
    (st0 : FwdSeq α d_mem) (k : Nat) (s : FwdSeq α d_mem) : Prop :=
  ∀ t, (t < k → rowTriple s t = layerStep op L (preL2R L.begin_h s.out t) (Slice inp t)) ∧
    (k ≤ t → s.g t = st0.g t ∧ s.c t = st0.c t ∧ s.out t = st0.out t)

/-- State of the pair buffers after `k` iterations of the loop of `ForwardRight2Left` over `n`
rows started from `st0`: the `k` highest rows below `n` hold the transition of their row, the
other rows are untouched. -/
def FwdInvR2L (op : Ops α) (L : GruLayer α d_input d_mem) (n : Nat) (inp : Rows α d_input)
    (st0 : FwdSeq α d_mem) (k : Nat) (s : FwdSeq α d_mem) : Prop :=
  ∀ t, (n - k ≤ t → t < n →
      rowTriple s t = layerStep op L (preR2L L.begin_h n s.out t) (Slice inp t)) ∧
    (t < n - k ∨ n ≤ t → s.g t = st0.g t ∧ s.c t = st0.c t ∧ s.out t = st0.out t)

/-- The length precondition of `Forward` and `Backprop`: every pair inside the shape of the
input has a valid length between `0` and the time capacity. -/
def ValidLengths {n : Nat} (bottom : Node α n) : Prop :=
  ∀ b, b < bottom.size0 → ∀ s, s < bottom.size1 →
    0 ≤ bottom.length b s ∧ bottom.length b s ≤ bottom.size2

/-- The pair buffers `g[b][s]`, `c[b][s]`, `top.data[b][s]` of a layer and its top node. -/
def pairBufs (L : GruLayer α d_input d_mem) (top : Node α d_mem) (b s : Nat) : FwdSeq α d_mem :=
  { g := L.g b s, c := L.c b s, out := top.data b s }

/-- The pair `(b', s')` has been visited when the double loop over a shape with `S` sequences
per batch element is about to visit the pair `(b, s)`. -/
def visited (S b s b' s' : Nat) : Prop :=
  (b' < b ∧ s' < S) ∨ (b' = b ∧ s' < s)

/-- The three pair buffers `g[b][s]`, `c[b][s]`, `top.data[b][s]` hold the recurrence of the
direction selected by `reverse` on the rows below the valid length and zero elsewhere. -/
def PairForwardDone (op : Ops α) (L : GruLayer α d_input d_mem) (bottom : Node α d_input)
    (bufs : FwdSeq α d_mem) (b s : Nat) : Prop :=
  if L.reverse then
    FwdInvR2L op L (bottom.length b s).toNat (bottom.data b s) ⟨0, 0, 0⟩
      (bottom.length b s).toNat bufs
  else
    FwdInvL2R op L (bottom.data b s) ⟨0, 0, 0⟩ (bottom.length b s).toNat bufs

/-- Invariant of the double loop of `Forward` when it is about to visit the pair `(b, s)`. -/
def ForwardInv (op : Ops α) (L : GruLayer α d_input d_mem) (bottom : Node α d_input)
    (top : Node α d_mem) (b s : Nat) (st : GruLayer α d_input d_mem × Node α d_mem) : Prop :=
  ∃ (cc : Tensor4D α d_mem) (gg : Tensor4D α (2 * d_mem)) (dd : Tensor4D α d_mem),
    st = ({ L with c := cc, g := gg, c_er := 0, g_er := 0 },
          { top with length := bottom.length, data := dd }) ∧
    (∀ b' s', visited bottom.size1 b s b' s' →
      PairForwardDone op L bottom ⟨gg b' s', cc b' s', dd b' s'⟩ b' s') ∧
    (∀ b' s', ¬ visited bottom.size1 b s b' s' → gg b' s' = 0 ∧ cc b' s' = 0 ∧ dd b' s' = 0)

/-! ### Vocabulary of the backward statements -/

/-- The four weight gradient accumulators `params[0].diff`, `params[1].diff`,
`params[3].diff`, `params[4].diff` of a layer. -/
def grads (L : GruLayer α d_input d_mem) :
    Tensor2D α d_input (2 * d_mem) × Tensor2D α d_mem (2 * d_mem) ×
      Tensor2D α d_input d_mem × Tensor2D α d_mem d_mem :=
  (L.params0.diff, L.params1.diff, L.params3.diff, L.params4.diff)

/-- What one reference backward step adds to the four weight gradient accumulators. -/
def StepGrad.weights (sg : StepGrad α d_input d_mem) :
    Tensor2D α d_input (2 * d_mem) × Tensor2D α d_mem (2 * d_mem) ×
      Tensor2D α d_input d_mem × Tensor2D α d_mem d_mem :=
  (sg.d_w_g, sg.d_u_g, sg.d_w_c, sg.d_u_c)

/-- The layer `L` with the four weight gradient accumulators replaced by `G` and
`begin_h_er` replaced by `bh`; every other field is the one of `L`. -/
def withGrads (L : GruLayer α d_input d_mem)
    (G : Tensor2D α d_input (2 * d_mem) × Tensor2D α d_mem (2 * d_mem) ×
      Tensor2D α d_input d_mem × Tensor2D α d_mem d_mem)
    (bh : Tensor2D α 1 d_mem) : GruLayer α d_input d_mem :=
  { L with params0 := { L.params0 with diff := G.1 },
           params1 := { L.params1 with diff := G.2.1 },
           params3 := { L.params3 with diff := G.2.2.1 },
           params4 := { L.params4 with diff := G.2.2.2 },
           begin_h_er := bh }

/-- The reference backward step at time index `t` of a pair in forward-in-time order: upstream
gradient row `t` of `td`, previous hidden state `preL2R`, and the cached rows at `t`. -/
def sgL2R (op : Ops α) (L : GruLayer α d_input d_mem) (top_data c : Rows α d_mem)
    (g : Rows α (2 * d_mem)) (bottom_data : Rows α d_input) (td : Rows α d_mem) (t : Nat) :
    StepGrad α d_input d_mem :=
  layerBpStep op L (Slice td t) (preL2R L.begin_h top_data t) (Slice bottom_data t)
    (Slice g t) (Slice c t)

/-- The reference backward step at time index `t` of a pair in reverse-in-time order over `n`
rows. -/
def sgR2L (op : Ops α) (L : GruLayer α d_input d_mem) (n : Nat) (top_data c : Rows α d_mem)
    (g : Rows α (2 * d_mem)) (bottom_data : Rows α d_input) (td : Rows α d_mem) (t : Nat) :
    StepGrad α d_input d_mem :=
  layerBpStep op L (Slice td t) (preR2L L.begin_h n top_data t) (Slice bottom_data t)
    (Slice g t) (Slice c t)

/-- State after `k` iterations of the loop of `BackpropForLeft2RightLstm` over `n` rows started
from `st0`; the visited rows are `n - k, ..., n - 1` and `sg t` is the reference backward step at
row `t` for the upstream gradient found in row `t` of the current `top_diff`. -/
def BpInvL2R (op : Ops α) (n : Nat) (top_data c : Rows α d_mem)
    (g : Rows α (2 * d_mem)) (bottom_data : Rows α d_input) (st0 : BpSeq α d_input d_mem)
    (k : Nat) (s : BpSeq α d_input d_mem) : Prop :=
  s.layer = withGrads st0.layer
      (grads st0.layer + ∑ j in Finset.range k,
        (sgL2R op st0.layer top_data c g bottom_data s.top_diff (n - 1 - j)).weights)
      (st0.layer.begin_h_er + if k = n ∧ 0 < n then
        (sgL2R op st0.layer top_data c g bottom_data s.top_diff 0).d_pre_h else 0) ∧
  (∀ t, s.top_diff t = st0.top_diff t + if n - k ≤ t + 1 ∧ t + 1 < n then
      (sgL2R op st0.layer top_data c g bottom_data s.top_diff (t + 1)).d_pre_h 0 else 0) ∧
  (∀ t, s.c_er t = if n - k ≤ t ∧ t < n then
      (sgL2R op st0.layer top_data c g bottom_data s.top_diff t).dc 0 else st0.c_er t) ∧
  (∀ t, s.g_er t = if n - k ≤ t ∧ t < n then
      (sgL2R op st0.layer top_data c g bottom_data s.top_diff t).dg 0 else st0.g_er t) ∧
  (∀ t, s.bottom_diff t = st0.bottom_diff t + if n - k ≤ t ∧ t < n then
      (sgL2R op st0.layer top_data c g bottom_data s.top_diff t).d_x 0 else 0)

/-- State after `k` iterations of the loop of `BackpropForRight2LeftLstm` over `n` rows started
from `st0`; the visited rows are `0, ..., k - 1`. -/
def BpInvR2L (op : Ops α) (n : Nat) (top_data c : Rows α d_mem)
    (g : Rows α (2 * d_mem)) (bottom_data : Rows α d_input) (st0 : BpSeq α d_input d_mem)
    (k : Nat) (s : BpSeq α d_input d_mem) : Prop :=
  s.layer = withGrads st0.layer
      (grads st0.layer + ∑ j in Finset.range k,
        (sgR2L op st0.layer n top_data c g bottom_data s.top_diff j).weights)
      (st0.layer.begin_h_er + if k = n ∧ 0 < n then
        (sgR2L op st0.layer n top_data c g bottom_data s.top_diff (n - 1)).d_pre_h else 0) ∧
  (∀ t, s.top_diff t = st0.top_diff t + if 1 ≤ t ∧ t - 1 < k ∧ t < n then
      (sgR2L op st0.layer n top_data c g bottom_data s.top_diff (t - 1)).d_pre_h 0 else 0) ∧
  (∀ t, s.c_er t = if t < k then
      (sgR2L op st0.layer n top_data c g bottom_data s.top_diff t).dc 0 else st0.c_er t) ∧
  (∀ t, s.g_er t = if t < k then
      (sgR2L op st0.layer n top_data c g bottom_data s.top_diff t).dg 0 else st0.g_er t) ∧
  (∀ t, s.bottom_diff t = st0.bottom_diff t + if t < k then
      (sgR2L op st0.layer n top_data c g bottom_data s.top_diff t).d_x 0 else 0)

/-- The pair buffers handed to the backward driver for the pair `(b, s)`. -/
def bpBufs (st : BpState α d_input d_mem) (b s : Nat) : BpSeq α d_input d_mem :=
  { layer := st.layer, top_diff := st.top.diff b s, c_er := st.layer.c_er b s,
    g_er := st.layer.g_er b s, bottom_diff := st.bottom.diff b s }

/-- The pair buffers of `(b, s)` at the start of `Backprop`: the output gradient and input
gradient the caller supplied, and zeroed gradient caches. -/
def bpStart (L : GruLayer α d_input d_mem) (bottom : Node α d_input) (top : Node α d_mem)
    (b s : Nat) : BpSeq α d_input d_mem :=
  { layer := L, top_diff := top.diff b s, c_er := 0, g_er := 0, bottom_diff := bottom.diff b s }

/-- The pair `(b, s)` has been processed by `Backprop`: its four gradient buffers `td`, `ce`,
`ge`, `bd` are those the backward driver of the direction selected by `reverse` leaves after
all its iterations, started from `bpStart`. -/
def PairBackDone (op : Ops α) (L : GruLayer α d_input d_mem) (bottom : Node α d_input)
    (top : Node α d_mem) (td ce : Rows α d_mem) (ge : Rows α (2 * d_mem)) (bd : Rows α d_input)
    (b s : Nat) : Prop :=
  ∃ Lr : GruLayer α d_input d_mem,
    if L.reverse then
      BpInvR2L op (bottom.length b s).toNat (top.data b s) (L.c b s) (L.g b s) (bottom.data b s)
        (bpStart L bottom top b s) (bottom.length b s).toNat ⟨Lr, td, ce, ge, bd⟩
    else
      BpInvL2R op (bottom.length b s).toNat (top.data b s) (L.c b s) (L.g b s) (bottom.data b s)
        (bpStart L bottom top b s) (bottom.length b s).toNat ⟨Lr, td, ce, ge, bd⟩

/-- What the backward pass of the pair `(b, s)` adds to the four weight gradient accumulators
and to `begin_h_er`, for the upstream gradients found in the pair buffer `td`: the sum over
the time indices below the valid length of the per-step quantities, and the `pre_h_er` quantity
of the step at the first forward-visited index. -/
def pairGrad (op : Ops α) (L : GruLayer α d_input d_mem) (bottom : Node α d_input)
    (top : Node α d_mem) (td : Rows α d_mem) (b s : Nat) :
    (Tensor2D α d_input (2 * d_mem) × Tensor2D α d_mem (2 * d_mem) ×
      Tensor2D α d_input d_mem × Tensor2D α d_mem d_mem) × Tensor2D α 1 d_mem :=
  if L.reverse then
    (∑ t in Finset.range (bottom.length b s).toNat,
        (sgR2L op L (bottom.length b s).toNat (top.data b s) (L.c b s) (L.g b s)
          (bottom.data b s) td t).weights,
      if 0 < (bottom.length b s).toNat then
        (sgR2L op L (bottom.length b s).toNat (top.data b s) (L.c b s) (L.g b s)
          (bottom.data b s) td ((bottom.length b s).toNat - 1)).d_pre_h
      else 0)
  else
    (∑ t in Finset.range (bottom.length b s).toNat,
        (sgL2R op L (top.data b s) (L.c b s) (L.g b s) (bottom.data b s) td t).weights,
      if 0 < (bottom.length b s).toNat then
        (sgL2R op L (top.data b s) (L.c b s) (L.g b s) (bottom.data b s) td 0).d_pre_h
      else 0)

/-- Invariant of the double loop of `Backprop` when it is about to visit the pair `(b, s)`:
only the gradient fields differ from the state at the call; the weight gradient accumulators
and `begin_h_er` hold their content at the start of the loop (`grads L` and zero) plus the
quantities of the visited pairs; visited pairs are processed and the others untouched. -/
def BackpropInv (op : Ops α) (L : GruLayer α d_input d_mem) (bottom : Node α d_input)
    (top : Node α d_mem) (b s : Nat) (st : BpState α d_input d_mem) : Prop :=
  ∃ (G : Tensor2D α d_input (2 * d_mem) × Tensor2D α d_mem (2 * d_mem) ×
        Tensor2D α d_input d_mem × Tensor2D α d_mem d_mem) (bh : Tensor2D α 1 d_mem)
    (ce : Tensor4D α d_mem) (ge : Tensor4D α (2 * d_mem)) (bd : Tensor4D α d_input)
    (td : Tensor4D α d_mem),
    st = { layer := { withGrads L G bh with c_er := ce, g_er := ge },
           bottom := { bottom with diff := bd }, top := { top with diff := td } } ∧
    (G, bh) = (grads L, 0)
      + (∑ b' in Finset.range b, ∑ s' in Finset.range bottom.size1,
          pairGrad op L bottom top (td b' s') b' s')
      + (∑ s' in Finset.range s, pairGrad op L bottom top (td b s') b s') ∧
    (∀ b' s', visited bottom.size1 b s b' s' →
      PairBackDone op L bottom top (td b' s') (ce b' s') (ge b' s') (bd b' s') b' s') ∧
    (∀ b' s', ¬ visited bottom.size1 b s b' s' →
      td b' s' = top.diff b' s' ∧ ce b' s' = 0 ∧ ge b' s' = 0 ∧ bd b' s' = bottom.diff b' s')

/-- The element-reverse of the first `n` rows of a pair buffer; rows from `n` on are kept. -/
def revRows {m : Nat} (n : Nat) (x : Rows α m) : Rows α m :=
  fun t => if t < n then x (n - 1 - t) else x t

/-- The input node whose every pair holds the element-reversed valid rows of the pair of
`bottom`; shape and lengths are those of `bottom`. -/
def revInput {m : Nat} (bottom : Node α m) : Node α m :=
  { bottom with data := fun b s => revRows (bottom.length b s).toNat (bottom.data b s) }

/-- The `pre_h_er` quantity written by the backward step processed immediately before the one
at time index `t`, for the upstream gradients `td`: in forward-in-time order (`reverse = false`)
that step is the one at index `t + 1` (none when `t` is the last valid index), in
reverse-in-time order it is the one at index `t - 1` (none when `t = 0`). -/
def prevStepContribution (op : Ops α) (L : GruLayer α d_input d_mem) (reverse : Bool) (n : Nat)
    (top_data c : Rows α d_mem) (g : Rows α (2 * d_mem)) (bottom_data : Rows α d_input)
    (td : Rows α d_mem) (t : Nat) : Tensor2D α 1 d_mem :=
  if reverse then
    if 1 ≤ t ∧ t < n then (sgR2L op L n top_data c g bottom_data td (t - 1)).d_pre_h else 0
  else
    if t + 1 < n then (sgL2R op L top_data c g bottom_data td (t + 1)).d_pre_h else 0

/-- The row indices visited by the backward driver before it reaches index `t`, in order of
visit, over `n` rows: `n - 1, ..., t + 1` for `BackpropForLeft2RightLstm` and `0, ..., t - 1`
for `BackpropForRight2LeftLstm`. -/
def bpVisitsBefore (reverse : Bool) (n t : Nat) : List Nat :=
  if reverse then (List.range n).take t else (List.range n).reverse.take (n - 1 - t)

/-- The row indices of a view of `n` rows in the order in which the forward driver of the
direction `reverse` visits them: `0, ..., n - 1` for `ForwardLeft2Right` and `n - 1, ..., 0` for
`ForwardRight2Left`. -/
def fwdOrder (reverse : Bool) (n : Nat) : List Nat :=
  if reverse then (List.range n).reverse else List.range n

/-- The input node of a batch of `B` identical copies of one sequence: shape `B × 1 × T`, every
pair holding the rows `x` with valid length `len`, and the input-gradient buffer holding `xd` in
every pair. -/
def batchBottom (B T : Nat) (x : Rows α d_input) (len : Int) (xd : Rows α d_input) :
    Node α d_input :=
  { size0 := B, size1 := 1, size2 := T, data := fun _ _ => x, diff := fun _ _ => xd,
    length := fun _ _ => len }

/-- The output node of a batch of `B` copies with the identical output gradient `e` in every
pair. -/
def batchTop (B T : Nat) (e : Rows α d_mem) : Node α d_mem :=
  { size0 := B, size1 := 1, size2 := T, data := 0, diff := fun _ _ => e, length := fun _ _ => 0 }

/-! ### Sample inputs -/

/-- Sample activation functors over the integers, used to instantiate statements at a concrete
input. -/
def exOps : Ops ℚ :=
  { sigmoid := fun x => 1 / 2 + x / 4, tanh := fun x => x,
    sigmoid_grad := fun x => x * (1 - x), tanh_grad := fun x => 1 - x * x }

/-- Sample layer with one input feature and one hidden unit: all weights zero, zero
initial hidden state, and the four weight gradient accumulators holding `a`. -/
def exLayer (reverse : Bool) (a : ℚ) : GruLayer ℚ 1 1 :=
  { reverse := reverse
    params0 := ⟨fun _ _ => 0, fun _ _ => a⟩
    params1 := ⟨fun _ _ => 0, fun _ _ => a⟩
    params2 := ⟨fun _ _ => 0, fun _ _ => 0⟩
    params3 := ⟨fun _ _ => 0, fun _ _ => a⟩
    params4 := ⟨fun _ _ => 0, fun _ _ => a⟩
    params5 := ⟨fun _ _ => 0, fun _ _ => 0⟩
    c := 0, g := 0, c_er := 0, g_er := 0, begin_h := 0, begin_h_er := 0 }

/-- Sample input node of shape `B × 1 × 2 × 1` whose pairs all have valid length `len` and
whose entry at time index `t` is `t + 1`. -/
def exBottom (B : Nat) (len : ℤ) : Node ℚ 1 :=
  { size0 := B, size1 := 1, size2 := 2, data := fun _ _ t _ => (t : ℚ) + 1, diff := 0,
    length := fun _ _ => len }

/-- Sample input node of shape `B × 1 × 2 × 1` whose pair `(b, 0)` has valid length `lens b`
and whose entry at time index `t` is `t + 1`. -/
def exBottomOf (B : Nat) (lens : Nat → ℤ) : Node ℚ 1 :=
  { size0 := B, size1 := 1, size2 := 2, data := fun _ _ t _ => (t : ℚ) + 1, diff := 0,
    length := fun b _ => lens b }

/-- Sample output node of shape `B × 1 × 2 × 1` with output gradient one everywhere. -/
def exTop (B : Nat) : Node ℚ 1 :=
  { size0 := B, size1 := 1, size2 := 2, data := 0, diff := fun _ _ _ _ => 1,
    length := fun _ _ => 0 }

/-- Sample pair buffers for a backward driver: output gradient one on every row, zero gradient
caches and zero input gradient, with the sample layer. -/
def exBpSeq (reverse : Bool) : BpSeq ℚ 1 1 :=
  { layer := exLayer reverse 0, top_diff := fun _ _ => 1, c_er := 0, g_er := 0, bottom_diff := 0 }

/-! ### Vocabulary of the gradient statement -/

/-- The four weight matrices of a layer, or four tensors of their shapes. -/
abbrev Weights (α : Type) (d_input d_mem : Nat) :=
  Tensor2D α d_input (2 * d_mem) × Tensor2D α d_mem (2 * d_mem) ×
    Tensor2D α d_input d_mem × Tensor2D α d_mem d_mem

/-- Inner product of two one-row tensors. -/
def ip {n : Nat} (a b : Tensor2D α 1 n) : α := ∑ j, a 0 j * b 0 j

/-- Inner product of two matrices. -/
def ipM {m n : Nat} (A B : Tensor2D α m n) : α := ∑ i, ∑ j, A i j * B i j

/-- Inner product of two quadruples of weight-shaped tensors. -/
def ipW (G W : Weights α d_input d_mem) : α :=
  ipM G.1 W.1 + ipM G.2.1 W.2.1 + ipM G.2.2.1 W.2.2.1 + ipM G.2.2.2 W.2.2.2

/-- The linearisation of the reference transition `refStep` at the weights `W`, previous hidden
state `h` and input row `x`, in the direction `W'`, `h'`, `x'`. -/
def stepTangent (op : Ops α) (W W' : Weights α d_input d_mem)
    (h h' : Tensor2D α 1 d_mem) (x x' : Tensor2D α 1 d_input) : Tensor2D α 1 d_mem :=
  let g := refGate op W.1 W.2.1 h x
  let r := refReset g
  let z := refUpdate g
  let c := refCand op W.2.2.1 W.2.2.2 r h x
  let A := dot x' W.1 + dot x W'.1 + dot h' W.2.1 + dot h W'.2.1
  let g' := F op.sigmoid_grad g * A
  let r' := refReset g'
  let z' := refUpdate g'
  let C := dot x' W.2.2.1 + dot x W'.2.2.1 + dot (r' * h + r * h') W.2.2.2 + dot (r * h) W'.2.2.2
  let c' := F op.tanh_grad c * C
  z' * h + z * h' - z' * c + (1 - z) * c'

/-- The reference transition for a quadruple of weight matrices. -/
def wStep (op : Ops α) (W : Weights α d_input d_mem)
    (h_prev : Tensor2D α 1 d_mem) (x : Tensor2D α 1 d_input) :
    Tensor2D α 1 (2 * d_mem) × Tensor2D α 1 d_mem × Tensor2D α 1 d_mem :=
  refStep op W.1 W.2.1 W.2.2.1 W.2.2.2 h_prev x

/-- The hidden states of one pair in the order in which the forward driver computes them:
`X p` is the input row of the `p`-th visited index. -/
def hidSeq (op : Ops α) (W : Weights α d_input d_mem) (begin_h : Tensor2D α 1 d_mem)
    (X : Nat → Tensor2D α 1 d_input) : Nat → Tensor2D α 1 d_mem
  | 0 => (wStep op W begin_h (X 0)).2.2
  | p + 1 => (wStep op W (hidSeq op W begin_h X p) (X (p + 1))).2.2

/-- The previous hidden state of the `p`-th visited index. -/
def prevHid (op : Ops α) (W : Weights α d_input d_mem) (begin_h : Tensor2D α 1 d_mem)
    (X : Nat → Tensor2D α 1 d_input) (p : Nat) : Tensor2D α 1 d_mem :=
  if p = 0 then begin_h else hidSeq op W begin_h X (p - 1)

/-- The linearisation of `hidSeq` in the direction `W'` of the weights and `X'` of the input
rows (the initial hidden state is held fixed). -/
def tanSeq (op : Ops α) (W W' : Weights α d_input d_mem) (begin_h : Tensor2D α 1 d_mem)
    (X X' : Nat → Tensor2D α 1 d_input) : Nat → Tensor2D α 1 d_mem
  | 0 => stepTangent op W W' begin_h 0 (X 0) (X' 0)
  | p + 1 => stepTangent op W W' (hidSeq op W begin_h X p) (tanSeq op W W' begin_h X X' p)
      (X (p + 1)) (X' (p + 1))

/-- The reference backward step at the `p`-th visited index for the upstream gradient `δ`. -/
def wBpStep (op : Ops α) (W : Weights α d_input d_mem) (begin_h : Tensor2D α 1 d_mem)
    (X : Nat → Tensor2D α 1 d_input) (δ : Tensor2D α 1 d_mem) (p : Nat) :
    StepGrad α d_input d_mem :=
  refBpStep op W.1 W.2.1 W.2.2.1 W.2.2.2 δ (prevHid op W begin_h X p) (X p)
    (wStep op W (prevHid op W begin_h X p) (X p)).1
    (wStep op W (prevHid op W begin_h X p) (X p)).2.1

/-- The time index of the `p`-th step of the forward driver over `n` rows: `p` in
forward-in-time order, `n - 1 - p` in reverse-in-time order. -/
def rowOf (reverse : Bool) (n p : Nat) : Nat :=
  if reverse then n - 1 - p else p

/-- The four weight matrices of a layer. -/
def weightsOf (L : GruLayer α d_input d_mem) : Weights α d_input d_mem :=
  (L.params0.data, L.params1.data, L.params3.data, L.params4.data)

/-- The layer `L` with its four weight matrices replaced by `W`. -/
def withWeights (L : GruLayer α d_input d_mem) (W : Weights α d_input d_mem) :
    GruLayer α d_input d_mem :=
  { L with params0 := { L.params0 with data := W.1 },
           params1 := { L.params1 with data := W.2.1 },
           params3 := { L.params3 with data := W.2.2.1 },
           params4 := { L.params4 with data := W.2.2.2 } }

/-- The input rows of a pair in the order in which the forward driver visits them. -/
def visitRows {m : Nat} (reverse : Bool) (n : Nat) (x : Rows α m) : Nat → Tensor2D α 1 m :=
  fun p => Slice x (rowOf reverse n p)

/-- The scalar loss "sum of outputs": the sum of the entries of the output hidden states that
`Forward` leaves on the valid rows of the pairs inside the shape (zero if `Forward` fails). -/
def lossSum (op : Ops α) (L : GruLayer α d_input d_mem) (bottom : Node α d_input)
    (top : Node α d_mem) : α :=
  match Forward op L bottom top with
  | .ok f => ∑ b in Finset.range bottom.size0, ∑ s in Finset.range bottom.size1,
      ∑ t in Finset.range (bottom.length b s).toNat, ∑ j, f.2.data b s t j
  | .error _ => 0

/-- The matrix `A` with the entry `(i, j)` replaced by `u`. -/
def setEntry {m n : Nat} (A : Tensor2D α m n) (i : Fin m) (j : Fin n) (u : α) : Tensor2D α m n :=
  fun a b => if a = i ∧ b = j then u else A a b

/-- The tensor `x` with the entry `(b, s, t, i)` replaced by `u`. -/
def setInput {n : Nat} (x : Tensor4D α n) (b s t : Nat) (i : Fin n) (u : α) : Tensor4D α n :=
  fun b2 s2 t2 i2 => if b2 = b ∧ s2 = s ∧ t2 = t ∧ i2 = i then u else x b2 s2 t2 i2

/-- Activation functors with the given `sigmoid` and `tanh` and the gradient functors
`y * (1 - y)` and `1 - y * y`, which take the value of the activation. -/
def exOpsOf (sigmoid tanh : α → α) : Ops α :=
  { sigmoid := sigmoid, tanh := tanh,
    sigmoid_grad := fun y => y * (1 - y), tanh_grad := fun y => 1 - y * y }

/-- A sample layer over the reals with `d_input = d_mem = 1`: every weight is `1`, every
gradient accumulator is zero. -/
def exLayerR (reverse : Bool) : GruLayer ℝ 1 1 :=
  { reverse := reverse,
    params0 := ⟨fun _ _ => 1, 0⟩, params1 := ⟨fun _ _ => 1, 0⟩, params2 := ⟨0, 0⟩,
    params3 := ⟨fun _ _ => 1, 0⟩, params4 := ⟨fun _ _ => 1, 0⟩, params5 := ⟨0, 0⟩,
    c := 0, g := 0, c_er := 0, g_er := 0, begin_h := 0, begin_h_er := 0 }

/-- A sample input over the reals: one pair with time capacity `3` and valid length `2`, input
row `t` holding `t + 1`, zero input gradient. -/
def exBottomR : Node ℝ 1 :=
  { size0 := 1, size1 := 1, size2 := 3, data := fun _ _ t _ => (t : ℝ) + 1, diff := 0,
    length := fun _ _ => 2 }

/-- A sample output node over the reals whose output gradient is all ones. -/
def exTopR : Node ℝ 1 :=
  { size0 := 1, size1 := 1, size2 := 3, data := 0, diff := fun _ _ _ _ => 1,
    length := fun _ _ => 0 }

/-! ### Shapes: `Node::Resize`, `SetupLayer` and `Reshape`

In the definitions above the shapes of the tensors are part of their types. The definitions
of this part carry the shapes as data, as the containers of the source do. -/

/-- The extents of a two-axis tensor, `mshadow::Shape<2>`. -/
abbrev Shape2 := Nat × Nat

/-- The extents of a four-axis tensor, `mshadow::Shape<4>`. -/
abbrev Shape4 := Nat × Nat × Nat × Nat

/-- A `mshadow::TensorContainer`: its shape `shape_` and the values it holds, by index. -/
structure TensorContainer (α : Type) (S : Type) where
  shape_ : S
  dptr_ : S → α

/-- Modelled from the spec: `TensorContainer::Resize(shape, initv)` of mshadow, whose source
is not among the files of the repository. The container takes the requested shape and every
entry holds `initv` (the buffers are "(re)sized ... and zeroed", section 3). -/
def TensorContainer.Resize {S : Type} (_t : TensorContainer α S) (shape : S) (initv : α) :
    TensorContainer α S :=
  { shape_ := shape, dptr_ := fun _ => initv }

/-- Modelled from the spec: `TensorContainer::Resize(shape)` of mshadow without an initial
value. The container takes the requested shape; the spec does not say which values it holds
afterwards, they are the parameter `uninit`. -/
def TensorContainer.ResizeShape {S : Type} (_t : TensorContainer α S) (shape : S)
    (uninit : S → α) : TensorContainer α S :=
  { shape_ := shape, dptr_ := uninit }

/-- The members of `struct Node` that `Resize` and `Init` read or write: the containers `data`
and `diff`, and the flag `need_diff`. -/
structure ShapedNode (α : Type) where
  data : TensorContainer α Shape4
  diff : TensorContainer α Shape4
  need_diff : Bool

/-- The constructor `Node(bool need_diff_ = true)`: both shapes are `Shape4(0,0,0,0)`. -/
def ShapedNode.new (need_diff : Bool) : ShapedNode α :=
  { data := { shape_ := (0, 0, 0, 0), dptr_ := fun _ => 0 },
    diff := { shape_ := (0, 0, 0, 0), dptr_ := fun _ => 0 },
    need_diff := need_diff }

/-- `Node::Resize(mshadow::Shape<4> new_size, bool init)`. The test `4 == kDimension` of the
source compares two compile-time constants and holds. -/
def ShapedNode.ResizeShape (uninit : Shape4 → α) (nd : ShapedNode α) (new_size : Shape4)
    (init : Bool) : ShapedNode α :=
  if new_size = nd.data.shape_ ∧ init = false then
    nd
  else if init then
    let nd1 := { nd with data := nd.data.Resize new_size 0 }
    if nd1.need_diff then { nd1 with diff := nd1.diff.Resize new_size 0 } else nd1
  else
    let nd1 := { nd with data := nd.data.ResizeShape new_size uninit }
    if nd1.need_diff then { nd1 with diff := nd1.diff.ResizeShape new_size uninit } else nd1

/-- `Node::Resize(int d1, int d2, int d3, int d4, bool init)`, which builds
`new_size = mshadow::Shape4(d1, d2, d3, d4)` and has the body of the other overload. -/
def ShapedNode.Resize (uninit : Shape4 → α) (nd : ShapedNode α) (d1 d2 d3 d4 : Nat)
    (init : Bool) : ShapedNode α :=
  let new_size : Shape4 := (d1, d2, d3, d4)
  if new_size = nd.data.shape_ ∧ init = false then
    nd
  else if init then
    let nd1 := { nd with data := nd.data.Resize new_size 0 }
    if nd1.need_diff then { nd1 with diff := nd1.diff.Resize new_size 0 } else nd1
  else
    let nd1 := { nd with data := nd.data.ResizeShape new_size uninit }
    if nd1.need_diff then { nd1 with diff := nd1.diff.ResizeShape new_size uninit } else nd1

/-- `Node::Init(bool init_diff = false)`: the initializer writes through a view of `data`
(and of `diff` when `init_diff`), so it sets values and cannot change a shape. The
initializer is not among the files of the repository; the values it writes are the parameter
`filler`. -/
def ShapedNode.Init (filler : TensorContainer α Shape4 → Shape4 → α) (nd : ShapedNode α)
    (init_diff : Bool) : ShapedNode α :=
  let nd1 := { nd with data := { nd.data with dptr_ := filler nd.data } }
  if init_diff then { nd1 with diff := { nd1.diff with dptr_ := filler nd1.diff } }
  else nd1

/-- `std::vector::resize(n)`: the first `n` elements are kept and missing ones are
default-constructed (`d`). -/
def vectorResize {β : Type} (v : List β) (n : Nat) (d : β) : List β :=
  (v ++ List.replicate n d).take n

/-- The members of `GruLayer` that `SetupLayer` and `Reshape` write, with their shapes. -/
structure GruLayerState (α : Type) where
  d_mem : Nat
  d_input : Nat
  reverse : Bool
  begin_h : TensorContainer α Shape2
  begin_h_er : TensorContainer α Shape2
  params : List (ShapedNode α)
  c : TensorContainer α Shape4
  g : TensorContainer α Shape4
  c_er : TensorContainer α Shape4
  g_er : TensorContainer α Shape4

/-- The entries of `setting` that `SetupLayer` reads itself: `d_mem` (absent or an integer)
and `reverse`. -/
structure Setting where
  d_mem : Option Nat
  reverse : Bool

/-- The three checks at the top of `SetupLayer` and the two of `Reshape`. -/
inductive ShellError where
  | bottomSize
  | topSize
  | setting
  deriving DecidableEq, Repr

/-- `SetupLayer`. The call of the base class, the construction of the initializers and of
the updaters are outside the two source files and write none of the members modelled here.
`params[i]` is the `i`-th element of the vector after `params.resize(6)`. -/
def SetupLayer (uninit : Shape4 → α)
    (filler : Nat → TensorContainer α Shape4 → Shape4 → α) (setting : Setting)
    (bottom top : List (ShapedNode α)) (L : GruLayerState α) :
    Except ShellError (GruLayerState α) :=
  match bottom with
  | [bottom0] =>
    match top with
    | [_] =>
      match setting.d_mem with
      | some d =>
        let d_mem := d
        let d_input := bottom0.data.shape_.2.2.2
        let reverse := setting.reverse
        let begin_h := L.begin_h.Resize (1, d_mem) 0
        let begin_h_er := L.begin_h_er.Resize (1, d_mem) 0
        let params := vectorResize L.params 6 (ShapedNode.new true)
        let p0 := (params.getD 0 (ShapedNode.new true)).Resize uninit 1 1 d_input (2 * d_mem) true
        let p1 := (params.getD 1 (ShapedNode.new true)).Resize uninit 1 1 d_mem (2 * d_mem) true
        let p2 := (params.getD 2 (ShapedNode.new true)).Resize uninit 1 1 1 (2 * d_mem) true
        let p3 := (params.getD 3 (ShapedNode.new true)).Resize uninit 1 1 d_input (1 * d_mem) true
        let p4 := (params.getD 4 (ShapedNode.new true)).Resize uninit 1 1 d_mem (1 * d_mem) true
        let p5 := (params.getD 5 (ShapedNode.new true)).Resize uninit 1 1 1 (1 * d_mem) true
        let p0 := p0.Init (filler 0) false
        let p1 := p1.Init (filler 1) false
        let p2 := p2.Init (filler 2) false
        let p3 := p3.Init (filler 3) false
        let p4 := p4.Init (filler 4) false
        let p5 := p5.Init (filler 5) false
        .ok { L with d_mem := d_mem, d_input := d_input, reverse := reverse,
                     begin_h := begin_h, begin_h_er := begin_h_er,
                     params := [p0, p1, p2, p3, p4, p5] }
      | none => .error .setting
    | _ => .error .topSize
  | _ => .error .bottomSize

/-- `Reshape`: returns the layer and the output node `top[0]` after the call. -/
def Reshape (uninit : Shape4 → α) (bottom top : List (ShapedNode α)) (L : GruLayerState α) :
    Except ShellError (GruLayerState α × ShapedNode α) :=
  match bottom with
  | [bottom0] =>
    match top with
    | [top0] =>
      let shape_in := bottom0.data.shape_
      let shape_out : Shape4 := (shape_in.1, shape_in.2.1, shape_in.2.2.1, L.d_mem)
      let shape_gate : Shape4 := (shape_in.1, shape_in.2.1, shape_in.2.2.1, L.d_mem * 2)
      let top0 := top0.ResizeShape uninit shape_out true
      .ok ({ L with c := L.c.Resize shape_out 0, g := L.g.Resize shape_gate 0,
                    c_er := L.c_er.Resize shape_out 0, g_er := L.g_er.Resize shape_gate 0 },
           top0)
    | _ => .error .topSize
  | _ => .error .bottomSize

/-! ### Drivers with checked slice indices and counted iterations

mshadow does not check the bounds of `Slice`. To state that the indices the drivers use are in
bounds, the definitions of this part repeat the drivers with every `Slice(i, i + 1)` of the
source checked against the number of rows of the view it is taken from, and with a counter of
the executed loop iterations. `Slice(0, len)` of a pair buffer is checked against the time
capacity `size2` of the input (all buffers have the time capacity of the input after
`Reshape`); `fwdPair` and `bpPair`, like the source, make no such check. -/

/-- The view `t.Slice(i, i + 1)` of a view of `rows` rows; out of range unless
`0 <= i < rows`. -/
def SliceChecked {n : Nat} (rows : Nat) (t : Rows α n) (i : Int) :
    Except GruError (Tensor2D α 1 n) :=
  if 0 ≤ i ∧ i < rows then .ok (Slice t i.toNat) else .error .sliceRange

/-- Body of the loop of `ForwardLeft2Right` with checked slices, for views of `end` rows; the
second component counts the iterations. -/
def fwdBodyL2RChecked (op : Ops α) (L : GruLayer α d_input d_mem) (end_ : Nat)
    (inp : Rows α d_input) (st : FwdSeq α d_mem × Nat) (row_idx : Nat) :
    Except GruError (FwdSeq α d_mem × Nat) := do
  let pre_h ← if row_idx = 0 then pure L.begin_h
              else SliceChecked end_ st.1.out ((row_idx : Int) - 1)
  let x ← SliceChecked end_ inp row_idx
  let _ ← SliceChecked end_ st.1.g row_idx
  let _ ← SliceChecked end_ st.1.c row_idx
  let _ ← SliceChecked end_ st.1.out row_idx
  let (cur_g, cur_c, cur_h) ← ForwardOneStep op L pre_h x
  pure ({ g := setSlice st.1.g row_idx cur_g, c := setSlice st.1.c row_idx cur_c,
          out := setSlice st.1.out row_idx cur_h }, st.2 + 1)

/-- `ForwardLeft2Right` with checked slices: the buffers after the loop and the number of
iterations. -/
def ForwardLeft2RightChecked (op : Ops α) (L : GruLayer α d_input d_mem) (end_ : Nat)
    (inp : Rows α d_input) (st : FwdSeq α d_mem) : Except GruError (FwdSeq α d_mem × Nat) :=
  (List.range end_).foldlM (fwdBodyL2RChecked op L end_ inp) (st, 0)

/-- Body of the loop of `ForwardRight2Left` with checked slices. -/
def fwdBodyR2LChecked (op : Ops α) (L : GruLayer α d_input d_mem) (end_ : Nat)
    (inp : Rows α d_input) (st : FwdSeq α d_mem × Nat) (row_idx : Nat) :
    Except GruError (FwdSeq α d_mem × Nat) := do
  let pre_h ← if row_idx = end_ - 1 then pure L.begin_h
              else SliceChecked end_ st.1.out ((row_idx : Int) + 1)
  let x ← SliceChecked end_ inp row_idx
  let _ ← SliceChecked end_ st.1.g row_idx
  let _ ← SliceChecked end_ st.1.c row_idx
  let _ ← SliceChecked end_ st.1.out row_idx
  let (cur_g, cur_c, cur_h) ← ForwardOneStep op L pre_h x
  pure ({ g := setSlice st.1.g row_idx cur_g, c := setSlice st.1.c row_idx cur_c,
          out := setSlice st.1.out row_idx cur_h }, st.2 + 1)

/-- `ForwardRight2Left` with checked slices. -/
def ForwardRight2LeftChecked (op : Ops α) (L : GruLayer α d_input d_mem) (end_ : Nat)
    (inp : Rows α d_input) (st : FwdSeq α d_mem) : Except GruError (FwdSeq α d_mem × Nat) :=
  (List.range end_).reverse.foldlM (fwdBodyR2LChecked op L end_ inp) (st, 0)

/-- Body of the loop of `BackpropForLeft2RightLstm` with checked slices, for views of `end`
rows; the second component counts the iterations. -/
def bpBodyL2RChecked (op : Ops α) (end_ : Nat) (top_data c : Rows α d_mem)
    (g : Rows α (2 * d_mem)) (bottom_data : Rows α d_input)
    (st : BpSeq α d_input d_mem × Nat) (row_idx : Nat) :
    Except GruError (BpSeq α d_input d_mem × Nat) := do
  let pre_h ← if row_idx = 0 then pure st.1.layer.begin_h
              else SliceChecked end_ top_data ((row_idx : Int) - 1)
  let pre_h_er ← if row_idx = 0 then pure st.1.layer.begin_h_er
                 else SliceChecked end_ st.1.top_diff ((row_idx : Int) - 1)
  let cur_h_er ← SliceChecked end_ st.1.top_diff row_idx
  let x ← SliceChecked end_ bottom_data row_idx
  let cur_g ← SliceChecked end_ g row_idx
  let cur_c ← SliceChecked end_ c row_idx
  let cur_h ← SliceChecked end_ top_data row_idx
  let cur_c_er ← SliceChecked end_ st.1.c_er row_idx
  let cur_g_er ← SliceChecked end_ st.1.g_er row_idx
  let x_er ← SliceChecked end_ st.1.bottom_diff row_idx
  let o ← BpOneStep op st.1.layer cur_h_er pre_h x cur_g cur_c cur_h cur_c_er cur_g_er
    pre_h_er x_er
  pure ({ layer := if row_idx = 0 then { o.layer with begin_h_er := o.pre_h_er } else o.layer,
          top_diff := if row_idx = 0 then st.1.top_diff
                      else setSlice st.1.top_diff (row_idx - 1) o.pre_h_er,
          c_er := setSlice st.1.c_er row_idx o.cur_c_er,
          g_er := setSlice st.1.g_er row_idx o.cur_g_er,
          bottom_diff := setSlice st.1.bottom_diff row_idx o.x_er }, st.2 + 1)

/-- `BackpropForLeft2RightLstm` with checked slices. -/
def BackpropForLeft2RightLstmChecked (op : Ops α) (end_ : Nat) (top_data c : Rows α d_mem)
    (g : Rows α (2 * d_mem)) (bottom_data : Rows α d_input) (st : BpSeq α d_input d_mem) :
    Except GruError (BpSeq α d_input d_mem × Nat) :=
  (List.range end_).reverse.foldlM (bpBodyL2RChecked op end_ top_data c g bottom_data) (st, 0)

/-- Body of the loop of `BackpropForRight2LeftLstm` with checked slices. -/
def bpBodyR2LChecked (op : Ops α) (end_ : Nat) (top_data c : Rows α d_mem)
    (g : Rows α (2 * d_mem)) (bottom_data : Rows α d_input)
    (st : BpSeq α d_input d_mem × Nat) (row_idx : Nat) :
    Except GruError (BpSeq α d_input d_mem × Nat) := do
  let pre_h ← if row_idx = end_ - 1 then pure st.1.layer.begin_h
              else SliceChecked end_ top_data ((row_idx : Int) + 1)
  let pre_h_er ← if row_idx = end_ - 1 then pure st.1.layer.begin_h_er
                 else SliceChecked end_ st.1.top_diff ((row_idx : Int) + 1)
  let cur_h_er ← SliceChecked end_ st.1.top_diff row_idx
  let x ← SliceChecked end_ bottom_data row_idx
  let cur_g ← SliceChecked end_ g row_idx
  let cur_c ← SliceChecked end_ c row_idx
  let cur_h ← SliceChecked end_ top_data row_idx
  let cur_c_er ← SliceChecked end_ st.1.c_er row_idx
  let cur_g_er ← SliceChecked end_ st.1.g_er row_idx
  let x_er ← SliceChecked end_ st.1.bottom_diff row_idx
  let o ← BpOneStep op st.1.layer cur_h_er pre_h x cur_g cur_c cur_h cur_c_er cur_g_er
    pre_h_er x_er
  pure ({ layer := if row_idx = end_ - 1 then { o.layer with begin_h_er := o.pre_h_er }
                   else o.layer,
          top_diff := if row_idx = end_ - 1 then st.1.top_diff
                      else setSlice st.1.top_diff (row_idx + 1) o.pre_h_er,
          c_er := setSlice st.1.c_er row_idx o.cur_c_er,
          g_er := setSlice st.1.g_er row_idx o.cur_g_er,
          bottom_diff := setSlice st.1.bottom_diff row_idx o.x_er }, st.2 + 1)

/-- `BackpropForRight2LeftLstm` with checked slices. -/
def BackpropForRight2LeftLstmChecked (op : Ops α) (end_ : Nat) (top_data c : Rows α d_mem)
    (g : Rows α (2 * d_mem)) (bottom_data : Rows α d_input) (st : BpSeq α d_input d_mem) :
    Except GruError (BpSeq α d_input d_mem × Nat) :=
  (List.range end_).foldlM (bpBodyR2LChecked op end_ top_data c g bottom_data) (st, 0)

/-- Records `k` as the number of loop iterations run for the pair `(batch_idx, seq_idx)`. -/
def setSteps (steps : Nat → Nat → Nat) (batch_idx seq_idx k : Nat) : Nat → Nat → Nat :=
  Function.update steps batch_idx (Function.update (steps batch_idx) seq_idx k)

/-- Body of the double loop of `Forward` with the checked drivers; the second component
records the number of iterations of the driver for each pair. -/
def fwdPairChecked (op : Ops α) (bottom : Node α d_input)
    (st : (GruLayer α d_input d_mem × Node α d_mem) × (Nat → Nat → Nat))
    (batch_idx seq_idx : Nat) :
    Except GruError ((GruLayer α d_input d_mem × Node α d_mem) × (Nat → Nat → Nat)) := do
  let L := st.1.1
  let top := st.1.2
  let len := bottom.length batch_idx seq_idx
  if len < 0 then throw GruError.seqLength
  if (bottom.size2 : Int) < len then throw GruError.sliceRange
  let bufs : FwdSeq α d_mem :=
    { g := L.g batch_idx seq_idx, c := L.c batch_idx seq_idx, out := top.data batch_idx seq_idx }
  let r ← if !L.reverse then
            ForwardLeft2RightChecked op L len.toNat (bottom.data batch_idx seq_idx) bufs
          else ForwardRight2LeftChecked op L len.toNat (bottom.data batch_idx seq_idx) bufs
  pure (({ L with g := setPair L.g batch_idx seq_idx r.1.g,
                  c := setPair L.c batch_idx seq_idx r.1.c },
         { top with data := setPair top.data batch_idx seq_idx r.1.out }),
        setSteps st.2 batch_idx seq_idx r.2)

/-- `Forward` with the checked drivers. -/
def ForwardChecked (op : Ops α) (L : GruLayer α d_input d_mem) (bottom : Node α d_input)
    (top : Node α d_mem) :
    Except GruError ((GruLayer α d_input d_mem × Node α d_mem) × (Nat → Nat → Nat)) := do
  let top := { top with length := bottom.length }
  let top := { top with data := 0 }
  let L := { L with c := 0, g := 0, c_er := 0, g_er := 0 }
  (List.range bottom.size0).foldlM (fun st batch_idx =>
    (List.range bottom.size1).foldlM
      (fun st seq_idx => fwdPairChecked op bottom st batch_idx seq_idx) st)
    ((L, top), fun _ _ => 0)

/-- Body of the double loop of `Backprop` with the checked drivers. -/
def bpPairChecked (op : Ops α) (st : BpState α d_input d_mem × (Nat → Nat → Nat))
    (batch_idx seq_idx : Nat) :
    Except GruError (BpState α d_input d_mem × (Nat → Nat → Nat)) := do
  let L := st.1.layer
  let len := st.1.bottom.length batch_idx seq_idx
  if len < 0 then throw GruError.seqLength
  if (st.1.bottom.size2 : Int) < len then throw GruError.sliceRange
  let bufs : BpSeq α d_input d_mem :=
    { layer := L, top_diff := st.1.top.diff batch_idx seq_idx,
      c_er := L.c_er batch_idx seq_idx, g_er := L.g_er batch_idx seq_idx,
      bottom_diff := st.1.bottom.diff batch_idx seq_idx }
  let r ← if !L.reverse then
            BackpropForLeft2RightLstmChecked op len.toNat (st.1.top.data batch_idx seq_idx)
              (L.c batch_idx seq_idx) (L.g batch_idx seq_idx)
              (st.1.bottom.data batch_idx seq_idx) bufs
          else
            BackpropForRight2LeftLstmChecked op len.toNat (st.1.top.data batch_idx seq_idx)
              (L.c batch_idx seq_idx) (L.g batch_idx seq_idx)
              (st.1.bottom.data batch_idx seq_idx) bufs
  pure ({ layer := { r.1.layer with c_er := setPair L.c_er batch_idx seq_idx r.1.c_er,
                                    g_er := setPair L.g_er batch_idx seq_idx r.1.g_er },
          bottom := { st.1.bottom with
                      diff := setPair st.1.bottom.diff batch_idx seq_idx r.1.bottom_diff },
          top := { st.1.top with diff := setPair st.1.top.diff batch_idx seq_idx r.1.top_diff } },
        setSteps st.2 batch_idx seq_idx r.2)

/-- `Backprop` with the checked drivers. -/
def BackpropChecked (op : Ops α) (L : GruLayer α d_input d_mem) (bottom : Node α d_input)
    (top : Node α d_mem) : Except GruError (BpState α d_input d_mem × (Nat → Nat → Nat)) := do
  let L := { L with begin_h_er := 0, g_er := 0, c_er := 0 }
  (List.range bottom.size0).foldlM (fun st batch_idx =>
    (List.range bottom.size1).foldlM (fun st seq_idx => bpPairChecked op st batch_idx seq_idx) st)
    ({ layer := L, bottom := bottom, top := top }, fun _ _ => 0)

/-! ### Drivers that record their visits

The definitions of this part are the drivers and the double loops of `Forward` and `Backprop`
with one addition: next to its state, every loop keeps the record of the visits it has made,
each visit being the row index and the previous hidden state handed to the one-step function
at that index, in the order of the visits. -/

/-- One visit of a driver loop: the row index and the previous hidden state `pre_h` handed to
`ForwardOneStep` or `BpOneStep` at that index. -/
abbrev Visit (α : Type) (d_mem : Nat) := Nat × Tensor2D α 1 d_mem

/-- Body of the loop of `ForwardLeft2Right` that appends its visit to the record. -/
def fwdBodyL2RTraced (op : Ops α) (L : GruLayer α d_input d_mem) (inp : Rows α d_input)
    (st : FwdSeq α d_mem × List (Visit α d_mem)) (row_idx : Nat) :
    Except GruError (FwdSeq α d_mem × List (Visit α d_mem)) := do
  let pre_h := if row_idx = 0 then L.begin_h else Slice st.1.out (row_idx - 1)
  let (cur_g, cur_c, cur_h) ← ForwardOneStep op L pre_h (Slice inp row_idx)
  pure ({ g := setSlice st.1.g row_idx cur_g, c := setSlice st.1.c row_idx cur_c,
          out := setSlice st.1.out row_idx cur_h }, st.2 ++ [(row_idx, pre_h)])

/-- `ForwardLeft2Right` with the record of its visits, started from the empty record. -/
def ForwardLeft2RightTraced (op : Ops α) (L : GruLayer α d_input d_mem) (end_ : Nat)
    (inp : Rows α d_input) (st : FwdSeq α d_mem) :
    Except GruError (FwdSeq α d_mem × List (Visit α d_mem)) :=
  (List.range end_).foldlM (fwdBodyL2RTraced op L inp) (st, [])

/-- Body of the loop of `ForwardRight2Left` that appends its visit to the record. -/
def fwdBodyR2LTraced (op : Ops α) (L : GruLayer α d_input d_mem) (end_ : Nat)
    (inp : Rows α d_input) (st : FwdSeq α d_mem × List (Visit α d_mem)) (row_idx : Nat) :
    Except GruError (FwdSeq α d_mem × List (Visit α d_mem)) := do
  let pre_h := if row_idx = end_ - 1 then L.begin_h else Slice st.1.out (row_idx + 1)
  let (cur_g, cur_c, cur_h) ← ForwardOneStep op L pre_h (Slice inp row_idx)
  pure ({ g := setSlice st.1.g row_idx cur_g, c := setSlice st.1.c row_idx cur_c,
          out := setSlice st.1.out row_idx cur_h }, st.2 ++ [(row_idx, pre_h)])

/-- `ForwardRight2Left` with the record of its visits, started from the empty record. -/
def ForwardRight2LeftTraced (op : Ops α) (L : GruLayer α d_input d_mem) (end_ : Nat)
    (inp : Rows α d_input) (st : FwdSeq α d_mem) :
    Except GruError (FwdSeq α d_mem × List (Visit α d_mem)) :=
  (List.range end_).reverse.foldlM (fwdBodyR2LTraced op L end_ inp) (st, [])

/-- Body of the loop of `BackpropForLeft2RightLstm` that appends its visit to the record. -/
def bpBodyL2RTraced (op : Ops α) (top_data c : Rows α d_mem) (g : Rows α (2 * d_mem))
    (bottom_data : Rows α d_input) (st : BpSeq α d_input d_mem × List (Visit α d_mem))
    (row_idx : Nat) : Except GruError (BpSeq α d_input d_mem × List (Visit α d_mem)) := do
  let pre_h := if row_idx = 0 then st.1.layer.begin_h else Slice top_data (row_idx - 1)
  let pre_h_er :=
    if row_idx = 0 then st.1.layer.begin_h_er else Slice st.1.top_diff (row_idx - 1)
  let o ← BpOneStep op st.1.layer (Slice st.1.top_diff row_idx) pre_h (Slice bottom_data row_idx)
    (Slice g row_idx) (Slice c row_idx) (Slice top_data row_idx)
    (Slice st.1.c_er row_idx) (Slice st.1.g_er row_idx) pre_h_er (Slice st.1.bottom_diff row_idx)
  pure ({ layer := if row_idx = 0 then { o.layer with begin_h_er := o.pre_h_er } else o.layer,
          top_diff := if row_idx = 0 then st.1.top_diff
                      else setSlice st.1.top_diff (row_idx - 1) o.pre_h_er,
          c_er := setSlice st.1.c_er row_idx o.cur_c_er,
          g_er := setSlice st.1.g_er row_idx o.cur_g_er,
          bottom_diff := setSlice st.1.bottom_diff row_idx o.x_er },
        st.2 ++ [(row_idx, pre_h)])

/-- `BackpropForLeft2RightLstm` with the record of its visits, started from the empty
record. -/
def BackpropForLeft2RightLstmTraced (op : Ops α) (end_ : Nat) (top_data c : Rows α d_mem)
    (g : Rows α (2 * d_mem)) (bottom_data : Rows α d_input) (st : BpSeq α d_input d_mem) :
    Except GruError (BpSeq α d_input d_mem × List (Visit α d_mem)) :=
  (List.range end_).reverse.foldlM (bpBodyL2RTraced op top_data c g bottom_data) (st, [])

/-- Body of the loop of `BackpropForRight2LeftLstm` that appends its visit to the record. -/
def bpBodyR2LTraced (op : Ops α) (end_ : Nat) (top_data c : Rows α d_mem)
    (g : Rows α (2 * d_mem)) (bottom_data : Rows α d_input)
    (st : BpSeq α d_input d_mem × List (Visit α d_mem)) (row_idx : Nat) :
    Except GruError (BpSeq α d_input d_mem × List (Visit α d_mem)) := do
  let pre_h := if row_idx = end_ - 1 then st.1.layer.begin_h else Slice top_data (row_idx + 1)
  let pre_h_er :=
    if row_idx = end_ - 1 then st.1.layer.begin_h_er else Slice st.1.top_diff (row_idx + 1)
  let o ← BpOneStep op st.1.layer (Slice st.1.top_diff row_idx) pre_h (Slice bottom_data row_idx)
    (Slice g row_idx) (Slice c row_idx) (Slice top_data row_idx)
    (Slice st.1.c_er row_idx) (Slice st.1.g_er row_idx) pre_h_er (Slice st.1.bottom_diff row_idx)
  pure ({ layer := if row_idx = end_ - 1 then { o.layer with begin_h_er := o.pre_h_er }
                   else o.layer,
          top_diff := if row_idx = end_ - 1 then st.1.top_diff
                      else setSlice st.1.top_diff (row_idx + 1) o.pre_h_er,
          c_er := setSlice st.1.c_er row_idx o.cur_c_er,
          g_er := setSlice st.1.g_er row_idx o.cur_g_er,
          bottom_diff := setSlice st.1.bottom_diff row_idx o.x_er },
        st.2 ++ [(row_idx, pre_h)])

/-- `BackpropForRight2LeftLstm` with the record of its visits, started from the empty
record. -/
def BackpropForRight2LeftLstmTraced (op : Ops α) (end_ : Nat) (top_data c : Rows α d_mem)
    (g : Rows α (2 * d_mem)) (bottom_data : Rows α d_input) (st : BpSeq α d_input d_mem) :
    Except GruError (BpSeq α d_input d_mem × List (Visit α d_mem)) :=
  (List.range end_).foldlM (bpBodyR2LTraced op end_ top_data c g bottom_data) (st, [])

/-- Files `v` as the record of the visits of the driver run for the pair
`(batch_idx, seq_idx)`. -/
def setVisits (visits : Nat → Nat → List (Visit α d_mem)) (batch_idx seq_idx : Nat)
    (v : List (Visit α d_mem)) : Nat → Nat → List (Visit α d_mem) :=
  Function.update visits batch_idx (Function.update (visits batch_idx) seq_idx v)

/-- Body of the double loop of `Forward` with the recording drivers; the second component
holds, for each pair, the record of the driver run for it. -/
def fwdPairTraced (op : Ops α) (bottom : Node α d_input)
    (st : (GruLayer α d_input d_mem × Node α d_mem) × (Nat → Nat → List (Visit α d_mem)))
    (batch_idx seq_idx : Nat) :
    Except GruError
      ((GruLayer α d_input d_mem × Node α d_mem) × (Nat → Nat → List (Visit α d_mem))) := do
  let L := st.1.1
  let top := st.1.2
  let len := bottom.length batch_idx seq_idx
  if len < 0 then throw GruError.seqLength
  let bufs : FwdSeq α d_mem :=
    { g := L.g batch_idx seq_idx, c := L.c batch_idx seq_idx, out := top.data batch_idx seq_idx }
  let r ← if !L.reverse then
            ForwardLeft2RightTraced op L len.toNat (bottom.data batch_idx seq_idx) bufs
          else ForwardRight2LeftTraced op L len.toNat (bottom.data batch_idx seq_idx) bufs
  pure (({ L with g := setPair L.g batch_idx seq_idx r.1.g,
                  c := setPair L.c batch_idx seq_idx r.1.c },
         { top with data := setPair top.data batch_idx seq_idx r.1.out }),
        setVisits st.2 batch_idx seq_idx r.2)

/-- `Forward` with the recording drivers; no pair has a visit on record at the start. -/
def ForwardTraced (op : Ops α) (L : GruLayer α d_input d_mem) (bottom : Node α d_input)
    (top : Node α d_mem) :
    Except GruError
      ((GruLayer α d_input d_mem × Node α d_mem) × (Nat → Nat → List (Visit α d_mem))) := do
  let top := { top with length := bottom.length }
  let top := { top with data := 0 }
  let L := { L with c := 0, g := 0, c_er := 0, g_er := 0 }
  (List.range bottom.size0).foldlM (fun st batch_idx =>
    (List.range bottom.size1).foldlM
      (fun st seq_idx => fwdPairTraced op bottom st batch_idx seq_idx) st)
    ((L, top), fun _ _ => [])

/-- Body of the double loop of `Backprop` with the recording drivers. -/
def bpPairTraced (op : Ops α)
    (st : BpState α d_input d_mem × (Nat → Nat → List (Visit α d_mem)))
    (batch_idx seq_idx : Nat) :
    Except GruError (BpState α d_input d_mem × (Nat → Nat → List (Visit α d_mem))) := do
  let L := st.1.layer
  let len := st.1.bottom.length batch_idx seq_idx
  if len < 0 then throw GruError.seqLength
  let bufs : BpSeq α d_input d_mem :=
    { layer := L, top_diff := st.1.top.diff batch_idx seq_idx,
      c_er := L.c_er batch_idx seq_idx, g_er := L.g_er batch_idx seq_idx,
      bottom_diff := st.1.bottom.diff batch_idx seq_idx }
  let r ← if !L.reverse then
            BackpropForLeft2RightLstmTraced op len.toNat (st.1.top.data batch_idx seq_idx)
              (L.c batch_idx seq_idx) (L.g batch_idx seq_idx)
              (st.1.bottom.data batch_idx seq_idx) bufs
          else
            BackpropForRight2LeftLstmTraced op len.toNat (st.1.top.data batch_idx seq_idx)
              (L.c batch_idx seq_idx) (L.g batch_idx seq_idx)
              (st.1.bottom.data batch_idx seq_idx) bufs
  pure ({ layer := { r.1.layer with c_er := setPair L.c_er batch_idx seq_idx r.1.c_er,
                                    g_er := setPair L.g_er batch_idx seq_idx r.1.g_er },
          bottom := { st.1.bottom with
                      diff := setPair st.1.bottom.diff batch_idx seq_idx r.1.bottom_diff },
          top := { st.1.top with diff := setPair st.1.top.diff batch_idx seq_idx r.1.top_diff } },
        setVisits st.2 batch_idx seq_idx r.2)

/-- `Backprop` with the recording drivers; no pair has a visit on record at the start. -/
def BackpropTraced (op : Ops α) (L : GruLayer α d_input d_mem) (bottom : Node α d_input)
    (top : Node α d_mem) :
    Except GruError (BpState α d_input d_mem × (Nat → Nat → List (Visit α d_mem))) := do
  let L := { L with begin_h_er := 0, g_er := 0, c_er := 0 }
  (List.range bottom.size0).foldlM (fun st batch_idx =>
    (List.range bottom.size1).foldlM (fun st seq_idx => bpPairTraced op st batch_idx seq_idx) st)
    ({ layer := L, bottom := bottom, top := top }, fun _ _ => [])

/-- The previous hidden state of the time index `t` of a pair with `n` valid rows, for the
direction `reverse`, read from the hidden states `out`: the initial state at the first
forward-visited index, else the hidden state at `t - 1` (`reverse = false`) or at `t + 1`
(`reverse = true`). -/
def preOf (reverse : Bool) (begin_h : Tensor2D α 1 d_mem) (n : Nat) (out : Rows α d_mem)
    (t : Nat) : Tensor2D α 1 d_mem :=
  if reverse then (if t = n - 1 then begin_h else Slice out (t + 1))
  else (if t = 0 then begin_h else Slice out (t - 1))

end Model

section Proofs

variable {α : Type} [CommRing α] {d_input d_mem : Nat}

/-! ### Loops -/

theorem foldlM_inv {σ ι ε : Type} (f : σ → ι → Except ε σ) (l : List ι) :
    ∀ (I : Nat → σ → Prop) (s0 : σ), I 0 s0 →
      (∀ k (hk : k < l.length) s, I k s → ∃ s', f s l[k] = .ok s' ∧ I (k + 1) s') →
      ∃ r, l.foldlM f s0 = .ok r ∧ I l.length r := by
  induction l with
  | nil => intro I s0 h0 _; exact ⟨s0, rfl, h0⟩
  | cons a l ih =>
    intro I s0 h0 hstep
    obtain ⟨s1, h1, hI1⟩ := hstep 0 (by simp) s0 h0
    obtain ⟨r, hr, hIr⟩ := ih (fun k s => I (k + 1) s) s1 hI1 (by
      intro k hk s hs
      have := hstep (k + 1) (by simpa using hk) s hs
      simpa using this)
    refine ⟨r, ?_, by simpa using hIr⟩
    simp only [List.getElem_cons_zero] at h1
    simp [List.foldlM, h1, hr, bind, Except.bind]

theorem foldlM_range_take_inv {σ ε : Type} (f : σ → Nat → Except ε σ) (n k : Nat) (hk : k ≤ n)
    (I : Nat → σ → Prop) (s0 : σ) (h0 : I 0 s0)
    (hstep : ∀ j, j < k → ∀ s, I j s → ∃ s', f s j = .ok s' ∧ I (j + 1) s') :
    ∃ r, ((List.range n).take k).foldlM f s0 = .ok r ∧ I k r := by
  have hlen : ((List.range n).take k).length = k := by simp [hk]
  have := foldlM_inv f ((List.range n).take k) I s0 h0 (by
    intro j hj s hs
    have hj2 : j < k := by rw [hlen] at hj; exact hj
    have e : ((List.range n).take k)[j] = j := by simp [List.getElem_take]
    rw [e]
    exact hstep j hj2 s hs)
  rwa [hlen] at this

theorem foldlM_range_reverse_take_inv {σ ε : Type} (f : σ → Nat → Except ε σ) (n k : Nat)
    (hk : k ≤ n) (I : Nat → σ → Prop) (s0 : σ) (h0 : I 0 s0)
    (hstep : ∀ j, j < k → ∀ s, I j s → ∃ s', f s (n - 1 - j) = .ok s' ∧ I (j + 1) s') :
    ∃ r, ((List.range n).reverse.take k).foldlM f s0 = .ok r ∧ I k r := by
  have hlen : ((List.range n).reverse.take k).length = k := by simp [hk]
  have := foldlM_inv f ((List.range n).reverse.take k) I s0 h0 (by
    intro j hj s hs
    have hj2 : j < k := by rw [hlen] at hj; exact hj
    have e : ((List.range n).reverse.take k)[j] = n - 1 - j := by simp [List.getElem_take]
    rw [e]
    exact hstep j hj2 s hs)
  rwa [hlen] at this

theorem range_take_self (n : Nat) : (List.range n).take n = List.range n := by
  simp

theorem range_reverse_take_self (n : Nat) :
    (List.range n).reverse.take n = (List.range n).reverse := by
  simp

theorem ForwardOneStep_eq (op : Ops α) (L : GruLayer α d_input d_mem)
    (pre_h : Tensor2D α 1 d_mem) (x : Tensor2D α 1 d_input) :
    ForwardOneStep op L pre_h x
      = .ok (refStep op L.params0.data L.params1.data L.params3.data L.params4.data pre_h x) := by
  simp only [ForwardOneStep, SplitGate, refStep, bind, Except.bind, pure, Except.pure]
  simp
  refine ⟨?_, ?_, ?_⟩ <;> funext i j <;> obtain rfl : i = 0 := Subsingleton.elim _ _ <;>
    simp [F, dot, refGate, refCand, refReset, refUpdate, refHidden]

omit [CommRing α] in
theorem Slice_setSlice_same {n : Nat} (t : Rows α n) (r : Nat) (v : Tensor2D α 1 n) :
    Slice (setSlice t r v) r = v := by
  funext i j
  obtain rfl : i = 0 := Subsingleton.elim _ _
  simp [Slice, setSlice]

omit [CommRing α] in
theorem Slice_setSlice_ne {n : Nat} (t : Rows α n) (r r' : Nat) (v : Tensor2D α 1 n)
    (h : r' ≠ r) : Slice (setSlice t r v) r' = Slice t r' := by
  funext i j
  simp [Slice, setSlice, Function.update_noteq h]

omit [CommRing α] in
theorem setSlice_ne {n : Nat} (t : Rows α n) (r r' : Nat) (v : Tensor2D α 1 n)
    (h : r' ≠ r) : setSlice t r v r' = t r' := by
  simp [setSlice, Function.update_noteq h]

omit [CommRing α] in
theorem Slice_congr {n : Nat} (t t' : Rows α n) (r : Nat) (h : t r = t' r) :
    Slice t r = Slice t' r := by
  funext i j
  simp [Slice, h]

omit [CommRing α] in
theorem Slice_eq_of_row {n : Nat} (t t2 : Rows α n) (r r2 : Nat) (h : t r = t2 r2) :
    Slice t r = Slice t2 r2 := by
  funext i j
  simp [Slice, h]

omit [CommRing α] in
theorem row_eq_of_Slice {n : Nat} (t t2 : Rows α n) (r r2 : Nat) (h : Slice t r = Slice t2 r2) :
    t r = t2 r2 := by
  funext j
  exact congrFun (congrFun h 0) j

theorem fwdBodyL2R_eq (op : Ops α) (L : GruLayer α d_input d_mem) (inp : Rows α d_input)
    (st : FwdSeq α d_mem) (row_idx : Nat) :
    fwdBodyL2R op L inp st row_idx
      = .ok { g := setSlice st.g row_idx
                (layerStep op L (preL2R L.begin_h st.out row_idx) (Slice inp row_idx)).1
              c := setSlice st.c row_idx
                (layerStep op L (preL2R L.begin_h st.out row_idx) (Slice inp row_idx)).2.1
              out := setSlice st.out row_idx
                (layerStep op L (preL2R L.begin_h st.out row_idx) (Slice inp row_idx)).2.2 } := by
  simp only [fwdBodyL2R, ForwardOneStep_eq, bind, Except.bind, pure, Except.pure]
  rfl

theorem fwdBodyR2L_eq (op : Ops α) (L : GruLayer α d_input d_mem) (n : Nat)
    (inp : Rows α d_input) (st : FwdSeq α d_mem) (row_idx : Nat) :
    fwdBodyR2L op L n inp st row_idx
      = .ok { g := setSlice st.g row_idx
                (layerStep op L (preR2L L.begin_h n st.out row_idx) (Slice inp row_idx)).1
              c := setSlice st.c row_idx
                (layerStep op L (preR2L L.begin_h n st.out row_idx) (Slice inp row_idx)).2.1
              out := setSlice st.out row_idx
                (layerStep op L (preR2L L.begin_h n st.out row_idx) (Slice inp row_idx)).2.2 } := by
  simp only [fwdBodyR2L, ForwardOneStep_eq, bind, Except.bind, pure, Except.pure]
  rfl

theorem fwdL2R_partial (op : Ops α) (L : GruLayer α d_input d_mem) (n k : Nat) (hk : k ≤ n)
    (inp : Rows α d_input) (st0 : FwdSeq α d_mem) :
    ∃ r, ((List.range n).take k).foldlM (fwdBodyL2R op L inp) st0 = .ok r ∧
      FwdInvL2R op L inp st0 k r := by
  apply foldlM_range_take_inv _ n k hk (FwdInvL2R op L inp st0)
  · intro t
    exact ⟨fun h => absurd h (Nat.not_lt_zero _), fun _ => ⟨rfl, rfl, rfl⟩⟩
  · intro j _ s hs
    refine ⟨_, fwdBodyL2R_eq op L inp s j, ?_⟩
    intro t
    constructor
    · intro ht
      have hpre : ∀ t, t ≤ j → preL2R L.begin_h
          (setSlice s.out j (layerStep op L (preL2R L.begin_h s.out j) (Slice inp j)).2.2) t
          = preL2R L.begin_h s.out t := by
        intro t ht
        unfold preL2R
        split
        · rfl
        · exact Slice_setSlice_ne _ _ _ _ (by omega)
      rcases Nat.lt_succ_iff_lt_or_eq.mp ht with h | h
      · have := (hs t).1 h
        simp only [rowTriple] at this ⊢
        rw [hpre t (by omega), Slice_setSlice_ne _ _ _ _ (by omega),
          Slice_setSlice_ne _ _ _ _ (by omega), Slice_setSlice_ne _ _ _ _ (by omega)]
        exact this
      · subst h
        simp only [rowTriple]
        rw [hpre t (le_refl _), Slice_setSlice_same, Slice_setSlice_same, Slice_setSlice_same]
    · intro ht
      have := (hs t).2 (by omega)
      simp only [setSlice_ne _ _ _ _ (show t ≠ j by omega)]
      exact this

theorem fwdR2L_partial (op : Ops α) (L : GruLayer α d_input d_mem) (n k : Nat) (hk : k ≤ n)
    (inp : Rows α d_input) (st0 : FwdSeq α d_mem) :
    ∃ r, ((List.range n).reverse.take k).foldlM (fwdBodyR2L op L n inp) st0 = .ok r ∧
      FwdInvR2L op L n inp st0 k r := by
  apply foldlM_range_reverse_take_inv _ n k hk (FwdInvR2L op L n inp st0)
  · intro t
    exact ⟨fun h h2 => by omega, fun _ => ⟨rfl, rfl, rfl⟩⟩
  · intro j hj s hs
    refine ⟨_, fwdBodyR2L_eq op L n inp s (n - 1 - j), ?_⟩
    intro t
    constructor
    · intro ht1 ht2
      have hpre : ∀ t, n - 1 - j ≤ t → preR2L L.begin_h n
          (setSlice s.out (n - 1 - j)
            (layerStep op L (preR2L L.begin_h n s.out (n - 1 - j)) (Slice inp (n - 1 - j))).2.2) t
          = preR2L L.begin_h n s.out t := by
        intro t ht
        unfold preR2L
        split
        · rfl
        · exact Slice_setSlice_ne _ _ _ _ (by omega)
      by_cases h : t = n - 1 - j
      · subst h
        simp only [rowTriple]
        rw [hpre _ (le_refl _), Slice_setSlice_same, Slice_setSlice_same, Slice_setSlice_same]
      · have := (hs t).1 (by omega) ht2
        simp only [rowTriple] at this ⊢
        rw [hpre t (by omega), Slice_setSlice_ne _ _ _ _ h,
          Slice_setSlice_ne _ _ _ _ h, Slice_setSlice_ne _ _ _ _ h]
        exact this
    · intro ht
      have := (hs t).2 (by omega)
      simp only [setSlice_ne _ _ _ _ (show t ≠ n - 1 - j by omega)]
      exact this

theorem foldlM_nested_inv {σ ε : Type} (f : σ → Nat → Nat → Except ε σ) (B S : Nat)
    (I : Nat → Nat → σ → Prop) (s0 : σ) (h0 : I 0 0 s0)
    (hrow : ∀ b st, I b S st → I (b + 1) 0 st)
    (hstep : ∀ b, b < B → ∀ s, s < S → ∀ st, I b s st → ∃ st', f st b s = .ok st' ∧ I b (s + 1) st') :
    ∃ r, (List.range B).foldlM (fun st b => (List.range S).foldlM (fun st s => f st b s) st) s0
      = .ok r ∧ I B 0 r := by
  have := foldlM_range_take_inv
    (fun st b => (List.range S).foldlM (fun st s => f st b s) st) B B (le_refl _)
    (fun b st => I b 0 st) s0 h0 (by
      intro b hb st hst
      have := foldlM_range_take_inv (fun st s => f st b s) S S (le_refl _)
        (fun s st => I b s st) st hst (fun s hs st hst => hstep b hb s hs st hst)
      rw [range_take_self] at this
      obtain ⟨r, hr, hI⟩ := this
      exact ⟨r, hr, hrow b r hI⟩)
  rwa [range_take_self] at this

theorem fwdPair_ok (op : Ops α) (bottom : Node α d_input)
    (st : GruLayer α d_input d_mem × Node α d_mem) (b s : Nat)
    (h0 : 0 ≤ bottom.length b s) :
    ∃ r : FwdSeq α d_mem,
      (if st.1.reverse then
          FwdInvR2L op st.1 (bottom.length b s).toNat (bottom.data b s) (pairBufs st.1 st.2 b s)
            (bottom.length b s).toNat r
        else
          FwdInvL2R op st.1 (bottom.data b s) (pairBufs st.1 st.2 b s)
            (bottom.length b s).toNat r) ∧
      fwdPair op bottom st b s
        = .ok ({ st.1 with g := setPair st.1.g b s r.g, c := setPair st.1.c b s r.c },
               { st.2 with data := setPair st.2.data b s r.out }) := by
  have e1 : ¬ bottom.length b s < 0 := by omega
  cases hrev : st.1.reverse
  · obtain ⟨r, hr, hI⟩ := fwdL2R_partial op st.1 (bottom.length b s).toNat _ (le_refl _)
      (bottom.data b s) (pairBufs st.1 st.2 b s)
    rw [range_take_self] at hr
    refine ⟨r, by simpa using hI, ?_⟩
    simp only [fwdPair, e1, hrev, ForwardLeft2Right, pairBufs] at hr ⊢
    simp [bind, Except.bind, pure, Except.pure, hr]
  · obtain ⟨r, hr, hI⟩ := fwdR2L_partial op st.1 (bottom.length b s).toNat _ (le_refl _)
      (bottom.data b s) (pairBufs st.1 st.2 b s)
    rw [range_reverse_take_self] at hr
    refine ⟨r, by simpa using hI, ?_⟩
    simp only [fwdPair, e1, hrev, ForwardRight2Left, pairBufs] at hr ⊢
    simp [bind, Except.bind, pure, Except.pure, hr]

omit [CommRing α] in
theorem setPair_same {n : Nat} (t : Tensor4D α n) (b s : Nat) (v : Rows α n) :
    setPair t b s v b s = v := by
  simp [setPair]

omit [CommRing α] in
theorem setPair_ne {n : Nat} (t : Tensor4D α n) (b s b' s' : Nat) (v : Rows α n)
    (h : ¬ (b' = b ∧ s' = s)) : setPair t b s v b' s' = t b' s' := by
  unfold setPair
  by_cases hb : b' = b
  · subst hb
    have hs : s' ≠ s := fun e => h ⟨rfl, e⟩
    simp [Function.update_noteq hs]
  · simp [Function.update_noteq hb]

theorem Forward_inv (op : Ops α) (L : GruLayer α d_input d_mem) (bottom : Node α d_input)
    (top : Node α d_mem) (hlen : ValidLengths bottom) :
    ∃ r, Forward op L bottom top = .ok r ∧ ForwardInv op L bottom top bottom.size0 0 r := by
  unfold Forward
  apply foldlM_nested_inv (fun st b s => fwdPair op bottom st b s) bottom.size0 bottom.size1
    (ForwardInv op L bottom top)
  · refine ⟨0, 0, 0, rfl, ?_, ?_⟩
    · intro b' s' h
      rcases h with h | h <;> omega
    · intro b' s' _
      exact ⟨rfl, rfl, rfl⟩
  · rintro b st ⟨cc, gg, dd, rfl, h1, h2⟩
    refine ⟨cc, gg, dd, rfl, ?_, ?_⟩
    · intro b' s' h
      apply h1
      rcases h with h | h
      · rcases Nat.lt_succ_iff_lt_or_eq.mp h.1 with h' | h'
        · exact Or.inl ⟨h', h.2⟩
        · exact Or.inr ⟨h', h.2⟩
      · omega
    · intro b' s' h
      apply h2
      rintro (h' | h')
      · exact h (Or.inl ⟨by omega, h'.2⟩)
      · exact h (Or.inl ⟨by omega, h'.2⟩)
  · rintro b hb s hs st ⟨cc, gg, dd, rfl, h1, h2⟩
    obtain ⟨r, hI, hr⟩ := fwdPair_ok op bottom
      ({ L with c := cc, g := gg, c_er := 0, g_er := 0 },
       { top with length := bottom.length, data := dd }) b s (hlen b hb s hs).1
    refine ⟨_, hr, setPair cc b s r.c, setPair gg b s r.g, setPair dd b s r.out, rfl, ?_, ?_⟩
    · intro b' s' hv
      by_cases e : b' = b ∧ s' = s
      · obtain ⟨rfl, rfl⟩ := e
        have hz := h2 b' s' (by rintro (h | h) <;> omega)
        simp only [setPair_same]
        unfold PairForwardDone
        simp only [pairBufs, hz.1, hz.2.1, hz.2.2] at hI
        exact hI
      · simp only [setPair_ne _ _ _ _ _ _ e]
        apply h1
        rcases hv with h | h
        · exact Or.inl h
        · refine Or.inr ⟨h.1, ?_⟩
          rcases Nat.lt_succ_iff_lt_or_eq.mp h.2 with h' | h'
          · exact h'
          · exact absurd ⟨h.1, h'⟩ e
    · intro b' s' hv
      have e : ¬ (b' = b ∧ s' = s) := by
        rintro ⟨rfl, rfl⟩
        exact hv (Or.inr ⟨rfl, Nat.lt_succ_self _⟩)
      simp only [setPair_ne _ _ _ _ _ _ e]
      apply h2
      rintro (h | h)
      · exact hv (Or.inl h)
      · exact hv (Or.inr ⟨h.1, by omega⟩)

theorem BpOneStep_eq (op : Ops α) (L : GruLayer α d_input d_mem)
    (cur_h_er pre_h : Tensor2D α 1 d_mem) (x : Tensor2D α 1 d_input)
    (cur_g : Tensor2D α 1 (2 * d_mem)) (cur_c cur_h : Tensor2D α 1 d_mem)
    (pre_h_er : Tensor2D α 1 d_mem) (x_er : Tensor2D α 1 d_input) :
    BpOneStep op L cur_h_er pre_h x cur_g cur_c cur_h 0 0 pre_h_er x_er
      = .ok { layer := addGrad L (layerBpStep op L cur_h_er pre_h x cur_g cur_c)
              cur_c_er := (layerBpStep op L cur_h_er pre_h x cur_g cur_c).dc
              cur_g_er := (layerBpStep op L cur_h_er pre_h x cur_g cur_c).dg
              pre_h_er := pre_h_er + (layerBpStep op L cur_h_er pre_h x cur_g cur_c).d_pre_h
              x_er := x_er + (layerBpStep op L cur_h_er pre_h x cur_g cur_c).d_x } := by
  have hz : (fun (_ : Fin 1) (j : Fin d_mem) => cur_g ⟨0, by omega⟩ ⟨1 * d_mem + j.1, by omega⟩)
      = refUpdate cur_g := by
    funext i j
    obtain rfl : i = 0 := Subsingleton.elim _ _
    simp [refUpdate]
  have hr : (fun (_ : Fin 1) (j : Fin d_mem) => cur_g ⟨0, by omega⟩ ⟨j.1, by omega⟩)
      = refReset cur_g := by
    funext i j
    obtain rfl : i = 0 := Subsingleton.elim _ _
    rfl
  have hdc : (0 + cur_h_er * (1 - refUpdate cur_g)) * F op.tanh_grad cur_c
      = (layerBpStep op L cur_h_er pre_h x cur_g cur_c).dc := by
    rw [zero_add]
    rfl
  have hdz : ((fun (_ : Fin 1) (j : Fin d_mem) =>
          (0 : Tensor2D α 1 (2 * d_mem)) ⟨0, by omega⟩ ⟨1 * d_mem + j.1, by omega⟩)
        + cur_h_er * pre_h + cur_h_er * ((-1 : α) • cur_c)) * F op.sigmoid_grad (refUpdate cur_g)
      = fun i j => cur_h_er i j * (pre_h i j - cur_c i j)
          * op.sigmoid_grad (refUpdate cur_g i j) := by
    funext i j
    simp [F]
    ring
  have hdr : dot (layerBpStep op L cur_h_er pre_h x cur_g cur_c).dc (T L.params4.data) * pre_h
        * F op.sigmoid_grad (refReset cur_g)
      = fun i j => dot (layerBpStep op L cur_h_er pre_h x cur_g cur_c).dc (T L.params4.data) i j
          * pre_h i j * op.sigmoid_grad (refReset cur_g i j) := rfl
  simp only [BpOneStep, SplitGate, bind, Except.bind, pure, Except.pure, dite_true, hz, hr, hdc,
    hdz, hdr]
  rw [Except.ok.injEq]
  have e : ∀ a b : BpOut α d_input d_mem, a.layer = b.layer → a.cur_c_er = b.cur_c_er →
      a.cur_g_er = b.cur_g_er → a.pre_h_er = b.pre_h_er → a.x_er = b.x_er → a = b := by
    intro a b h1 h2 h3 h4 h5
    cases a; cases b; simp_all
  apply e
  · rfl
  · rfl
  · rfl
  · show _ = pre_h_er + (cur_h_er * refUpdate cur_g + refReset cur_g * _ + _)
    simp only [add_assoc]
    rfl
  · show _ = x_er + (_ + _)
    simp only [add_assoc]
    rfl

theorem addGrad_withGrads (L : GruLayer α d_input d_mem)
    (G : Tensor2D α d_input (2 * d_mem) × Tensor2D α d_mem (2 * d_mem) ×
      Tensor2D α d_input d_mem × Tensor2D α d_mem d_mem)
    (bh : Tensor2D α 1 d_mem) (sg : StepGrad α d_input d_mem) :
    addGrad (withGrads L G bh) sg = withGrads L (G + sg.weights) bh := rfl

omit [CommRing α] in
theorem withGrads_begin (L : GruLayer α d_input d_mem)
    (G : Tensor2D α d_input (2 * d_mem) × Tensor2D α d_mem (2 * d_mem) ×
      Tensor2D α d_input d_mem × Tensor2D α d_mem d_mem)
    (bh bh2 : Tensor2D α 1 d_mem) :
    { withGrads L G bh with begin_h_er := bh2 } = withGrads L G bh2 := rfl

theorem sgL2R_congr (op : Ops α) (L : GruLayer α d_input d_mem) (top_data c : Rows α d_mem)
    (g : Rows α (2 * d_mem)) (bottom_data : Rows α d_input) (td td2 : Rows α d_mem) (t : Nat)
    (h : td t = td2 t) :
    sgL2R op L top_data c g bottom_data td t = sgL2R op L top_data c g bottom_data td2 t := by
  unfold sgL2R
  rw [Slice_congr td td2 t h]

theorem sgR2L_congr (op : Ops α) (L : GruLayer α d_input d_mem) (n : Nat)
    (top_data c : Rows α d_mem)
    (g : Rows α (2 * d_mem)) (bottom_data : Rows α d_input) (td td2 : Rows α d_mem) (t : Nat)
    (h : td t = td2 t) :
    sgR2L op L n top_data c g bottom_data td t = sgR2L op L n top_data c g bottom_data td2 t := by
  unfold sgR2L
  rw [Slice_congr td td2 t h]

theorem bpBodyL2R_eq (op : Ops α) (top_data c : Rows α d_mem) (g : Rows α (2 * d_mem))
    (bottom_data : Rows α d_input) (s : BpSeq α d_input d_mem) (r : Nat)
    (hc : s.c_er r = 0) (hg : s.g_er r = 0) :
    bpBodyL2R op top_data c g bottom_data s r
      = .ok { layer := if r = 0 then
                  { addGrad s.layer (sgL2R op s.layer top_data c g bottom_data s.top_diff r) with
                    begin_h_er := s.layer.begin_h_er
                      + (sgL2R op s.layer top_data c g bottom_data s.top_diff r).d_pre_h }
                else addGrad s.layer (sgL2R op s.layer top_data c g bottom_data s.top_diff r)
              top_diff := if r = 0 then s.top_diff
                else setSlice s.top_diff (r - 1) (Slice s.top_diff (r - 1)
                  + (sgL2R op s.layer top_data c g bottom_data s.top_diff r).d_pre_h)
              c_er := setSlice s.c_er r (sgL2R op s.layer top_data c g bottom_data s.top_diff r).dc
              g_er := setSlice s.g_er r (sgL2R op s.layer top_data c g bottom_data s.top_diff r).dg
              bottom_diff := setSlice s.bottom_diff r (Slice s.bottom_diff r
                + (sgL2R op s.layer top_data c g bottom_data s.top_diff r).d_x) } := by
  have hc0 : Slice s.c_er r = 0 := by funext i j; simp [Slice, hc]
  have hg0 : Slice s.g_er r = 0 := by funext i j; simp [Slice, hg]
  simp only [bpBodyL2R, hc0, hg0, BpOneStep_eq, bind, Except.bind, pure, Except.pure, sgL2R,
    preL2R]
  by_cases h : r = 0
  · simp only [h, if_true]
  · simp only [h, if_false]

theorem bpBodyR2L_eq (op : Ops α) (n : Nat) (top_data c : Rows α d_mem) (g : Rows α (2 * d_mem))
    (bottom_data : Rows α d_input) (s : BpSeq α d_input d_mem) (r : Nat)
    (hc : s.c_er r = 0) (hg : s.g_er r = 0) :
    bpBodyR2L op n top_data c g bottom_data s r
      = .ok { layer := if r = n - 1 then
                  { addGrad s.layer (sgR2L op s.layer n top_data c g bottom_data s.top_diff r) with
                    begin_h_er := s.layer.begin_h_er
                      + (sgR2L op s.layer n top_data c g bottom_data s.top_diff r).d_pre_h }
                else addGrad s.layer (sgR2L op s.layer n top_data c g bottom_data s.top_diff r)
              top_diff := if r = n - 1 then s.top_diff
                else setSlice s.top_diff (r + 1) (Slice s.top_diff (r + 1)
                  + (sgR2L op s.layer n top_data c g bottom_data s.top_diff r).d_pre_h)
              c_er := setSlice s.c_er r
                (sgR2L op s.layer n top_data c g bottom_data s.top_diff r).dc
              g_er := setSlice s.g_er r
                (sgR2L op s.layer n top_data c g bottom_data s.top_diff r).dg
              bottom_diff := setSlice s.bottom_diff r (Slice s.bottom_diff r
                + (sgR2L op s.layer n top_data c g bottom_data s.top_diff r).d_x) } := by
  have hc0 : Slice s.c_er r = 0 := by funext i j; simp [Slice, hc]
  have hg0 : Slice s.g_er r = 0 := by funext i j; simp [Slice, hg]
  simp only [bpBodyR2L, hc0, hg0, BpOneStep_eq, bind, Except.bind, pure, Except.pure, sgR2L,
    preR2L]
  by_cases h : r = n - 1
  · simp only [h, if_true]
  · simp only [h, if_false]

omit [CommRing α] in
theorem withGrads_self (L : GruLayer α d_input d_mem) :
    withGrads L (grads L) L.begin_h_er = L := rfl

omit [CommRing α] in
theorem setSlice_same {n : Nat} (t : Rows α n) (r : Nat) (v : Tensor2D α 1 n) :
    setSlice t r v r = v 0 := by
  simp [setSlice]

theorem bpL2R_partial (op : Ops α) (n k : Nat) (hk : k ≤ n) (top_data c : Rows α d_mem)
    (g : Rows α (2 * d_mem)) (bottom_data : Rows α d_input) (st0 : BpSeq α d_input d_mem)
    (hc : ∀ t, t < n → st0.c_er t = 0) (hg : ∀ t, t < n → st0.g_er t = 0) :
    ∃ r, ((List.range n).reverse.take k).foldlM (bpBodyL2R op top_data c g bottom_data) st0
        = .ok r ∧ BpInvL2R op n top_data c g bottom_data st0 k r := by
  apply foldlM_range_reverse_take_inv _ n k hk (BpInvL2R op n top_data c g bottom_data st0)
  · refine ⟨?_, ?_, ?_, ?_, ?_⟩
    · have h : ¬ (0 = n ∧ 0 < n) := by omega
      simp only [Finset.range_zero, Finset.sum_empty, add_zero, h, if_false]
      rfl
    · intro t
      have h : ¬ (n - 0 ≤ t + 1 ∧ t + 1 < n) := by omega
      simp only [h, if_false, add_zero]
    · intro t
      have h : ¬ (n - 0 ≤ t ∧ t < n) := by omega
      simp only [h, if_false]
    · intro t
      have h : ¬ (n - 0 ≤ t ∧ t < n) := by omega
      simp only [h, if_false]
    · intro t
      have h : ¬ (n - 0 ≤ t ∧ t < n) := by omega
      simp only [h, if_false, add_zero]
  · intro j hj s hs
    obtain ⟨L, td, ce, ge, bd⟩ := s
    obtain ⟨hL, htd, hce, hge, hbd⟩ := hs
    simp only at hL htd hce hge hbd
    have hjn : j < n := by omega
    have hcr : ce (n - 1 - j) = 0 := by
      rw [hce, if_neg (by omega)]
      exact hc _ (by omega)
    have hgr : ge (n - 1 - j) = 0 := by
      rw [hge, if_neg (by omega)]
      exact hg _ (by omega)
    refine ⟨_, bpBodyL2R_eq op top_data c g bottom_data ⟨L, td, ce, ge, bd⟩ (n - 1 - j) hcr hgr, ?_⟩
    subst hL
    simp only
    have hsgL : ∀ G bh td t, sgL2R op (withGrads st0.layer G bh) top_data c g bottom_data td t
        = sgL2R op st0.layer top_data c g bottom_data td t := fun _ _ _ _ => rfl
    simp only [hsgL]
    generalize htd2 : (if n - 1 - j = 0 then td else setSlice td (n - 1 - j - 1)
      (Slice td (n - 1 - j - 1)
        + (sgL2R op st0.layer top_data c g bottom_data td (n - 1 - j)).d_pre_h)) = td2
    have htd2_eq : ∀ t, n - 1 - j ≤ t → td2 t = td t := by
      intro t ht
      rw [← htd2]
      split
      · rfl
      · exact setSlice_ne _ _ _ _ (by omega)
    have hsg : ∀ t, n - 1 - j ≤ t → sgL2R op st0.layer top_data c g bottom_data td2 t
        = sgL2R op st0.layer top_data c g bottom_data td t :=
      fun t ht => sgL2R_congr _ _ _ _ _ _ _ _ _ (htd2_eq t ht)
    refine ⟨?_, ?_, ?_, ?_, ?_⟩ <;> dsimp only
    · have hsum : ∑ i in Finset.range (j + 1),
            (sgL2R op st0.layer top_data c g bottom_data td2 (n - 1 - i)).weights
          = ∑ i in Finset.range j,
              (sgL2R op st0.layer top_data c g bottom_data td (n - 1 - i)).weights
            + (sgL2R op st0.layer top_data c g bottom_data td (n - 1 - j)).weights := by
        rw [Finset.sum_range_succ, hsg _ (le_refl _)]
        congr 1
        apply Finset.sum_congr rfl
        intro i hi
        rw [hsg _ (by have := Finset.mem_range.mp hi; omega)]
      have hj0 : ¬ (j = n ∧ 0 < n) := by omega
      rw [hsum]
      simp only [hj0, if_false, add_zero]
      by_cases h0 : n - 1 - j = 0
      · have h1 : j + 1 = n ∧ 0 < n := by omega
        simp only [h0, if_true, h1, and_self]
        rw [addGrad_withGrads, withGrads_begin, hsg 0 (by omega), add_assoc]
        rfl
      · have h1 : ¬ (j + 1 = n ∧ 0 < n) := by omega
        simp only [h0, if_false, h1, add_zero]
        rw [addGrad_withGrads, add_assoc]
    · intro t
      by_cases ht : t + 1 = n - 1 - j
      · have h0 : n - 1 - j ≠ 0 := by omega
        have e : td2 t = td t
            + (sgL2R op st0.layer top_data c g bottom_data td (n - 1 - j)).d_pre_h 0 := by
          rw [← htd2, if_neg h0]
          have : n - 1 - j - 1 = t := by omega
          rw [this, setSlice_same]
          rfl
        rw [e, htd t, if_neg (by omega), add_zero, if_pos (by omega), ht, hsg _ (le_refl _)]
      · have e : td2 t = td t := by
          rw [← htd2]
          split
          · rfl
          · exact setSlice_ne _ _ _ _ (by omega)
        rw [e, htd t]
        by_cases hv : n - j ≤ t + 1 ∧ t + 1 < n
        · rw [if_pos hv, if_pos (by omega), hsg _ (by omega)]
        · rw [if_neg hv, if_neg (by omega)]
    · intro t
      by_cases ht : t = n - 1 - j
      · subst ht
        rw [setSlice_same, if_pos (by omega), hsg _ (le_refl _)]
      · rw [setSlice_ne _ _ _ _ ht, hce t]
        by_cases hv : n - j ≤ t ∧ t < n
        · rw [if_pos hv, if_pos (by omega), hsg _ (by omega)]
        · rw [if_neg hv, if_neg (by omega)]
    · intro t
      by_cases ht : t = n - 1 - j
      · subst ht
        rw [setSlice_same, if_pos (by omega), hsg _ (le_refl _)]
      · rw [setSlice_ne _ _ _ _ ht, hge t]
        by_cases hv : n - j ≤ t ∧ t < n
        · rw [if_pos hv, if_pos (by omega), hsg _ (by omega)]
        · rw [if_neg hv, if_neg (by omega)]
    · intro t
      by_cases ht : t = n - 1 - j
      · subst ht
        rw [setSlice_same, if_pos (by omega), hsg _ (le_refl _)]
        have := hbd (n - 1 - j)
        rw [if_neg (by omega), add_zero] at this
        rw [← this]
        rfl
      · rw [setSlice_ne _ _ _ _ ht, hbd t]
        by_cases hv : n - j ≤ t ∧ t < n
        · rw [if_pos hv, if_pos (by omega), hsg _ (by omega)]
        · rw [if_neg hv, if_neg (by omega)]

theorem bpR2L_partial (op : Ops α) (n k : Nat) (hk : k ≤ n) (top_data c : Rows α d_mem)
    (g : Rows α (2 * d_mem)) (bottom_data : Rows α d_input) (st0 : BpSeq α d_input d_mem)
    (hc : ∀ t, t < n → st0.c_er t = 0) (hg : ∀ t, t < n → st0.g_er t = 0) :
    ∃ r, ((List.range n).take k).foldlM (bpBodyR2L op n top_data c g bottom_data) st0
        = .ok r ∧ BpInvR2L op n top_data c g bottom_data st0 k r := by
  apply foldlM_range_take_inv _ n k hk (BpInvR2L op n top_data c g bottom_data st0)
  · refine ⟨?_, ?_, ?_, ?_, ?_⟩
    · have h : ¬ (0 = n ∧ 0 < n) := by omega
      simp only [Finset.range_zero, Finset.sum_empty, add_zero, h, if_false]
      rfl
    · intro t
      have h : ¬ (1 ≤ t ∧ t - 1 < 0 ∧ t < n) := by omega
      simp only [h, if_false, add_zero]
    · intro t
      simp only [Nat.not_lt_zero, if_false]
    · intro t
      simp only [Nat.not_lt_zero, if_false]
    · intro t
      simp only [Nat.not_lt_zero, if_false, add_zero]
  · intro j hj s hs
    obtain ⟨L, td, ce, ge, bd⟩ := s
    obtain ⟨hL, htd, hce, hge, hbd⟩ := hs
    simp only at hL htd hce hge hbd
    have hjn : j < n := by omega
    have hcr : ce j = 0 := by
      rw [hce, if_neg (by omega)]
      exact hc _ (by omega)
    have hgr : ge j = 0 := by
      rw [hge, if_neg (by omega)]
      exact hg _ (by omega)
    refine ⟨_, bpBodyR2L_eq op n top_data c g bottom_data ⟨L, td, ce, ge, bd⟩ j hcr hgr, ?_⟩
    subst hL
    simp only
    have hsgL : ∀ G bh td t, sgR2L op (withGrads st0.layer G bh) n top_data c g bottom_data td t
        = sgR2L op st0.layer n top_data c g bottom_data td t := fun _ _ _ _ => rfl
    simp only [hsgL]
    generalize htd2 : (if j = n - 1 then td else setSlice td (j + 1)
      (Slice td (j + 1)
        + (sgR2L op st0.layer n top_data c g bottom_data td j).d_pre_h)) = td2
    have htd2_eq : ∀ t, t ≤ j → td2 t = td t := by
      intro t ht
      rw [← htd2]
      split
      · rfl
      · exact setSlice_ne _ _ _ _ (by omega)
    have hsg : ∀ t, t ≤ j → sgR2L op st0.layer n top_data c g bottom_data td2 t
        = sgR2L op st0.layer n top_data c g bottom_data td t :=
      fun t ht => sgR2L_congr _ _ _ _ _ _ _ _ _ _ (htd2_eq t ht)
    refine ⟨?_, ?_, ?_, ?_, ?_⟩ <;> dsimp only
    · have hsum : ∑ i in Finset.range (j + 1),
            (sgR2L op st0.layer n top_data c g bottom_data td2 i).weights
          = ∑ i in Finset.range j,
              (sgR2L op st0.layer n top_data c g bottom_data td i).weights
            + (sgR2L op st0.layer n top_data c g bottom_data td j).weights := by
        rw [Finset.sum_range_succ, hsg _ (le_refl _)]
        congr 1
        apply Finset.sum_congr rfl
        intro i hi
        rw [hsg _ (by have := Finset.mem_range.mp hi; omega)]
      have hj0 : ¬ (j = n ∧ 0 < n) := by omega
      rw [hsum]
      simp only [hj0, if_false, add_zero]
      by_cases h0 : j = n - 1
      · have h1 : j + 1 = n ∧ 0 < n := by omega
        simp only [if_pos h0, if_pos h1]
        rw [addGrad_withGrads, withGrads_begin, hsg (n - 1) (by omega), add_assoc, ← h0]
        rfl
      · have h1 : ¬ (j + 1 = n ∧ 0 < n) := by omega
        simp only [if_neg h0, if_neg h1, add_zero]
        rw [addGrad_withGrads, add_assoc]
    · intro t
      by_cases ht : t = j + 1 ∧ j ≠ n - 1
      · have e : td2 t = td t
            + (sgR2L op st0.layer n top_data c g bottom_data td j).d_pre_h 0 := by
          rw [← htd2, if_neg ht.2, ht.1, setSlice_same]
          rfl
        have e2 : t - 1 = j := by omega
        rw [e, htd t, if_neg (by omega), add_zero, if_pos (by omega), e2, hsg _ (le_refl _)]
      · have e : td2 t = td t := by
          rw [← htd2]
          split
          · rfl
          · exact setSlice_ne _ _ _ _ (by omega)
        rw [e, htd t]
        by_cases hv : 1 ≤ t ∧ t - 1 < j ∧ t < n
        · rw [if_pos hv, if_pos (by omega), hsg _ (by omega)]
        · rw [if_neg hv, if_neg (by omega)]
    · intro t
      by_cases ht : t = j
      · subst ht
        rw [setSlice_same, if_pos (by omega), hsg _ (le_refl _)]
      · rw [setSlice_ne _ _ _ _ ht, hce t]
        by_cases hv : t < j
        · rw [if_pos hv, if_pos (by omega), hsg _ (by omega)]
        · rw [if_neg hv, if_neg (by omega)]
    · intro t
      by_cases ht : t = j
      · subst ht
        rw [setSlice_same, if_pos (by omega), hsg _ (le_refl _)]
      · rw [setSlice_ne _ _ _ _ ht, hge t]
        by_cases hv : t < j
        · rw [if_pos hv, if_pos (by omega), hsg _ (by omega)]
        · rw [if_neg hv, if_neg (by omega)]
    · intro t
      by_cases ht : t = j
      · subst ht
        rw [setSlice_same, if_pos (by omega), hsg _ (le_refl _)]
        have := hbd t
        rw [if_neg (by omega), add_zero] at this
        rw [← this]
        rfl
      · rw [setSlice_ne _ _ _ _ ht, hbd t]
        by_cases hv : t < j
        · rw [if_pos hv, if_pos (by omega), hsg _ (by omega)]
        · rw [if_neg hv, if_neg (by omega)]

theorem bpPair_ok (op : Ops α) (st : BpState α d_input d_mem) (b s : Nat)
    (h0 : 0 ≤ st.bottom.length b s)
    (hc : st.layer.c_er b s = 0) (hg : st.layer.g_er b s = 0) :
    ∃ r : BpSeq α d_input d_mem,
      (if st.layer.reverse then
          BpInvR2L op (st.bottom.length b s).toNat (st.top.data b s) (st.layer.c b s)
            (st.layer.g b s) (st.bottom.data b s) (bpBufs st b s) (st.bottom.length b s).toNat r
        else
          BpInvL2R op (st.bottom.length b s).toNat (st.top.data b s) (st.layer.c b s)
            (st.layer.g b s) (st.bottom.data b s) (bpBufs st b s) (st.bottom.length b s).toNat r) ∧
      bpPair op st b s
        = .ok { layer := { r.layer with c_er := setPair st.layer.c_er b s r.c_er,
                                        g_er := setPair st.layer.g_er b s r.g_er },
                bottom := { st.bottom with diff := setPair st.bottom.diff b s r.bottom_diff },
                top := { st.top with diff := setPair st.top.diff b s r.top_diff } } := by
  have e1 : ¬ st.bottom.length b s < 0 := by omega
  have hc2 : ∀ t, t < (st.bottom.length b s).toNat → (bpBufs st b s).c_er t = 0 := by
    intro t _
    simp [bpBufs, hc]
  have hg2 : ∀ t, t < (st.bottom.length b s).toNat → (bpBufs st b s).g_er t = 0 := by
    intro t _
    simp [bpBufs, hg]
  cases hrev : st.layer.reverse
  · obtain ⟨r, hr, hI⟩ := bpL2R_partial op (st.bottom.length b s).toNat _ (le_refl _)
      (st.top.data b s) (st.layer.c b s) (st.layer.g b s) (st.bottom.data b s)
      (bpBufs st b s) hc2 hg2
    rw [range_reverse_take_self] at hr
    refine ⟨r, by simpa using hI, ?_⟩
    simp only [bpPair, e1, hrev, BackpropForLeft2RightLstm, bpBufs] at hr ⊢
    simp [bind, Except.bind, pure, Except.pure, hr]
  · obtain ⟨r, hr, hI⟩ := bpR2L_partial op (st.bottom.length b s).toNat _ (le_refl _)
      (st.top.data b s) (st.layer.c b s) (st.layer.g b s) (st.bottom.data b s)
      (bpBufs st b s) hc2 hg2
    rw [range_take_self] at hr
    refine ⟨r, by simpa using hI, ?_⟩
    simp only [bpPair, e1, hrev, BackpropForRight2LeftLstm, bpBufs] at hr ⊢
    simp [bind, Except.bind, pure, Except.pure, hr]

theorem pairGrad_of_inv (op : Ops α) (L : GruLayer α d_input d_mem) (bottom : Node α d_input)
    (top : Node α d_mem) (b s : Nat) (st0 r : BpSeq α d_input d_mem)
    (hw : st0.layer.params0.data = L.params0.data ∧ st0.layer.params1.data = L.params1.data ∧
      st0.layer.params3.data = L.params3.data ∧ st0.layer.params4.data = L.params4.data ∧
      st0.layer.begin_h = L.begin_h)
    (hI : if L.reverse then
        BpInvR2L op (bottom.length b s).toNat (top.data b s) (L.c b s) (L.g b s)
          (bottom.data b s) st0 (bottom.length b s).toNat r
      else
        BpInvL2R op (bottom.length b s).toNat (top.data b s) (L.c b s) (L.g b s)
          (bottom.data b s) st0 (bottom.length b s).toNat r) :
    (grads r.layer, r.layer.begin_h_er)
      = (grads st0.layer, st0.layer.begin_h_er) + pairGrad op L bottom top r.top_diff b s := by
  obtain ⟨L0, td0, ce0, ge0, bd0⟩ := st0
  obtain ⟨hw0, hw1, hw3, hw4, hwb⟩ := hw
  simp only at hw0 hw1 hw3 hw4 hwb
  have hsgL : ∀ td t, sgL2R op L0 (top.data b s) (L.c b s) (L.g b s) (bottom.data b s) td t
      = sgL2R op L (top.data b s) (L.c b s) (L.g b s) (bottom.data b s) td t := by
    intro td t
    simp only [sgL2R, layerBpStep, hw0, hw1, hw3, hw4, hwb]
  have hsgR : ∀ td t, sgR2L op L0 (bottom.length b s).toNat (top.data b s) (L.c b s) (L.g b s)
        (bottom.data b s) td t
      = sgR2L op L (bottom.length b s).toNat (top.data b s) (L.c b s) (L.g b s)
        (bottom.data b s) td t := by
    intro td t
    simp only [sgR2L, layerBpStep, hw0, hw1, hw3, hw4, hwb]
  unfold pairGrad
  cases hrev : L.reverse
  · simp only [hrev, Bool.false_eq_true, if_false] at hI ⊢
    obtain ⟨hL, -⟩ := hI
    rw [hL]
    simp only [hsgL]
    rw [Finset.sum_range_reflect
      (fun t => (sgL2R op L (top.data b s) (L.c b s) (L.g b s) (bottom.data b s)
        r.top_diff t).weights) (bottom.length b s).toNat]
    by_cases hn : 0 < (bottom.length b s).toNat
    · simp only [hn, and_self, if_true, true_and]
      rfl
    · simp only [hn, and_false, if_false]
      rfl
  · simp only [hrev, if_true] at hI ⊢
    obtain ⟨hL, -⟩ := hI
    rw [hL]
    simp only [hsgR]
    by_cases hn : 0 < (bottom.length b s).toNat
    · simp only [hn, and_self, if_true, true_and]
      rfl
    · simp only [hn, and_false, if_false]
      rfl

theorem BpInvL2R_rebase (op : Ops α) (n k : Nat) (top_data c : Rows α d_mem)
    (g : Rows α (2 * d_mem)) (bottom_data : Rows α d_input) (st0 st1 r : BpSeq α d_input d_mem)
    (hw : st0.layer.params0.data = st1.layer.params0.data ∧
      st0.layer.params1.data = st1.layer.params1.data ∧
      st0.layer.params3.data = st1.layer.params3.data ∧
      st0.layer.params4.data = st1.layer.params4.data ∧
      st0.layer.begin_h = st1.layer.begin_h)
    (hb : st0.top_diff = st1.top_diff ∧ st0.c_er = st1.c_er ∧ st0.g_er = st1.g_er ∧
      st0.bottom_diff = st1.bottom_diff)
    (hI : BpInvL2R op n top_data c g bottom_data st0 k r) :
    ∃ Lr, BpInvL2R op n top_data c g bottom_data st1 k
      ⟨Lr, r.top_diff, r.c_er, r.g_er, r.bottom_diff⟩ := by
  obtain ⟨L0, td0, ce0, ge0, bd0⟩ := st0
  obtain ⟨L1, td1, ce1, ge1, bd1⟩ := st1
  obtain ⟨hw0, hw1, hw3, hw4, hwb⟩ := hw
  obtain ⟨rfl, rfl, rfl, rfl⟩ := hb
  simp only at hw0 hw1 hw3 hw4 hwb
  have hsg : ∀ td t, sgL2R op L0 top_data c g bottom_data td t
      = sgL2R op L1 top_data c g bottom_data td t := by
    intro td t
    simp only [sgL2R, layerBpStep, hw0, hw1, hw3, hw4, hwb]
  obtain ⟨-, h2, h3, h4, h5⟩ := hI
  simp only [hsg] at h2 h3 h4 h5
  exact ⟨withGrads L1 (grads L1 + ∑ j in Finset.range k,
      (sgL2R op L1 top_data c g bottom_data r.top_diff (n - 1 - j)).weights)
    (L1.begin_h_er + if k = n ∧ 0 < n then
      (sgL2R op L1 top_data c g bottom_data r.top_diff 0).d_pre_h else 0), rfl, h2, h3, h4, h5⟩

theorem BpInvR2L_rebase (op : Ops α) (n k : Nat) (top_data c : Rows α d_mem)
    (g : Rows α (2 * d_mem)) (bottom_data : Rows α d_input) (st0 st1 r : BpSeq α d_input d_mem)
    (hw : st0.layer.params0.data = st1.layer.params0.data ∧
      st0.layer.params1.data = st1.layer.params1.data ∧
      st0.layer.params3.data = st1.layer.params3.data ∧
      st0.layer.params4.data = st1.layer.params4.data ∧
      st0.layer.begin_h = st1.layer.begin_h)
    (hb : st0.top_diff = st1.top_diff ∧ st0.c_er = st1.c_er ∧ st0.g_er = st1.g_er ∧
      st0.bottom_diff = st1.bottom_diff)
    (hI : BpInvR2L op n top_data c g bottom_data st0 k r) :
    ∃ Lr, BpInvR2L op n top_data c g bottom_data st1 k
      ⟨Lr, r.top_diff, r.c_er, r.g_er, r.bottom_diff⟩ := by
  obtain ⟨L0, td0, ce0, ge0, bd0⟩ := st0
  obtain ⟨L1, td1, ce1, ge1, bd1⟩ := st1
  obtain ⟨hw0, hw1, hw3, hw4, hwb⟩ := hw
  obtain ⟨rfl, rfl, rfl, rfl⟩ := hb
  simp only at hw0 hw1 hw3 hw4 hwb
  have hsg : ∀ td t, sgR2L op L0 n top_data c g bottom_data td t
      = sgR2L op L1 n top_data c g bottom_data td t := by
    intro td t
    simp only [sgR2L, layerBpStep, hw0, hw1, hw3, hw4, hwb]
  obtain ⟨-, h2, h3, h4, h5⟩ := hI
  simp only [hsg] at h2 h3 h4 h5
  exact ⟨withGrads L1 (grads L1 + ∑ j in Finset.range k,
      (sgR2L op L1 n top_data c g bottom_data r.top_diff j).weights)
    (L1.begin_h_er + if k = n ∧ 0 < n then
      (sgR2L op L1 n top_data c g bottom_data r.top_diff (n - 1)).d_pre_h else 0),
    rfl, h2, h3, h4, h5⟩

theorem bpPair_step (op : Ops α) (L : GruLayer α d_input d_mem) (bottom : Node α d_input)
    (top : Node α d_mem)
    (G : Tensor2D α d_input (2 * d_mem) × Tensor2D α d_mem (2 * d_mem) ×
        Tensor2D α d_input d_mem × Tensor2D α d_mem d_mem) (bh : Tensor2D α 1 d_mem)
    (ce : Tensor4D α d_mem) (ge : Tensor4D α (2 * d_mem)) (bd : Tensor4D α d_input)
    (td : Tensor4D α d_mem) (b s : Nat)
    (h0 : 0 ≤ bottom.length b s)
    (hz : td b s = top.diff b s ∧ ce b s = 0 ∧ ge b s = 0 ∧ bd b s = bottom.diff b s) :
    ∃ G2 bh2 tdr cer ger bdr,
      bpPair op { layer := { withGrads L G bh with c_er := ce, g_er := ge },
                  bottom := { bottom with diff := bd }, top := { top with diff := td } } b s
        = .ok { layer := { withGrads L G2 bh2 with c_er := setPair ce b s cer,
                                                    g_er := setPair ge b s ger },
                bottom := { bottom with diff := setPair bd b s bdr },
                top := { top with diff := setPair td b s tdr } } ∧
      (G2, bh2) = (G, bh) + pairGrad op L bottom top tdr b s ∧
      PairBackDone op L bottom top tdr cer ger bdr b s := by
  obtain ⟨r, hI, hr⟩ := bpPair_ok op
    { layer := { withGrads L G bh with c_er := ce, g_er := ge },
      bottom := { bottom with diff := bd }, top := { top with diff := td } } b s
    h0 hz.2.1 hz.2.2.1
  have hI2 : if L.reverse then
        BpInvR2L op (bottom.length b s).toNat (top.data b s) (L.c b s) (L.g b s)
          (bottom.data b s)
          ⟨{ withGrads L G bh with c_er := ce, g_er := ge }, td b s, ce b s, ge b s, bd b s⟩
          (bottom.length b s).toNat r
      else
        BpInvL2R op (bottom.length b s).toNat (top.data b s) (L.c b s) (L.g b s)
          (bottom.data b s)
          ⟨{ withGrads L G bh with c_er := ce, g_er := ge }, td b s, ce b s, ge b s, bd b s⟩
          (bottom.length b s).toNat r := hI
  have hgrad := pairGrad_of_inv op L bottom top b s _ r ⟨rfl, rfl, rfl, rfl, rfl⟩ hI2
  have hLr : ∀ (X : Tensor4D α d_mem) (Y : Tensor4D α (2 * d_mem)),
      ({ r.layer with c_er := X, g_er := Y } : GruLayer α d_input d_mem)
        = { withGrads L (grads r.layer) r.layer.begin_h_er with c_er := X, g_er := Y } := by
    intro X Y
    cases hrev : L.reverse
    · simp only [hrev, Bool.false_eq_true, if_false] at hI2
      rw [hI2.1]
      rfl
    · simp only [hrev, if_true] at hI2
      rw [hI2.1]
      rfl
  refine ⟨grads r.layer, r.layer.begin_h_er, r.top_diff, r.c_er, r.g_er, r.bottom_diff, ?_,
    hgrad, ?_⟩
  · rw [hr, hLr]
  · unfold PairBackDone
    cases hrev : L.reverse
    · simp only [hrev, Bool.false_eq_true, if_false] at hI2 ⊢
      exact BpInvL2R_rebase op _ _ _ _ _ _
        ⟨{ withGrads L G bh with c_er := ce, g_er := ge }, td b s, ce b s, ge b s, bd b s⟩
        (bpStart L bottom top b s) r ⟨rfl, rfl, rfl, rfl, rfl⟩
        ⟨hz.1, hz.2.1, hz.2.2.1, hz.2.2.2⟩ hI2
    · simp only [hrev, if_true] at hI2 ⊢
      exact BpInvR2L_rebase op _ _ _ _ _ _
        ⟨{ withGrads L G bh with c_er := ce, g_er := ge }, td b s, ce b s, ge b s, bd b s⟩
        (bpStart L bottom top b s) r ⟨rfl, rfl, rfl, rfl, rfl⟩
        ⟨hz.1, hz.2.1, hz.2.2.1, hz.2.2.2⟩ hI2

theorem Backprop_inv (op : Ops α) (L : GruLayer α d_input d_mem) (bottom : Node α d_input)
    (top : Node α d_mem) (hlen : ValidLengths bottom) :
    ∃ r, Backprop op L bottom top = .ok r ∧ BackpropInv op L bottom top bottom.size0 0 r := by
  unfold Backprop
  apply foldlM_nested_inv (fun st b s => bpPair op st b s) bottom.size0 bottom.size1
    (BackpropInv op L bottom top)
  · refine ⟨grads L, 0, 0, 0, bottom.diff, top.diff, rfl, by simp, ?_, ?_⟩
    · intro b' s' h
      rcases h with h | h <;> omega
    · intro b' s' _
      exact ⟨rfl, rfl, rfl, rfl⟩
  · rintro b st ⟨G, bh, ce, ge, bd, td, rfl, hG, h1, h2⟩
    refine ⟨G, bh, ce, ge, bd, td, rfl, ?_, ?_, ?_⟩
    · rw [hG, Finset.sum_range_succ]
      simp [add_assoc]
    · intro b' s' h
      apply h1
      rcases h with h | h
      · rcases Nat.lt_succ_iff_lt_or_eq.mp h.1 with h' | h'
        · exact Or.inl ⟨h', h.2⟩
        · exact Or.inr ⟨h', h.2⟩
      · omega
    · intro b' s' h
      apply h2
      rintro (h' | h')
      · exact h (Or.inl ⟨by omega, h'.2⟩)
      · exact h (Or.inl ⟨by omega, h'.2⟩)
  · rintro b hb s hs st ⟨G, bh, ce, ge, bd, td, rfl, hG, h1, h2⟩
    have hz := h2 b s (by rintro (h | h) <;> omega)
    obtain ⟨G2, bh2, tdr, cer, ger, bdr, hr, hgrad, hdone⟩ := bpPair_step op L bottom top G bh
      ce ge bd td b s (hlen b hb s hs).1 hz
    refine ⟨_, hr, G2, bh2, setPair ce b s cer, setPair ge b s ger,
      setPair bd b s bdr, setPair td b s tdr, rfl, ?_, ?_, ?_⟩
    · rw [hgrad, hG]
      have e1 : ∀ b' s', b' < b →
          pairGrad op L bottom top (setPair td b s tdr b' s') b' s'
            = pairGrad op L bottom top (td b' s') b' s' := by
        intro b' s' h
        rw [setPair_ne _ _ _ _ _ _ (by omega)]
      have e2 : ∀ s', s' < s →
          pairGrad op L bottom top (setPair td b s tdr b s') b s'
            = pairGrad op L bottom top (td b s') b s' := by
        intro s' h
        rw [setPair_ne _ _ _ _ _ _ (by omega)]
      rw [Finset.sum_range_succ, setPair_same]
      rw [Finset.sum_congr rfl (fun b' hb' => Finset.sum_congr rfl
        (fun s' _ => e1 b' s' (Finset.mem_range.mp hb')))]
      rw [Finset.sum_congr rfl (fun s' hs' => e2 s' (Finset.mem_range.mp hs'))]
      simp only [add_assoc]
    · intro b' s' hv
      by_cases e : b' = b ∧ s' = s
      · obtain ⟨rfl, rfl⟩ := e
        simp only [setPair_same]
        exact hdone
      · simp only [setPair_ne _ _ _ _ _ _ e]
        apply h1
        rcases hv with h | h
        · exact Or.inl h
        · refine Or.inr ⟨h.1, ?_⟩
          rcases Nat.lt_succ_iff_lt_or_eq.mp h.2 with h' | h'
          · exact h'
          · exact absurd ⟨h.1, h'⟩ e
    · intro b' s' hv
      have e : ¬ (b' = b ∧ s' = s) := by
        rintro ⟨rfl, rfl⟩
        exact hv (Or.inr ⟨rfl, Nat.lt_succ_self _⟩)
      simp only [setPair_ne _ _ _ _ _ _ e]
      apply h2
      rintro (h | h)
      · exact hv (Or.inl h)
      · exact hv (Or.inr ⟨h.1, by omega⟩)

theorem td_unique_L2R (op : Ops α) (L : GruLayer α d_input d_mem) (top_data c : Rows α d_mem)
    (g : Rows α (2 * d_mem)) (bottom_data : Rows α d_input) (n m : Nat)
    (ext td td2 : Rows α d_mem)
    (h1 : ∀ t, m ≤ t → td t = ext t + if t + 1 < n then
      (sgL2R op L top_data c g bottom_data td (t + 1)).d_pre_h 0 else 0)
    (h2 : ∀ t, m ≤ t → td2 t = ext t + if t + 1 < n then
      (sgL2R op L top_data c g bottom_data td2 (t + 1)).d_pre_h 0 else 0) :
    ∀ t, m ≤ t → td t = td2 t := by
  have key : ∀ d t, m ≤ t → n - 1 - t ≤ d → td t = td2 t := by
    intro d
    induction d with
    | zero =>
      intro t hm hd
      rw [h1 t hm, h2 t hm, if_neg (by omega), if_neg (by omega)]
    | succ d ih =>
      intro t hm hd
      rw [h1 t hm, h2 t hm]
      by_cases hc : t + 1 < n
      · rw [if_pos hc, if_pos hc,
          sgL2R_congr op L top_data c g bottom_data td td2 (t + 1) (ih (t + 1) (by omega) (by omega))]
      · rw [if_neg hc, if_neg hc]
  intro t hm
  exact key (n - 1 - t) t hm (le_refl _)

theorem td_unique_R2L (op : Ops α) (L : GruLayer α d_input d_mem) (top_data c : Rows α d_mem)
    (g : Rows α (2 * d_mem)) (bottom_data : Rows α d_input) (n m : Nat)
    (ext td td2 : Rows α d_mem)
    (h1 : ∀ t, t ≤ m → td t = ext t + if 1 ≤ t ∧ t < n then
      (sgR2L op L n top_data c g bottom_data td (t - 1)).d_pre_h 0 else 0)
    (h2 : ∀ t, t ≤ m → td2 t = ext t + if 1 ≤ t ∧ t < n then
      (sgR2L op L n top_data c g bottom_data td2 (t - 1)).d_pre_h 0 else 0) :
    ∀ t, t ≤ m → td t = td2 t := by
  intro t
  induction t with
  | zero =>
    intro hm
    rw [h1 0 hm, h2 0 hm, if_neg (by omega), if_neg (by omega)]
  | succ t ih =>
    intro hm
    rw [h1 (t + 1) hm, h2 (t + 1) hm]
    by_cases hc : 1 ≤ t + 1 ∧ t + 1 < n
    · rw [if_pos hc, if_pos hc]
      simp only [Nat.add_sub_cancel]
      rw [sgR2L_congr op L n top_data c g bottom_data td td2 t (ih (by omega))]
    · rw [if_neg hc, if_neg hc]

theorem bpL2R_received (op : Ops α) (n : Nat) (top_data c : Rows α d_mem)
    (g : Rows α (2 * d_mem)) (bottom_data : Rows α d_input) (st0 : BpSeq α d_input d_mem)
    (hc : ∀ t, t < n → st0.c_er t = 0) (hg : ∀ t, t < n → st0.g_er t = 0) :
    ∃ r, BackpropForLeft2RightLstm op n top_data c g bottom_data st0 = .ok r ∧
      BpInvL2R op n top_data c g bottom_data st0 n r ∧
      ∀ t, t < n → ∃ s_t,
        ((List.range n).reverse.take (n - 1 - t)).foldlM
            (bpBodyL2R op top_data c g bottom_data) st0 = .ok s_t ∧
          BpInvL2R op n top_data c g bottom_data st0 (n - 1 - t) s_t ∧
          ∀ t2, t ≤ t2 → s_t.top_diff t2 = r.top_diff t2 := by
  obtain ⟨r, hr, hI⟩ := bpL2R_partial op n n (le_refl _) top_data c g bottom_data st0 hc hg
  rw [range_reverse_take_self] at hr
  refine ⟨r, hr, hI, ?_⟩
  intro t ht
  obtain ⟨s_t, hs, hIs⟩ :=
    bpL2R_partial op n (n - 1 - t) (by omega) top_data c g bottom_data st0 hc hg
  refine ⟨s_t, hs, hIs, ?_⟩
  apply td_unique_L2R op st0.layer top_data c g bottom_data n t st0.top_diff
  · intro t2 ht2
    rw [hIs.2.1 t2]
    by_cases hc : t2 + 1 < n
    · rw [if_pos ⟨by omega, hc⟩, if_pos hc]
    · rw [if_neg (by omega), if_neg hc]
  · intro t2 ht2
    rw [hI.2.1 t2]
    by_cases hc : t2 + 1 < n
    · rw [if_pos ⟨by omega, hc⟩, if_pos hc]
    · rw [if_neg (by omega), if_neg hc]

theorem bpR2L_received (op : Ops α) (n : Nat) (top_data c : Rows α d_mem)
    (g : Rows α (2 * d_mem)) (bottom_data : Rows α d_input) (st0 : BpSeq α d_input d_mem)
    (hc : ∀ t, t < n → st0.c_er t = 0) (hg : ∀ t, t < n → st0.g_er t = 0) :
    ∃ r, BackpropForRight2LeftLstm op n top_data c g bottom_data st0 = .ok r ∧
      BpInvR2L op n top_data c g bottom_data st0 n r ∧
      ∀ t, t < n → ∃ s_t,
        ((List.range n).take t).foldlM
            (bpBodyR2L op n top_data c g bottom_data) st0 = .ok s_t ∧
          BpInvR2L op n top_data c g bottom_data st0 t s_t ∧
          ∀ t2, t2 ≤ t → s_t.top_diff t2 = r.top_diff t2 := by
  obtain ⟨r, hr, hI⟩ := bpR2L_partial op n n (le_refl _) top_data c g bottom_data st0 hc hg
  rw [range_take_self] at hr
  refine ⟨r, hr, hI, ?_⟩
  intro t ht
  obtain ⟨s_t, hs, hIs⟩ :=
    bpR2L_partial op n t (by omega) top_data c g bottom_data st0 hc hg
  refine ⟨s_t, hs, hIs, ?_⟩
  apply td_unique_R2L op st0.layer top_data c g bottom_data n t st0.top_diff
  · intro t2 ht2
    rw [hIs.2.1 t2]
    by_cases hc : 1 ≤ t2 ∧ t2 < n
    · rw [if_pos ⟨hc.1, by omega, hc.2⟩, if_pos hc]
    · rw [if_neg (by omega), if_neg hc]
  · intro t2 ht2
    rw [hI.2.1 t2]
    by_cases hc : 1 ≤ t2 ∧ t2 < n
    · rw [if_pos ⟨hc.1, by omega, hc.2⟩, if_pos hc]
    · rw [if_neg (by omega), if_neg hc]

theorem fwdL2R_rows_agree (op : Ops α) (L : GruLayer α d_input d_mem) (x : Rows α d_input)
    (st0 st1 s s2 : FwdSeq α d_mem) (k k2 : Nat)
    (h1 : FwdInvL2R op L x st0 k s) (h2 : FwdInvL2R op L x st1 k2 s2) :
    ∀ t, t < k → t < k2 → rowTriple s t = rowTriple s2 t := by
  intro t
  induction t with
  | zero =>
    intro hk hk2
    rw [(h1 0).1 hk, (h2 0).1 hk2]
    simp [preL2R]
  | succ t ih =>
    intro hk hk2
    rw [(h1 (t + 1)).1 hk, (h2 (t + 1)).1 hk2]
    have e : Slice s.out t = Slice s2.out t :=
      congrArg (fun p => p.2.2) (ih (by omega) (by omega))
    simp [preL2R, e]

theorem fwdR2L_rows_agree (op : Ops α) (L : GruLayer α d_input d_mem) (n : Nat)
    (x : Rows α d_input) (st0 st1 s s2 : FwdSeq α d_mem) (k k2 : Nat)
    (h1 : FwdInvR2L op L n x st0 k s) (h2 : FwdInvR2L op L n x st1 k2 s2) :
    ∀ t, n - k ≤ t → n - k2 ≤ t → t < n → rowTriple s t = rowTriple s2 t := by
  have key : ∀ d t, n - 1 - t ≤ d → n - k ≤ t → n - k2 ≤ t → t < n →
      rowTriple s t = rowTriple s2 t := by
    intro d
    induction d with
    | zero =>
      intro t hd hk hk2 hn
      rw [(h1 t).1 hk hn, (h2 t).1 hk2 hn]
      have e : t = n - 1 := by omega
      simp [preR2L, e]
    | succ d ih =>
      intro t hd hk hk2 hn
      rw [(h1 t).1 hk hn, (h2 t).1 hk2 hn]
      by_cases e : t = n - 1
      · simp [preR2L, e]
      · have e2 : Slice s.out (t + 1) = Slice s2.out (t + 1) :=
          congrArg (fun p => p.2.2) (ih (t + 1) (by omega) (by omega) (by omega) (by omega))
        simp [preR2L, e, e2]
  intro t hk hk2 hn
  exact key (n - 1 - t) t (le_refl _) hk hk2 hn

theorem pair_forward_determined (op : Ops α) (L : GruLayer α d_input d_mem)
    (bottom bottom2 : Node α d_input) (bufs bufs2 : FwdSeq α d_mem) (b s b2 s2 : Nat)
    (hlen : bottom.length b s = bottom2.length b2 s2)
    (hx : bottom.data b s = bottom2.data b2 s2)
    (hd : PairForwardDone op L bottom bufs b s)
    (hd2 : PairForwardDone op L bottom2 bufs2 b2 s2) : bufs = bufs2 := by
  unfold PairForwardDone at hd hd2
  rw [← hlen, ← hx] at hd2
  have key : ∀ t, bufs.g t = bufs2.g t ∧ bufs.c t = bufs2.c t ∧ bufs.out t = bufs2.out t := by
    intro t
    cases hrev : L.reverse
    · simp only [hrev, Bool.false_eq_true, if_false] at hd hd2
      by_cases ht : t < (bottom.length b s).toNat
      · have := fwdL2R_rows_agree op L _ _ _ _ _ _ _ hd hd2 t ht ht
        simp only [rowTriple, Prod.mk.injEq] at this
        exact ⟨row_eq_of_Slice _ _ _ _ this.1, row_eq_of_Slice _ _ _ _ this.2.1,
          row_eq_of_Slice _ _ _ _ this.2.2⟩
      · obtain ⟨a1, a2, a3⟩ := (hd t).2 (by omega)
        obtain ⟨c1, c2, c3⟩ := (hd2 t).2 (by omega)
        exact ⟨a1.trans c1.symm, a2.trans c2.symm, a3.trans c3.symm⟩
    · simp only [hrev, if_true] at hd hd2
      by_cases ht : t < (bottom.length b s).toNat
      · have := fwdR2L_rows_agree op L _ _ _ _ _ _ _ _ hd hd2 t (by omega) (by omega) ht
        simp only [rowTriple, Prod.mk.injEq] at this
        exact ⟨row_eq_of_Slice _ _ _ _ this.1, row_eq_of_Slice _ _ _ _ this.2.1,
          row_eq_of_Slice _ _ _ _ this.2.2⟩
      · obtain ⟨a1, a2, a3⟩ := (hd t).2 (Or.inr (by omega))
        obtain ⟨c1, c2, c3⟩ := (hd2 t).2 (Or.inr (by omega))
        exact ⟨a1.trans c1.symm, a2.trans c2.symm, a3.trans c3.symm⟩
  obtain ⟨g1, c1, o1⟩ := bufs
  obtain ⟨g2, c2, o2⟩ := bufs2
  simp only [FwdSeq.mk.injEq]
  exact ⟨funext fun t => (key t).1, funext fun t => (key t).2.1, funext fun t => (key t).2.2⟩

theorem sgL2R_layer_congr (op : Ops α) (L L2 : GruLayer α d_input d_mem)
    (hw : L.params0.data = L2.params0.data ∧ L.params1.data = L2.params1.data ∧
      L.params3.data = L2.params3.data ∧ L.params4.data = L2.params4.data ∧
      L.begin_h = L2.begin_h)
    (top_data c : Rows α d_mem) (g : Rows α (2 * d_mem)) (bottom_data : Rows α d_input)
    (td : Rows α d_mem) (t : Nat) :
    sgL2R op L top_data c g bottom_data td t = sgL2R op L2 top_data c g bottom_data td t := by
  obtain ⟨h0, h1, h3, h4, hb⟩ := hw
  simp only [sgL2R, layerBpStep, h0, h1, h3, h4, hb]

theorem sgR2L_layer_congr (op : Ops α) (L L2 : GruLayer α d_input d_mem)
    (hw : L.params0.data = L2.params0.data ∧ L.params1.data = L2.params1.data ∧
      L.params3.data = L2.params3.data ∧ L.params4.data = L2.params4.data ∧
      L.begin_h = L2.begin_h) (n : Nat)
    (top_data c : Rows α d_mem) (g : Rows α (2 * d_mem)) (bottom_data : Rows α d_input)
    (td : Rows α d_mem) (t : Nat) :
    sgR2L op L n top_data c g bottom_data td t
      = sgR2L op L2 n top_data c g bottom_data td t := by
  obtain ⟨h0, h1, h3, h4, hb⟩ := hw
  simp only [sgR2L, layerBpStep, h0, h1, h3, h4, hb]

theorem pair_backward_determined (op : Ops α) (L L2 : GruLayer α d_input d_mem)
    (bottom bottom2 : Node α d_input) (top top2 : Node α d_mem) (b s b2 s2 : Nat)
    (td ce td2 ce2 : Rows α d_mem) (ge ge2 : Rows α (2 * d_mem)) (bd bd2 : Rows α d_input)
    (hw : L.params0.data = L2.params0.data ∧ L.params1.data = L2.params1.data ∧
      L.params3.data = L2.params3.data ∧ L.params4.data = L2.params4.data ∧
      L.begin_h = L2.begin_h)
    (hrev : L.reverse = L2.reverse)
    (hlen : bottom.length b s = bottom2.length b2 s2)
    (hx : bottom.data b s = bottom2.data b2 s2)
    (hout : top.data b s = top2.data b2 s2)
    (hc : L.c b s = L2.c b2 s2) (hg : L.g b s = L2.g b2 s2)
    (hext : top.diff b s = top2.diff b2 s2)
    (hd : PairBackDone op L bottom top td ce ge bd b s)
    (hd2 : PairBackDone op L2 bottom2 top2 td2 ce2 ge2 bd2 b2 s2) :
    td = td2 ∧ pairGrad op L bottom top td b s = pairGrad op L2 bottom2 top2 td2 b2 s2 := by
  obtain ⟨Lr, hd⟩ := hd
  obtain ⟨Lr2, hd2⟩ := hd2
  have hsgL := sgL2R_layer_congr op L L2 hw
  have hsgR := sgR2L_layer_congr op L L2 hw
  unfold pairGrad
  rw [← hrev, ← hlen, ← hx, ← hout, ← hc, ← hg] at hd2 ⊢
  cases hr : L.reverse
  · simp only [hr, Bool.false_eq_true, if_false] at hd hd2 ⊢
    have e : td = td2 := by
      funext t
      apply td_unique_L2R op L (top.data b s) (L.c b s) (L.g b s) (bottom.data b s)
        (bottom.length b s).toNat 0 (top.diff b s) td td2 _ _ t (Nat.zero_le _)
      · intro t _
        have := hd.2.1 t
        simp only [bpStart] at this
        rw [this]
        by_cases h : t + 1 < (bottom.length b s).toNat
        · rw [if_pos ⟨by omega, h⟩, if_pos h]
        · rw [if_neg (by omega), if_neg h]
      · intro t _
        have := hd2.2.1 t
        simp only [bpStart, ← hsgL, ← hext] at this
        rw [this]
        by_cases h : t + 1 < (bottom.length b s).toNat
        · rw [if_pos ⟨by omega, h⟩, if_pos h]
        · rw [if_neg (by omega), if_neg h]
    refine ⟨e, ?_⟩
    simp only [← hsgL, e]
  · simp only [hr, if_true] at hd hd2 ⊢
    have e : td = td2 := by
      funext t
      apply td_unique_R2L op L (top.data b s) (L.c b s) (L.g b s) (bottom.data b s)
        (bottom.length b s).toNat t (top.diff b s) td td2 _ _ t (le_refl _)
      · intro t _
        have := hd.2.1 t
        simp only [bpStart] at this
        rw [this]
        by_cases h : 1 ≤ t ∧ t < (bottom.length b s).toNat
        · rw [if_pos ⟨h.1, by omega, h.2⟩, if_pos h]
        · rw [if_neg (by omega), if_neg h]
      · intro t _
        have := hd2.2.1 t
        simp only [bpStart, ← hsgR, ← hext] at this
        rw [this]
        by_cases h : 1 ≤ t ∧ t < (bottom.length b s).toNat
        · rw [if_pos ⟨h.1, by omega, h.2⟩, if_pos h]
        · rw [if_neg (by omega), if_neg h]
    refine ⟨e, ?_⟩
    simp only [← hsgR, e]

/-! ### Claims -/

/-- C1: `ForwardOneStep` never fails and equals the reference transition `refStep`:
`g = sigmoid(x·W_gate_in + h₋·W_gate_hidden)`, `r` and `z` the first and second `d_mem` columns
of `g`, `c = tanh(x·W_cand_in + (r ⊙ h₋)·W_cand_hidden)`, `h = z ⊙ h₋ + (1 − z) ⊙ c`, without
bias; the result depends on the layer only through `params[0,1,3,4].data`. -/
theorem C1_ForwardOneStep_reference (op : Ops α) (L : GruLayer α d_input d_mem)
    (h_prev : Tensor2D α 1 d_mem) (x : Tensor2D α 1 d_input) :
    ForwardOneStep op L h_prev x
        = .ok (refStep op L.params0.data L.params1.data L.params3.data L.params4.data h_prev x) ∧
      ∀ L2 : GruLayer α d_input d_mem,
        L2.params0.data = L.params0.data → L2.params1.data = L.params1.data →
        L2.params3.data = L.params3.data → L2.params4.data = L.params4.data →
        ForwardOneStep op L2 h_prev x = ForwardOneStep op L h_prev x := by
  refine ⟨ForwardOneStep_eq op L h_prev x, ?_⟩
  intro L2 h0 h1 h3 h4
  rw [ForwardOneStep_eq, ForwardOneStep_eq, h0, h1, h3, h4]

theorem validLengths_exBottom (B : Nat) (len : ℤ) (h0 : 0 ≤ len) (h2 : len ≤ 2) :
    ValidLengths (exBottom B len) := by
  intro b _ s _
  exact ⟨h0, h2⟩

/-- C2: under the length precondition and with a zero initial hidden state, `Forward` succeeds,
keeps the direction flag, and for every pair and every time index `t` below the valid length the
gate, candidate and hidden rows it leaves at `t` are the reference transition applied to the
input row `t` and to the previous hidden state of the direction selected by `reverse`:
with `reverse = false` the zero vector at `t = 0` and the output row `t - 1` otherwise, with
`reverse = true` the zero vector at `t = L - 1` and the output row `t + 1` otherwise. -/
theorem C2_Forward_recurrence (op : Ops α) (L : GruLayer α d_input d_mem)
    (bottom : Node α d_input) (top : Node α d_mem) (hlen : ValidLengths bottom)
    (hb : L.begin_h = 0) :
    ∃ r, Forward op L bottom top = .ok r ∧ r.1.reverse = L.reverse ∧
      ∀ b, b < bottom.size0 → ∀ s, s < bottom.size1 → ∀ t, t < (bottom.length b s).toNat →
        (Slice (r.1.g b s) t, Slice (r.1.c b s) t, Slice (r.2.data b s) t)
          = layerStep op L
              (if L.reverse then preR2L 0 (bottom.length b s).toNat (r.2.data b s) t
               else preL2R 0 (r.2.data b s) t)
              (Slice (bottom.data b s) t) := by
  obtain ⟨r, hr, cc, gg, dd, rfl, h1, -⟩ := Forward_inv op L bottom top hlen
  refine ⟨_, hr, rfl, ?_⟩
  intro b hb' s hs t ht
  have hd := h1 b s (Or.inl ⟨hb', hs⟩)
  unfold PairForwardDone at hd
  cases hrev : L.reverse
  · simp only [hrev, Bool.false_eq_true, if_false] at hd ⊢
    have := (hd t).1 ht
    rw [hb] at this
    exact this
  · simp only [hrev, if_true] at hd ⊢
    have := (hd t).1 (by omega) ht
    rw [hb] at this
    exact this

theorem C2_Forward_recurrence_witness :
    ValidLengths (exBottom 1 2) ∧ (exLayer false 0).begin_h = 0 ∧
    ∃ r, Forward exOps (exLayer false 0) (exBottom 1 2) (exTop 1) = .ok r ∧
      r.1.reverse = (exLayer false 0).reverse ∧
      ∀ b, b < (exBottom 1 2).size0 → ∀ s, s < (exBottom 1 2).size1 →
        ∀ t, t < ((exBottom 1 2).length b s).toNat →
        (Slice (r.1.g b s) t, Slice (r.1.c b s) t, Slice (r.2.data b s) t)
          = layerStep exOps (exLayer false 0)
              (if (exLayer false 0).reverse then
                preR2L 0 ((exBottom 1 2).length b s).toNat (r.2.data b s) t
               else preL2R 0 (r.2.data b s) t)
              (Slice ((exBottom 1 2).data b s) t) :=
  ⟨validLengths_exBottom 1 2 (by decide) (by decide), rfl,
    C2_Forward_recurrence exOps (exLayer false 0) (exBottom 1 2) (exTop 1)
      (validLengths_exBottom 1 2 (by decide) (by decide)) rfl⟩

/-- C3: when the scratch slices `cur_c_er` and `cur_g_er` are zero on entry, `BpOneStep`
succeeds and equals the reference backward step `refBpStep`: it leaves `cur_c_er = dc` and
`cur_g_er = dg = [dr | dz]`, adds `cur_h_er ⊙ z + r ⊙ tmp + dg·W_gate_hiddenᵗ` to `pre_h_er`,
adds `dc·W_cand_inᵗ + dg·W_gate_inᵗ` to `x_er`, and adds `xᵗ·dg`, `h₋ᵗ·dg`, `xᵗ·dc`,
`(r ⊙ h₋)ᵗ·dc` to the gradient accumulators of `params[0]`, `params[1]`, `params[3]`,
`params[4]`. -/
theorem C3_BpOneStep_reference (op : Ops α) (L : GruLayer α d_input d_mem)
    (cur_h_er pre_h : Tensor2D α 1 d_mem) (x : Tensor2D α 1 d_input)
    (cur_g : Tensor2D α 1 (2 * d_mem)) (cur_c cur_h : Tensor2D α 1 d_mem)
    (cur_c_er : Tensor2D α 1 d_mem) (cur_g_er : Tensor2D α 1 (2 * d_mem))
    (pre_h_er : Tensor2D α 1 d_mem) (x_er : Tensor2D α 1 d_input)
    (hc : cur_c_er = 0) (hg : cur_g_er = 0) :
    BpOneStep op L cur_h_er pre_h x cur_g cur_c cur_h cur_c_er cur_g_er pre_h_er x_er
      = .ok { layer := addGrad L (refBpStep op L.params0.data L.params1.data L.params3.data
                L.params4.data cur_h_er pre_h x cur_g cur_c)
              cur_c_er := (refBpStep op L.params0.data L.params1.data L.params3.data
                L.params4.data cur_h_er pre_h x cur_g cur_c).dc
              cur_g_er := (refBpStep op L.params0.data L.params1.data L.params3.data
                L.params4.data cur_h_er pre_h x cur_g cur_c).dg
              pre_h_er := pre_h_er + (refBpStep op L.params0.data L.params1.data L.params3.data
                L.params4.data cur_h_er pre_h x cur_g cur_c).d_pre_h
              x_er := x_er + (refBpStep op L.params0.data L.params1.data L.params3.data
                L.params4.data cur_h_er pre_h x cur_g cur_c).d_x } := by
  subst hc hg
  exact BpOneStep_eq op L cur_h_er pre_h x cur_g cur_c cur_h pre_h_er x_er

theorem C3_BpOneStep_reference_witness :
    (0 : Tensor2D ℚ 1 1) = 0 ∧ (0 : Tensor2D ℚ 1 (2 * 1)) = 0 ∧
    BpOneStep exOps (exLayer false 0) 1 1 1 1 1 1 0 0 1 1
      = .ok { layer := addGrad (exLayer false 0) (refBpStep exOps (exLayer false 0).params0.data
                (exLayer false 0).params1.data (exLayer false 0).params3.data
                (exLayer false 0).params4.data 1 1 1 1 1)
              cur_c_er := (refBpStep exOps (exLayer false 0).params0.data
                (exLayer false 0).params1.data (exLayer false 0).params3.data
                (exLayer false 0).params4.data 1 1 1 1 1).dc
              cur_g_er := (refBpStep exOps (exLayer false 0).params0.data
                (exLayer false 0).params1.data (exLayer false 0).params3.data
                (exLayer false 0).params4.data 1 1 1 1 1).dg
              pre_h_er := 1 + (refBpStep exOps (exLayer false 0).params0.data
                (exLayer false 0).params1.data (exLayer false 0).params3.data
                (exLayer false 0).params4.data 1 1 1 1 1).d_pre_h
              x_er := 1 + (refBpStep exOps (exLayer false 0).params0.data
                (exLayer false 0).params1.data (exLayer false 0).params3.data
                (exLayer false 0).params4.data 1 1 1 1 1).d_x } :=
  ⟨rfl, rfl, C3_BpOneStep_reference exOps (exLayer false 0) 1 1 1 1 1 1 0 0 1 1 rfl rfl⟩

theorem Forward_zero_beyond (op : Ops α) (L : GruLayer α d_input d_mem)
    (bottom : Node α d_input) (bufs : FwdSeq α d_mem) (b s t : Nat)
    (hd : PairForwardDone op L bottom bufs b s) (ht : bottom.length b s ≤ t) :
    bufs.out t = 0 ∧ bufs.g t = 0 ∧ bufs.c t = 0 := by
  unfold PairForwardDone at hd
  have hn : (bottom.length b s).toNat ≤ t := by omega
  cases hrev : L.reverse
  · simp only [hrev, Bool.false_eq_true, if_false] at hd
    obtain ⟨h1, h2, h3⟩ := (hd t).2 hn
    exact ⟨h3, h1, h2⟩
  · simp only [hrev, if_true] at hd
    obtain ⟨h1, h2, h3⟩ := (hd t).2 (Or.inr hn)
    exact ⟨h3, h1, h2⟩

/-- C7: under the length precondition `Forward` succeeds and leaves, for every pair inside the
shape and every time index `t` at or beyond the valid length of the pair, zero in the output
hidden-state tensor, the gate cache and the candidate cache; a following `Backprop` (whatever
the output gradient `td` and the input gradient buffer `bd` hold) succeeds and leaves these
three tensors zero at the same indices. The statement holds for both values of `reverse`. -/
theorem C7_length_masking (op : Ops α) (L : GruLayer α d_input d_mem)
    (bottom : Node α d_input) (top : Node α d_mem) (hlen : ValidLengths bottom) :
    ∃ r, Forward op L bottom top = .ok r ∧
      (∀ b, b < bottom.size0 → ∀ s, s < bottom.size1 → ∀ t : Nat, bottom.length b s ≤ t →
        r.2.data b s t = 0 ∧ r.1.g b s t = 0 ∧ r.1.c b s t = 0) ∧
      ∀ (bd : Tensor4D α d_input) (td : Tensor4D α d_mem),
        ∃ r2, Backprop op r.1 { bottom with diff := bd } { r.2 with diff := td } = .ok r2 ∧
          ∀ b, b < bottom.size0 → ∀ s, s < bottom.size1 → ∀ t : Nat, bottom.length b s ≤ t →
            r2.top.data b s t = 0 ∧ r2.layer.g b s t = 0 ∧ r2.layer.c b s t = 0 := by
  obtain ⟨r, hr, cc, gg, dd, rfl, h1, -⟩ := Forward_inv op L bottom top hlen
  have hz : ∀ b, b < bottom.size0 → ∀ s, s < bottom.size1 → ∀ t : Nat, bottom.length b s ≤ t →
      dd b s t = 0 ∧ gg b s t = 0 ∧ cc b s t = 0 := by
    intro b hb s hs t ht
    exact Forward_zero_beyond op L bottom ⟨gg b s, cc b s, dd b s⟩ b s t
      (h1 b s (Or.inl ⟨hb, hs⟩)) ht
  refine ⟨_, hr, hz, ?_⟩
  intro bd td
  obtain ⟨r2, hr2, G, bh, ce, ge, bd2, td2, rfl, -⟩ := Backprop_inv op
    { L with c := cc, g := gg, c_er := 0, g_er := 0 } { bottom with diff := bd }
    { top with length := bottom.length, data := dd, diff := td } hlen
  exact ⟨_, hr2, hz⟩

theorem C7_length_masking_witness :
    ValidLengths (exBottom 1 1) ∧
    ∃ r, Forward exOps (exLayer true 0) (exBottom 1 1) (exTop 1) = .ok r ∧
      (∀ b, b < (exBottom 1 1).size0 → ∀ s, s < (exBottom 1 1).size1 → ∀ t : Nat,
        (exBottom 1 1).length b s ≤ t →
        r.2.data b s t = 0 ∧ r.1.g b s t = 0 ∧ r.1.c b s t = 0) ∧
      ∀ (bd : Tensor4D ℚ 1) (td : Tensor4D ℚ 1),
        ∃ r2, Backprop exOps r.1 { exBottom 1 1 with diff := bd } { r.2 with diff := td }
            = .ok r2 ∧
          ∀ b, b < (exBottom 1 1).size0 → ∀ s, s < (exBottom 1 1).size1 → ∀ t : Nat,
            (exBottom 1 1).length b s ≤ t →
            r2.top.data b s t = 0 ∧ r2.layer.g b s t = 0 ∧ r2.layer.c b s t = 0 :=
  ⟨validLengths_exBottom 1 1 (by decide) (by decide),
    C7_length_masking exOps (exLayer true 0) (exBottom 1 1) (exTop 1)
      (validLengths_exBottom 1 1 (by decide) (by decide))⟩

theorem fwd_direction_symmetry (op : Ops α) (L L2 : GruLayer α d_input d_mem)
    (hw : L2.params0.data = L.params0.data ∧ L2.params1.data = L.params1.data ∧
      L2.params3.data = L.params3.data ∧ L2.params4.data = L.params4.data ∧
      L2.begin_h = L.begin_h)
    (n : Nat) (x : Rows α d_input) (st0 st1 sF sR : FwdSeq α d_mem)
    (hF : FwdInvL2R op L x st0 n sF) (hR : FwdInvR2L op L2 n (revRows n x) st1 n sR) :
    ∀ t, t < n → rowTriple sF t = rowTriple sR (n - 1 - t) := by
  obtain ⟨hw0, hw1, hw3, hw4, hwb⟩ := hw
  have hstep : ∀ h y, layerStep op L2 h y = layerStep op L h y := by
    intro h y
    simp only [layerStep, hw0, hw1, hw3, hw4]
  intro t
  induction t with
  | zero =>
    intro ht
    rw [(hF 0).1 ht, (hR (n - 1 - 0)).1 (by omega) (by omega), hstep, hwb]
    have e1 : preL2R L.begin_h sF.out 0 = L.begin_h := by simp [preL2R]
    have e2 : preR2L L.begin_h n sR.out (n - 1 - 0) = L.begin_h := by simp [preR2L]
    have e3 : Slice (revRows n x) (n - 1 - 0) = Slice x 0 := by
      apply Slice_eq_of_row
      simp only [revRows]
      rw [if_pos (by omega)]
      have e : n - 1 - (n - 1 - 0) = 0 := by omega
      rw [e]
    rw [e1, e2, e3]
  | succ t ih =>
    intro ht
    have ih2 := ih (by omega)
    rw [(hF (t + 1)).1 ht, (hR (n - 1 - (t + 1))).1 (by omega) (by omega), hstep, hwb]
    have e1 : preL2R L.begin_h sF.out (t + 1) = Slice sF.out t := by simp [preL2R]
    have e2 : preR2L L.begin_h n sR.out (n - 1 - (t + 1)) = Slice sR.out (n - 1 - t) := by
      unfold preR2L
      rw [if_neg (by omega)]
      have e : n - 1 - (t + 1) + 1 = n - 1 - t := by omega
      rw [e]
    have e3 : Slice (revRows n x) (n - 1 - (t + 1)) = Slice x (t + 1) := by
      apply Slice_eq_of_row
      simp only [revRows]
      rw [if_pos (by omega)]
      have e : n - 1 - (n - 1 - (t + 1)) = t + 1 := by omega
      rw [e]
    have e4 : Slice sF.out t = Slice sR.out (n - 1 - t) := by
      have := congrArg (fun p => p.2.2) ih2
      exact this
    rw [e1, e2, e3, e4]

/-- C6: for a fixed layer (weights and initial hidden state), `Forward` with `reverse = false`
on an input and `Forward` with `reverse = true` on the input whose valid rows are
element-reversed in every pair both succeed under the length precondition, and for every pair
and every `t` below the valid length `L` the hidden-state, gate and candidate rows of the first
at `t` are those of the second at `L - 1 - t`. -/
theorem C6_direction_symmetry (op : Ops α) (L : GruLayer α d_input d_mem)
    (bottom : Node α d_input) (top top2 : Node α d_mem) (hlen : ValidLengths bottom) :
    ∃ rF rR, Forward op { L with reverse := false } bottom top = .ok rF ∧
      Forward op { L with reverse := true } (revInput bottom) top2 = .ok rR ∧
      ∀ b, b < bottom.size0 → ∀ s, s < bottom.size1 → ∀ t, t < (bottom.length b s).toNat →
        rF.2.data b s t = rR.2.data b s ((bottom.length b s).toNat - 1 - t) ∧
        rF.1.g b s t = rR.1.g b s ((bottom.length b s).toNat - 1 - t) ∧
        rF.1.c b s t = rR.1.c b s ((bottom.length b s).toNat - 1 - t) := by
  obtain ⟨rF, hF, cc, gg, dd, rfl, h1, -⟩ :=
    Forward_inv op { L with reverse := false } bottom top hlen
  obtain ⟨rR, hR, cc2, gg2, dd2, rfl, h2, -⟩ :=
    Forward_inv op { L with reverse := true } (revInput bottom) top2 hlen
  refine ⟨_, _, hF, hR, ?_⟩
  intro b hb s hs t ht
  have hd1 := h1 b s (Or.inl ⟨hb, hs⟩)
  have hd2 := h2 b s (Or.inl ⟨hb, hs⟩)
  unfold PairForwardDone at hd1 hd2
  simp only [Bool.false_eq_true, if_false, if_true] at hd1 hd2
  have := fwd_direction_symmetry op { L with reverse := false } { L with reverse := true }
    ⟨rfl, rfl, rfl, rfl, rfl⟩ (bottom.length b s).toNat (bottom.data b s) _ _ _ _ hd1 hd2 t ht
  simp only [rowTriple, Prod.mk.injEq] at this
  exact ⟨row_eq_of_Slice _ _ _ _ this.2.2, row_eq_of_Slice _ _ _ _ this.1,
    row_eq_of_Slice _ _ _ _ this.2.1⟩

theorem C6_direction_symmetry_witness :
    ValidLengths (exBottom 1 2) ∧
    ∃ rF rR, Forward exOps { exLayer false 0 with reverse := false } (exBottom 1 2) (exTop 1)
        = .ok rF ∧
      Forward exOps { exLayer false 0 with reverse := true } (revInput (exBottom 1 2)) (exTop 1)
        = .ok rR ∧
      ∀ b, b < (exBottom 1 2).size0 → ∀ s, s < (exBottom 1 2).size1 →
        ∀ t, t < ((exBottom 1 2).length b s).toNat →
        rF.2.data b s t = rR.2.data b s (((exBottom 1 2).length b s).toNat - 1 - t) ∧
        rF.1.g b s t = rR.1.g b s (((exBottom 1 2).length b s).toNat - 1 - t) ∧
        rF.1.c b s t = rR.1.c b s (((exBottom 1 2).length b s).toNat - 1 - t) :=
  ⟨validLengths_exBottom 1 2 (by decide) (by decide),
    C6_direction_symmetry exOps (exLayer false 0) (exBottom 1 2) (exTop 1) (exTop 1)
      (validLengths_exBottom 1 2 (by decide) (by decide))⟩

theorem Backprop_grads (op : Ops α) (L : GruLayer α d_input d_mem) (bottom : Node α d_input)
    (top : Node α d_mem) (hlen : ValidLengths bottom) :
    ∃ r, Backprop op L bottom top = .ok r ∧
      (grads r.layer, r.layer.begin_h_er) = (grads L, 0)
        + ∑ b in Finset.range bottom.size0, ∑ s in Finset.range bottom.size1,
            pairGrad op L bottom top (r.top.diff b s) b s ∧
      r.layer.params2 = L.params2 ∧ r.layer.params5 = L.params5 := by
  obtain ⟨r, hr, G, bh, ce, ge, bd, td, rfl, hG, -⟩ := Backprop_inv op L bottom top hlen
  refine ⟨_, hr, ?_, rfl, rfl⟩
  rw [Finset.range_zero, Finset.sum_empty, add_zero] at hG
  exact hG

/-- C8 (amended): under the length precondition `Backprop` succeeds; it sets `begin_h_er` to zero
before the double loop but does not zero any parameter gradient accumulator. After the call the
four weight gradient accumulators hold their content before the call plus the sum, over every
pair and every time index below its valid length, of the per-step quantities of the reference
backward step (for the upstream gradient left in `top.diff` at that index), `begin_h_er` holds
the sum over the pairs of the `pre_h_er` quantity of the step at the first forward-visited
index, and the two bias accumulators are unchanged. -/
theorem C8_Backprop_accumulates (op : Ops α) (L : GruLayer α d_input d_mem)
    (bottom : Node α d_input) (top : Node α d_mem) (hlen : ValidLengths bottom) :
    ∃ r, Backprop op L bottom top = .ok r ∧
      (grads r.layer, r.layer.begin_h_er) = (grads L, 0)
        + ∑ b in Finset.range bottom.size0, ∑ s in Finset.range bottom.size1,
            pairGrad op L bottom top (r.top.diff b s) b s ∧
      r.layer.params2.diff = L.params2.diff ∧ r.layer.params5.diff = L.params5.diff := by
  obtain ⟨r, hr, hG, h2, h5⟩ := Backprop_grads op L bottom top hlen
  exact ⟨r, hr, hG, by rw [h2], by rw [h5]⟩

theorem C8_Backprop_accumulates_witness :
    ValidLengths (exBottom 2 2) ∧
    ∃ r, Backprop exOps (exLayer false 5) (exBottom 2 2) (exTop 2) = .ok r ∧
      (grads r.layer, r.layer.begin_h_er) = (grads (exLayer false 5), 0)
        + ∑ b in Finset.range (exBottom 2 2).size0, ∑ s in Finset.range (exBottom 2 2).size1,
            pairGrad exOps (exLayer false 5) (exBottom 2 2) (exTop 2) (r.top.diff b s) b s ∧
      r.layer.params2.diff = (exLayer false 5).params2.diff ∧
      r.layer.params5.diff = (exLayer false 5).params5.diff :=
  ⟨validLengths_exBottom 2 2 (by decide) (by decide),
    C8_Backprop_accumulates exOps (exLayer false 5) (exBottom 2 2) (exTop 2)
      (validLengths_exBottom 2 2 (by decide) (by decide))⟩

/-- C8 (counterexample): all weights zero, one pair of valid length one with input one and
output gradient one, and the accumulator of `params[3]` holding five before the call.
`Forward` then `Backprop` leave `11/2` in that accumulator although the sum of the per-step
quantities of the call is `1/2`: the accumulator was not zeroed. -/
theorem C8_counterexample :
    ∃ f r, Forward exOps (exLayer false 5) (exBottom 1 1) (exTop 1) = .ok f ∧
      Backprop exOps f.1 (exBottom 1 1) f.2 = .ok r ∧
      r.layer.params3.diff 0 0 = 11 / 2 ∧
      (∑ b in Finset.range (exBottom 1 1).size0, ∑ s in Finset.range (exBottom 1 1).size1,
        pairGrad exOps f.1 (exBottom 1 1) f.2 (r.top.diff b s) b s).1.2.2.1 0 0 = 1 / 2 ∧
      (grads r.layer).2.2.1 ≠
        (∑ b in Finset.range (exBottom 1 1).size0, ∑ s in Finset.range (exBottom 1 1).size1,
          pairGrad exOps f.1 (exBottom 1 1) f.2 (r.top.diff b s) b s).1.2.2.1 := by
  refine ⟨_, _, rfl, rfl, by decide!, by decide!, ?_⟩
  intro h
  have := congrFun (congrFun h 0) 0
  revert this
  decide!

theorem Slice_add_of_row {n : Nat} (a e : Rows α n) (t t2 : Nat) (X : Tensor2D α 1 n)
    (h : a t = e t2 + X 0) : Slice a t = Slice e t2 + X := by
  funext i j
  obtain rfl : i = 0 := Subsingleton.elim _ _
  simp [Slice, h]

/-- C4: in both backward drivers, started from pair buffers whose gradient caches `c_er` and
`g_er` are zero on the valid rows (as `Backprop` leaves them), the driver succeeds and for every
`t` below the valid length the state `s_t` in which the loop body for index `t` runs exists and
the upstream gradient the body hands to `BpOneStep`, the row `t` of `s_t.top_diff`, is the
output gradient found at `t` before the call plus the `pre_h_er` quantity written by the step
processed immediately before (index `t + 1` for `BackpropForLeft2RightLstm`, index `t - 1` for
`BackpropForRight2LeftLstm`, nothing for the first step processed); that sum is what the driver
leaves in row `t` of `top_diff`. In `Backprop` itself, under the length precondition, the rows
of `top.diff` after the call satisfy the same equation with respect to `top.diff` before the
call, for every pair. -/
theorem C4_bptt_summation (op : Ops α) (n : Nat) (top_data c : Rows α d_mem)
    (g : Rows α (2 * d_mem)) (bottom_data : Rows α d_input) (st0 : BpSeq α d_input d_mem)
    (L : GruLayer α d_input d_mem) (bottom : Node α d_input) (top : Node α d_mem)
    (hc : ∀ t, t < n → st0.c_er t = 0) (hg : ∀ t, t < n → st0.g_er t = 0)
    (hlen : ValidLengths bottom) :
    (∃ r, BackpropForLeft2RightLstm op n top_data c g bottom_data st0 = .ok r ∧
      ∀ t, t < n → ∃ s_t,
        (bpVisitsBefore false n t).foldlM (bpBodyL2R op top_data c g bottom_data) st0
          = .ok s_t ∧
        Slice s_t.top_diff t = Slice r.top_diff t ∧
        Slice s_t.top_diff t = Slice st0.top_diff t
          + prevStepContribution op st0.layer false n top_data c g bottom_data r.top_diff t) ∧
    (∃ r, BackpropForRight2LeftLstm op n top_data c g bottom_data st0 = .ok r ∧
      ∀ t, t < n → ∃ s_t,
        (bpVisitsBefore true n t).foldlM (bpBodyR2L op n top_data c g bottom_data) st0
          = .ok s_t ∧
        Slice s_t.top_diff t = Slice r.top_diff t ∧
        Slice s_t.top_diff t = Slice st0.top_diff t
          + prevStepContribution op st0.layer true n top_data c g bottom_data r.top_diff t) ∧
    (∃ r, Backprop op L bottom top = .ok r ∧
      ∀ b, b < bottom.size0 → ∀ s, s < bottom.size1 → ∀ t, t < (bottom.length b s).toNat →
        Slice (r.top.diff b s) t = Slice (top.diff b s) t
          + prevStepContribution op L L.reverse (bottom.length b s).toNat (top.data b s)
              (L.c b s) (L.g b s) (bottom.data b s) (r.top.diff b s) t) := by
  refine ⟨?_, ?_, ?_⟩
  · obtain ⟨r, hr, hI, hrec⟩ := bpL2R_received op n top_data c g bottom_data st0 hc hg
    refine ⟨r, hr, ?_⟩
    intro t ht
    obtain ⟨s_t, hs, -, hu⟩ := hrec t ht
    have e := hu t (le_refl _)
    refine ⟨s_t, hs, Slice_eq_of_row _ _ _ _ e, ?_⟩
    apply Slice_add_of_row
    rw [e, hI.2.1 t]
    unfold prevStepContribution
    simp only [Bool.false_eq_true, if_false]
    by_cases h : t + 1 < n
    · rw [if_pos ⟨by omega, h⟩, if_pos h]
    · rw [if_neg (by omega), if_neg h]
      rfl
  · obtain ⟨r, hr, hI, hrec⟩ := bpR2L_received op n top_data c g bottom_data st0 hc hg
    refine ⟨r, hr, ?_⟩
    intro t ht
    obtain ⟨s_t, hs, -, hu⟩ := hrec t ht
    have e := hu t (le_refl _)
    refine ⟨s_t, hs, Slice_eq_of_row _ _ _ _ e, ?_⟩
    apply Slice_add_of_row
    rw [e, hI.2.1 t]
    unfold prevStepContribution
    simp only [if_true]
    by_cases h : 1 ≤ t ∧ t < n
    · rw [if_pos ⟨h.1, by omega, h.2⟩, if_pos h]
    · rw [if_neg (by omega), if_neg h]
      rfl
  · obtain ⟨r, hr, G, bh, ce, ge, bd, td, rfl, -, h1, -⟩ := Backprop_inv op L bottom top hlen
    refine ⟨_, hr, ?_⟩
    intro b hb s hs t ht
    obtain ⟨Lr, hd⟩ := h1 b s (Or.inl ⟨hb, hs⟩)
    apply Slice_add_of_row
    unfold prevStepContribution
    cases hrev : L.reverse
    · simp only [hrev, Bool.false_eq_true, if_false] at hd ⊢
      have := hd.2.1 t
      simp only [bpStart] at this
      rw [this]
      by_cases h : t + 1 < (bottom.length b s).toNat
      · rw [if_pos ⟨by omega, h⟩, if_pos h]
      · rw [if_neg (by omega), if_neg h]
        rfl
    · simp only [hrev, if_true] at hd ⊢
      have := hd.2.1 t
      simp only [bpStart] at this
      rw [this]
      by_cases h : 1 ≤ t ∧ t < (bottom.length b s).toNat
      · rw [if_pos ⟨h.1, by omega, h.2⟩, if_pos h]
      · rw [if_neg (by omega), if_neg h]
        rfl

theorem C4_bptt_summation_witness :
    (∀ t, t < 2 → (exBpSeq false).c_er t = 0) ∧ (∀ t, t < 2 → (exBpSeq false).g_er t = 0) ∧
    ValidLengths (exBottom 1 2) ∧
    ((∃ r, BackpropForLeft2RightLstm exOps 2 0 0 0 (fun _ _ => 1) (exBpSeq false) = .ok r ∧
      ∀ t, t < 2 → ∃ s_t,
        (bpVisitsBefore false 2 t).foldlM (bpBodyL2R exOps 0 0 0 (fun _ _ => 1)) (exBpSeq false)
          = .ok s_t ∧
        Slice s_t.top_diff t = Slice r.top_diff t ∧
        Slice s_t.top_diff t = Slice (exBpSeq false).top_diff t
          + prevStepContribution exOps (exBpSeq false).layer false 2 0 0 0 (fun _ _ => 1)
              r.top_diff t) ∧
    (∃ r, BackpropForRight2LeftLstm exOps 2 0 0 0 (fun _ _ => 1) (exBpSeq false) = .ok r ∧
      ∀ t, t < 2 → ∃ s_t,
        (bpVisitsBefore true 2 t).foldlM (bpBodyR2L exOps 2 0 0 0 (fun _ _ => 1))
            (exBpSeq false) = .ok s_t ∧
        Slice s_t.top_diff t = Slice r.top_diff t ∧
        Slice s_t.top_diff t = Slice (exBpSeq false).top_diff t
          + prevStepContribution exOps (exBpSeq false).layer true 2 0 0 0 (fun _ _ => 1)
              r.top_diff t) ∧
    (∃ r, Backprop exOps (exLayer false 0) (exBottom 1 2) (exTop 1) = .ok r ∧
      ∀ b, b < (exBottom 1 2).size0 → ∀ s, s < (exBottom 1 2).size1 →
        ∀ t, t < ((exBottom 1 2).length b s).toNat →
        Slice (r.top.diff b s) t = Slice ((exTop 1).diff b s) t
          + prevStepContribution exOps (exLayer false 0) (exLayer false 0).reverse
              ((exBottom 1 2).length b s).toNat ((exTop 1).data b s)
              ((exLayer false 0).c b s) ((exLayer false 0).g b s) ((exBottom 1 2).data b s)
              (r.top.diff b s) t)) :=
  ⟨fun _ _ => rfl, fun _ _ => rfl, validLengths_exBottom 1 2 (by decide) (by decide),
    C4_bptt_summation exOps 2 0 0 0 (fun _ _ => 1) (exBpSeq false) (exLayer false 0)
      (exBottom 1 2) (exTop 1) (fun _ _ => rfl) (fun _ _ => rfl)
      (validLengths_exBottom 1 2 (by decide) (by decide))⟩

theorem batch_grads (op : Ops α) (L : GruLayer α d_input d_mem) (T : Nat)
    (x : Rows α d_input) (len : Int) (e : Rows α d_mem) (xd : Rows α d_input)
    (h0 : 0 ≤ len) (h1 : len ≤ T) (B : Nat) :
    ∃ f1 r1 f r,
      Forward op L (batchBottom 1 T x len xd) (batchTop 1 T e) = .ok f1 ∧
      Backprop op f1.1 (batchBottom 1 T x len xd) f1.2 = .ok r1 ∧
      Forward op L (batchBottom B T x len xd) (batchTop B T e) = .ok f ∧
      Backprop op f.1 (batchBottom B T x len xd) f.2 = .ok r ∧
      ∃ P, grads r1.layer = grads L + P ∧ grads r.layer = grads L + B • P := by
  have hv : ∀ B, ValidLengths (batchBottom B T x len xd) := by
    intro B b _ s _
    exact ⟨h0, h1⟩
  obtain ⟨f1, hf1, cc1, gg1, dd1, rfl, hF1, -⟩ :=
    Forward_inv op L (batchBottom 1 T x len xd) (batchTop 1 T e) (hv 1)
  obtain ⟨r1, hr1, G1, bh1, ce1, ge1, bd1, td1, rfl, hG1, hB1, -⟩ := Backprop_inv op _ _ _ (hv 1)
  obtain ⟨f, hf, cc, gg, dd, rfl, hF, -⟩ :=
    Forward_inv op L (batchBottom B T x len xd) (batchTop B T e) (hv B)
  obtain ⟨r, hr, G, bh, ce, ge, bd, td, rfl, hG, hB, -⟩ := Backprop_inv op _ _ _ (hv B)
  refine ⟨_, _, _, _, hf1, hr1, hf, hr, ?_⟩
  dsimp only at hG1 hG hB1 hB hr1 hr ⊢
  have hpair : ∀ b, b < B →
      pairGrad op { L with c := cc, g := gg, c_er := 0, g_er := 0 }
          (batchBottom B T x len xd)
          { batchTop B T e with length := (batchBottom B T x len xd).length, data := dd }
          (td b 0) b 0
        = pairGrad op { L with c := cc1, g := gg1, c_er := 0, g_er := 0 }
          (batchBottom 1 T x len xd)
          { batchTop 1 T e with length := (batchBottom 1 T x len xd).length, data := dd1 }
          (td1 0 0) 0 0 := by
    intro b hb
    have hfd := pair_forward_determined op L (batchBottom B T x len xd)
      (batchBottom 1 T x len xd) ⟨gg b 0, cc b 0, dd b 0⟩ ⟨gg1 0 0, cc1 0 0, dd1 0 0⟩ b 0 0 0
      rfl rfl (hF b 0 (Or.inl ⟨hb, Nat.zero_lt_one⟩))
      (hF1 0 0 (Or.inl ⟨Nat.zero_lt_one, Nat.zero_lt_one⟩))
    simp only [FwdSeq.mk.injEq] at hfd
    exact (pair_backward_determined op
      { L with c := cc, g := gg, c_er := 0, g_er := 0 }
      { L with c := cc1, g := gg1, c_er := 0, g_er := 0 }
      (batchBottom B T x len xd) (batchBottom 1 T x len xd)
      { batchTop B T e with length := (batchBottom B T x len xd).length, data := dd }
      { batchTop 1 T e with length := (batchBottom 1 T x len xd).length, data := dd1 }
      b 0 0 0 (td b 0) (ce b 0) (td1 0 0) (ce1 0 0) (ge b 0) (ge1 0 0) (bd b 0) (bd1 0 0)
      ⟨rfl, rfl, rfl, rfl, rfl⟩ rfl rfl rfl hfd.2.2 hfd.2.1 hfd.1 rfl
      (hB b 0 (Or.inl ⟨hb, Nat.zero_lt_one⟩))
      (hB1 0 0 (Or.inl ⟨Nat.zero_lt_one, Nat.zero_lt_one⟩))).2
  have hsum : ∑ b in Finset.range B, ∑ s in Finset.range 1,
        pairGrad op { L with c := cc, g := gg, c_er := 0, g_er := 0 }
          (batchBottom B T x len xd)
          { batchTop B T e with length := (batchBottom B T x len xd).length, data := dd }
          (td b s) b s
      = B • pairGrad op { L with c := cc1, g := gg1, c_er := 0, g_er := 0 }
          (batchBottom 1 T x len xd)
          { batchTop 1 T e with length := (batchBottom 1 T x len xd).length, data := dd1 }
          (td1 0 0) 0 0 := by
    rw [Finset.sum_congr rfl (fun b hb => by
      rw [Finset.sum_range_one, hpair b (Finset.mem_range.mp hb)])]
    rw [Finset.sum_const, Finset.card_range]
  have hG' : (G, bh) = (grads L, 0) + B • pairGrad op
      { L with c := cc1, g := gg1, c_er := 0, g_er := 0 } (batchBottom 1 T x len xd)
      { batchTop 1 T e with length := (batchBottom 1 T x len xd).length, data := dd1 }
      (td1 0 0) 0 0 := by
    have := hG
    simp only [batchBottom] at this hsum
    rw [this, Finset.range_zero, Finset.sum_empty, add_zero, hsum]
    rfl
  have hG1' : (G1, bh1) = (grads L, 0) + pairGrad op
      { L with c := cc1, g := gg1, c_er := 0, g_er := 0 } (batchBottom 1 T x len xd)
      { batchTop 1 T e with length := (batchBottom 1 T x len xd).length, data := dd1 }
      (td1 0 0) 0 0 := by
    have := hG1
    simp only [batchBottom] at this
    rw [this, Finset.range_zero, Finset.sum_empty, add_zero, Finset.sum_range_one,
      Finset.sum_range_one]
    rfl
  refine ⟨(pairGrad op { L with c := cc1, g := gg1, c_er := 0, g_er := 0 }
      (batchBottom 1 T x len xd)
      { batchTop 1 T e with length := (batchBottom 1 T x len xd).length, data := dd1 }
      (td1 0 0) 0 0).1, ?_, ?_⟩
  · exact congrArg Prod.fst hG1'
  · exact congrArg Prod.fst hG'

/-- C9 (amended): for every number `B` of identical copies of a sequence with identical output
gradients and a valid length, `Forward` then `Backprop` succeed on the single copy and on the
batch, and what the batch run adds to the four weight gradient accumulators is exactly `B` times
what the single-copy run adds; when the accumulators are zero before the runs, the accumulators
after the batch run are `B` times those after the single-copy run. -/
theorem C9_batch_additivity (op : Ops α) (L : GruLayer α d_input d_mem) (T : Nat)
    (x : Rows α d_input) (len : Int) (e : Rows α d_mem) (xd : Rows α d_input)
    (h0 : 0 ≤ len) (h1 : len ≤ T) (B : Nat) :
    ∃ f1 r1 f r,
      Forward op L (batchBottom 1 T x len xd) (batchTop 1 T e) = .ok f1 ∧
      Backprop op f1.1 (batchBottom 1 T x len xd) f1.2 = .ok r1 ∧
      Forward op L (batchBottom B T x len xd) (batchTop B T e) = .ok f ∧
      Backprop op f.1 (batchBottom B T x len xd) f.2 = .ok r ∧
      grads r.layer - grads L = B • (grads r1.layer - grads L) ∧
      (grads L = 0 → grads r.layer = B • grads r1.layer) := by
  obtain ⟨f1, r1, f, r, hf1, hr1, hf, hr, P, hP1, hP⟩ :=
    batch_grads op L T x len e xd h0 h1 B
  refine ⟨f1, r1, f, r, hf1, hr1, hf, hr, ?_, ?_⟩
  · rw [hP, hP1, add_sub_cancel_left, add_sub_cancel_left]
  · intro hz
    rw [hP, hP1, hz, zero_add, zero_add]

theorem C9_batch_additivity_witness :
    (0 : Int) ≤ 2 ∧ (2 : Int) ≤ (2 : Nat) ∧
    ∃ f1 r1 f r,
      Forward exOps (exLayer false 5) (batchBottom 1 2 (fun _ _ => 1) 2 0)
        (batchTop 1 2 (fun _ _ => 1)) = .ok f1 ∧
      Backprop exOps f1.1 (batchBottom 1 2 (fun _ _ => 1) 2 0) f1.2 = .ok r1 ∧
      Forward exOps (exLayer false 5) (batchBottom 3 2 (fun _ _ => 1) 2 0)
        (batchTop 3 2 (fun _ _ => 1)) = .ok f ∧
      Backprop exOps f.1 (batchBottom 3 2 (fun _ _ => 1) 2 0) f.2 = .ok r ∧
      grads r.layer - grads (exLayer false 5) = 3 • (grads r1.layer - grads (exLayer false 5)) ∧
      (grads (exLayer false 5) = 0 → grads r.layer = 3 • grads r1.layer) :=
  ⟨by decide, by decide,
    C9_batch_additivity exOps (exLayer false 5) 2 (fun _ _ => 1) 2 (fun _ _ => 1) 0
      (by decide) (by decide) 3⟩

/-- C9 (counterexample): all weights zero, a sequence of valid length one with input one and
output gradient one, and the accumulator of `params[3]` holding five before the runs. The
single-copy run leaves `11/2` in that accumulator and the run on a batch of two copies leaves
`6`, which is not twice `11/2`. -/
theorem C9_counterexample :
    ∃ f1 r1 f r,
      Forward exOps (exLayer false 5) (batchBottom 1 2 (fun _ _ => 1) 1 0)
        (batchTop 1 2 (fun _ _ => 1)) = .ok f1 ∧
      Backprop exOps f1.1 (batchBottom 1 2 (fun _ _ => 1) 1 0) f1.2 = .ok r1 ∧
      Forward exOps (exLayer false 5) (batchBottom 2 2 (fun _ _ => 1) 1 0)
        (batchTop 2 2 (fun _ _ => 1)) = .ok f ∧
      Backprop exOps f.1 (batchBottom 2 2 (fun _ _ => 1) 1 0) f.2 = .ok r ∧
      r1.layer.params3.diff 0 0 = 11 / 2 ∧ r.layer.params3.diff 0 0 = 6 ∧
      grads r.layer ≠ 2 • grads r1.layer := by
  refine ⟨_, _, _, _, rfl, rfl, rfl, rfl, by decide!, by decide!, ?_⟩
  intro h
  have := congrFun (congrFun (congrArg (fun p => p.2.2.1) h) 0) 0
  revert this
  decide!

/-! ### Gradient of the sum of the outputs -/

theorem ip_add_right {n : Nat} (a b c : Tensor2D α 1 n) : ip a (b + c) = ip a b + ip a c := by
  simp [ip, mul_add, Finset.sum_add_distrib]

theorem ip_sub_right {n : Nat} (a b c : Tensor2D α 1 n) : ip a (b - c) = ip a b - ip a c := by
  simp [ip, mul_sub, Finset.sum_sub_distrib]

theorem ip_add_left {n : Nat} (a b c : Tensor2D α 1 n) : ip (a + b) c = ip a c + ip b c := by
  simp [ip, add_mul, Finset.sum_add_distrib]

theorem ip_mul {n : Nat} (a b c : Tensor2D α 1 n) : ip a (b * c) = ip (a * b) c := by
  simp [ip, mul_assoc]

theorem ip_comm {n : Nat} (a b : Tensor2D α 1 n) : ip a b = ip b a := by
  simp [ip, mul_comm]

theorem ip_dot {m n : Nat} (a : Tensor2D α 1 n) (b : Tensor2D α 1 m) (W : Tensor2D α m n) :
    ip a (dot b W) = ip (dot a (T W)) b := by
  simp only [ip, dot, T, Finset.mul_sum, Finset.sum_mul]
  rw [Finset.sum_comm]
  apply Finset.sum_congr rfl
  intro l _
  apply Finset.sum_congr rfl
  intro j _
  ring

theorem ip_dot_W {m n : Nat} (a : Tensor2D α 1 n) (b : Tensor2D α 1 m) (W : Tensor2D α m n) :
    ip a (dot b W) = ipM (dot (T b) a) W := by
  simp only [ip, ipM, dot, T, Finset.mul_sum, Finset.sum_mul]
  rw [Finset.sum_comm]
  apply Finset.sum_congr rfl
  intro l _
  apply Finset.sum_congr rfl
  intro j _
  simp
  ring

theorem sum_gate (f : Fin (2 * d_mem) → α) :
    ∑ k, f k = ∑ j : Fin d_mem, f ⟨j.1, by omega⟩ + ∑ j : Fin d_mem, f ⟨d_mem + j.1, by omega⟩ := by
  have h : 2 * d_mem = d_mem + d_mem := two_mul d_mem
  rw [← Fintype.sum_equiv (finCongr h.symm) (fun i => f (finCongr h.symm i)) f (fun _ => rfl)]
  rw [Fin.sum_univ_add]
  rfl

theorem ip_gate (dr dz : Tensor2D α 1 d_mem) (A : Tensor2D α 1 (2 * d_mem)) :
    ip (JoinGate dr dz) A = ip dr (refReset A) + ip dz (refUpdate A) := by
  simp only [ip]
  rw [sum_gate]
  congr 1
  · apply Finset.sum_congr rfl
    intro j _
    simp [JoinGate, refReset]
  · apply Finset.sum_congr rfl
    intro j _
    simp [JoinGate, refUpdate]

theorem ipM_outer {m n : Nat} (a : Tensor2D α 1 n) (b : Tensor2D α 1 m) (W : Tensor2D α m n) :
    ipM (dot (T b) a) W = ip a (dot b W) := (ip_dot_W a b W).symm

theorem step_adjoint (op : Ops α) (W W' : Weights α d_input d_mem)
    (h h' : Tensor2D α 1 d_mem) (x x' : Tensor2D α 1 d_input) (δ : Tensor2D α 1 d_mem) :
    ip δ (stepTangent op W W' h h' x x')
      = ip (refBpStep op W.1 W.2.1 W.2.2.1 W.2.2.2 δ h x
            (refStep op W.1 W.2.1 W.2.2.1 W.2.2.2 h x).1
            (refStep op W.1 W.2.1 W.2.2.1 W.2.2.2 h x).2.1).d_pre_h h'
        + ip (refBpStep op W.1 W.2.1 W.2.2.1 W.2.2.2 δ h x
            (refStep op W.1 W.2.1 W.2.2.1 W.2.2.2 h x).1
            (refStep op W.1 W.2.1 W.2.2.1 W.2.2.2 h x).2.1).d_x x'
        + ipW (refBpStep op W.1 W.2.1 W.2.2.1 W.2.2.2 δ h x
            (refStep op W.1 W.2.1 W.2.2.1 W.2.2.2 h x).1
            (refStep op W.1 W.2.1 W.2.2.1 W.2.2.2 h x).2.1).weights W' := by
  obtain ⟨W0, W1, W3, W4⟩ := W
  obtain ⟨V0, V1, V3, V4⟩ := W'
  simp only [refStep, stepTangent, refBpStep, StepGrad.weights, ipW]
  generalize refGate op W0 W1 h x = g
  generalize refCand op W3 W4 (refReset g) h x = c
  -- abbreviations
  set z := refUpdate g with hz
  set r := refReset g with hr
  set A := dot x' W0 + dot x V0 + dot h' W1 + dot h V1 with hA
  set dc : Tensor2D α 1 d_mem := fun i j => δ i j * (1 - z i j) * op.tanh_grad (c i j) with hdc
  set tmp := dot dc (T W4) with htmp
  set dz : Tensor2D α 1 d_mem :=
    fun i j => δ i j * (h i j - c i j) * op.sigmoid_grad (z i j) with hdz
  set dr : Tensor2D α 1 d_mem := fun i j => tmp i j * h i j * op.sigmoid_grad (r i j) with hdr
  have hz' : refUpdate (F op.sigmoid_grad g * A) = F op.sigmoid_grad z * refUpdate A := rfl
  have hr' : refReset (F op.sigmoid_grad g * A) = F op.sigmoid_grad r * refReset A := rfl
  rw [hz', hr']
  -- split the left-hand side
  have s1 : ip δ (F op.sigmoid_grad z * refUpdate A * h + z * h'
        - F op.sigmoid_grad z * refUpdate A * c
        + (1 - z) * (F op.tanh_grad c * (dot x' W3 + dot x V3
            + dot (F op.sigmoid_grad r * refReset A * h + r * h') W4 + dot (r * h) V4)))
      = ip (δ * z) h' + ip dz (refUpdate A)
        + ip dc (dot x' W3 + dot x V3
            + dot (F op.sigmoid_grad r * refReset A * h + r * h') W4 + dot (r * h) V4) := by
    simp only [ip, Finset.sum_add_distrib.symm]
    apply Finset.sum_congr rfl
    intro j _
    simp only [Pi.add_apply, Pi.mul_apply, Pi.sub_apply, Pi.one_apply, F, hdc, hdz]
    ring
  rw [s1]
  have s2 : ip dc (dot (F op.sigmoid_grad r * refReset A * h + r * h') W4)
      = ip dr (refReset A) + ip (r * tmp) h' := by
    rw [ip_dot]
    simp only [ip, Finset.sum_add_distrib.symm]
    apply Finset.sum_congr rfl
    intro j _
    simp only [Pi.add_apply, Pi.mul_apply, F, hdr, htmp]
    ring
  rw [ip_add_right, ip_add_right, ip_add_right, s2]
  have s3 : ip dr (refReset A) + ip dz (refUpdate A) = ip (JoinGate dr dz) A :=
    (ip_gate dr dz A).symm
  have s4 : ip (JoinGate dr dz) A
      = ip (dot (JoinGate dr dz) (T W0)) x' + ipM (dot (T x) (JoinGate dr dz)) V0
        + ip (dot (JoinGate dr dz) (T W1)) h' + ipM (dot (T h) (JoinGate dr dz)) V1 := by
    rw [hA, ip_add_right, ip_add_right, ip_add_right, ip_dot, ip_dot_W, ip_dot (b := h'),
      ip_dot_W (b := h)]
  rw [ip_dot (b := x'), ip_dot_W (b := x), ip_dot_W (b := r * h)]
  rw [ip_add_left, ip_add_left, ip_add_left]
  linear_combination s3.trans s4

theorem ip_zero_right {n : Nat} (a : Tensor2D α 1 n) : ip a 0 = 0 := by
  simp [ip]

theorem tanSeq_adjoint (op : Ops α) (W W' : Weights α d_input d_mem)
    (begin_h : Tensor2D α 1 d_mem) (X X' : Nat → Tensor2D α 1 d_input)
    (δ : Tensor2D α 1 d_mem) (p : Nat) :
    ip δ (tanSeq op W W' begin_h X X' p)
      = ip (wBpStep op W begin_h X δ p).d_pre_h
          (if p = 0 then 0 else tanSeq op W W' begin_h X X' (p - 1))
        + ip (wBpStep op W begin_h X δ p).d_x (X' p)
        + ipW (wBpStep op W begin_h X δ p).weights W' := by
  cases p with
  | zero =>
    simp only [tanSeq, wBpStep, prevHid, if_true, wStep]
    exact step_adjoint op W W' begin_h 0 (X 0) (X' 0) δ
  | succ p =>
    simp only [tanSeq, wBpStep, prevHid, Nat.succ_ne_zero, if_false, Nat.add_sub_cancel, wStep]
    exact step_adjoint op W W' _ _ (X (p + 1)) (X' (p + 1)) δ

theorem chain_adjoint (op : Ops α) (W W' : Weights α d_input d_mem)
    (begin_h : Tensor2D α 1 d_mem) (X X' : Nat → Tensor2D α 1 d_input) (n : Nat)
    (E Δ : Nat → Tensor2D α 1 d_mem)
    (hΔ : ∀ p, p < n → Δ p = E p + if p + 1 < n then
      (wBpStep op W begin_h X (Δ (p + 1)) (p + 1)).d_pre_h else 0) :
    ∑ p in Finset.range n, ip (E p) (tanSeq op W W' begin_h X X' p)
      = ∑ p in Finset.range n, (ip (wBpStep op W begin_h X (Δ p) p).d_x (X' p)
          + ipW (wBpStep op W begin_h X (Δ p) p).weights W') := by
  have h1 : ∀ p, p < n → ip (E p) (tanSeq op W W' begin_h X X' p)
      = ip (Δ p) (tanSeq op W W' begin_h X X' p)
        - ip (if p + 1 < n then (wBpStep op W begin_h X (Δ (p + 1)) (p + 1)).d_pre_h else 0)
            (tanSeq op W W' begin_h X X' p) := by
    intro p hp
    rw [hΔ p hp, ip_add_left]
    ring
  rw [Finset.sum_congr rfl (fun p hp => h1 p (Finset.mem_range.mp hp))]
  rw [Finset.sum_sub_distrib]
  rw [Finset.sum_congr rfl (fun p _ => tanSeq_adjoint op W W' begin_h X X' (Δ p) p)]
  rw [Finset.sum_add_distrib, Finset.sum_add_distrib, Finset.sum_add_distrib]
  have h2 : ∑ p in Finset.range n, ip (wBpStep op W begin_h X (Δ p) p).d_pre_h
        (if p = 0 then 0 else tanSeq op W W' begin_h X X' (p - 1))
      = ∑ p in Finset.range n,
          ip (if p + 1 < n then (wBpStep op W begin_h X (Δ (p + 1)) (p + 1)).d_pre_h else 0)
            (tanSeq op W W' begin_h X X' p) := by
    cases n with
    | zero => simp
    | succ m =>
      rw [Finset.sum_range_succ', Finset.sum_range_succ]
      simp only [if_true, ip_zero_right, add_zero, Nat.succ_ne_zero, if_false,
        Nat.add_sub_cancel, lt_irrefl]
      have : ip (0 : Tensor2D α 1 d_mem) (tanSeq op W W' begin_h X X' m) = 0 := by simp [ip]
      rw [this, add_zero]
      apply Finset.sum_congr rfl
      intro p hp
      rw [if_pos (by have := Finset.mem_range.mp hp; omega)]
  rw [h2]
  ring

theorem fwd_rows_hidSeq (op : Ops α) (L : GruLayer α d_input d_mem) (n : Nat)
    (x : Rows α d_input) (bufs : FwdSeq α d_mem) (rev : Bool)
    (h : ∀ p, p < n → rowTriple bufs (rowOf rev n p)
      = wStep op (weightsOf L)
          (if p = 0 then L.begin_h else Slice bufs.out (rowOf rev n (p - 1)))
          (visitRows rev n x p)) :
    ∀ p, p < n →
      Slice bufs.out (rowOf rev n p) = hidSeq op (weightsOf L) L.begin_h (visitRows rev n x) p ∧
      (if p = 0 then L.begin_h else Slice bufs.out (rowOf rev n (p - 1)))
        = prevHid op (weightsOf L) L.begin_h (visitRows rev n x) p ∧
      rowTriple bufs (rowOf rev n p)
        = wStep op (weightsOf L) (prevHid op (weightsOf L) L.begin_h (visitRows rev n x) p)
            (visitRows rev n x p) := by
  intro p
  induction p with
  | zero =>
    intro hp
    have h0 := h 0 hp
    simp only [if_true] at h0
    refine ⟨?_, by simp [prevHid], by simpa [prevHid] using h0⟩
    have := congrArg (fun q => q.2.2) h0
    simpa [rowTriple, hidSeq] using this
  | succ p ih =>
    intro hp
    obtain ⟨ih1, -, -⟩ := ih (by omega)
    have h1 := h (p + 1) hp
    simp only [Nat.succ_ne_zero, if_false, Nat.add_sub_cancel] at h1 ⊢
    rw [ih1] at h1
    refine ⟨?_, by simp [prevHid, ih1], by simpa [prevHid] using h1⟩
    have := congrArg (fun q => q.2.2) h1
    simpa [rowTriple, hidSeq] using this

theorem pair_forward_hidSeq (op : Ops α) (L : GruLayer α d_input d_mem)
    (bottom : Node α d_input) (bufs : FwdSeq α d_mem) (b s : Nat)
    (hd : PairForwardDone op L bottom bufs b s) :
    ∀ p, p < (bottom.length b s).toNat →
      Slice bufs.out (rowOf L.reverse (bottom.length b s).toNat p)
        = hidSeq op (weightsOf L) L.begin_h
            (visitRows L.reverse (bottom.length b s).toNat (bottom.data b s)) p ∧
      (if p = 0 then L.begin_h
        else Slice bufs.out (rowOf L.reverse (bottom.length b s).toNat (p - 1)))
        = prevHid op (weightsOf L) L.begin_h
            (visitRows L.reverse (bottom.length b s).toNat (bottom.data b s)) p ∧
      rowTriple bufs (rowOf L.reverse (bottom.length b s).toNat p)
        = wStep op (weightsOf L) (prevHid op (weightsOf L) L.begin_h
            (visitRows L.reverse (bottom.length b s).toNat (bottom.data b s)) p)
            (visitRows L.reverse (bottom.length b s).toNat (bottom.data b s) p) := by
  apply fwd_rows_hidSeq
  intro p hp
  unfold PairForwardDone at hd
  cases hrev : L.reverse
  · simp only [hrev, Bool.false_eq_true, if_false] at hd
    have := (hd p).1 hp
    simpa [rowOf, visitRows, preL2R, layerStep, wStep, weightsOf] using this
  · simp only [hrev, if_true] at hd
    have := (hd ((bottom.length b s).toNat - 1 - p)).1 (by omega) (by omega)
    simp only [rowOf, visitRows, if_true, wStep, weightsOf]
    rw [this]
    simp only [layerStep, preR2L]
    by_cases h0 : p = 0
    · subst h0
      simp
    · have e1 : ¬ ((bottom.length b s).toNat - 1 - p = (bottom.length b s).toNat - 1) := by omega
      have e2 : (bottom.length b s).toNat - 1 - p + 1 = (bottom.length b s).toNat - 1 - (p - 1) := by
        omega
      simp only [e1, if_false, h0, e2]

theorem sg_code_eq (op : Ops α) (L : GruLayer α d_input d_mem)
    (bottom : Node α d_input) (top : Node α d_mem) (td : Rows α d_mem) (b s : Nat)
    (hF : PairForwardDone op L bottom ⟨L.g b s, L.c b s, top.data b s⟩ b s) :
    ∀ p, p < (bottom.length b s).toNat →
      (if L.reverse then
        sgR2L op L (bottom.length b s).toNat (top.data b s) (L.c b s) (L.g b s)
          (bottom.data b s) td (rowOf L.reverse (bottom.length b s).toNat p)
       else
        sgL2R op L (top.data b s) (L.c b s) (L.g b s) (bottom.data b s) td
          (rowOf L.reverse (bottom.length b s).toNat p))
      = wBpStep op (weightsOf L) L.begin_h
          (visitRows L.reverse (bottom.length b s).toNat (bottom.data b s))
          (Slice td (rowOf L.reverse (bottom.length b s).toNat p)) p := by
  intro p hp
  obtain ⟨-, h2, h3⟩ := pair_forward_hidSeq op L bottom _ b s hF p hp
  simp only [rowTriple, Prod.ext_iff] at h3
  obtain ⟨hg, hc, -⟩ := h3
  simp only at hg hc h2
  unfold wBpStep
  rw [← hg, ← hc, ← h2]
  cases hrev : L.reverse
  · simp only [Bool.false_eq_true, if_false, sgL2R, layerBpStep, weightsOf, rowOf, preL2R,
      visitRows]
  · simp only [if_true, sgR2L, layerBpStep, weightsOf, rowOf, preR2L, visitRows]
    by_cases h0 : p = 0
    · subst h0
      simp
    · have e1 : ¬ ((bottom.length b s).toNat - 1 - p = (bottom.length b s).toNat - 1) := by omega
      have e2 : (bottom.length b s).toNat - 1 - p + 1 = (bottom.length b s).toNat - 1 - (p - 1) := by
        omega
      simp only [e1, if_false, h0, e2]

theorem pair_backward_link (op : Ops α) (L : GruLayer α d_input d_mem)
    (bottom : Node α d_input) (top : Node α d_mem) (td ce : Rows α d_mem)
    (ge : Rows α (2 * d_mem)) (bd : Rows α d_input) (b s : Nat)
    (hF : PairForwardDone op L bottom ⟨L.g b s, L.c b s, top.data b s⟩ b s)
    (hB : PairBackDone op L bottom top td ce ge bd b s) :
    (∀ p, p < (bottom.length b s).toNat →
      Slice td (rowOf L.reverse (bottom.length b s).toNat p)
        = Slice (top.diff b s) (rowOf L.reverse (bottom.length b s).toNat p)
          + if p + 1 < (bottom.length b s).toNat then
              (wBpStep op (weightsOf L) L.begin_h
                (visitRows L.reverse (bottom.length b s).toNat (bottom.data b s))
                (Slice td (rowOf L.reverse (bottom.length b s).toNat (p + 1))) (p + 1)).d_pre_h
            else 0) ∧
    (pairGrad op L bottom top td b s).1
      = ∑ p in Finset.range (bottom.length b s).toNat,
          (wBpStep op (weightsOf L) L.begin_h
            (visitRows L.reverse (bottom.length b s).toNat (bottom.data b s))
            (Slice td (rowOf L.reverse (bottom.length b s).toNat p)) p).weights ∧
    (∀ p, p < (bottom.length b s).toNat →
      Slice bd (rowOf L.reverse (bottom.length b s).toNat p)
        = Slice (bottom.diff b s) (rowOf L.reverse (bottom.length b s).toNat p)
          + (wBpStep op (weightsOf L) L.begin_h
              (visitRows L.reverse (bottom.length b s).toNat (bottom.data b s))
              (Slice td (rowOf L.reverse (bottom.length b s).toNat p)) p).d_x) := by
  have hsg := sg_code_eq op L bottom top td b s hF
  obtain ⟨Lr, hB⟩ := hB
  unfold pairGrad
  cases hrev : L.reverse
  · simp only [hrev, Bool.false_eq_true, if_false] at hB hsg ⊢
    obtain ⟨-, h2, -, -, h5⟩ := hB
    simp only [bpStart] at h2 h5
    have hrow : ∀ p, rowOf false (bottom.length b s).toNat p = p := fun p => by simp [rowOf]
    simp only [hrow] at hsg ⊢
    refine ⟨?_, ?_, ?_⟩
    · intro p hp
      apply Slice_add_of_row
      rw [h2 p]
      by_cases h : p + 1 < (bottom.length b s).toNat
      · rw [if_pos ⟨by omega, h⟩, if_pos h, hsg (p + 1) h]
      · rw [if_neg (by omega), if_neg h]
        rfl
    · apply Finset.sum_congr rfl
      intro p hp
      rw [hsg p (Finset.mem_range.mp hp)]
    · intro p hp
      apply Slice_add_of_row
      rw [h5 p, if_pos ⟨by omega, hp⟩, hsg p hp]
  · simp only [hrev, if_true] at hB hsg ⊢
    obtain ⟨-, h2, -, -, h5⟩ := hB
    simp only [bpStart] at h2 h5
    have hrow : ∀ p, rowOf true (bottom.length b s).toNat p
        = (bottom.length b s).toNat - 1 - p := fun p => by simp [rowOf]
    simp only [hrow] at hsg ⊢
    refine ⟨?_, ?_, ?_⟩
    · intro p hp
      apply Slice_add_of_row
      rw [h2 _]
      by_cases h : p + 1 < (bottom.length b s).toNat
      · have e : (bottom.length b s).toNat - 1 - p - 1 = (bottom.length b s).toNat - 1 - (p + 1) := by
          omega
        rw [if_pos ⟨by omega, by omega, by omega⟩, if_pos h, e, hsg (p + 1) h]
      · rw [if_neg (by omega), if_neg h]
        rfl
    · rw [← Finset.sum_range_reflect]
      apply Finset.sum_congr rfl
      intro p hp
      rw [hsg p (Finset.mem_range.mp hp)]
    · intro p hp
      apply Slice_add_of_row
      rw [h5 _, if_pos (by omega), hsg p hp]

theorem sum_rowOf (rev : Bool) (n : Nat) (f : Nat → α) :
    ∑ t in Finset.range n, f t = ∑ p in Finset.range n, f (rowOf rev n p) := by
  cases rev
  · simp [rowOf]
  · simp only [rowOf, if_true]
    exact (Finset.sum_range_reflect f n).symm

theorem lossSum_eq (op : Ops α) (L : GruLayer α d_input d_mem) (bottom : Node α d_input)
    (top : Node α d_mem) (hlen : ValidLengths bottom) :
    lossSum op L bottom top
      = ∑ b in Finset.range bottom.size0, ∑ s in Finset.range bottom.size1,
          ∑ p in Finset.range (bottom.length b s).toNat, ∑ j,
            hidSeq op (weightsOf L) L.begin_h
              (visitRows L.reverse (bottom.length b s).toNat (bottom.data b s)) p 0 j := by
  obtain ⟨r, hr, cc, gg, dd, rfl, h1, -⟩ := Forward_inv op L bottom top hlen
  unfold lossSum
  rw [hr]
  simp only
  apply Finset.sum_congr rfl
  intro b hb
  apply Finset.sum_congr rfl
  intro s hs
  rw [sum_rowOf L.reverse]
  apply Finset.sum_congr rfl
  intro p hp
  apply Finset.sum_congr rfl
  intro j _
  have := (pair_forward_hidSeq op L bottom _ b s
    (h1 b s (Or.inl ⟨Finset.mem_range.mp hb, Finset.mem_range.mp hs⟩)) p
    (Finset.mem_range.mp hp)).1
  exact congrFun (congrFun this 0) j

theorem pair_backward_frame (op : Ops α) (L : GruLayer α d_input d_mem)
    (bottom : Node α d_input) (top : Node α d_mem) (td ce : Rows α d_mem)
    (ge : Rows α (2 * d_mem)) (bd : Rows α d_input) (b s : Nat)
    (hB : PairBackDone op L bottom top td ce ge bd b s) :
    ∀ t, (bottom.length b s).toNat ≤ t → bd t = bottom.diff b s t := by
  intro t ht
  obtain ⟨Lr, hB⟩ := hB
  cases hrev : L.reverse
  · simp only [hrev, Bool.false_eq_true, if_false] at hB
    obtain ⟨-, -, -, -, h5⟩ := hB
    simp only [bpStart] at h5
    rw [h5 t, if_neg (by omega), add_zero]
  · simp only [hrev, if_true] at hB
    obtain ⟨-, -, -, -, h5⟩ := hB
    simp only [bpStart] at h5
    rw [h5 t, if_neg (by omega), add_zero]

theorem ipM_add_left {m n : Nat} (A B W : Tensor2D α m n) :
    ipM (A + B) W = ipM A W + ipM B W := by
  simp [ipM, add_mul, Finset.sum_add_distrib]

theorem ipW_add_left (A B W : Weights α d_input d_mem) :
    ipW (A + B) W = ipW A W + ipW B W := by
  simp only [ipW, Prod.fst_add, Prod.snd_add, ipM_add_left]
  ring

theorem ipW_zero_left (W : Weights α d_input d_mem) : ipW 0 W = 0 := by
  simp [ipW, ipM]

theorem ipW_sum_range (f : Nat → Weights α d_input d_mem) (W : Weights α d_input d_mem)
    (n : Nat) : ipW (∑ p in Finset.range n, f p) W = ∑ p in Finset.range n, ipW (f p) W := by
  induction n with
  | zero => simp [ipW_zero_left]
  | succ n ih => rw [Finset.sum_range_succ, Finset.sum_range_succ, ipW_add_left, ih]

theorem pair_adjoint (op : Ops α) (L : GruLayer α d_input d_mem)
    (bottom : Node α d_input) (top : Node α d_mem) (td ce : Rows α d_mem)
    (ge : Rows α (2 * d_mem)) (bd : Rows α d_input) (b s : Nat)
    (hF : PairForwardDone op L bottom ⟨L.g b s, L.c b s, top.data b s⟩ b s)
    (hB : PairBackDone op L bottom top td ce ge bd b s)
    (W' : Weights α d_input d_mem) (x' : Rows α d_input) :
    ∑ p in Finset.range (bottom.length b s).toNat,
        ip (Slice (top.diff b s) (rowOf L.reverse (bottom.length b s).toNat p))
          (tanSeq op (weightsOf L) W' L.begin_h
            (visitRows L.reverse (bottom.length b s).toNat (bottom.data b s))
            (visitRows L.reverse (bottom.length b s).toNat x') p)
      = ipW (pairGrad op L bottom top td b s).1 W'
        + ∑ t in Finset.range (bottom.length b s).toNat,
            ip (Slice bd t - Slice (bottom.diff b s) t) (Slice x' t) := by
  obtain ⟨h1, h2, h3⟩ := pair_backward_link op L bottom top td ce ge bd b s hF hB
  rw [chain_adjoint op (weightsOf L) W' L.begin_h
    (visitRows L.reverse (bottom.length b s).toNat (bottom.data b s))
    (visitRows L.reverse (bottom.length b s).toNat x') (bottom.length b s).toNat
    (fun p => Slice (top.diff b s) (rowOf L.reverse (bottom.length b s).toNat p))
    (fun p => Slice td (rowOf L.reverse (bottom.length b s).toNat p)) h1]
  rw [Finset.sum_add_distrib, h2, ipW_sum_range, add_comm]
  congr 1
  rw [sum_rowOf L.reverse (bottom.length b s).toNat
    (fun t => ip (Slice bd t - Slice (bottom.diff b s) t) (Slice x' t))]
  apply Finset.sum_congr rfl
  intro p hp
  rw [h3 p (Finset.mem_range.mp hp), add_sub_cancel_left]
  rfl

theorem backprop_adjoint (op : Ops α) (L : GruLayer α d_input d_mem)
    (bottom : Node α d_input) (top : Node α d_mem) (hlen : ValidLengths bottom)
    (W' : Weights α d_input d_mem) (x' : Tensor4D α d_input) :
    ∃ f r, Forward op L bottom top = .ok f ∧ Backprop op f.1 bottom f.2 = .ok r ∧
      ∑ b in Finset.range bottom.size0, ∑ s in Finset.range bottom.size1,
        ∑ p in Finset.range (bottom.length b s).toNat,
          ip (Slice (top.diff b s) (rowOf L.reverse (bottom.length b s).toNat p))
            (tanSeq op (weightsOf L) W' L.begin_h
              (visitRows L.reverse (bottom.length b s).toNat (bottom.data b s))
              (visitRows L.reverse (bottom.length b s).toNat (x' b s)) p)
        = ipW (grads r.layer - grads L) W'
          + ∑ b in Finset.range bottom.size0, ∑ s in Finset.range bottom.size1,
              ∑ t in Finset.range (bottom.length b s).toNat,
                ip (Slice (r.bottom.diff b s) t - Slice (bottom.diff b s) t)
                  (Slice (x' b s) t) ∧
      (∀ b s t, ¬ (b < bottom.size0 ∧ s < bottom.size1 ∧ t < (bottom.length b s).toNat) →
        r.bottom.diff b s t = bottom.diff b s t) := by
  obtain ⟨f, hf, cc, gg, dd, rfl, hF, -⟩ := Forward_inv op L bottom top hlen
  obtain ⟨r, hr, G, bh, ce, ge, bd, td, rfl, hG, hB, hU⟩ := Backprop_inv op _ _ _ hlen
  refine ⟨_, _, hf, hr, ?_, ?_⟩
  · dsimp only at hG hB ⊢
    have hpair : ∀ b, b < bottom.size0 → ∀ s, s < bottom.size1 →
        ∑ p in Finset.range (bottom.length b s).toNat,
          ip (Slice (top.diff b s) (rowOf L.reverse (bottom.length b s).toNat p))
            (tanSeq op (weightsOf L) W' L.begin_h
              (visitRows L.reverse (bottom.length b s).toNat (bottom.data b s))
              (visitRows L.reverse (bottom.length b s).toNat (x' b s)) p)
        = ipW (pairGrad op { L with c := cc, g := gg, c_er := 0, g_er := 0 } bottom
              { top with length := bottom.length, data := dd } (td b s) b s).1 W'
          + ∑ t in Finset.range (bottom.length b s).toNat,
              ip (Slice (bd b s) t - Slice (bottom.diff b s) t) (Slice (x' b s) t) := by
      intro b hb s hs
      exact pair_adjoint op { L with c := cc, g := gg, c_er := 0, g_er := 0 } bottom
        { top with length := bottom.length, data := dd } (td b s) (ce b s) (ge b s) (bd b s) b s
        (hF b s (Or.inl ⟨hb, hs⟩)) (hB b s (Or.inl ⟨hb, hs⟩)) W' (x' b s)
    rw [Finset.sum_congr rfl (fun b hb => Finset.sum_congr rfl (fun s hs =>
      hpair b (Finset.mem_range.mp hb) s (Finset.mem_range.mp hs)))]
    simp only [Finset.sum_add_distrib]
    congr 1
    have hG1 := congrArg Prod.fst hG
    simp only [Finset.range_zero, Finset.sum_empty, add_zero, Prod.fst_add, Prod.fst_sum] at hG1
    have e : grads (withGrads { L with c := cc, g := gg, c_er := 0, g_er := 0 } G bh) = G := rfl
    have e2 : grads { L with c := cc, g := gg, c_er := 0, g_er := 0 } = grads L := rfl
    have e3 : grads ({ withGrads { L with c := cc, g := gg, c_er := 0, g_er := 0 } G bh with
        c_er := ce, g_er := ge }) = G := rfl
    rw [e3, hG1, e2, add_sub_cancel_left, ipW_sum_range]
    apply Finset.sum_congr rfl
    intro b _
    rw [ipW_sum_range]
  · intro b s t h
    dsimp only
    by_cases hv : b < bottom.size0 ∧ s < bottom.size1
    · exact pair_backward_frame op _ bottom _ _ _ _ _ b s (hB b s (Or.inl hv)) t
        (by
          have : ¬ t < (bottom.length b s).toNat := fun ht => h ⟨hv.1, hv.2, ht⟩
          omega)
    · have := (hU b s (by
        rintro (h1 | h1)
        · exact hv h1
        · omega)).2.2.2
      rw [this]

omit [CommRing α] in
theorem rowOf_lt (rev : Bool) (n p : Nat) (hp : p < n) : rowOf rev n p < n := by
  cases rev
  · simpa [rowOf] using hp
  · simp only [rowOf, if_true]
    omega

omit [CommRing α] in
theorem setEntry_self {m n : Nat} (A : Tensor2D α m n) (i : Fin m) (j : Fin n) :
    setEntry A i j (A i j) = A := by
  funext a b
  unfold setEntry
  split_ifs with h
  · rw [h.1, h.2]
  · rfl

omit [CommRing α] in
theorem setInput_self {n : Nat} (x : Tensor4D α n) (b s t : Nat) (i : Fin n) :
    setInput x b s t i (x b s t i) = x := by
  funext b2 s2 t2 i2
  unfold setInput
  split_ifs with h
  · rw [h.1, h.2.1, h.2.2.1, h.2.2.2]
  · rfl

theorem ipM_setEntry {m n : Nat} (G : Tensor2D α m n) (i : Fin m) (j : Fin n) :
    ipM G (setEntry 0 i j 1) = G i j := by
  unfold ipM
  rw [Finset.sum_eq_single i, Finset.sum_eq_single j]
  · simp [setEntry]
  · intro b _ hb
    simp [setEntry, hb]
  · simp
  · intro a _ ha
    simp [setEntry, ha]
  · simp

theorem ipM_zero_right {m n : Nat} (G : Tensor2D α m n) : ipM G 0 = 0 := by
  simp [ipM]

theorem ipW_zero_right (G : Weights α d_input d_mem) : ipW G 0 = 0 := by
  simp [ipW, ipM]

theorem sum_ip_zero (bottom : Node α d_input) (D : Tensor4D α d_input) :
    ∑ b in Finset.range bottom.size0, ∑ s in Finset.range bottom.size1,
      ∑ t in Finset.range (bottom.length b s).toNat,
        ip (Slice (D b s) t) (Slice ((0 : Tensor4D α d_input) b s) t) = 0 := by
  simp [ip, Slice]

theorem sum_ip_setInput (bottom : Node α d_input) (D : Tensor4D α d_input)
    (b0 s0 t0 : Nat) (i0 : Fin d_input)
    (hD : ∀ b s t, ¬ (b < bottom.size0 ∧ s < bottom.size1 ∧ t < (bottom.length b s).toNat) →
      D b s t = 0) :
    ∑ b in Finset.range bottom.size0, ∑ s in Finset.range bottom.size1,
      ∑ t in Finset.range (bottom.length b s).toNat,
        ip (Slice (D b s) t) (Slice (setInput (0 : Tensor4D α d_input) b0 s0 t0 i0 1 b s) t)
      = D b0 s0 t0 i0 := by
  have hterm : ∀ b s t, ip (Slice (D b s) t)
        (Slice (setInput (0 : Tensor4D α d_input) b0 s0 t0 i0 1 b s) t)
      = if b = b0 ∧ s = s0 ∧ t = t0 then D b0 s0 t0 i0 else 0 := by
    intro b s t
    unfold ip
    by_cases h : b = b0 ∧ s = s0 ∧ t = t0
    · obtain ⟨rfl, rfl, rfl⟩ := h
      rw [Finset.sum_eq_single i0]
      · simp [Slice, setInput]
      · intro i _ hi
        simp [Slice, setInput, hi]
      · simp
    · rw [if_neg h]
      apply Finset.sum_eq_zero
      intro i _
      have : ¬ (b = b0 ∧ s = s0 ∧ t = t0 ∧ i = i0) := fun hh => h ⟨hh.1, hh.2.1, hh.2.2.1⟩
      simp [Slice, setInput, this]
  simp only [hterm]
  by_cases hin : b0 < bottom.size0 ∧ s0 < bottom.size1 ∧ t0 < (bottom.length b0 s0).toNat
  · rw [Finset.sum_eq_single b0, Finset.sum_eq_single s0, Finset.sum_eq_single t0]
    · simp
    · intro t _ ht
      simp [ht]
    · intro h
      exact absurd (Finset.mem_range.mpr hin.2.2) h
    · intro s _ hs
      simp [hs]
    · intro h
      exact absurd (Finset.mem_range.mpr hin.2.1) h
    · intro b _ hb
      simp [hb]
    · intro h
      exact absurd (Finset.mem_range.mpr hin.1) h
  · have hz := hD b0 s0 t0 hin
    rw [hz]
    simp

/-! ### Determinacy of the two passes -/

theorem PairForwardDone_layer_congr (op : Ops α) (L L2 : GruLayer α d_input d_mem)
    (hw : L.params0.data = L2.params0.data ∧ L.params1.data = L2.params1.data ∧
      L.params3.data = L2.params3.data ∧ L.params4.data = L2.params4.data ∧
      L.begin_h = L2.begin_h)
    (hrev : L.reverse = L2.reverse) (bottom : Node α d_input) (bufs : FwdSeq α d_mem)
    (b s : Nat) (h : PairForwardDone op L bottom bufs b s) :
    PairForwardDone op L2 bottom bufs b s := by
  obtain ⟨h0, h1, h3, h4, hb⟩ := hw
  unfold PairForwardDone FwdInvR2L FwdInvL2R layerStep at h ⊢
  rw [← hrev, ← h0, ← h1, ← h3, ← h4, ← hb]
  exact h

theorem Forward_pair_determined (op : Ops α) (L L2 : GruLayer α d_input d_mem)
    (hw : L.params0.data = L2.params0.data ∧ L.params1.data = L2.params1.data ∧
      L.params3.data = L2.params3.data ∧ L.params4.data = L2.params4.data ∧
      L.begin_h = L2.begin_h)
    (hrev : L.reverse = L2.reverse) (bottom bottom2 : Node α d_input) (top top2 : Node α d_mem)
    (f f2 : GruLayer α d_input d_mem × Node α d_mem)
    (hf : ForwardInv op L bottom top bottom.size0 0 f)
    (hf2 : ForwardInv op L2 bottom2 top2 bottom2.size0 0 f2) (b s : Nat)
    (hin : (b < bottom.size0 ∧ s < bottom.size1) ↔ (b < bottom2.size0 ∧ s < bottom2.size1))
    (hx : bottom.data b s = bottom2.data b s) (hl : bottom.length b s = bottom2.length b s) :
    f.2.data b s = f2.2.data b s ∧ f.1.g b s = f2.1.g b s ∧ f.1.c b s = f2.1.c b s := by
  obtain ⟨cc, gg, dd, rfl, h1, h2⟩ := hf
  obtain ⟨cc2, gg2, dd2, rfl, k1, k2⟩ := hf2
  dsimp only
  by_cases hv : b < bottom.size0 ∧ s < bottom.size1
  · have a1 := h1 b s (Or.inl hv)
    have a2 := PairForwardDone_layer_congr op L2 L
      ⟨hw.1.symm, hw.2.1.symm, hw.2.2.1.symm, hw.2.2.2.1.symm, hw.2.2.2.2.symm⟩ hrev.symm _ _ _ _
      (k1 b s (Or.inl (hin.mp hv)))
    have := pair_forward_determined op L bottom bottom2 _ _ b s b s hl hx a1 a2
    simp only [FwdSeq.mk.injEq] at this
    exact ⟨this.2.2, this.1, this.2.1⟩
  · have hv2 : ¬ (b < bottom2.size0 ∧ s < bottom2.size1) := fun h => hv (hin.mpr h)
    obtain ⟨a1, a2, a3⟩ := h2 b s (by
      rintro (h | h)
      · exact hv h
      · omega)
    obtain ⟨c1, c2, c3⟩ := k2 b s (by
      rintro (h | h)
      · exact hv2 h
      · omega)
    rw [a1, a2, a3, c1, c2, c3]
    exact ⟨rfl, rfl, rfl⟩

theorem Forward_determined (op : Ops α) (L L2 : GruLayer α d_input d_mem)
    (hw : L.params0.data = L2.params0.data ∧ L.params1.data = L2.params1.data ∧
      L.params3.data = L2.params3.data ∧ L.params4.data = L2.params4.data ∧
      L.begin_h = L2.begin_h)
    (hrev : L.reverse = L2.reverse) (bottom : Node α d_input) (bd2 : Tensor4D α d_input)
    (top top2 : Node α d_mem) (hlen : ValidLengths bottom) :
    ∃ (cc : Tensor4D α d_mem) (gg : Tensor4D α (2 * d_mem)) (dd : Tensor4D α d_mem),
      Forward op L bottom top
        = .ok ({ L with c := cc, g := gg, c_er := 0, g_er := 0 },
               { top with length := bottom.length, data := dd }) ∧
      Forward op L2 { bottom with diff := bd2 } top2
        = .ok ({ L2 with c := cc, g := gg, c_er := 0, g_er := 0 },
               { top2 with length := bottom.length, data := dd }) := by
  obtain ⟨f, hf, hI⟩ := Forward_inv op L bottom top hlen
  obtain ⟨f2, hf2, hI2⟩ := Forward_inv op L2 { bottom with diff := bd2 } top2 hlen
  have key := fun b s => Forward_pair_determined op L L2 hw hrev bottom
    { bottom with diff := bd2 } top top2 f f2 hI hI2 b s Iff.rfl rfl rfl
  obtain ⟨cc, gg, dd, rfl, -, -⟩ := hI
  obtain ⟨cc2, gg2, dd2, rfl, -, -⟩ := hI2
  dsimp only at key
  have e1 : dd2 = dd := funext fun b => funext fun s => (key b s).1.symm
  have e2 : gg2 = gg := funext fun b => funext fun s => (key b s).2.1.symm
  have e3 : cc2 = cc := funext fun b => funext fun s => (key b s).2.2.symm
  subst e1 e2 e3
  exact ⟨_, _, _, hf, hf2⟩

theorem pair_backward_input_determined (op : Ops α) (L L2 : GruLayer α d_input d_mem)
    (bottom bottom2 : Node α d_input) (top top2 : Node α d_mem) (b s b2 s2 : Nat)
    (td ce td2 ce2 : Rows α d_mem) (ge ge2 : Rows α (2 * d_mem)) (bd bd2 : Rows α d_input)
    (hw : L.params0.data = L2.params0.data ∧ L.params1.data = L2.params1.data ∧
      L.params3.data = L2.params3.data ∧ L.params4.data = L2.params4.data ∧
      L.begin_h = L2.begin_h)
    (hrev : L.reverse = L2.reverse)
    (hlen : bottom.length b s = bottom2.length b2 s2)
    (hx : bottom.data b s = bottom2.data b2 s2)
    (hout : top.data b s = top2.data b2 s2)
    (hc : L.c b s = L2.c b2 s2) (hg : L.g b s = L2.g b2 s2)
    (hext : top.diff b s = top2.diff b2 s2)
    (hd : PairBackDone op L bottom top td ce ge bd b s)
    (hd2 : PairBackDone op L2 bottom2 top2 td2 ce2 ge2 bd2 b2 s2) :
    ∀ t, bd t - bottom.diff b s t = bd2 t - bottom2.diff b2 s2 t := by
  have e := (pair_backward_determined op L L2 bottom bottom2 top top2 b s b2 s2 td ce td2 ce2
    ge ge2 bd bd2 hw hrev hlen hx hout hc hg hext hd hd2).1
  subst e
  obtain ⟨Lr, hd⟩ := hd
  obtain ⟨Lr2, hd2⟩ := hd2
  have hsgL := sgL2R_layer_congr op L L2 hw
  have hsgR := sgR2L_layer_congr op L L2 hw
  rw [← hrev, ← hlen, ← hx, ← hout, ← hc, ← hg] at hd2
  intro t
  cases hr : L.reverse
  · simp only [hr, Bool.false_eq_true, if_false] at hd hd2
    have a := hd.2.2.2.2 t
    have a2 := hd2.2.2.2.2 t
    simp only [bpStart, ← hsgL] at a a2
    rw [a, a2]
    simp
  · simp only [hr, if_true] at hd hd2
    have a := hd.2.2.2.2 t
    have a2 := hd2.2.2.2.2 t
    simp only [bpStart, ← hsgR] at a a2
    rw [a, a2]
    simp

/-! ### Claims on one step and on the gate views -/

/-- C11: with the four weight matrices zero and the previous hidden state zero, for activation
functors with `sigmoid 0 = 1/2` and `tanh 0 = 0` and every input row `x`, `ForwardOneStep`
succeeds, every entry of the gate row (hence of its reset view and of its update view) is
`1/2`, every candidate entry is `0` and every entry of the new hidden state is `0`. -/
theorem C11_zero_weight_forward {K : Type} [Field K] (op : Ops K)
    (hs : op.sigmoid 0 = 1 / 2) (ht : op.tanh 0 = 0) (L : GruLayer K d_input d_mem)
    (h0 : L.params0.data = 0) (h1 : L.params1.data = 0)
    (h3 : L.params3.data = 0) (h4 : L.params4.data = 0) (x : Tensor2D K 1 d_input) :
    ∃ g c h r z, ForwardOneStep op L 0 x = .ok (g, c, h) ∧ SplitGate g = .ok (r, z) ∧
      (∀ k, g 0 k = 1 / 2) ∧ (∀ j, r 0 j = 1 / 2) ∧ (∀ j, z 0 j = 1 / 2) ∧
      (∀ j, c 0 j = 0) ∧ (∀ j, h 0 j = 0) := by
  have hg : ∀ k, (refStep op L.params0.data L.params1.data L.params3.data L.params4.data
      0 x).1 0 k = 1 / 2 := by
    intro k
    simp [refStep, refGate, h0, h1, hs]
  have hc : ∀ j, (refStep op L.params0.data L.params1.data L.params3.data L.params4.data
      0 x).2.1 0 j = 0 := by
    intro j
    simp [refStep, refCand, h3, h4, ht]
  refine ⟨_, _, _,
    fun _ j => (refStep op L.params0.data L.params1.data L.params3.data L.params4.data
      0 x).1 0 ⟨j.1, by omega⟩,
    fun _ j => (refStep op L.params0.data L.params1.data L.params3.data L.params4.data
      0 x).1 0 ⟨1 * d_mem + j.1, by omega⟩,
    ForwardOneStep_eq op L 0 x, by simp only [SplitGate, dif_pos]; rfl, hg,
    fun j => hg _, fun j => hg _, hc, ?_⟩
  intro j
  have := hc j
  simp only [refStep] at this ⊢
  simp [refHidden, this]

theorem C11_zero_weight_forward_witness :
    (exOpsOf (fun u : ℝ => 1 / (1 + Real.exp (-u))) Real.tanh).sigmoid 0 = 1 / 2 ∧
    (exOpsOf (fun u : ℝ => 1 / (1 + Real.exp (-u))) Real.tanh).tanh 0 = 0 ∧
    ∃ g c h r z,
      ForwardOneStep (exOpsOf (fun u : ℝ => 1 / (1 + Real.exp (-u))) Real.tanh)
        ({ exLayerR false with params0 := ⟨0, 0⟩, params1 := ⟨0, 0⟩, params3 := ⟨0, 0⟩,
                               params4 := ⟨0, 0⟩ } : GruLayer ℝ 1 1) 0 (fun _ _ => 3)
        = .ok (g, c, h) ∧
      SplitGate g = .ok (r, z) ∧
      (∀ k, g 0 k = 1 / 2) ∧ (∀ j, r 0 j = 1 / 2) ∧ (∀ j, z 0 j = 1 / 2) ∧
      (∀ j, c 0 j = 0) ∧ (∀ j, h 0 j = 0) :=
  ⟨by simp [exOpsOf]; norm_num, by simp [exOpsOf],
    C11_zero_weight_forward _ (by simp [exOpsOf]; norm_num) (by simp [exOpsOf]) _
      rfl rfl rfl rfl _⟩

omit [CommRing α] in
/-- C13: on a one-row gate buffer `g` of width `2 * d_mem`, `SplitGate` succeeds with
`r[j] = g[j]` and `z[j] = g[d_mem + j]`; the two views together are exactly `g` (`JoinGate`
of the views gives `g` back) and they do not overlap (the buffer written through the views
reads back as what was written); a write to `r[j]` or `z[j]` is the write to `g[j]` resp.
`g[d_mem + j]`, and a change of `g[j]` or `g[d_mem + j]` is seen through `r` resp. `z`. -/
theorem C13_SplitGate_views (g : Tensor2D α 1 (2 * d_mem)) :
    ∃ r z, SplitGate g = .ok (r, z) ∧
      (∀ j : Fin d_mem, r 0 j = g 0 ⟨j.1, by omega⟩) ∧
      (∀ j : Fin d_mem, z 0 j = g 0 ⟨d_mem + j.1, by omega⟩) ∧
      JoinGate r z = g ∧
      (∀ r2 z2 : Tensor2D α 1 d_mem, SplitGate (JoinGate r2 z2) = .ok (r2, z2)) ∧
      (∀ (j : Fin d_mem) (v : α),
        JoinGate (setEntry r 0 j v) z = setEntry g 0 ⟨j.1, by omega⟩ v ∧
        JoinGate r (setEntry z 0 j v) = setEntry g 0 ⟨d_mem + j.1, by omega⟩ v ∧
        SplitGate (setEntry g 0 ⟨j.1, by omega⟩ v) = .ok (setEntry r 0 j v, z) ∧
        SplitGate (setEntry g 0 ⟨d_mem + j.1, by omega⟩ v) = .ok (r, setEntry z 0 j v)) := by
  have e1 : ∀ j : Fin d_mem, 1 * d_mem + j.1 = d_mem + j.1 := fun j => by omega
  refine ⟨fun _ j => g 0 ⟨j.1, by omega⟩, fun _ j => g 0 ⟨d_mem + j.1, by omega⟩, ?_,
    fun _ => rfl, fun _ => rfl, ?_, ?_, ?_⟩
  · simp only [SplitGate, dif_pos, e1]
    rfl
  · funext i k
    obtain rfl : i = 0 := Subsingleton.elim _ _
    unfold JoinGate
    by_cases h : k.1 < d_mem
    · simp [h]
    · have ek : (⟨d_mem + (k.1 - d_mem), by omega⟩ : Fin (2 * d_mem)) = k :=
        Fin.ext (by simp only; omega)
      simp [h, ek]
  · intro r2 z2
    simp only [SplitGate, dif_pos, Except.ok.injEq, Prod.mk.injEq]
    constructor
    · funext i j
      obtain rfl : i = 0 := Subsingleton.elim _ _
      simp [JoinGate]
    · funext i j
      obtain rfl : i = 0 := Subsingleton.elim _ _
      simp [JoinGate]
  · intro j v
    refine ⟨?_, ?_, ?_, ?_⟩
    · funext i k
      obtain rfl : i = 0 := Subsingleton.elim _ _
      unfold JoinGate setEntry
      by_cases h : k.1 < d_mem
      · simp [h, Fin.ext_iff]
      · have ek : (⟨d_mem + (k.1 - d_mem), by omega⟩ : Fin (2 * d_mem)) = k :=
          Fin.ext (by simp only; omega)
        have hk : ¬ (k.1 = j.1) := by omega
        simp [h, ek, Fin.ext_iff, hk]
    · funext i k
      obtain rfl : i = 0 := Subsingleton.elim _ _
      unfold JoinGate setEntry
      by_cases h : k.1 < d_mem
      · have hk : ¬ (k.1 = d_mem + j.1) := by omega
        simp [h, Fin.ext_iff, hk]
      · have ek : (⟨d_mem + (k.1 - d_mem), by omega⟩ : Fin (2 * d_mem)) = k :=
          Fin.ext (by simp only; omega)
        have hiff : (k.1 - d_mem = j.1) ↔ (k.1 = d_mem + j.1) := by omega
        simp [h, ek, Fin.ext_iff, hiff]
    · simp only [SplitGate, dif_pos, Except.ok.injEq, Prod.mk.injEq, e1]
      constructor
      · funext i k
        obtain rfl : i = 0 := Subsingleton.elim _ _
        simp [setEntry, Fin.ext_iff]
      · funext i k
        obtain rfl : i = 0 := Subsingleton.elim _ _
        have : ¬ (d_mem + k.1 = j.1) := by omega
        simp [setEntry, Fin.ext_iff, this]
    · simp only [SplitGate, dif_pos, Except.ok.injEq, Prod.mk.injEq, e1]
      constructor
      · funext i k
        obtain rfl : i = 0 := Subsingleton.elim _ _
        have : ¬ (k.1 = d_mem + j.1) := by omega
        simp [setEntry, Fin.ext_iff, this]
      · funext i k
        obtain rfl : i = 0 := Subsingleton.elim _ _
        simp [setEntry, Fin.ext_iff]

/-- C16: `SplitGate` fails if and only if the gate slice does not have exactly one row, its
only failure is the gate error, and on a one-row slice it succeeds. -/
theorem C16_SplitGate_error {rows : Nat} (g : Tensor2D α rows (2 * d_mem)) :
    (SplitGate g = .error .gate ↔ rows ≠ 1) ∧
    (∀ e, SplitGate g = .error e → e = .gate) ∧
    (rows = 1 → ∃ rz, SplitGate g = .ok rz) := by
  unfold SplitGate
  by_cases h : rows = 1
  · simp [h]
  · simp [h]

theorem C16_SplitGate_error_witness :
    SplitGate ((fun _ _ => 1) : Tensor2D ℚ 2 (2 * 1)) = .error .gate ∧
    ∃ rz, SplitGate ((fun _ _ => 1) : Tensor2D ℚ 1 (2 * 1)) = .ok rz :=
  ⟨(C16_SplitGate_error ((fun _ _ => 1) : Tensor2D ℚ 2 (2 * 1))).1.mpr (by decide),
    (C16_SplitGate_error ((fun _ _ => 1) : Tensor2D ℚ 1 (2 * 1))).2.2 rfl⟩

/-! ### Failure and success of the loops -/

theorem foldlM_ok {σ ι ε : Type} (f : σ → ι → Except ε σ) (I : σ → Prop) (l : List ι) :
    ∀ s0, I s0 → (∀ s i, i ∈ l → I s → ∃ s', f s i = .ok s' ∧ I s') →
      ∃ r, l.foldlM f s0 = .ok r ∧ I r := by
  induction l with
  | nil => intro s0 h0 _; exact ⟨s0, rfl, h0⟩
  | cons a l ih =>
    intro s0 h0 hstep
    obtain ⟨s1, h1, hI1⟩ := hstep s0 a (List.mem_cons_self _ _) h0
    obtain ⟨r, hr, hIr⟩ := ih s1 hI1 (fun s i hi hs => hstep s i (List.mem_cons_of_mem _ hi) hs)
    exact ⟨r, by simp [List.foldlM, h1, hr, bind, Except.bind], hIr⟩

theorem foldlM_error {σ ι ε : Type} (f : σ → ι → Except ε σ) (e : ε) (I : σ → Prop)
    (bad : ι → Prop) (l : List ι) :
    ∀ s0, I s0 → (∀ s i, i ∈ l → I s → ¬ bad i → ∃ s', f s i = .ok s' ∧ I s') →
      (∀ s i, i ∈ l → I s → bad i → f s i = .error e) → (∃ i, i ∈ l ∧ bad i) →
      l.foldlM f s0 = .error e := by
  induction l with
  | nil =>
    intro s0 _ _ _ hex
    obtain ⟨i, hi, -⟩ := hex
    exact absurd hi (List.not_mem_nil i)
  | cons a l ih =>
    intro s0 h0 hgood hbad hex
    by_cases ha : bad a
    · have := hbad s0 a (List.mem_cons_self _ _) h0 ha
      simp [List.foldlM, this, bind, Except.bind]
    · obtain ⟨s1, h1, hI1⟩ := hgood s0 a (List.mem_cons_self _ _) h0 ha
      have hex2 : ∃ i, i ∈ l ∧ bad i := by
        obtain ⟨i, hi, hb⟩ := hex
        rcases List.mem_cons.mp hi with h | h
        · exact absurd (h ▸ hb) ha
        · exact ⟨i, h, hb⟩
      have := ih s1 hI1 (fun s i hi hs => hgood s i (List.mem_cons_of_mem _ hi) hs)
        (fun s i hi hs => hbad s i (List.mem_cons_of_mem _ hi) hs) hex2
      simp [List.foldlM, h1, this, bind, Except.bind]

theorem foldlM_ne_error {σ ι ε : Type} (f : σ → ι → Except ε σ) (e : ε) (I : σ → Prop)
    (l : List ι) :
    ∀ s0, I s0 →
      (∀ s i, i ∈ l → I s → f s i ≠ .error e ∧ ∀ s', f s i = .ok s' → I s') →
      l.foldlM f s0 ≠ .error e ∧ ∀ r, l.foldlM f s0 = .ok r → I r := by
  induction l with
  | nil =>
    intro s0 h0 _
    refine ⟨fun h => (by cases h), ?_⟩
    intro r hr
    cases hr
    exact h0
  | cons a l ih =>
    intro s0 h0 hstep
    obtain ⟨hne, hI⟩ := hstep s0 a (List.mem_cons_self _ _) h0
    cases hfa : f s0 a with
    | error e1 =>
      have e2 : (a :: l).foldlM f s0 = .error e1 := by
        simp [List.foldlM, hfa, bind, Except.bind]
      rw [e2]
      refine ⟨fun h => hne (by rw [hfa, h]), fun r hr => (by cases hr)⟩
    | ok s1 =>
      have e2 : (a :: l).foldlM f s0 = l.foldlM f s1 := by
        simp [List.foldlM, hfa, bind, Except.bind]
      rw [e2]
      exact ih s1 (hI s1 hfa) (fun s i hi hs => hstep s i (List.mem_cons_of_mem _ hi) hs)

theorem foldlM_nested_error {σ ε : Type} (f : σ → Nat → Nat → Except ε σ) (e : ε)
    (I : σ → Prop) (bad : Nat → Nat → Prop) (B S : Nat) (s0 : σ) (h0 : I s0)
    (hgood : ∀ st b s, b < B → s < S → I st → ¬ bad b s → ∃ st', f st b s = .ok st' ∧ I st')
    (hbad : ∀ st b s, b < B → s < S → I st → bad b s → f st b s = .error e)
    (hex : ∃ b s, b < B ∧ s < S ∧ bad b s) :
    (List.range B).foldlM (fun st b => (List.range S).foldlM (fun st s => f st b s) st) s0
      = .error e := by
  obtain ⟨b0, s0', hb0, hs0, hbad0⟩ := hex
  apply foldlM_error _ e I (fun b => ∃ s, s < S ∧ bad b s) (List.range B) s0 h0
  · intro st b hb hI hnb
    apply foldlM_ok _ I (List.range S) st hI
    intro st2 s hs hI2
    exact hgood st2 b s (List.mem_range.mp hb) (List.mem_range.mp hs) hI2
      (fun h => hnb ⟨s, List.mem_range.mp hs, h⟩)
  · intro st b hb hI hbd
    apply foldlM_error _ e I (fun s => bad b s) (List.range S) st hI
    · intro st2 s hs hI2 hn
      exact hgood st2 b s (List.mem_range.mp hb) (List.mem_range.mp hs) hI2 hn
    · intro st2 s hs hI2 hn
      exact hbad st2 b s (List.mem_range.mp hb) (List.mem_range.mp hs) hI2 hn
    · obtain ⟨s, hs, h⟩ := hbd
      exact ⟨s, List.mem_range.mpr hs, h⟩
  · exact ⟨b0, List.mem_range.mpr hb0, s0', hs0, hbad0⟩

theorem foldlM_nested_ne_error {σ ε : Type} (f : σ → Nat → Nat → Except ε σ) (e : ε)
    (I : σ → Prop) (B S : Nat) (s0 : σ) (h0 : I s0)
    (hstep : ∀ st b s, b < B → s < S → I st →
      f st b s ≠ .error e ∧ ∀ st', f st b s = .ok st' → I st') :
    (List.range B).foldlM (fun st b => (List.range S).foldlM (fun st s => f st b s) st) s0
      ≠ .error e := by
  refine (foldlM_ne_error _ e I (List.range B) s0 h0 ?_).1
  intro st b hb hI
  apply foldlM_ne_error _ e I (List.range S) st hI
  intro st2 s hs hI2
  exact hstep st2 b s (List.mem_range.mp hb) (List.mem_range.mp hs) hI2

theorem foldlM_post {σ ι ε : Type} (f : σ → ι → Except ε σ) (I : σ → Prop) (l : List ι) :
    ∀ s0, I s0 → (∀ s i, i ∈ l → I s → ∀ s', f s i = .ok s' → I s') →
      ∀ r, l.foldlM f s0 = .ok r → I r := by
  induction l with
  | nil =>
    intro s0 h0 _ r hr
    cases hr
    exact h0
  | cons a l ih =>
    intro s0 h0 hstep r hr
    cases hfa : f s0 a with
    | error e1 =>
      have e2 : (a :: l).foldlM f s0 = .error e1 := by
        simp [List.foldlM, hfa, bind, Except.bind]
      rw [e2] at hr
      cases hr
    | ok s1 =>
      have e2 : (a :: l).foldlM f s0 = l.foldlM f s1 := by
        simp [List.foldlM, hfa, bind, Except.bind]
      rw [e2] at hr
      exact ih s1 (hstep s0 a (List.mem_cons_self _ _) h0 s1 hfa)
        (fun s i hi hs => hstep s i (List.mem_cons_of_mem _ hi) hs) r hr

theorem fwdPair_error (op : Ops α) (bottom : Node α d_input)
    (st : GruLayer α d_input d_mem × Node α d_mem) (b s : Nat) (h : bottom.length b s < 0) :
    fwdPair op bottom st b s = .error .seqLength := by
  simp [fwdPair, h, bind, Except.bind, throw, throwThe, MonadExceptOf.throw]

theorem fwdPair_ne_seqLength (op : Ops α) (bottom : Node α d_input)
    (st : GruLayer α d_input d_mem × Node α d_mem) (b s : Nat) (h : 0 ≤ bottom.length b s) :
    fwdPair op bottom st b s ≠ .error .seqLength := by
  obtain ⟨r, -, hr⟩ := fwdPair_ok op bottom st b s h
  rw [hr]
  intro hh
  cases hh

theorem fwdPair_length (op : Ops α) (bottom : Node α d_input)
    (st st2 : GruLayer α d_input d_mem × Node α d_mem) (b s : Nat)
    (h : fwdPair op bottom st b s = .ok st2) : st2.2.length = st.2.length := by
  by_cases h0 : bottom.length b s < 0
  · rw [fwdPair_error op bottom st b s h0] at h
    cases h
  · obtain ⟨r, -, hr⟩ := fwdPair_ok op bottom st b s (by omega)
    rw [hr] at h
    cases h
    rfl

theorem Forward_length (op : Ops α) (L : GruLayer α d_input d_mem) (bottom : Node α d_input)
    (top : Node α d_mem) (f : GruLayer α d_input d_mem × Node α d_mem)
    (h : Forward op L bottom top = .ok f) : f.2.length = bottom.length := by
  unfold Forward at h
  refine foldlM_post _ (fun st => st.2.length = bottom.length) (List.range bottom.size0) _ rfl
    ?_ f h
  intro st b _ hI st2 h2
  refine foldlM_post _ (fun st => st.2.length = bottom.length) (List.range bottom.size1) st hI
    ?_ st2 h2
  intro st3 s _ hI3 st4 h4
  exact (fwdPair_length op bottom st3 st4 b s h4).trans hI3

theorem BpOneStep_ok (op : Ops α) (L : GruLayer α d_input d_mem)
    (cur_h_er pre_h : Tensor2D α 1 d_mem) (x : Tensor2D α 1 d_input)
    (cur_g : Tensor2D α 1 (2 * d_mem)) (cur_c cur_h : Tensor2D α 1 d_mem)
    (cur_c_er : Tensor2D α 1 d_mem) (cur_g_er : Tensor2D α 1 (2 * d_mem))
    (pre_h_er : Tensor2D α 1 d_mem) (x_er : Tensor2D α 1 d_input) :
    ∃ o, BpOneStep op L cur_h_er pre_h x cur_g cur_c cur_h cur_c_er cur_g_er pre_h_er x_er
      = .ok o := by
  simp only [BpOneStep, SplitGate, dif_pos, bind, Except.bind, pure, Except.pure]
  exact ⟨_, rfl⟩

theorem bpBodyL2R_ok (op : Ops α) (top_data c : Rows α d_mem) (g : Rows α (2 * d_mem))
    (bottom_data : Rows α d_input) (q : BpSeq α d_input d_mem) (i : Nat) :
    ∃ r, bpBodyL2R op top_data c g bottom_data q i = .ok r := by
  obtain ⟨o, ho⟩ := BpOneStep_ok op q.layer (Slice q.top_diff i)
    (if i = 0 then q.layer.begin_h else Slice top_data (i - 1))
    (Slice bottom_data i) (Slice g i) (Slice c i) (Slice top_data i) (Slice q.c_er i)
    (Slice q.g_er i) (if i = 0 then q.layer.begin_h_er else Slice q.top_diff (i - 1))
    (Slice q.bottom_diff i)
  simp [bpBodyL2R, ho, bind, Except.bind, pure, Except.pure]

theorem bpBodyR2L_ok (op : Ops α) (n : Nat) (top_data c : Rows α d_mem)
    (g : Rows α (2 * d_mem)) (bottom_data : Rows α d_input) (q : BpSeq α d_input d_mem)
    (i : Nat) : ∃ r, bpBodyR2L op n top_data c g bottom_data q i = .ok r := by
  obtain ⟨o, ho⟩ := BpOneStep_ok op q.layer (Slice q.top_diff i)
    (if i = n - 1 then q.layer.begin_h else Slice top_data (i + 1))
    (Slice bottom_data i) (Slice g i) (Slice c i) (Slice top_data i) (Slice q.c_er i)
    (Slice q.g_er i) (if i = n - 1 then q.layer.begin_h_er else Slice q.top_diff (i + 1))
    (Slice q.bottom_diff i)
  simp [bpBodyR2L, ho, bind, Except.bind, pure, Except.pure]

theorem bpPair_ok_any (op : Ops α) (st : BpState α d_input d_mem) (b s : Nat)
    (h0 : 0 ≤ st.bottom.length b s) :
    ∃ r : BpSeq α d_input d_mem, bpPair op st b s
      = .ok { layer := { r.layer with c_er := setPair st.layer.c_er b s r.c_er,
                                      g_er := setPair st.layer.g_er b s r.g_er },
              bottom := { st.bottom with diff := setPair st.bottom.diff b s r.bottom_diff },
              top := { st.top with diff := setPair st.top.diff b s r.top_diff } } := by
  have e1 : ¬ st.bottom.length b s < 0 := by omega
  cases hrev : st.layer.reverse
  · obtain ⟨r, hr, -⟩ := foldlM_ok (bpBodyL2R op (st.top.data b s) (st.layer.c b s)
      (st.layer.g b s) (st.bottom.data b s)) (fun _ => True)
      (List.range (st.bottom.length b s).toNat).reverse (bpBufs st b s) trivial (by
        intro q i _ _
        obtain ⟨r, hr⟩ := bpBodyL2R_ok op (st.top.data b s) (st.layer.c b s)
          (st.layer.g b s) (st.bottom.data b s) q i
        exact ⟨r, hr, trivial⟩)
    refine ⟨r, ?_⟩
    simp only [bpPair, e1, hrev, BackpropForLeft2RightLstm, bpBufs] at hr ⊢
    simp [bind, Except.bind, pure, Except.pure, hr]
  · obtain ⟨r, hr, -⟩ := foldlM_ok (bpBodyR2L op (st.bottom.length b s).toNat
      (st.top.data b s) (st.layer.c b s) (st.layer.g b s) (st.bottom.data b s))
      (fun _ => True) (List.range (st.bottom.length b s).toNat) (bpBufs st b s) trivial (by
        intro q i _ _
        obtain ⟨r, hr⟩ := bpBodyR2L_ok op (st.bottom.length b s).toNat (st.top.data b s)
          (st.layer.c b s) (st.layer.g b s) (st.bottom.data b s) q i
        exact ⟨r, hr, trivial⟩)
    refine ⟨r, ?_⟩
    simp only [bpPair, e1, hrev, BackpropForRight2LeftLstm, bpBufs] at hr ⊢
    simp [bind, Except.bind, pure, Except.pure, hr]

theorem bpPair_error (op : Ops α) (st : BpState α d_input d_mem) (b s : Nat)
    (h : st.bottom.length b s < 0) : bpPair op st b s = .error .seqLength := by
  simp [bpPair, h, bind, Except.bind, throw, throwThe, MonadExceptOf.throw]

theorem bpPair_ne_seqLength (op : Ops α) (st : BpState α d_input d_mem) (b s : Nat)
    (h : 0 ≤ st.bottom.length b s) :
    bpPair op st b s ≠ .error .seqLength ∧
      ∀ r, bpPair op st b s = .ok r → r.bottom.length = st.bottom.length := by
  obtain ⟨r, hr⟩ := bpPair_ok_any op st b s h
  rw [hr]
  refine ⟨fun hh => (by cases hh), ?_⟩
  intro r2 hr2
  cases hr2
  rfl

/-! ### Claim on the sequence length error -/

/-- C15: `Forward` and `Backprop` abort with the sequence length error whenever some pair
inside the shape has a negative valid length, whatever the other lengths are; and when every
pair inside the shape has a valid length `>= 0`, neither `Forward` nor `Backprop` raises the
sequence length error. -/
theorem C15_sequence_length_error (op : Ops α) (L : GruLayer α d_input d_mem)
    (bottom : Node α d_input) (top : Node α d_mem) :
    ((∃ b s, b < bottom.size0 ∧ s < bottom.size1 ∧ bottom.length b s < 0) →
      Forward op L bottom top = .error .seqLength ∧
      Backprop op L bottom top = .error .seqLength) ∧
    ((∀ b, b < bottom.size0 → ∀ s, s < bottom.size1 → 0 ≤ bottom.length b s) →
      Forward op L bottom top ≠ .error .seqLength ∧
      Backprop op L bottom top ≠ .error .seqLength) := by
  constructor
  · intro hex
    constructor
    · unfold Forward
      apply foldlM_nested_error (fun st b s => fwdPair op bottom st b s) .seqLength
        (fun _ => True) (fun b s => bottom.length b s < 0) _ _ _ trivial _ _ hex
      · intro st b s hb hs _ hn
        obtain ⟨r, -, hr⟩ := fwdPair_ok op bottom st b s (by omega)
        exact ⟨_, hr, trivial⟩
      · intro st b s _ _ _ hn
        exact fwdPair_error op bottom st b s hn
    · unfold Backprop
      apply foldlM_nested_error (fun st b s => bpPair op st b s) .seqLength
        (fun st => st.bottom.length = bottom.length)
        (fun b s => bottom.length b s < 0) _ _ _ rfl _ _ hex
      · intro st b s hb hs hI hn
        obtain ⟨r, hr⟩ := bpPair_ok_any op st b s (by rw [hI]; omega)
        exact ⟨_, hr, hI⟩
      · intro st b s _ _ hI hn
        exact bpPair_error op st b s (by rw [hI]; exact hn)
  · intro hpos
    constructor
    · unfold Forward
      apply foldlM_nested_ne_error (fun st b s => fwdPair op bottom st b s) .seqLength
        (fun _ => True) _ _ _ trivial
      intro st b s hb hs _
      exact ⟨fwdPair_ne_seqLength op bottom st b s (hpos b hb s hs), fun _ _ => trivial⟩
    · unfold Backprop
      apply foldlM_nested_ne_error (fun st b s => bpPair op st b s) .seqLength
        (fun st => st.bottom.length = bottom.length) _ _ _ rfl
      intro st b s hb hs hI
      obtain ⟨h1, h2⟩ := bpPair_ne_seqLength op st b s (by rw [hI]; exact hpos b hb s hs)
      exact ⟨h1, fun r hr => (h2 r hr).trans hI⟩

theorem C15_sequence_length_error_witness :
    (Forward exOps (exLayer false 0) (exBottomOf 2 (fun b => if b = 0 then 3 else -1)) (exTop 2)
        = .error .seqLength ∧
      Backprop exOps (exLayer false 0) (exBottomOf 2 (fun b => if b = 0 then 3 else -1)) (exTop 2)
        = .error .seqLength) ∧
    (Forward exOps (exLayer false 0) (exBottom 2 1) (exTop 2) ≠ .error .seqLength ∧
      Backprop exOps (exLayer false 0) (exBottom 2 1) (exTop 2) ≠ .error .seqLength) :=
  ⟨(C15_sequence_length_error exOps (exLayer false 0)
      (exBottomOf 2 (fun b => if b = 0 then 3 else -1)) (exTop 2)).1
      ⟨1, 0, by decide, by decide, by decide⟩,
    (C15_sequence_length_error exOps (exLayer false 0) (exBottom 2 1) (exTop 2)).2
      (fun _ _ _ _ => by simp [exBottom])⟩

/-! ### Claims on independence of pairs, of earlier calls and of the biases -/

/-- C12: for two inputs (data, lengths and shapes may differ elsewhere) that contain the pair
`(b, s)` and agree on its data and length, the same weights, direction and initial hidden
state, `Forward` produces the same hidden-state, gate and candidate buffers for `(b, s)`; and
for output gradients that agree on `(b, s)`, `Backprop` adds the same amount to the input
gradient of `(b, s)`, hence leaves the same input gradient there when the two input gradients
agreed on `(b, s)` before the call. -/
theorem C12_pair_independence (op : Ops α) (L L2 : GruLayer α d_input d_mem)
    (hw : L.params0.data = L2.params0.data ∧ L.params1.data = L2.params1.data ∧
      L.params3.data = L2.params3.data ∧ L.params4.data = L2.params4.data ∧
      L.begin_h = L2.begin_h)
    (hrev : L.reverse = L2.reverse) (bottom bottom2 : Node α d_input) (top top2 : Node α d_mem)
    (hlen : ValidLengths bottom) (hlen2 : ValidLengths bottom2) (b s : Nat)
    (hin : b < bottom.size0 ∧ s < bottom.size1) (hin2 : b < bottom2.size0 ∧ s < bottom2.size1)
    (hx : bottom.data b s = bottom2.data b s) (hl : bottom.length b s = bottom2.length b s) :
    ∃ f f2, Forward op L bottom top = .ok f ∧ Forward op L2 bottom2 top2 = .ok f2 ∧
      f.2.data b s = f2.2.data b s ∧ f.1.g b s = f2.1.g b s ∧ f.1.c b s = f2.1.c b s ∧
      ∀ e e2 : Tensor4D α d_mem, e b s = e2 b s →
        ∃ r r2, Backprop op f.1 bottom { f.2 with diff := e } = .ok r ∧
          Backprop op f2.1 bottom2 { f2.2 with diff := e2 } = .ok r2 ∧
          (∀ t, r.bottom.diff b s t - bottom.diff b s t
            = r2.bottom.diff b s t - bottom2.diff b s t) ∧
          (bottom.diff b s = bottom2.diff b s → r.bottom.diff b s = r2.bottom.diff b s) := by
  obtain ⟨f, hf, hI⟩ := Forward_inv op L bottom top hlen
  obtain ⟨f2, hf2, hI2⟩ := Forward_inv op L2 bottom2 top2 hlen2
  have key := Forward_pair_determined op L L2 hw hrev bottom bottom2 top top2 f f2 hI hI2 b s
    ⟨fun _ => hin2, fun _ => hin⟩ hx hl
  refine ⟨f, f2, hf, hf2, key.1, key.2.1, key.2.2, ?_⟩
  intro e e2 he
  obtain ⟨r, hr, G, bh, ce, ge, bd, td, rfl, -, hB, -⟩ :=
    Backprop_inv op f.1 bottom { f.2 with diff := e } hlen
  obtain ⟨r2, hr2, G2, bh2, ce2, ge2, bd2, td2, rfl, -, hB2, -⟩ :=
    Backprop_inv op f2.1 bottom2 { f2.2 with diff := e2 } hlen2
  have hw1 : f.1.params0.data = f2.1.params0.data ∧ f.1.params1.data = f2.1.params1.data ∧
      f.1.params3.data = f2.1.params3.data ∧ f.1.params4.data = f2.1.params4.data ∧
      f.1.begin_h = f2.1.begin_h := by
    obtain ⟨cc, gg, dd, rfl, -, -⟩ := hI
    obtain ⟨cc2, gg2, dd2, rfl, -, -⟩ := hI2
    exact hw
  have hrev1 : f.1.reverse = f2.1.reverse := by
    obtain ⟨cc, gg, dd, rfl, -, -⟩ := hI
    obtain ⟨cc2, gg2, dd2, rfl, -, -⟩ := hI2
    exact hrev
  have hd := pair_backward_input_determined op f.1 f2.1 bottom bottom2
    { f.2 with diff := e } { f2.2 with diff := e2 } b s b s (td b s) (ce b s) (td2 b s)
    (ce2 b s) (ge b s) (ge2 b s) (bd b s) (bd2 b s) hw1 hrev1 hl hx key.1 key.2.2 key.2.1 he
    (hB b s (Or.inl hin)) (hB2 b s (Or.inl hin2))
  refine ⟨_, _, hr, hr2, hd, ?_⟩
  intro h0
  funext t
  have := hd t
  rw [h0] at this
  exact sub_left_injective this

theorem C12_pair_independence_witness :
    ValidLengths (exBottom 2 2) ∧ ValidLengths (exBottom 1 2) ∧
    ∃ f f2, Forward exOps (exLayer false 0) (exBottom 2 2) (exTop 2) = .ok f ∧
      Forward exOps (exLayer false 5) (exBottom 1 2) (exTop 1) = .ok f2 ∧
      f.2.data 0 0 = f2.2.data 0 0 ∧ f.1.g 0 0 = f2.1.g 0 0 ∧ f.1.c 0 0 = f2.1.c 0 0 ∧
      ∀ e e2 : Tensor4D ℚ 1, e 0 0 = e2 0 0 →
        ∃ r r2, Backprop exOps f.1 (exBottom 2 2) { f.2 with diff := e } = .ok r ∧
          Backprop exOps f2.1 (exBottom 1 2) { f2.2 with diff := e2 } = .ok r2 ∧
          (∀ t, r.bottom.diff 0 0 t - (exBottom 2 2).diff 0 0 t
            = r2.bottom.diff 0 0 t - (exBottom 1 2).diff 0 0 t) ∧
          ((exBottom 2 2).diff 0 0 = (exBottom 1 2).diff 0 0 →
            r.bottom.diff 0 0 = r2.bottom.diff 0 0) :=
  ⟨validLengths_exBottom 2 2 (by decide) (by decide),
    validLengths_exBottom 1 2 (by decide) (by decide),
    C12_pair_independence exOps (exLayer false 0) (exLayer false 5)
      ⟨rfl, rfl, rfl, rfl, rfl⟩ rfl (exBottom 2 2) (exBottom 1 2) (exTop 2) (exTop 1)
      (validLengths_exBottom 2 2 (by decide) (by decide))
      (validLengths_exBottom 1 2 (by decide) (by decide)) 0 0
      ⟨by decide, by decide⟩ ⟨by decide, by decide⟩ rfl rfl⟩

theorem SetupLayer_begin_h (uninit : Shape4 → α)
    (filler : Nat → TensorContainer α Shape4 → Shape4 → α) (setting : Setting)
    (bottom top : List (ShapedNode α)) (L0 Ls : GruLayerState α)
    (h : SetupLayer uninit filler setting bottom top L0 = .ok Ls) :
    Ls.begin_h.shape_ = (1, Ls.d_mem) ∧ ∀ i, Ls.begin_h.dptr_ i = 0 := by
  unfold SetupLayer at h
  split at h
  · split at h
    · split at h
      · cases h
        exact ⟨rfl, fun _ => rfl⟩
      · cases h
    · cases h
  · cases h

theorem Reshape_begin_h (uninit : Shape4 → α) (bottom top : List (ShapedNode α))
    (L0 L1 : GruLayerState α) (top1 : ShapedNode α)
    (h : Reshape uninit bottom top L0 = .ok (L1, top1)) : L1.begin_h = L0.begin_h := by
  unfold Reshape at h
  split at h
  · split at h
    · cases h
      rfl
    · cases h
  · cases h

/-- C14: `SetupLayer` leaves the initial hidden state all zero, and `Reshape`, `Forward` and
`Backprop` never write it; so with the initial hidden state zero in two layers that have the same weights and
direction, whatever their caches, gradient buffers and biases hold and whatever the output
node and the input gradient hold, `Forward` on the same input data and lengths produces
the same hidden-state, gate and candidate tensors. In particular `Forward` run again right
after `Forward` returns the same state, and run after a `Backprop` it returns the same
hidden-state, gate and candidate tensors. -/
theorem C14_no_cross_call_state (op : Ops α) (L L2 : GruLayer α d_input d_mem)
    (hw : L.params0.data = L2.params0.data ∧ L.params1.data = L2.params1.data ∧
      L.params3.data = L2.params3.data ∧ L.params4.data = L2.params4.data)
    (hrev : L.reverse = L2.reverse) (hb : L.begin_h = 0) (hb2 : L2.begin_h = 0)
    (bottom : Node α d_input) (bd2 : Tensor4D α d_input)
    (top top2 : Node α d_mem) (hlen : ValidLengths bottom) :
    (∀ uninit filler setting bs ts (L0 Ls : GruLayerState α),
      SetupLayer uninit filler setting bs ts L0 = .ok Ls →
        Ls.begin_h.shape_ = (1, Ls.d_mem) ∧ ∀ i, Ls.begin_h.dptr_ i = 0) ∧
    (∀ uninit bs ts (L0 L1 : GruLayerState α) top1,
      Reshape uninit bs ts L0 = .ok (L1, top1) → L1.begin_h = L0.begin_h) ∧
    ∃ f f2 r f3, Forward op L bottom top = .ok f ∧
      Forward op L2 { bottom with diff := bd2 } top2 = .ok f2 ∧
      f2.2.data = f.2.data ∧ f2.1.g = f.1.g ∧ f2.1.c = f.1.c ∧ f.1.begin_h = 0 ∧
      Forward op f.1 bottom f.2 = .ok f ∧
      Backprop op f.1 bottom f.2 = .ok r ∧ r.layer.begin_h = 0 ∧
      Forward op r.layer r.bottom r.top = .ok f3 ∧
      f3.2.data = f.2.data ∧ f3.1.g = f.1.g ∧ f3.1.c = f.1.c ∧ f3.1.begin_h = 0 := by
  refine ⟨fun uninit filler setting bs ts L0 Ls h =>
      SetupLayer_begin_h uninit filler setting bs ts L0 Ls h,
    fun uninit bs ts L0 L1 top1 h => Reshape_begin_h uninit bs ts L0 L1 top1 h, ?_⟩
  obtain ⟨cc, gg, dd, hf, hf2⟩ :=
    Forward_determined op L L2 ⟨hw.1, hw.2.1, hw.2.2.1, hw.2.2.2, hb.trans hb2.symm⟩ hrev
      bottom bd2 top top2 hlen
  -- a second call right after the first
  obtain ⟨cc1, gg1, dd1, hg1, hg2⟩ :=
    Forward_determined op L { L with c := cc, g := gg, c_er := 0, g_er := 0 }
      ⟨rfl, rfl, rfl, rfl, rfl⟩ rfl bottom bottom.diff top
      { top with length := bottom.length, data := dd } hlen
  have eg := Except.ok.inj (hg1.symm.trans hf)
  simp only [Prod.mk.injEq, GruLayer.mk.injEq, Node.mk.injEq, true_and, and_true] at eg
  obtain ⟨⟨ec, eg⟩, ed⟩ := eg
  subst ec eg ed
  -- a call after the backward pass
  obtain ⟨r, hr, G, bh, ce, ge, bd, td, rfl, -, -, -⟩ := Backprop_inv op
    { L with c := cc1, g := gg1, c_er := 0, g_er := 0 } bottom
    { top with length := bottom.length, data := dd1 } hlen
  obtain ⟨cc3, gg3, dd3, hk1, hk2⟩ :=
    Forward_determined op L
      { withGrads { L with c := cc1, g := gg1, c_er := 0, g_er := 0 } G bh with
        c_er := ce, g_er := ge }
      ⟨rfl, rfl, rfl, rfl, rfl⟩ rfl bottom bd top
      { top with length := bottom.length, data := dd1, diff := td } hlen
  have ek := Except.ok.inj (hk1.symm.trans hf)
  simp only [Prod.mk.injEq, GruLayer.mk.injEq, Node.mk.injEq, true_and, and_true] at ek
  obtain ⟨⟨ec, eg⟩, ed⟩ := ek
  subst ec eg ed
  exact ⟨_, _, _, _, hf, hf2, rfl, rfl, rfl, hb, hg2, hr, hb, hk2, rfl, rfl, rfl, hb⟩

theorem C14_no_cross_call_state_witness :
    ValidLengths (exBottom 2 2) ∧
    (∀ uninit filler setting bs ts (L0 Ls : GruLayerState ℚ),
      SetupLayer uninit filler setting bs ts L0 = .ok Ls →
        Ls.begin_h.shape_ = (1, Ls.d_mem) ∧ ∀ i, Ls.begin_h.dptr_ i = 0) ∧
    (∀ uninit bs ts (L0 L1 : GruLayerState ℚ) top1,
      Reshape uninit bs ts L0 = .ok (L1, top1) → L1.begin_h = L0.begin_h) ∧
    ∃ f f2 r f3, Forward exOps (exLayer true 0) (exBottom 2 2) (exTop 2) = .ok f ∧
      Forward exOps (exLayer true 5) { exBottom 2 2 with diff := fun _ _ _ _ => 7 } (exTop 1)
        = .ok f2 ∧
      f2.2.data = f.2.data ∧ f2.1.g = f.1.g ∧ f2.1.c = f.1.c ∧ f.1.begin_h = 0 ∧
      Forward exOps f.1 (exBottom 2 2) f.2 = .ok f ∧
      Backprop exOps f.1 (exBottom 2 2) f.2 = .ok r ∧ r.layer.begin_h = 0 ∧
      Forward exOps r.layer r.bottom r.top = .ok f3 ∧
      f3.2.data = f.2.data ∧ f3.1.g = f.1.g ∧ f3.1.c = f.1.c ∧ f3.1.begin_h = 0 :=
  ⟨validLengths_exBottom 2 2 (by decide) (by decide),
    C14_no_cross_call_state exOps (exLayer true 0) (exLayer true 5) ⟨rfl, rfl, rfl, rfl⟩ rfl
      rfl rfl (exBottom 2 2) (fun _ _ _ _ => 7) (exTop 2) (exTop 1)
      (validLengths_exBottom 2 2 (by decide) (by decide))⟩

/-- C20: the two bias parameters are inert. Replacing `params[2]` and `params[5]` by any
other content leaves the output node and the gate and candidate caches that `Forward`
produces unchanged; `Backprop` leaves `params[2]` and `params[5]` (values and gradient
accumulators) and the values of the four weight matrices as they were, and changes among
the parameter tensors only the gradient accumulators of `params[0]`, `params[1]`,
`params[3]`, `params[4]`, to which it adds the contributions of the visited steps. -/
theorem C20_bias_inert (op : Ops α) (L : GruLayer α d_input d_mem)
    (p2 : Param α 1 (2 * d_mem)) (p5 : Param α 1 d_mem)
    (bottom : Node α d_input) (top : Node α d_mem) (hlen : ValidLengths bottom) :
    (∃ f f2, Forward op L bottom top = .ok f ∧
      Forward op { L with params2 := p2, params5 := p5 } bottom top = .ok f2 ∧
      f2.2 = f.2 ∧ f2.1.g = f.1.g ∧ f2.1.c = f.1.c) ∧
    (∃ r, Backprop op L bottom top = .ok r ∧
      r.layer.params2 = L.params2 ∧ r.layer.params5 = L.params5 ∧
      r.layer.params0.data = L.params0.data ∧ r.layer.params1.data = L.params1.data ∧
      r.layer.params3.data = L.params3.data ∧ r.layer.params4.data = L.params4.data ∧
      grads r.layer = grads L
        + (∑ b in Finset.range bottom.size0, ∑ s in Finset.range bottom.size1,
            pairGrad op L bottom top (r.top.diff b s) b s).1) := by
  constructor
  · obtain ⟨cc, gg, dd, hf, hf2⟩ := Forward_determined op L
      { L with params2 := p2, params5 := p5 } ⟨rfl, rfl, rfl, rfl, rfl⟩ rfl bottom bottom.diff
      top top hlen
    exact ⟨_, _, hf, hf2, rfl, rfl, rfl⟩
  · obtain ⟨r, hr, G, bh, ce, ge, bd, td, rfl, hG, -, -⟩ := Backprop_inv op L bottom top hlen
    refine ⟨_, hr, rfl, rfl, rfl, rfl, rfl, rfl, ?_⟩
    rw [Finset.range_zero, Finset.sum_empty, add_zero] at hG
    exact congrArg Prod.fst hG

theorem C20_bias_inert_witness :
    ValidLengths (exBottom 2 2) ∧
    (∃ f f2, Forward exOps (exLayer false 5) (exBottom 2 2) (exTop 2) = .ok f ∧
      Forward exOps { exLayer false 5 with params2 := ⟨fun _ _ => 3, 0⟩,
                                           params5 := ⟨fun _ _ => 4, 0⟩ }
        (exBottom 2 2) (exTop 2) = .ok f2 ∧
      f2.2 = f.2 ∧ f2.1.g = f.1.g ∧ f2.1.c = f.1.c) ∧
    (∃ r, Backprop exOps (exLayer false 5) (exBottom 2 2) (exTop 2) = .ok r ∧
      r.layer.params2 = (exLayer false 5).params2 ∧
      r.layer.params5 = (exLayer false 5).params5 ∧
      r.layer.params0.data = (exLayer false 5).params0.data ∧
      r.layer.params1.data = (exLayer false 5).params1.data ∧
      r.layer.params3.data = (exLayer false 5).params3.data ∧
      r.layer.params4.data = (exLayer false 5).params4.data ∧
      grads r.layer = grads (exLayer false 5)
        + (∑ b in Finset.range (exBottom 2 2).size0, ∑ s in Finset.range (exBottom 2 2).size1,
            pairGrad exOps (exLayer false 5) (exBottom 2 2) (exTop 2) (r.top.diff b s) b s).1) :=
  ⟨validLengths_exBottom 2 2 (by decide) (by decide),
    C20_bias_inert exOps (exLayer false 5) ⟨fun _ _ => 3, 0⟩ ⟨fun _ _ => 4, 0⟩ (exBottom 2 2)
      (exTop 2) (validLengths_exBottom 2 2 (by decide) (by decide))⟩

/-! ### Checked drivers -/

omit [CommRing α] in
theorem SliceChecked_row {n : Nat} (rows : Nat) (t : Rows α n) (i : Nat) (h : i < rows) :
    SliceChecked rows t (i : Int) = .ok (Slice t i) := by
  have : (0 : Int) ≤ i ∧ (i : Int) < rows := ⟨by omega, by omega⟩
  simp [SliceChecked, this]

omit [CommRing α] in
theorem SliceChecked_pred {n : Nat} (rows : Nat) (t : Rows α n) (i : Nat) (h : i < rows)
    (h0 : i ≠ 0) : SliceChecked rows t ((i : Int) - 1) = .ok (Slice t (i - 1)) := by
  have h1 : (0 : Int) ≤ (i : Int) - 1 ∧ (i : Int) - 1 < rows := ⟨by omega, by omega⟩
  have h2 : ((i : Int) - 1).toNat = i - 1 := by omega
  simp [SliceChecked, h1, h2]

omit [CommRing α] in
theorem SliceChecked_succ {n : Nat} (rows : Nat) (t : Rows α n) (i : Nat) (h : i < rows)
    (h0 : i ≠ rows - 1) : SliceChecked rows t ((i : Int) + 1) = .ok (Slice t (i + 1)) := by
  have h1 : (0 : Int) ≤ (i : Int) + 1 ∧ (i : Int) + 1 < rows := ⟨by omega, by omega⟩
  have h2 : ((i : Int) + 1).toNat = i + 1 := by omega
  simp [SliceChecked, h1, h2]

theorem foldlM_paired {σ τ ι ε : Type} (f : σ → ι → Except ε σ)
    (g : σ × τ → ι → Except ε (σ × τ)) (h : τ → ι → τ) (l : List ι) :
    (∀ s x i, i ∈ l → g (s, x) i = (f s i).map (fun s' => (s', h x i))) →
    ∀ s0 x0, l.foldlM g (s0, x0) = (l.foldlM f s0).map (fun r => (r, l.foldl h x0)) := by
  induction l with
  | nil =>
    intro _ s0 x0
    rfl
  | cons a l ih =>
    intro hg s0 x0
    have h1 := hg s0 x0 a (List.mem_cons_self _ _)
    have ih2 := ih (fun s x i hi => hg s x i (List.mem_cons_of_mem _ hi))
    cases hfa : f s0 a with
    | error e =>
      rw [hfa] at h1
      simp [List.foldlM, hfa, h1, bind, Except.bind, Except.map]
    | ok s1 =>
      rw [hfa] at h1
      simp only [Except.map] at h1
      have := ih2 s1 (h x0 a)
      simp [List.foldlM, hfa, h1, bind, Except.bind, this]

theorem foldl_count {ι : Type} (l : List ι) (k : Nat) :
    l.foldl (fun (n : Nat) (_ : ι) => n + 1) k = k + l.length := by
  induction l generalizing k with
  | nil => rfl
  | cons a l ih =>
    simp only [List.foldl_cons, List.length_cons]
    rw [ih]
    omega

theorem fwdBodyL2RChecked_eq (op : Ops α) (L : GruLayer α d_input d_mem) (end_ : Nat)
    (inp : Rows α d_input) (st : FwdSeq α d_mem) (k row_idx : Nat) (h : row_idx < end_) :
    fwdBodyL2RChecked op L end_ inp (st, k) row_idx
      = (fwdBodyL2R op L inp st row_idx).map (fun s => (s, k + 1)) := by
  unfold fwdBodyL2RChecked fwdBodyL2R
  simp only [SliceChecked_row _ _ _ h]
  by_cases h0 : row_idx = 0
  · simp [h0, ForwardOneStep_eq, bind, Except.bind, pure, Except.pure, Except.map]
  · simp only [SliceChecked_pred _ _ _ h h0]
    simp [h0, ForwardOneStep_eq, bind, Except.bind, pure, Except.pure, Except.map]

theorem fwdBodyR2LChecked_eq (op : Ops α) (L : GruLayer α d_input d_mem) (end_ : Nat)
    (inp : Rows α d_input) (st : FwdSeq α d_mem) (k row_idx : Nat) (h : row_idx < end_) :
    fwdBodyR2LChecked op L end_ inp (st, k) row_idx
      = (fwdBodyR2L op L end_ inp st row_idx).map (fun s => (s, k + 1)) := by
  unfold fwdBodyR2LChecked fwdBodyR2L
  simp only [SliceChecked_row _ _ _ h]
  by_cases h0 : row_idx = end_ - 1
  · simp [← h0, ForwardOneStep_eq, bind, Except.bind, pure, Except.pure, Except.map]
  · simp only [SliceChecked_succ _ _ _ h h0]
    simp [h0, ForwardOneStep_eq, bind, Except.bind, pure, Except.pure, Except.map]

theorem ForwardLeft2RightChecked_eq (op : Ops α) (L : GruLayer α d_input d_mem) (end_ : Nat)
    (inp : Rows α d_input) (st : FwdSeq α d_mem) :
    ForwardLeft2RightChecked op L end_ inp st
      = (ForwardLeft2Right op L end_ inp st).map (fun r => (r, end_)) := by
  unfold ForwardLeft2RightChecked ForwardLeft2Right
  rw [foldlM_paired (fwdBodyL2R op L inp) (fwdBodyL2RChecked op L end_ inp)
    (fun n _ => n + 1) (List.range end_)
    (fun s x i hi => fwdBodyL2RChecked_eq op L end_ inp s x i (List.mem_range.mp hi))]
  rw [foldl_count]
  simp

theorem ForwardRight2LeftChecked_eq (op : Ops α) (L : GruLayer α d_input d_mem) (end_ : Nat)
    (inp : Rows α d_input) (st : FwdSeq α d_mem) :
    ForwardRight2LeftChecked op L end_ inp st
      = (ForwardRight2Left op L end_ inp st).map (fun r => (r, end_)) := by
  unfold ForwardRight2LeftChecked ForwardRight2Left
  rw [foldlM_paired (fwdBodyR2L op L end_ inp) (fwdBodyR2LChecked op L end_ inp)
    (fun n _ => n + 1) (List.range end_).reverse
    (fun s x i hi => fwdBodyR2LChecked_eq op L end_ inp s x i
      (List.mem_range.mp (List.mem_reverse.mp hi)))]
  rw [foldl_count]
  simp

theorem bpBodyL2RChecked_eq (op : Ops α) (end_ : Nat) (top_data c : Rows α d_mem)
    (g : Rows α (2 * d_mem)) (bottom_data : Rows α d_input) (st : BpSeq α d_input d_mem)
    (k row_idx : Nat) (h : row_idx < end_) :
    bpBodyL2RChecked op end_ top_data c g bottom_data (st, k) row_idx
      = (bpBodyL2R op top_data c g bottom_data st row_idx).map (fun s => (s, k + 1)) := by
  unfold bpBodyL2RChecked bpBodyL2R
  simp only [SliceChecked_row _ _ _ h]
  by_cases h0 : row_idx = 0
  · simp only [h0, if_true, bind, Except.bind, pure, Except.pure, Except.map]
    split <;> rfl
  · simp only [SliceChecked_pred _ _ _ h h0]
    simp only [h0, if_false, bind, Except.bind, pure, Except.pure, Except.map]
    split <;> rfl

theorem bpBodyR2LChecked_eq (op : Ops α) (end_ : Nat) (top_data c : Rows α d_mem)
    (g : Rows α (2 * d_mem)) (bottom_data : Rows α d_input) (st : BpSeq α d_input d_mem)
    (k row_idx : Nat) (h : row_idx < end_) :
    bpBodyR2LChecked op end_ top_data c g bottom_data (st, k) row_idx
      = (bpBodyR2L op end_ top_data c g bottom_data st row_idx).map (fun s => (s, k + 1)) := by
  unfold bpBodyR2LChecked bpBodyR2L
  simp only [SliceChecked_row _ _ _ h]
  by_cases h0 : row_idx = end_ - 1
  · simp only [h0, if_true, bind, Except.bind, pure, Except.pure, Except.map]
    split <;> rfl
  · simp only [SliceChecked_succ _ _ _ h h0]
    simp only [h0, if_false, bind, Except.bind, pure, Except.pure, Except.map]
    split <;> rfl

theorem BackpropForLeft2RightLstmChecked_eq (op : Ops α) (end_ : Nat)
    (top_data c : Rows α d_mem) (g : Rows α (2 * d_mem)) (bottom_data : Rows α d_input)
    (st : BpSeq α d_input d_mem) :
    BackpropForLeft2RightLstmChecked op end_ top_data c g bottom_data st
      = (BackpropForLeft2RightLstm op end_ top_data c g bottom_data st).map
          (fun r => (r, end_)) := by
  unfold BackpropForLeft2RightLstmChecked BackpropForLeft2RightLstm
  rw [foldlM_paired (bpBodyL2R op top_data c g bottom_data)
    (bpBodyL2RChecked op end_ top_data c g bottom_data)
    (fun n _ => n + 1) (List.range end_).reverse
    (fun s x i hi => bpBodyL2RChecked_eq op end_ top_data c g bottom_data s x i
      (List.mem_range.mp (List.mem_reverse.mp hi)))]
  rw [foldl_count]
  simp

theorem BackpropForRight2LeftLstmChecked_eq (op : Ops α) (end_ : Nat)
    (top_data c : Rows α d_mem) (g : Rows α (2 * d_mem)) (bottom_data : Rows α d_input)
    (st : BpSeq α d_input d_mem) :
    BackpropForRight2LeftLstmChecked op end_ top_data c g bottom_data st
      = (BackpropForRight2LeftLstm op end_ top_data c g bottom_data st).map
          (fun r => (r, end_)) := by
  unfold BackpropForRight2LeftLstmChecked BackpropForRight2LeftLstm
  rw [foldlM_paired (bpBodyR2L op end_ top_data c g bottom_data)
    (bpBodyR2LChecked op end_ top_data c g bottom_data)
    (fun n _ => n + 1) (List.range end_)
    (fun s x i hi => bpBodyR2LChecked_eq op end_ top_data c g bottom_data s x i
      (List.mem_range.mp hi))]
  rw [foldl_count]
  simp

theorem fwdPairChecked_eq (op : Ops α) (bottom : Node α d_input)
    (st : GruLayer α d_input d_mem × Node α d_mem) (steps : Nat → Nat → Nat) (b s : Nat)
    (hcap : bottom.length b s ≤ bottom.size2) :
    fwdPairChecked op bottom (st, steps) b s
      = (fwdPair op bottom st b s).map
          (fun st2 => (st2, setSteps steps b s (bottom.length b s).toNat)) := by
  have h1 : ¬ (bottom.size2 : Int) < bottom.length b s := by omega
  unfold fwdPairChecked fwdPair
  simp only [ForwardLeft2RightChecked_eq, ForwardRight2LeftChecked_eq]
  by_cases h0 : bottom.length b s < 0
  · simp [h0, bind, Except.bind, throw, throwThe, MonadExceptOf.throw, Except.map]
  · cases hrev : st.1.reverse
    · simp only [h0, h1, hrev, if_false, bind, Except.bind, pure, Except.pure, Except.map,
        Bool.not_false, if_true]
      generalize ForwardLeft2Right op st.1 (bottom.length b s).toNat (bottom.data b s)
        ⟨st.1.g b s, st.1.c b s, st.2.data b s⟩ = res
      cases res <;> rfl
    · simp only [h0, h1, hrev, if_false, bind, Except.bind, pure, Except.pure, Except.map,
        Bool.not_true, Bool.false_eq_true]
      generalize ForwardRight2Left op st.1 (bottom.length b s).toNat (bottom.data b s)
        ⟨st.1.g b s, st.1.c b s, st.2.data b s⟩ = res
      cases res <;> rfl

theorem bpPairChecked_eq (op : Ops α) (st : BpState α d_input d_mem)
    (steps : Nat → Nat → Nat) (b s : Nat)
    (hcap : st.bottom.length b s ≤ st.bottom.size2) :
    bpPairChecked op (st, steps) b s
      = (bpPair op st b s).map
          (fun st2 => (st2, setSteps steps b s (st.bottom.length b s).toNat)) := by
  have h1 : ¬ (st.bottom.size2 : Int) < st.bottom.length b s := by omega
  unfold bpPairChecked bpPair
  simp only [BackpropForLeft2RightLstmChecked_eq, BackpropForRight2LeftLstmChecked_eq]
  by_cases h0 : st.bottom.length b s < 0
  · simp [h0, bind, Except.bind, throw, throwThe, MonadExceptOf.throw, Except.map]
  · cases hrev : st.layer.reverse
    · simp only [h0, h1, hrev, if_false, bind, Except.bind, pure, Except.pure, Except.map,
        Bool.not_false, if_true]
      generalize BackpropForLeft2RightLstm op (st.bottom.length b s).toNat (st.top.data b s)
        (st.layer.c b s) (st.layer.g b s) (st.bottom.data b s)
        ⟨st.layer, st.top.diff b s, st.layer.c_er b s, st.layer.g_er b s,
          st.bottom.diff b s⟩ = res
      cases res <;> rfl
    · simp only [h0, h1, hrev, if_false, bind, Except.bind, pure, Except.pure, Except.map,
        Bool.not_true, Bool.false_eq_true]
      generalize BackpropForRight2LeftLstm op (st.bottom.length b s).toNat (st.top.data b s)
        (st.layer.c b s) (st.layer.g b s) (st.bottom.data b s)
        ⟨st.layer, st.top.diff b s, st.layer.c_er b s, st.layer.g_er b s,
          st.bottom.diff b s⟩ = res
      cases res <;> rfl

theorem foldlM_paired_inv {σ τ ι ε : Type} (f : σ → ι → Except ε σ)
    (g : σ × τ → ι → Except ε (σ × τ)) (h : τ → ι → τ) (I : σ → Prop) (l : List ι) :
    (∀ s x i, i ∈ l → I s → g (s, x) i = (f s i).map (fun s' => (s', h x i))) →
    (∀ s i s', i ∈ l → I s → f s i = .ok s' → I s') →
    ∀ s0 x0, I s0 →
      l.foldlM g (s0, x0) = (l.foldlM f s0).map (fun r => (r, l.foldl h x0)) := by
  induction l with
  | nil =>
    intro _ _ s0 x0 _
    rfl
  | cons a l ih =>
    intro hg hI s0 x0 h0
    have h1 := hg s0 x0 a (List.mem_cons_self _ _) h0
    have ih2 := ih (fun s x i hi => hg s x i (List.mem_cons_of_mem _ hi))
      (fun s i s' hi => hI s i s' (List.mem_cons_of_mem _ hi))
    cases hfa : f s0 a with
    | error e =>
      rw [hfa] at h1
      simp [List.foldlM, hfa, h1, bind, Except.bind, Except.map]
    | ok s1 =>
      rw [hfa] at h1
      simp only [Except.map] at h1
      have := ih2 s1 (h x0 a) (hI s0 a s1 (List.mem_cons_self _ _) h0 hfa)
      simp [List.foldlM, hfa, h1, bind, Except.bind, this]

theorem foldlM_nested_paired {σ τ ε : Type} (f : σ → Nat → Nat → Except ε σ)
    (g : σ × τ → Nat → Nat → Except ε (σ × τ)) (h : τ → Nat → Nat → τ) (I : σ → Prop)
    (B S : Nat)
    (hg : ∀ st x b s, b < B → s < S → I st →
      g (st, x) b s = (f st b s).map (fun st2 => (st2, h x b s)))
    (hI : ∀ st b s st2, b < B → s < S → I st → f st b s = .ok st2 → I st2)
    (s0 : σ) (x0 : τ) (h0 : I s0) :
    (List.range B).foldlM (fun st b => (List.range S).foldlM (fun st s => g st b s) st) (s0, x0)
      = ((List.range B).foldlM
          (fun st b => (List.range S).foldlM (fun st s => f st b s) st) s0).map
        (fun r => (r, (List.range B).foldl
          (fun x b => (List.range S).foldl (fun x s => h x b s) x) x0)) := by
  apply foldlM_paired_inv
    (fun st b => (List.range S).foldlM (fun st s => f st b s) st)
    (fun st b => (List.range S).foldlM (fun st s => g st b s) st)
    (fun x b => (List.range S).foldl (fun x s => h x b s) x) I (List.range B) _ _ s0 x0 h0
  · intro st x b hb hst
    exact foldlM_paired_inv (fun st s => f st b s) (fun st s => g st b s)
      (fun x s => h x b s) I (List.range S)
      (fun st2 x2 s hs hI2 => hg st2 x2 b s (List.mem_range.mp hb) (List.mem_range.mp hs) hI2)
      (fun st2 s st3 hs hI2 hf =>
        hI st2 b s st3 (List.mem_range.mp hb) (List.mem_range.mp hs) hI2 hf) st x hst
  · intro st b st2 hb hst hf
    exact foldlM_post (fun st s => f st b s) I (List.range S) st hst
      (fun st3 s hs hI3 st4 hf4 =>
        hI st3 b s st4 (List.mem_range.mp hb) (List.mem_range.mp hs) hI3 hf4) st2 hf

omit [CommRing α] in
theorem setSteps_apply (steps : Nat → Nat → Nat) (b s k b2 s2 : Nat) :
    setSteps steps b s k b2 s2 = if b2 = b ∧ s2 = s then k else steps b2 s2 := by
  unfold setSteps
  by_cases hb : b2 = b
  · subst hb
    by_cases hs : s2 = s
    · subst hs
      simp
    · simp [Function.update_noteq hs, hs]
  · simp [Function.update_noteq hb, hb]

theorem steps_inner (n : Nat → Nat → Nat) (b : Nat) :
    ∀ (S : Nat) (st0 : Nat → Nat → Nat) (b2 s2 : Nat),
      (List.range S).foldl (fun steps s => setSteps steps b s (n b s)) st0 b2 s2
        = if b2 = b ∧ s2 < S then n b s2 else st0 b2 s2 := by
  intro S
  induction S with
  | zero =>
    intro st0 b2 s2
    simp
  | succ S ih =>
    intro st0 b2 s2
    rw [List.range_succ, List.foldl_append]
    simp only [List.foldl_cons, List.foldl_nil]
    rw [setSteps_apply, ih]
    by_cases hb : b2 = b
    · by_cases hs : s2 = S
      · subst hb hs
        simp
      · have e : (s2 < S + 1) ↔ (s2 < S) := by omega
        simp [hb, hs, e]
    · simp [hb]

theorem steps_outer (n : Nat → Nat → Nat) (S : Nat) :
    ∀ (B : Nat) (st0 : Nat → Nat → Nat) (b2 s2 : Nat),
      (List.range B).foldl
          (fun steps b => (List.range S).foldl (fun steps s => setSteps steps b s (n b s)) steps)
          st0 b2 s2
        = if b2 < B ∧ s2 < S then n b2 s2 else st0 b2 s2 := by
  intro B
  induction B with
  | zero =>
    intro st0 b2 s2
    simp
  | succ B ih =>
    intro st0 b2 s2
    rw [List.range_succ, List.foldl_append]
    simp only [List.foldl_cons, List.foldl_nil]
    rw [steps_inner, ih]
    by_cases hb : b2 = B
    · subst hb
      by_cases hs : s2 < S
      · simp [hs]
      · simp [hs]
    · have e : (b2 < B + 1) ↔ (b2 < B) := by omega
      simp [hb, e]

theorem ForwardChecked_eq (op : Ops α) (L : GruLayer α d_input d_mem)
    (bottom : Node α d_input) (top : Node α d_mem)
    (hcap : ∀ b, b < bottom.size0 → ∀ s, s < bottom.size1 →
      bottom.length b s ≤ bottom.size2) :
    ForwardChecked op L bottom top
      = (Forward op L bottom top).map (fun f => (f, (List.range bottom.size0).foldl
          (fun steps b => (List.range bottom.size1).foldl
            (fun steps s => setSteps steps b s (bottom.length b s).toNat) steps)
          (fun _ _ => 0))) := by
  unfold ForwardChecked Forward
  exact foldlM_nested_paired (fun st b s => fwdPair op bottom st b s)
    (fun st b s => fwdPairChecked op bottom st b s)
    (fun steps b s => setSteps steps b s (bottom.length b s).toNat) (fun _ => True)
    bottom.size0 bottom.size1
    (fun st x b s hb hs _ => fwdPairChecked_eq op bottom st x b s (hcap b hb s hs))
    (fun _ _ _ _ _ _ _ _ => trivial) _ _ trivial

theorem BackpropChecked_eq (op : Ops α) (L : GruLayer α d_input d_mem)
    (bottom : Node α d_input) (top : Node α d_mem)
    (hcap : ∀ b, b < bottom.size0 → ∀ s, s < bottom.size1 →
      bottom.length b s ≤ bottom.size2) :
    BackpropChecked op L bottom top
      = (Backprop op L bottom top).map (fun r => (r, (List.range bottom.size0).foldl
          (fun steps b => (List.range bottom.size1).foldl
            (fun steps s => setSteps steps b s (bottom.length b s).toNat) steps)
          (fun _ _ => 0))) := by
  unfold BackpropChecked Backprop
  refine foldlM_nested_paired (fun st b s => bpPair op st b s)
    (fun st b s => bpPairChecked op st b s)
    (fun steps b s => setSteps steps b s (bottom.length b s).toNat)
    (fun st => st.bottom.length = bottom.length ∧ st.bottom.size2 = bottom.size2)
    bottom.size0 bottom.size1 ?_ ?_ _ _ ⟨rfl, rfl⟩
  · intro st x b s hb hs hI
    beta_reduce
    rw [bpPairChecked_eq op st x b s (by rw [hI.1, hI.2]; exact hcap b hb s hs), hI.1]
  · intro st b s st2 _ _ hI hf
    beta_reduce at hf
    by_cases h0 : st.bottom.length b s < 0
    · rw [bpPair_error op st b s h0] at hf
      cases hf
    · obtain ⟨r, hr⟩ := bpPair_ok_any op st b s (by omega)
      rw [hr] at hf
      cases hf
      exact hI

/-! ### Claim on safety under the length precondition -/

/-- C22: when every pair inside the shape has a valid length between `0` and the time
capacity, `Forward` and `Backprop` run with every slice index checked against the number of
rows of its view (`row_idx`, `row_idx - 1`, `row_idx + 1` within the `L` rows of the prefix
view, and the prefix view `Slice(0, L)` within the time capacity) succeed with the same
result as `Forward` and `Backprop`, so no index is out of bounds; the loop of the driver
runs exactly `L` iterations for every pair (none when `L = 0`); and `ForwardOneStep` and
`BpOneStep`, which hand one-row slices to `SplitGate`, never fail on its check. -/
theorem C22_safety (op : Ops α) (L : GruLayer α d_input d_mem)
    (bottom : Node α d_input) (top : Node α d_mem) (hlen : ValidLengths bottom) :
    (∃ f steps, ForwardChecked op L bottom top = .ok (f, steps) ∧
      Forward op L bottom top = .ok f ∧
      ∀ b s, b < bottom.size0 → s < bottom.size1 → steps b s = (bottom.length b s).toNat) ∧
    (∃ r steps, BackpropChecked op L bottom top = .ok (r, steps) ∧
      Backprop op L bottom top = .ok r ∧
      ∀ b s, b < bottom.size0 → s < bottom.size1 → steps b s = (bottom.length b s).toNat) ∧
    (∀ (n : Nat) (x : Rows α d_input) (bufs : FwdSeq α d_mem),
      (∃ r, ForwardLeft2RightChecked op L n x bufs = .ok (r, n)) ∧
      (∃ r, ForwardRight2LeftChecked op L n x bufs = .ok (r, n))) ∧
    (∀ (n : Nat) (top_data c : Rows α d_mem) (g : Rows α (2 * d_mem))
        (bottom_data : Rows α d_input) (bufs : BpSeq α d_input d_mem),
      (∃ r, BackpropForLeft2RightLstmChecked op n top_data c g bottom_data bufs = .ok (r, n)) ∧
      (∃ r, BackpropForRight2LeftLstmChecked op n top_data c g bottom_data bufs
        = .ok (r, n))) ∧
    (∀ pre_h x, ∃ o, ForwardOneStep op L pre_h x = .ok o) ∧
    (∀ cur_h_er pre_h x cur_g cur_c cur_h cur_c_er cur_g_er pre_h_er x_er,
      ∃ o, BpOneStep op L cur_h_er pre_h x cur_g cur_c cur_h cur_c_er cur_g_er pre_h_er x_er
        = .ok o) := by
  refine ⟨?_, ?_, ?_, ?_, ?_, ?_⟩
  · obtain ⟨f, hf, -⟩ := Forward_inv op L bottom top hlen
    refine ⟨f, (List.range bottom.size0).foldl
      (fun steps b => (List.range bottom.size1).foldl
        (fun steps s => setSteps steps b s (bottom.length b s).toNat) steps)
      (fun _ _ => 0), ?_, hf, ?_⟩
    · rw [ForwardChecked_eq op L bottom top (fun b hb s hs => (hlen b hb s hs).2), hf]
      rfl
    · intro b s hb hs
      rw [steps_outer (fun b s => (bottom.length b s).toNat), if_pos ⟨hb, hs⟩]
  · obtain ⟨r, hr, -⟩ := Backprop_inv op L bottom top hlen
    refine ⟨r, (List.range bottom.size0).foldl
      (fun steps b => (List.range bottom.size1).foldl
        (fun steps s => setSteps steps b s (bottom.length b s).toNat) steps)
      (fun _ _ => 0), ?_, hr, ?_⟩
    · rw [BackpropChecked_eq op L bottom top (fun b hb s hs => (hlen b hb s hs).2), hr]
      rfl
    · intro b s hb hs
      rw [steps_outer (fun b s => (bottom.length b s).toNat), if_pos ⟨hb, hs⟩]
  · intro n x bufs
    constructor
    · obtain ⟨r, hr, -⟩ := fwdL2R_partial op L n n (le_refl _) x bufs
      rw [range_take_self] at hr
      refine ⟨r, ?_⟩
      rw [ForwardLeft2RightChecked_eq]
      unfold ForwardLeft2Right
      rw [hr]
      rfl
    · obtain ⟨r, hr, -⟩ := fwdR2L_partial op L n n (le_refl _) x bufs
      rw [range_reverse_take_self] at hr
      refine ⟨r, ?_⟩
      rw [ForwardRight2LeftChecked_eq]
      unfold ForwardRight2Left
      rw [hr]
      rfl
  · intro n top_data c g bottom_data bufs
    constructor
    · obtain ⟨r, hr, -⟩ := foldlM_ok (bpBodyL2R op top_data c g bottom_data) (fun _ => True)
        (List.range n).reverse bufs trivial (by
          intro q i _ _
          obtain ⟨r, hr⟩ := bpBodyL2R_ok op top_data c g bottom_data q i
          exact ⟨r, hr, trivial⟩)
      refine ⟨r, ?_⟩
      rw [BackpropForLeft2RightLstmChecked_eq]
      unfold BackpropForLeft2RightLstm
      rw [hr]
      rfl
    · obtain ⟨r, hr, -⟩ := foldlM_ok (bpBodyR2L op n top_data c g bottom_data) (fun _ => True)
        (List.range n) bufs trivial (by
          intro q i _ _
          obtain ⟨r, hr⟩ := bpBodyR2L_ok op n top_data c g bottom_data q i
          exact ⟨r, hr, trivial⟩)
      refine ⟨r, ?_⟩
      rw [BackpropForRight2LeftLstmChecked_eq]
      unfold BackpropForRight2LeftLstm
      rw [hr]
      rfl
  · intro pre_h x
    exact ⟨_, ForwardOneStep_eq op L pre_h x⟩
  · intro cur_h_er pre_h x cur_g cur_c cur_h cur_c_er cur_g_er pre_h_er x_er
    exact BpOneStep_ok op L cur_h_er pre_h x cur_g cur_c cur_h cur_c_er cur_g_er pre_h_er x_er

theorem C22_safety_witness :
    ValidLengths (exBottom 2 2) ∧
    (∃ f steps, ForwardChecked exOps (exLayer true 0) (exBottom 2 2) (exTop 2)
        = .ok (f, steps) ∧
      Forward exOps (exLayer true 0) (exBottom 2 2) (exTop 2) = .ok f ∧
      ∀ b s, b < (exBottom 2 2).size0 → s < (exBottom 2 2).size1 →
        steps b s = ((exBottom 2 2).length b s).toNat) ∧
    (∃ r steps, BackpropChecked exOps (exLayer true 0) (exBottom 2 2) (exTop 2)
        = .ok (r, steps) ∧
      Backprop exOps (exLayer true 0) (exBottom 2 2) (exTop 2) = .ok r ∧
      ∀ b s, b < (exBottom 2 2).size0 → s < (exBottom 2 2).size1 →
        steps b s = ((exBottom 2 2).length b s).toNat) :=
  ⟨validLengths_exBottom 2 2 (by decide) (by decide),
    (C22_safety exOps (exLayer true 0) (exBottom 2 2) (exTop 2)
      (validLengths_exBottom 2 2 (by decide) (by decide))).1,
    (C22_safety exOps (exLayer true 0) (exBottom 2 2) (exTop 2)
      (validLengths_exBottom 2 2 (by decide) (by decide))).2.1⟩

/-! ### Claim on the frame of `Backprop` -/

theorem pair_backward_top_frame (op : Ops α) (L : GruLayer α d_input d_mem)
    (bottom : Node α d_input) (top : Node α d_mem) (td ce : Rows α d_mem)
    (ge : Rows α (2 * d_mem)) (bd : Rows α d_input) (b s : Nat)
    (hB : PairBackDone op L bottom top td ce ge bd b s) :
    (∀ t, (bottom.length b s).toNat ≤ t → td t = top.diff b s t) ∧
    td (if L.reverse then 0 else (bottom.length b s).toNat - 1)
      = top.diff b s (if L.reverse then 0 else (bottom.length b s).toNat - 1) := by
  obtain ⟨Lr, hB⟩ := hB
  cases hrev : L.reverse
  · simp only [hrev, Bool.false_eq_true, if_false] at hB ⊢
    obtain ⟨-, h2, -, -, -⟩ := hB
    simp only [bpStart] at h2
    constructor
    · intro t ht
      rw [h2 t, if_neg (by omega), add_zero]
    · rw [h2 _, if_neg (by omega), add_zero]
  · simp only [hrev, if_true] at hB ⊢
    obtain ⟨-, h2, -, -, -⟩ := hB
    simp only [bpStart] at h2
    constructor
    · intro t ht
      rw [h2 t, if_neg (by omega), add_zero]
    · rw [h2 _, if_neg (by omega), add_zero]

/-- C21: under the length precondition `Backprop` succeeds and leaves unchanged the output
hidden states and the length array of the top node, the gate and candidate caches, the input
data and lengths, the values of the six parameters, the initial hidden state and the
direction. It leaves the input gradient and the output gradient unchanged at every time
index at or beyond the valid length of a pair (and on every pair outside the shape), and the
output gradient unchanged at the first index the backward driver visits (`L - 1` when
`reverse` is false, `0` when it is true). The input gradient is added to: run on another
previous content `bd2` of the input gradient, `Backprop` adds the same amount at every
index. -/
theorem C21_Backprop_frame (op : Ops α) (L : GruLayer α d_input d_mem)
    (bottom : Node α d_input) (top : Node α d_mem) (hlen : ValidLengths bottom) :
    ∃ r, Backprop op L bottom top = .ok r ∧
      r.top.data = top.data ∧ r.top.length = top.length ∧
      r.layer.g = L.g ∧ r.layer.c = L.c ∧
      r.bottom.data = bottom.data ∧ r.bottom.length = bottom.length ∧
      r.layer.params0.data = L.params0.data ∧ r.layer.params1.data = L.params1.data ∧
      r.layer.params2.data = L.params2.data ∧ r.layer.params3.data = L.params3.data ∧
      r.layer.params4.data = L.params4.data ∧ r.layer.params5.data = L.params5.data ∧
      r.layer.begin_h = L.begin_h ∧ r.layer.reverse = L.reverse ∧
      (∀ b s t, ¬ (b < bottom.size0 ∧ s < bottom.size1 ∧ t < (bottom.length b s).toNat) →
        r.bottom.diff b s t = bottom.diff b s t ∧ r.top.diff b s t = top.diff b s t) ∧
      (∀ b s, r.top.diff b s (if L.reverse then 0 else (bottom.length b s).toNat - 1)
        = top.diff b s (if L.reverse then 0 else (bottom.length b s).toNat - 1)) ∧
      (∀ bd2 : Tensor4D α d_input,
        ∃ r2, Backprop op L { bottom with diff := bd2 } top = .ok r2 ∧
          ∀ b s t, r2.bottom.diff b s t - bd2 b s t
            = r.bottom.diff b s t - bottom.diff b s t) := by
  obtain ⟨r, hr, G, bh, ce, ge, bd, td, rfl, -, hB, hU⟩ := Backprop_inv op L bottom top hlen
  have hout : ∀ b s, ¬ (b < bottom.size0 ∧ s < bottom.size1) →
      ¬ visited bottom.size1 bottom.size0 0 b s := by
    intro b s hv h
    rcases h with h | h
    · exact hv h
    · omega
  refine ⟨_, hr, rfl, rfl, rfl, rfl, rfl, rfl, rfl, rfl, rfl, rfl, rfl, rfl, rfl, rfl,
    ?_, ?_, ?_⟩
  · intro b s t hn
    dsimp only
    by_cases hv : b < bottom.size0 ∧ s < bottom.size1
    · have ht : (bottom.length b s).toNat ≤ t := by
        have : ¬ t < (bottom.length b s).toNat := fun h => hn ⟨hv.1, hv.2, h⟩
        omega
      exact ⟨pair_backward_frame op _ bottom _ _ _ _ _ b s (hB b s (Or.inl hv)) t ht,
        (pair_backward_top_frame op _ bottom _ _ _ _ _ b s (hB b s (Or.inl hv))).1 t ht⟩
    · obtain ⟨a1, -, -, a4⟩ := hU b s (hout b s hv)
      rw [a1, a4]
      exact ⟨rfl, rfl⟩
  · intro b s
    dsimp only
    by_cases hv : b < bottom.size0 ∧ s < bottom.size1
    · exact (pair_backward_top_frame op _ bottom _ _ _ _ _ b s (hB b s (Or.inl hv))).2
    · rw [(hU b s (hout b s hv)).1]
  · intro bd2
    obtain ⟨r2, hr2, G2, bh2, ce2, ge2, bd3, td2, rfl, -, hB2, hU2⟩ :=
      Backprop_inv op L { bottom with diff := bd2 } top hlen
    refine ⟨_, hr2, ?_⟩
    intro b s t
    dsimp only
    by_cases hv : b < bottom.size0 ∧ s < bottom.size1
    · exact (pair_backward_input_determined op L L
        bottom { bottom with diff := bd2 } top top b s b s (td b s) (ce b s) (td2 b s)
        (ce2 b s) (ge b s) (ge2 b s) (bd b s) (bd3 b s) ⟨rfl, rfl, rfl, rfl, rfl⟩ rfl rfl rfl
        rfl rfl rfl rfl (hB b s (Or.inl hv)) (hB2 b s (Or.inl hv)) t).symm
    · rw [(hU b s (hout b s hv)).2.2.2, (hU2 b s (hout b s hv)).2.2.2]
      simp

theorem C21_Backprop_frame_witness :
    ValidLengths (exBottom 2 1) ∧
    ∃ r, Backprop exOps (exLayer false 5) (exBottom 2 1) (exTop 2) = .ok r ∧
      r.top.data = (exTop 2).data ∧ r.top.length = (exTop 2).length ∧
      r.layer.g = (exLayer false 5).g ∧ r.layer.c = (exLayer false 5).c ∧
      r.bottom.data = (exBottom 2 1).data ∧ r.bottom.length = (exBottom 2 1).length ∧
      r.layer.params0.data = (exLayer false 5).params0.data ∧
      r.layer.params1.data = (exLayer false 5).params1.data ∧
      r.layer.params2.data = (exLayer false 5).params2.data ∧
      r.layer.params3.data = (exLayer false 5).params3.data ∧
      r.layer.params4.data = (exLayer false 5).params4.data ∧
      r.layer.params5.data = (exLayer false 5).params5.data ∧
      r.layer.begin_h = (exLayer false 5).begin_h ∧
      r.layer.reverse = (exLayer false 5).reverse ∧
      (∀ b s t, ¬ (b < (exBottom 2 1).size0 ∧ s < (exBottom 2 1).size1 ∧
          t < ((exBottom 2 1).length b s).toNat) →
        r.bottom.diff b s t = (exBottom 2 1).diff b s t ∧
        r.top.diff b s t = (exTop 2).diff b s t) ∧
      (∀ b s, r.top.diff b s
          (if (exLayer false 5).reverse then 0 else ((exBottom 2 1).length b s).toNat - 1)
        = (exTop 2).diff b s
          (if (exLayer false 5).reverse then 0 else ((exBottom 2 1).length b s).toNat - 1)) ∧
      (∀ bd2 : Tensor4D ℚ 1,
        ∃ r2, Backprop exOps (exLayer false 5) { exBottom 2 1 with diff := bd2 } (exTop 2)
            = .ok r2 ∧
          ∀ b s t, r2.bottom.diff b s t - bd2 b s t
            = r.bottom.diff b s t - (exBottom 2 1).diff b s t) :=
  ⟨validLengths_exBottom 2 1 (by decide) (by decide),
    C21_Backprop_frame exOps (exLayer false 5) (exBottom 2 1) (exTop 2)
      (validLengths_exBottom 2 1 (by decide) (by decide))⟩

/-! ### The record of the visits -/

theorem foldlM_traced {σ υ ι ε : Type} (f : σ → ι → Except ε σ)
    (g : σ × List υ → ι → Except ε (σ × List υ)) (note : σ → ι → υ) (v : σ → ι → υ)
    (R : ι → ι → Prop) (l : List ι) (hp : l.Pairwise R)
    (hg : ∀ s tr i, i ∈ l → g (s, tr) i = (f s i).map (fun s' => (s', tr ++ [note s i])))
    (hv : ∀ s i s', i ∈ l → f s i = .ok s' →
      v s' i = note s i ∧ ∀ j, R j i → v s' j = v s j)
    (s0 : σ) (tr0 : List υ) :
    l.foldlM g (s0, tr0) = (l.foldlM f s0).map (fun r => (r, tr0 ++ l.map (v r))) := by
  induction l using List.reverseRecOn with
  | nil => simp [Except.map, pure, Except.pure]
  | append_singleton l a ih =>
    have hp2 := List.pairwise_append.mp hp
    have ih2 := ih hp2.1 (fun s tr i hi => hg s tr i (List.mem_append_left _ hi))
      (fun s i s' hi => hv s i s' (List.mem_append_left _ hi))
    rw [List.foldlM_append, List.foldlM_append, ih2]
    cases hfl : l.foldlM f s0 with
    | error e => rfl
    | ok r =>
      have h1 := hg r (tr0 ++ l.map (v r)) a (by simp)
      cases hfa : f r a with
      | error e =>
        rw [hfa] at h1
        simp [List.foldlM, Except.map, bind, Except.bind, h1, hfa]
      | ok s' =>
        rw [hfa] at h1
        obtain ⟨hv1, hv2⟩ := hv r a s' (by simp) hfa
        have e : l.map (v s') = l.map (v r) :=
          List.map_congr_left (fun j hj => hv2 j (hp2.2.2 j hj a (by simp)))
        simp [List.foldlM, Except.map, bind, Except.bind, h1, hfa, pure, Except.pure, e, hv1]

theorem foldlM_fst {σ τ ι ε : Type} (f : σ → ι → Except ε σ)
    (g : σ × τ → ι → Except ε (σ × τ)) (l : List ι)
    (hg : ∀ s x i, i ∈ l → (g (s, x) i).map Prod.fst = f s i) :
    ∀ s0 x0, (l.foldlM g (s0, x0)).map Prod.fst = l.foldlM f s0 := by
  induction l with
  | nil =>
    intro s0 x0
    rfl
  | cons a l ih =>
    intro s0 x0
    have h1 := hg s0 x0 a (List.mem_cons_self _ _)
    have ih2 := ih (fun s x i hi => hg s x i (List.mem_cons_of_mem _ hi))
    cases hga : g (s0, x0) a with
    | error e =>
      rw [hga] at h1
      simp [List.foldlM, hga, ← h1, bind, Except.bind, Except.map]
    | ok p =>
      obtain ⟨s1, x1⟩ := p
      rw [hga] at h1
      simp only [Except.map] at h1
      have := ih2 s1 x1
      simp [List.foldlM, hga, ← h1, bind, Except.bind, this]

omit [CommRing α] in
theorem preL2R_setSlice (begin_h : Tensor2D α 1 d_mem) (out : Rows α d_mem) (i j : Nat)
    (X : Tensor2D α 1 d_mem) (h : j ≤ i) :
    preL2R begin_h (setSlice out i X) j = preL2R begin_h out j := by
  unfold preL2R
  by_cases h0 : j = 0
  · simp [h0]
  · simp only [h0, if_false]
    exact Slice_setSlice_ne _ _ _ _ (by omega)

omit [CommRing α] in
theorem preR2L_setSlice (begin_h : Tensor2D α 1 d_mem) (n : Nat) (out : Rows α d_mem)
    (i j : Nat) (X : Tensor2D α 1 d_mem) (h : i ≤ j) :
    preR2L begin_h n (setSlice out i X) j = preR2L begin_h n out j := by
  unfold preR2L
  by_cases h0 : j = n - 1
  · simp [h0]
  · simp only [h0, if_false]
    exact Slice_setSlice_ne _ _ _ _ (by omega)

theorem fwdBodyL2RTraced_eq (op : Ops α) (L : GruLayer α d_input d_mem) (inp : Rows α d_input)
    (s : FwdSeq α d_mem) (tr : List (Visit α d_mem)) (i : Nat) :
    fwdBodyL2RTraced op L inp (s, tr) i
      = (fwdBodyL2R op L inp s i).map
          (fun s' => (s', tr ++ [(i, preL2R L.begin_h s.out i)])) := by
  unfold fwdBodyL2RTraced fwdBodyL2R
  simp only [ForwardOneStep_eq, bind, Except.bind, pure, Except.pure, Except.map]
  rfl

theorem fwdBodyR2LTraced_eq (op : Ops α) (L : GruLayer α d_input d_mem) (n : Nat)
    (inp : Rows α d_input) (s : FwdSeq α d_mem) (tr : List (Visit α d_mem)) (i : Nat) :
    fwdBodyR2LTraced op L n inp (s, tr) i
      = (fwdBodyR2L op L n inp s i).map
          (fun s' => (s', tr ++ [(i, preR2L L.begin_h n s.out i)])) := by
  unfold fwdBodyR2LTraced fwdBodyR2L
  simp only [ForwardOneStep_eq, bind, Except.bind, pure, Except.pure, Except.map]
  rfl

theorem ForwardLeft2RightTraced_eq (op : Ops α) (L : GruLayer α d_input d_mem) (n : Nat)
    (inp : Rows α d_input) (st : FwdSeq α d_mem) :
    ForwardLeft2RightTraced op L n inp st
      = (ForwardLeft2Right op L n inp st).map
          (fun r => (r, (List.range n).map (fun t => (t, preL2R L.begin_h r.out t)))) := by
  unfold ForwardLeft2RightTraced ForwardLeft2Right
  rw [foldlM_traced (fwdBodyL2R op L inp) (fwdBodyL2RTraced op L inp)
    (fun s i => (i, preL2R L.begin_h s.out i)) (fun s t => (t, preL2R L.begin_h s.out t))
    (fun j i => j < i) (List.range n) (List.pairwise_lt_range n)
    (fun s tr i _ => fwdBodyL2RTraced_eq op L inp s tr i)]
  · simp
  · intro s i s' _ h
    rw [fwdBodyL2R_eq] at h
    cases h
    refine ⟨?_, ?_⟩
    · simp only [preL2R_setSlice _ _ _ _ _ (le_refl i)]
    · intro j hj
      simp only [preL2R_setSlice _ _ _ _ _ (Nat.le_of_lt hj)]

theorem ForwardRight2LeftTraced_eq (op : Ops α) (L : GruLayer α d_input d_mem) (n : Nat)
    (inp : Rows α d_input) (st : FwdSeq α d_mem) :
    ForwardRight2LeftTraced op L n inp st
      = (ForwardRight2Left op L n inp st).map
          (fun r => (r, (List.range n).reverse.map
            (fun t => (t, preR2L L.begin_h n r.out t)))) := by
  unfold ForwardRight2LeftTraced ForwardRight2Left
  rw [foldlM_traced (fwdBodyR2L op L n inp) (fwdBodyR2LTraced op L n inp)
    (fun s i => (i, preR2L L.begin_h n s.out i)) (fun s t => (t, preR2L L.begin_h n s.out t))
    (fun j i => i < j) (List.range n).reverse
    (List.pairwise_reverse.mpr (List.pairwise_lt_range n))
    (fun s tr i _ => fwdBodyR2LTraced_eq op L n inp s tr i)]
  · simp
  · intro s i s' _ h
    rw [fwdBodyR2L_eq] at h
    cases h
    refine ⟨?_, ?_⟩
    · simp only [preR2L_setSlice _ _ _ _ _ _ (le_refl i)]
    · intro j hj
      simp only [preR2L_setSlice _ _ _ _ _ _ (Nat.le_of_lt hj)]

theorem BpOneStep_layer (op : Ops α) (L : GruLayer α d_input d_mem)
    (cur_h_er pre_h : Tensor2D α 1 d_mem) (x : Tensor2D α 1 d_input)
    (cur_g : Tensor2D α 1 (2 * d_mem)) (cur_c cur_h : Tensor2D α 1 d_mem)
    (cur_c_er : Tensor2D α 1 d_mem) (cur_g_er : Tensor2D α 1 (2 * d_mem))
    (pre_h_er : Tensor2D α 1 d_mem) (x_er : Tensor2D α 1 d_input) (o : BpOut α d_input d_mem)
    (h : BpOneStep op L cur_h_er pre_h x cur_g cur_c cur_h cur_c_er cur_g_er pre_h_er x_er
      = .ok o) :
    o.layer.begin_h = L.begin_h ∧ o.layer.reverse = L.reverse := by
  simp only [BpOneStep, SplitGate, dif_pos, bind, Except.bind, pure, Except.pure] at h
  cases h
  exact ⟨rfl, rfl⟩

theorem bpBodyL2R_layer (op : Ops α) (top_data c : Rows α d_mem) (g : Rows α (2 * d_mem))
    (bottom_data : Rows α d_input) (s s' : BpSeq α d_input d_mem) (i : Nat)
    (h : bpBodyL2R op top_data c g bottom_data s i = .ok s') :
    s'.layer.begin_h = s.layer.begin_h ∧ s'.layer.reverse = s.layer.reverse := by
  obtain ⟨o, ho⟩ := BpOneStep_ok op s.layer (Slice s.top_diff i)
    (if i = 0 then s.layer.begin_h else Slice top_data (i - 1))
    (Slice bottom_data i) (Slice g i) (Slice c i) (Slice top_data i) (Slice s.c_er i)
    (Slice s.g_er i) (if i = 0 then s.layer.begin_h_er else Slice s.top_diff (i - 1))
    (Slice s.bottom_diff i)
  have hl := BpOneStep_layer op _ _ _ _ _ _ _ _ _ _ _ o ho
  simp only [bpBodyL2R, ho, bind, Except.bind, pure, Except.pure] at h
  cases h
  by_cases h0 : i = 0
  · simp only [h0, if_true]
    exact hl
  · simp only [h0, if_false]
    exact hl

theorem bpBodyR2L_layer (op : Ops α) (n : Nat) (top_data c : Rows α d_mem)
    (g : Rows α (2 * d_mem)) (bottom_data : Rows α d_input) (s s' : BpSeq α d_input d_mem)
    (i : Nat) (h : bpBodyR2L op n top_data c g bottom_data s i = .ok s') :
    s'.layer.begin_h = s.layer.begin_h ∧ s'.layer.reverse = s.layer.reverse := by
  obtain ⟨o, ho⟩ := BpOneStep_ok op s.layer (Slice s.top_diff i)
    (if i = n - 1 then s.layer.begin_h else Slice top_data (i + 1))
    (Slice bottom_data i) (Slice g i) (Slice c i) (Slice top_data i) (Slice s.c_er i)
    (Slice s.g_er i) (if i = n - 1 then s.layer.begin_h_er else Slice s.top_diff (i + 1))
    (Slice s.bottom_diff i)
  have hl := BpOneStep_layer op _ _ _ _ _ _ _ _ _ _ _ o ho
  simp only [bpBodyR2L, ho, bind, Except.bind, pure, Except.pure] at h
  cases h
  by_cases h0 : i = n - 1
  · simp only [h0, if_true]
    exact hl
  · simp only [h0, if_false]
    exact hl

theorem bpBodyL2RTraced_eq (op : Ops α) (top_data c : Rows α d_mem) (g : Rows α (2 * d_mem))
    (bottom_data : Rows α d_input) (s : BpSeq α d_input d_mem) (tr : List (Visit α d_mem))
    (i : Nat) :
    bpBodyL2RTraced op top_data c g bottom_data (s, tr) i
      = (bpBodyL2R op top_data c g bottom_data s i).map
          (fun s' => (s', tr ++ [(i, preL2R s.layer.begin_h top_data i)])) := by
  unfold bpBodyL2RTraced bpBodyL2R
  simp only [bind, Except.bind, pure, Except.pure, Except.map]
  generalize BpOneStep op s.layer (Slice s.top_diff i)
    (if i = 0 then s.layer.begin_h else Slice top_data (i - 1))
    (Slice bottom_data i) (Slice g i) (Slice c i) (Slice top_data i) (Slice s.c_er i)
    (Slice s.g_er i) (if i = 0 then s.layer.begin_h_er else Slice s.top_diff (i - 1))
    (Slice s.bottom_diff i) = res
  cases res <;> rfl

theorem bpBodyR2LTraced_eq (op : Ops α) (n : Nat) (top_data c : Rows α d_mem)
    (g : Rows α (2 * d_mem)) (bottom_data : Rows α d_input) (s : BpSeq α d_input d_mem)
    (tr : List (Visit α d_mem)) (i : Nat) :
    bpBodyR2LTraced op n top_data c g bottom_data (s, tr) i
      = (bpBodyR2L op n top_data c g bottom_data s i).map
          (fun s' => (s', tr ++ [(i, preR2L s.layer.begin_h n top_data i)])) := by
  unfold bpBodyR2LTraced bpBodyR2L
  simp only [bind, Except.bind, pure, Except.pure, Except.map]
  generalize BpOneStep op s.layer (Slice s.top_diff i)
    (if i = n - 1 then s.layer.begin_h else Slice top_data (i + 1))
    (Slice bottom_data i) (Slice g i) (Slice c i) (Slice top_data i) (Slice s.c_er i)
    (Slice s.g_er i) (if i = n - 1 then s.layer.begin_h_er else Slice s.top_diff (i + 1))
    (Slice s.bottom_diff i) = res
  cases res <;> rfl

theorem BackpropForLeft2RightLstmTraced_eq (op : Ops α) (n : Nat) (top_data c : Rows α d_mem)
    (g : Rows α (2 * d_mem)) (bottom_data : Rows α d_input) (st : BpSeq α d_input d_mem) :
    BackpropForLeft2RightLstmTraced op n top_data c g bottom_data st
      = (BackpropForLeft2RightLstm op n top_data c g bottom_data st).map
          (fun r => (r, (List.range n).reverse.map
            (fun t => (t, preL2R r.layer.begin_h top_data t)))) := by
  unfold BackpropForLeft2RightLstmTraced BackpropForLeft2RightLstm
  rw [foldlM_traced (bpBodyL2R op top_data c g bottom_data)
    (bpBodyL2RTraced op top_data c g bottom_data)
    (fun s i => (i, preL2R s.layer.begin_h top_data i))
    (fun s t => (t, preL2R s.layer.begin_h top_data t))
    (fun j i => i < j) (List.range n).reverse
    (List.pairwise_reverse.mpr (List.pairwise_lt_range n))
    (fun s tr i _ => bpBodyL2RTraced_eq op top_data c g bottom_data s tr i)]
  · simp
  · intro s i s' _ h
    have hl := (bpBodyL2R_layer op top_data c g bottom_data s s' i h).1
    exact ⟨by rw [hl], fun j _ => by rw [hl]⟩

theorem BackpropForRight2LeftLstmTraced_eq (op : Ops α) (n : Nat) (top_data c : Rows α d_mem)
    (g : Rows α (2 * d_mem)) (bottom_data : Rows α d_input) (st : BpSeq α d_input d_mem) :
    BackpropForRight2LeftLstmTraced op n top_data c g bottom_data st
      = (BackpropForRight2LeftLstm op n top_data c g bottom_data st).map
          (fun r => (r, (List.range n).map
            (fun t => (t, preR2L r.layer.begin_h n top_data t)))) := by
  unfold BackpropForRight2LeftLstmTraced BackpropForRight2LeftLstm
  rw [foldlM_traced (bpBodyR2L op n top_data c g bottom_data)
    (bpBodyR2LTraced op n top_data c g bottom_data)
    (fun s i => (i, preR2L s.layer.begin_h n top_data i))
    (fun s t => (t, preR2L s.layer.begin_h n top_data t))
    (fun j i => j < i) (List.range n) (List.pairwise_lt_range n)
    (fun s tr i _ => bpBodyR2LTraced_eq op n top_data c g bottom_data s tr i)]
  · simp
  · intro s i s' _ h
    have hl := (bpBodyR2L_layer op n top_data c g bottom_data s s' i h).1
    exact ⟨by rw [hl], fun j _ => by rw [hl]⟩

omit [CommRing α] in
theorem setVisits_apply (visits : Nat → Nat → List (Visit α d_mem)) (b s : Nat)
    (v : List (Visit α d_mem)) (b2 s2 : Nat) :
    setVisits visits b s v b2 s2 = if b2 = b ∧ s2 = s then v else visits b2 s2 := by
  unfold setVisits
  by_cases hb : b2 = b
  · subst hb
    by_cases hs : s2 = s
    · subst hs
      simp
    · simp [Function.update_noteq hs, hs]
  · simp [Function.update_noteq hb, hb]

theorem fwdPairTraced_fst (op : Ops α) (bottom : Node α d_input)
    (st : GruLayer α d_input d_mem × Node α d_mem) (vis : Nat → Nat → List (Visit α d_mem))
    (b s : Nat) :
    (fwdPairTraced op bottom (st, vis) b s).map Prod.fst = fwdPair op bottom st b s := by
  unfold fwdPairTraced fwdPair
  simp only [ForwardLeft2RightTraced_eq, ForwardRight2LeftTraced_eq]
  by_cases h0 : bottom.length b s < 0
  · simp [h0, bind, Except.bind, throw, throwThe, MonadExceptOf.throw, Except.map]
  · cases hrev : st.1.reverse
    · simp only [h0, hrev, if_false, bind, Except.bind, pure, Except.pure, Except.map,
        Bool.not_false, if_true]
      generalize ForwardLeft2Right op st.1 (bottom.length b s).toNat (bottom.data b s)
        ⟨st.1.g b s, st.1.c b s, st.2.data b s⟩ = res
      cases res <;> rfl
    · simp only [h0, hrev, if_false, bind, Except.bind, pure, Except.pure, Except.map,
        Bool.not_true, Bool.false_eq_true]
      generalize ForwardRight2Left op st.1 (bottom.length b s).toNat (bottom.data b s)
        ⟨st.1.g b s, st.1.c b s, st.2.data b s⟩ = res
      cases res <;> rfl

theorem fwdPairTraced_ok (op : Ops α) (bottom : Node α d_input)
    (st : GruLayer α d_input d_mem × Node α d_mem) (vis : Nat → Nat → List (Visit α d_mem))
    (b s : Nat) (h0 : 0 ≤ bottom.length b s) :
    ∃ r : FwdSeq α d_mem,
      fwdPairTraced op bottom (st, vis) b s
        = .ok (({ st.1 with g := setPair st.1.g b s r.g, c := setPair st.1.c b s r.c },
                { st.2 with data := setPair st.2.data b s r.out }),
               setVisits vis b s ((fwdOrder st.1.reverse (bottom.length b s).toNat).map
                 (fun t => (t, preOf st.1.reverse st.1.begin_h (bottom.length b s).toNat
                   r.out t)))) := by
  have e1 : ¬ bottom.length b s < 0 := by omega
  unfold fwdPairTraced
  simp only [ForwardLeft2RightTraced_eq, ForwardRight2LeftTraced_eq]
  cases hrev : st.1.reverse
  · obtain ⟨r, hr, -⟩ := fwdL2R_partial op st.1 (bottom.length b s).toNat _ (le_refl _)
      (bottom.data b s) (pairBufs st.1 st.2 b s)
    rw [range_take_self] at hr
    refine ⟨r, ?_⟩
    simp only [e1, ForwardLeft2Right, pairBufs] at hr ⊢
    simp only [hr, if_false, bind, Except.bind, pure, Except.pure, Except.map,
      Bool.not_false, if_true]
    rfl
  · obtain ⟨r, hr, -⟩ := fwdR2L_partial op st.1 (bottom.length b s).toNat _ (le_refl _)
      (bottom.data b s) (pairBufs st.1 st.2 b s)
    rw [range_reverse_take_self] at hr
    refine ⟨r, ?_⟩
    simp only [e1, ForwardRight2Left, pairBufs] at hr ⊢
    simp only [hr, if_false, bind, Except.bind, pure, Except.pure, Except.map,
      Bool.not_true, Bool.false_eq_true]
    rfl

theorem foldlM_nested_fst {σ τ ε : Type} (f : σ → Nat → Nat → Except ε σ)
    (g : σ × τ → Nat → Nat → Except ε (σ × τ)) (B S : Nat)
    (hg : ∀ st x b s, (g (st, x) b s).map Prod.fst = f st b s) (s0 : σ) (x0 : τ) :
    ((List.range B).foldlM (fun st b => (List.range S).foldlM (fun st s => g st b s) st)
        (s0, x0)).map Prod.fst
      = (List.range B).foldlM (fun st b => (List.range S).foldlM (fun st s => f st b s) st)
          s0 :=
  foldlM_fst (fun st b => (List.range S).foldlM (fun st s => f st b s) st)
    (fun st b => (List.range S).foldlM (fun st s => g st b s) st) (List.range B)
    (fun st x b _ => foldlM_fst (fun st s => f st b s) (fun st s => g st b s) (List.range S)
      (fun st2 x2 s _ => hg st2 x2 b s) st x) s0 x0

theorem ForwardTraced_fst (op : Ops α) (L : GruLayer α d_input d_mem)
    (bottom : Node α d_input) (top : Node α d_mem) :
    (ForwardTraced op L bottom top).map Prod.fst = Forward op L bottom top := by
  unfold ForwardTraced Forward
  exact foldlM_nested_fst (fun st b s => fwdPair op bottom st b s)
    (fun st b s => fwdPairTraced op bottom st b s) bottom.size0 bottom.size1
    (fun st x b s => fwdPairTraced_fst op bottom st x b s) _ _

omit [CommRing α] in
theorem visited_row (S b b' s' : Nat) (h : visited S (b + 1) 0 b' s') : visited S b S b' s' := by
  unfold visited at h ⊢
  rcases h with h | h
  · rcases Nat.lt_succ_iff_lt_or_eq.mp h.1 with h' | h'
    · exact Or.inl ⟨h', h.2⟩
    · exact Or.inr ⟨h', h.2⟩
  · omega

omit [CommRing α] in
theorem visited_step (S b s b' s' : Nat) (h : visited S b (s + 1) b' s') :
    visited S b s b' s' ∨ (b' = b ∧ s' = s) := by
  unfold visited at h ⊢
  rcases h with h | h
  · exact Or.inl (Or.inl h)
  · rcases Nat.lt_succ_iff_lt_or_eq.mp h.2 with h' | h'
    · exact Or.inl (Or.inr ⟨h.1, h'⟩)
    · exact Or.inr ⟨h.1, h'⟩

theorem ForwardTraced_visits (op : Ops α) (L : GruLayer α d_input d_mem)
    (bottom : Node α d_input) (top : Node α d_mem)
    (hpos : ∀ b, b < bottom.size0 → ∀ s, s < bottom.size1 → 0 ≤ bottom.length b s) :
    ∃ f vis, ForwardTraced op L bottom top = .ok (f, vis) ∧
      f.1.reverse = L.reverse ∧ f.1.begin_h = L.begin_h ∧
      ∀ b s, b < bottom.size0 → s < bottom.size1 →
        vis b s = (fwdOrder L.reverse (bottom.length b s).toNat).map
          (fun t => (t, preOf L.reverse L.begin_h (bottom.length b s).toNat
            (f.2.data b s) t)) := by
  unfold ForwardTraced
  obtain ⟨r, hr, h1, h2, h3⟩ := foldlM_nested_inv
    (fun st b s => fwdPairTraced op bottom st b s) bottom.size0 bottom.size1
    (fun b s (p : (GruLayer α d_input d_mem × Node α d_mem) ×
        (Nat → Nat → List (Visit α d_mem))) =>
      p.1.1.reverse = L.reverse ∧ p.1.1.begin_h = L.begin_h ∧
      ∀ b' s', visited bottom.size1 b s b' s' →
        p.2 b' s' = (fwdOrder L.reverse (bottom.length b' s').toNat).map
          (fun t => (t, preOf L.reverse L.begin_h (bottom.length b' s').toNat
            (p.1.2.data b' s') t)))
    (({ L with c := 0, g := 0, c_er := 0, g_er := 0 },
      { top with length := bottom.length, data := 0 }), fun _ _ => [])
    ⟨rfl, rfl, fun b' s' h => by rcases h with h | h <;> omega⟩
    (fun b st h => ⟨h.1, h.2.1, fun b' s' hv => h.2.2 b' s' (visited_row _ _ _ _ hv)⟩)
    (by
      rintro b hb s hs ⟨st, vis⟩ ⟨h1, h2, h3⟩
      obtain ⟨r, hr⟩ := fwdPairTraced_ok op bottom st vis b s (hpos b hb s hs)
      refine ⟨_, hr, h1, h2, ?_⟩
      intro b' s' hv
      simp only [setVisits_apply]
      by_cases e : b' = b ∧ s' = s
      · obtain ⟨rfl, rfl⟩ := e
        simp only [and_self, if_true, setPair_same]
        simp only at h1 h2
        rw [h1, h2]
      · rw [if_neg e, setPair_ne _ _ _ _ _ _ e]
        rcases visited_step _ _ _ _ _ hv with hv2 | hv2
        · exact h3 b' s' hv2
        · exact absurd hv2 e)
  obtain ⟨f, vis⟩ := r
  exact ⟨f, vis, hr, h1, h2, fun b s hb hs => h3 b s (Or.inl ⟨hb, hs⟩)⟩

theorem bpPairTraced_fst (op : Ops α) (st : BpState α d_input d_mem)
    (vis : Nat → Nat → List (Visit α d_mem)) (b s : Nat) :
    (bpPairTraced op (st, vis) b s).map Prod.fst = bpPair op st b s := by
  unfold bpPairTraced bpPair
  simp only [BackpropForLeft2RightLstmTraced_eq, BackpropForRight2LeftLstmTraced_eq]
  by_cases h0 : st.bottom.length b s < 0
  · simp [h0, bind, Except.bind, throw, throwThe, MonadExceptOf.throw, Except.map]
  · cases hrev : st.layer.reverse
    · simp only [h0, hrev, if_false, bind, Except.bind, pure, Except.pure, Except.map,
        Bool.not_false, if_true]
      generalize BackpropForLeft2RightLstm op (st.bottom.length b s).toNat (st.top.data b s)
        (st.layer.c b s) (st.layer.g b s) (st.bottom.data b s)
        ⟨st.layer, st.top.diff b s, st.layer.c_er b s, st.layer.g_er b s,
          st.bottom.diff b s⟩ = res
      cases res <;> rfl
    · simp only [h0, hrev, if_false, bind, Except.bind, pure, Except.pure, Except.map,
        Bool.not_true, Bool.false_eq_true]
      generalize BackpropForRight2LeftLstm op (st.bottom.length b s).toNat (st.top.data b s)
        (st.layer.c b s) (st.layer.g b s) (st.bottom.data b s)
        ⟨st.layer, st.top.diff b s, st.layer.c_er b s, st.layer.g_er b s,
          st.bottom.diff b s⟩ = res
      cases res <;> rfl

theorem bpPairTraced_ok (op : Ops α) (st : BpState α d_input d_mem)
    (vis : Nat → Nat → List (Visit α d_mem)) (b s : Nat) (h0 : 0 ≤ st.bottom.length b s) :
    ∃ r : BpSeq α d_input d_mem,
      r.layer.begin_h = st.layer.begin_h ∧ r.layer.reverse = st.layer.reverse ∧
      bpPairTraced op (st, vis) b s
        = .ok ({ layer := { r.layer with c_er := setPair st.layer.c_er b s r.c_er,
                                         g_er := setPair st.layer.g_er b s r.g_er },
                 bottom := { st.bottom with diff := setPair st.bottom.diff b s r.bottom_diff },
                 top := { st.top with diff := setPair st.top.diff b s r.top_diff } },
               setVisits vis b s ((fwdOrder st.layer.reverse (st.bottom.length b s).toNat).reverse.map
                 (fun t => (t, preOf st.layer.reverse st.layer.begin_h
                   (st.bottom.length b s).toNat (st.top.data b s) t)))) := by
  have e1 : ¬ st.bottom.length b s < 0 := by omega
  unfold bpPairTraced
  simp only [BackpropForLeft2RightLstmTraced_eq, BackpropForRight2LeftLstmTraced_eq]
  cases hrev : st.layer.reverse
  · obtain ⟨r, hr, hI⟩ := foldlM_ok (bpBodyL2R op (st.top.data b s) (st.layer.c b s)
      (st.layer.g b s) (st.bottom.data b s))
      (fun q => q.layer.begin_h = st.layer.begin_h ∧ q.layer.reverse = st.layer.reverse)
      (List.range (st.bottom.length b s).toNat).reverse (bpBufs st b s) ⟨rfl, rfl⟩ (by
        intro q i _ hq
        obtain ⟨r, hr⟩ := bpBodyL2R_ok op (st.top.data b s) (st.layer.c b s)
          (st.layer.g b s) (st.bottom.data b s) q i
        have hl := bpBodyL2R_layer op _ _ _ _ q r i hr
        exact ⟨r, hr, hl.1.trans hq.1, hl.2.trans hq.2⟩)
    refine ⟨r, hI.1, hI.2.trans hrev, ?_⟩
    simp only [e1, BackpropForLeft2RightLstm, bpBufs] at hr ⊢
    simp only [hr, if_false, bind, Except.bind, pure, Except.pure, Except.map,
      Bool.not_false, if_true, hI.1]
    rfl
  · obtain ⟨r, hr, hI⟩ := foldlM_ok (bpBodyR2L op (st.bottom.length b s).toNat
      (st.top.data b s) (st.layer.c b s) (st.layer.g b s) (st.bottom.data b s))
      (fun q => q.layer.begin_h = st.layer.begin_h ∧ q.layer.reverse = st.layer.reverse)
      (List.range (st.bottom.length b s).toNat) (bpBufs st b s) ⟨rfl, rfl⟩ (by
        intro q i _ hq
        obtain ⟨r, hr⟩ := bpBodyR2L_ok op (st.bottom.length b s).toNat (st.top.data b s)
          (st.layer.c b s) (st.layer.g b s) (st.bottom.data b s) q i
        have hl := bpBodyR2L_layer op _ _ _ _ _ q r i hr
        exact ⟨r, hr, hl.1.trans hq.1, hl.2.trans hq.2⟩)
    refine ⟨r, hI.1, hI.2.trans hrev, ?_⟩
    simp only [e1, BackpropForRight2LeftLstm, bpBufs] at hr ⊢
    simp only [hr, if_false, bind, Except.bind, pure, Except.pure, Except.map,
      Bool.not_true, Bool.false_eq_true, hI.1]
    simp [fwdOrder]
    rfl

theorem BackpropTraced_fst (op : Ops α) (L : GruLayer α d_input d_mem)
    (bottom : Node α d_input) (top : Node α d_mem) :
    (BackpropTraced op L bottom top).map Prod.fst = Backprop op L bottom top := by
  unfold BackpropTraced Backprop
  exact foldlM_nested_fst (fun st b s => bpPair op st b s)
    (fun st b s => bpPairTraced op st b s) bottom.size0 bottom.size1
    (fun st x b s => bpPairTraced_fst op st x b s) _ _

theorem BackpropTraced_visits (op : Ops α) (L : GruLayer α d_input d_mem)
    (bottom : Node α d_input) (top : Node α d_mem)
    (hpos : ∀ b, b < bottom.size0 → ∀ s, s < bottom.size1 → 0 ≤ bottom.length b s) :
    ∃ r vis, BackpropTraced op L bottom top = .ok (r, vis) ∧
      ∀ b s, b < bottom.size0 → s < bottom.size1 →
        vis b s = (fwdOrder L.reverse (bottom.length b s).toNat).reverse.map
          (fun t => (t, preOf L.reverse L.begin_h (bottom.length b s).toNat
            (top.data b s) t)) := by
  unfold BackpropTraced
  obtain ⟨r, hr, -, -, -, -, h5⟩ := foldlM_nested_inv
    (fun st b s => bpPairTraced op st b s) bottom.size0 bottom.size1
    (fun b s (p : BpState α d_input d_mem × (Nat → Nat → List (Visit α d_mem))) =>
      p.1.layer.reverse = L.reverse ∧ p.1.layer.begin_h = L.begin_h ∧
      p.1.top.data = top.data ∧ p.1.bottom.length = bottom.length ∧
      ∀ b' s', visited bottom.size1 b s b' s' →
        p.2 b' s' = (fwdOrder L.reverse (bottom.length b' s').toNat).reverse.map
          (fun t => (t, preOf L.reverse L.begin_h (bottom.length b' s').toNat
            (top.data b' s') t)))
    ({ layer := { L with begin_h_er := 0, g_er := 0, c_er := 0 }, bottom := bottom,
       top := top }, fun _ _ => [])
    ⟨rfl, rfl, rfl, rfl, fun b' s' h => by rcases h with h | h <;> omega⟩
    (fun b st h =>
      ⟨h.1, h.2.1, h.2.2.1, h.2.2.2.1, fun b' s' hv => h.2.2.2.2 b' s' (visited_row _ _ _ _ hv)⟩)
    (by
      rintro b hb s hs ⟨st, vis⟩ ⟨h1, h2, h3, h4, h5⟩
      simp only at h1 h2 h3 h4 h5
      obtain ⟨r, hr1, hr2, hr⟩ := bpPairTraced_ok op st vis b s (by
        rw [h4]
        exact hpos b hb s hs)
      refine ⟨_, hr, hr2.trans h1, hr1.trans h2, h3, h4, ?_⟩
      intro b' s' hv
      simp only [setVisits_apply]
      by_cases e : b' = b ∧ s' = s
      · obtain ⟨rfl, rfl⟩ := e
        simp only [and_self, if_true]
        rw [h1, h2, h3, h4]
      · rw [if_neg e]
        rcases visited_step _ _ _ _ _ hv with hv2 | hv2
        · exact h5 b' s' hv2
        · exact absurd hv2 e)
  obtain ⟨r, vis⟩ := r
  exact ⟨r, vis, hr, fun b s hb hs => h5 b s (Or.inl ⟨hb, hs⟩)⟩

/-! ### Claim on the order of the two traversals -/

/-- C10: under the length precondition, `Forward` and, on the layer and the output it leaves,
`Backprop` of the same layer run with the recording drivers give the results of `Forward` and
`Backprop`, and for every pair inside the shape with valid length `n`: the row indices `Forward`
visits are `0, ..., n - 1` in this order when `reverse = false` and `n - 1, ..., 0` when
`reverse = true`; the row indices `Backprop` visits are `n - 1, ..., 0` when `reverse = false`
and `0, ..., n - 1` when `reverse = true`; the record of `Backprop` (row index and previous
hidden state handed to `BpOneStep`) is the reversed record of `Forward` (row index and
previous hidden state handed to `ForwardOneStep`), so the two steps at an index receive the
same previous hidden state; and that state is the initial state `begin_h` at the first index
`Forward` visits and otherwise the hidden state `Forward` left at index `t - 1`
(`reverse = false`) or `t + 1` (`reverse = true`). -/
theorem C10_opposite_order (op : Ops α) (L : GruLayer α d_input d_mem)
    (bottom : Node α d_input) (top : Node α d_mem) (hlen : ValidLengths bottom) :
    ∃ f visF r visB,
      ForwardTraced op L bottom top = .ok (f, visF) ∧ Forward op L bottom top = .ok f ∧
      BackpropTraced op f.1 bottom f.2 = .ok (r, visB) ∧ Backprop op f.1 bottom f.2 = .ok r ∧
      f.1.reverse = L.reverse ∧
      ∀ b s, b < bottom.size0 → s < bottom.size1 →
        (visF b s).map Prod.fst
          = (if L.reverse then (List.range (bottom.length b s).toNat).reverse
             else List.range (bottom.length b s).toNat) ∧
        (visB b s).map Prod.fst
          = (if L.reverse then List.range (bottom.length b s).toNat
             else (List.range (bottom.length b s).toNat).reverse) ∧
        visB b s = (visF b s).reverse ∧
        ∀ t pre_h, (t, pre_h) ∈ visF b s →
          t < (bottom.length b s).toNat ∧
          pre_h = (if L.reverse then
                     (if t = (bottom.length b s).toNat - 1 then L.begin_h
                      else Slice (f.2.data b s) (t + 1))
                   else (if t = 0 then L.begin_h else Slice (f.2.data b s) (t - 1))) := by
  have hpos : ∀ b, b < bottom.size0 → ∀ s, s < bottom.size1 → 0 ≤ bottom.length b s :=
    fun b hb s hs => (hlen b hb s hs).1
  obtain ⟨f, visF, hF, hrev, hbeg, hvF⟩ := ForwardTraced_visits op L bottom top hpos
  obtain ⟨r, visB, hB, hvB⟩ := BackpropTraced_visits op f.1 bottom f.2 hpos
  have hF2 := ForwardTraced_fst op L bottom top
  rw [hF] at hF2
  have hB2 := BackpropTraced_fst op f.1 bottom f.2
  rw [hB] at hB2
  refine ⟨f, visF, r, visB, hF, hF2.symm, hB, hB2.symm, hrev, ?_⟩
  intro b s hb hs
  have eF := hvF b s hb hs
  have eB := hvB b s hb hs
  rw [hrev, hbeg] at eB
  refine ⟨?_, ?_, ?_, ?_⟩
  · rw [eF, List.map_map]
    cases L.reverse <;> simp [fwdOrder, Function.comp_def]
  · rw [eB, List.map_map]
    cases L.reverse <;> simp [fwdOrder, Function.comp_def]
  · rw [eB, eF, List.map_reverse]
  · intro t pre_h hmem
    rw [eF] at hmem
    obtain ⟨t2, ht2, e⟩ := List.mem_map.mp hmem
    cases e
    refine ⟨?_, rfl⟩
    revert ht2
    cases L.reverse <;> simp [fwdOrder]

theorem C10_opposite_order_witness :
    ValidLengths (exBottom 2 2) ∧
    ∃ f visF r visB,
      ForwardTraced exOps (exLayer true 0) (exBottom 2 2) (exTop 2) = .ok (f, visF) ∧
      Forward exOps (exLayer true 0) (exBottom 2 2) (exTop 2) = .ok f ∧
      BackpropTraced exOps f.1 (exBottom 2 2) f.2 = .ok (r, visB) ∧
      Backprop exOps f.1 (exBottom 2 2) f.2 = .ok r ∧
      f.1.reverse = (exLayer true 0).reverse ∧
      ∀ b s, b < (exBottom 2 2).size0 → s < (exBottom 2 2).size1 →
        (visF b s).map Prod.fst
          = (if (exLayer true 0).reverse then
               (List.range ((exBottom 2 2).length b s).toNat).reverse
             else List.range ((exBottom 2 2).length b s).toNat) ∧
        (visB b s).map Prod.fst
          = (if (exLayer true 0).reverse then List.range ((exBottom 2 2).length b s).toNat
             else (List.range ((exBottom 2 2).length b s).toNat).reverse) ∧
        visB b s = (visF b s).reverse ∧
        ∀ t pre_h, (t, pre_h) ∈ visF b s →
          t < ((exBottom 2 2).length b s).toNat ∧
          pre_h = (if (exLayer true 0).reverse then
                     (if t = ((exBottom 2 2).length b s).toNat - 1 then (exLayer true 0).begin_h
                      else Slice (f.2.data b s) (t + 1))
                   else (if t = 0 then (exLayer true 0).begin_h
                         else Slice (f.2.data b s) (t - 1))) :=
  ⟨validLengths_exBottom 2 2 (by decide) (by decide),
    C10_opposite_order exOps (exLayer true 0) (exBottom 2 2) (exTop 2)
      (validLengths_exBottom 2 2 (by decide) (by decide))⟩

end Proofs

section Calculus

variable {d_input d_mem : Nat}

theorem hasDerivAt_dot {m n : Nat} (a : ℝ → Tensor2D ℝ 1 m) (M : ℝ → Tensor2D ℝ m n)
    (a' : Tensor2D ℝ 1 m) (M' : Tensor2D ℝ m n) (u0 : ℝ)
    (ha : ∀ l, HasDerivAt (fun u => a u 0 l) (a' 0 l) u0)
    (hM : ∀ l k, HasDerivAt (fun u => M u l k) (M' l k) u0) (k : Fin n) :
    HasDerivAt (fun u => dot (a u) (M u) 0 k) ((dot a' (M u0) + dot (a u0) M') 0 k) u0 := by
  have : HasDerivAt (fun u => ∑ l in Finset.univ, a u 0 l * M u l k)
      (∑ l in Finset.univ, (a' 0 l * M u0 l k + a u0 0 l * M' l k)) u0 :=
    HasDerivAt.sum (fun l _ => (ha l).mul (hM l k))
  simp only [dot]
  convert this using 1
  simp [dot, Finset.sum_add_distrib]

theorem wStep_hasDerivAt (op : Ops ℝ)
    (hσ : ∀ v, HasDerivAt op.sigmoid (op.sigmoid_grad (op.sigmoid v)) v)
    (hτ : ∀ v, HasDerivAt op.tanh (op.tanh_grad (op.tanh v)) v)
    (Wu : ℝ → Weights ℝ d_input d_mem) (W' : Weights ℝ d_input d_mem)
    (hu : ℝ → Tensor2D ℝ 1 d_mem) (h' : Tensor2D ℝ 1 d_mem)
    (xu : ℝ → Tensor2D ℝ 1 d_input) (x' : Tensor2D ℝ 1 d_input) (u0 : ℝ)
    (hW0 : ∀ l k, HasDerivAt (fun u => (Wu u).1 l k) (W'.1 l k) u0)
    (hW1 : ∀ l k, HasDerivAt (fun u => (Wu u).2.1 l k) (W'.2.1 l k) u0)
    (hW3 : ∀ l k, HasDerivAt (fun u => (Wu u).2.2.1 l k) (W'.2.2.1 l k) u0)
    (hW4 : ∀ l k, HasDerivAt (fun u => (Wu u).2.2.2 l k) (W'.2.2.2 l k) u0)
    (hh : ∀ j, HasDerivAt (fun u => hu u 0 j) (h' 0 j) u0)
    (hx : ∀ i, HasDerivAt (fun u => xu u 0 i) (x' 0 i) u0) (j : Fin d_mem) :
    HasDerivAt (fun u => (wStep op (Wu u) (hu u) (xu u)).2.2 0 j)
      (stepTangent op (Wu u0) W' (hu u0) h' (xu u0) x' 0 j) u0 := by
  -- gate
  have hg : ∀ k, HasDerivAt (fun u => refGate op (Wu u).1 (Wu u).2.1 (hu u) (xu u) 0 k)
      ((F op.sigmoid_grad (refGate op (Wu u0).1 (Wu u0).2.1 (hu u0) (xu u0))
        * (dot x' (Wu u0).1 + dot (xu u0) W'.1 + dot h' (Wu u0).2.1 + dot (hu u0) W'.2.1)) 0 k)
      u0 := by
    intro k
    have hpre := (hasDerivAt_dot xu (fun u => (Wu u).1) x' W'.1 u0 hx hW0 k).add
      (hasDerivAt_dot hu (fun u => (Wu u).2.1) h' W'.2.1 u0 hh hW1 k)
    have := (hσ _).comp u0 hpre
    convert this using 1
    simp only [F, refGate, dot, Pi.mul_apply, Pi.add_apply]
    ring
  have hr : ∀ l : Fin d_mem, HasDerivAt
      (fun u => refReset (refGate op (Wu u).1 (Wu u).2.1 (hu u) (xu u)) 0 l)
      (refReset (F op.sigmoid_grad (refGate op (Wu u0).1 (Wu u0).2.1 (hu u0) (xu u0))
        * (dot x' (Wu u0).1 + dot (xu u0) W'.1 + dot h' (Wu u0).2.1 + dot (hu u0) W'.2.1)) 0 l)
      u0 := fun l => hg ⟨l.1, by omega⟩
  have hz : ∀ l : Fin d_mem, HasDerivAt
      (fun u => refUpdate (refGate op (Wu u).1 (Wu u).2.1 (hu u) (xu u)) 0 l)
      (refUpdate (F op.sigmoid_grad (refGate op (Wu u0).1 (Wu u0).2.1 (hu u0) (xu u0))
        * (dot x' (Wu u0).1 + dot (xu u0) W'.1 + dot h' (Wu u0).2.1 + dot (hu u0) W'.2.1)) 0 l)
      u0 := fun l => hg ⟨d_mem + l.1, by omega⟩
  generalize hgg : (F op.sigmoid_grad (refGate op (Wu u0).1 (Wu u0).2.1 (hu u0) (xu u0))
        * (dot x' (Wu u0).1 + dot (xu u0) W'.1 + dot h' (Wu u0).2.1 + dot (hu u0) W'.2.1)) = g'
    at hr hz
  -- candidate
  have hrh : ∀ l, HasDerivAt
      (fun u => (refReset (refGate op (Wu u).1 (Wu u).2.1 (hu u) (xu u)) * hu u) 0 l)
      ((refReset g' * hu u0
        + refReset (refGate op (Wu u0).1 (Wu u0).2.1 (hu u0) (xu u0)) * h') 0 l) u0 := by
    intro l
    have := (hr l).mul (hh l)
    convert this using 1
  have hc : HasDerivAt (fun u => refCand op (Wu u).2.2.1 (Wu u).2.2.2
        (refReset (refGate op (Wu u).1 (Wu u).2.1 (hu u) (xu u))) (hu u) (xu u) 0 j)
      ((F op.tanh_grad (refCand op (Wu u0).2.2.1 (Wu u0).2.2.2
          (refReset (refGate op (Wu u0).1 (Wu u0).2.1 (hu u0) (xu u0))) (hu u0) (xu u0))
        * (dot x' (Wu u0).2.2.1 + dot (xu u0) W'.2.2.1
          + dot (refReset g' * hu u0
              + refReset (refGate op (Wu u0).1 (Wu u0).2.1 (hu u0) (xu u0)) * h') (Wu u0).2.2.2
          + dot (refReset (refGate op (Wu u0).1 (Wu u0).2.1 (hu u0) (xu u0)) * hu u0)
              W'.2.2.2)) 0 j) u0 := by
    have hpre := (hasDerivAt_dot xu (fun u => (Wu u).2.2.1) x' W'.2.2.1 u0 hx hW3 j).add
      (hasDerivAt_dot
        (fun u => refReset (refGate op (Wu u).1 (Wu u).2.1 (hu u) (xu u)) * hu u)
        (fun u => (Wu u).2.2.2) _ W'.2.2.2 u0 hrh hW4 j)
    have := (hτ _).comp u0 hpre
    convert this using 1
    simp only [F, refCand, dot, Pi.mul_apply, Pi.add_apply]
    ring
  -- hidden state
  have hfin := (((hz j).mul (hh j)).add (((hasDerivAt_const u0 (1 : ℝ)).sub (hz j)).mul hc))
  simp only [wStep, refStep, refHidden, stepTangent, hgg]
  convert hfin using 1
  simp only [Pi.mul_apply, Pi.add_apply, Pi.sub_apply, Pi.one_apply]
  ring

theorem hidSeq_hasDerivAt (op : Ops ℝ)
    (hσ : ∀ v, HasDerivAt op.sigmoid (op.sigmoid_grad (op.sigmoid v)) v)
    (hτ : ∀ v, HasDerivAt op.tanh (op.tanh_grad (op.tanh v)) v)
    (Wu : ℝ → Weights ℝ d_input d_mem) (W' : Weights ℝ d_input d_mem)
    (begin_h : Tensor2D ℝ 1 d_mem)
    (Xu : ℝ → Nat → Tensor2D ℝ 1 d_input) (X' : Nat → Tensor2D ℝ 1 d_input) (u0 : ℝ)
    (hW0 : ∀ l k, HasDerivAt (fun u => (Wu u).1 l k) (W'.1 l k) u0)
    (hW1 : ∀ l k, HasDerivAt (fun u => (Wu u).2.1 l k) (W'.2.1 l k) u0)
    (hW3 : ∀ l k, HasDerivAt (fun u => (Wu u).2.2.1 l k) (W'.2.2.1 l k) u0)
    (hW4 : ∀ l k, HasDerivAt (fun u => (Wu u).2.2.2 l k) (W'.2.2.2 l k) u0)
    (hX : ∀ p i, HasDerivAt (fun u => Xu u p 0 i) (X' p 0 i) u0) :
    ∀ p j, HasDerivAt (fun u => hidSeq op (Wu u) begin_h (Xu u) p 0 j)
      (tanSeq op (Wu u0) W' begin_h (Xu u0) X' p 0 j) u0 := by
  intro p
  induction p with
  | zero =>
    intro j
    exact wStep_hasDerivAt op hσ hτ Wu W' (fun _ => begin_h) 0 (fun u => Xu u 0) (X' 0) u0
      hW0 hW1 hW3 hW4 (fun _ => hasDerivAt_const u0 _) (hX 0) j
  | succ p ih =>
    intro j
    exact wStep_hasDerivAt op hσ hτ Wu W' (fun u => hidSeq op (Wu u) begin_h (Xu u) p)
      (tanSeq op (Wu u0) W' begin_h (Xu u0) X' p) (fun u => Xu u (p + 1)) (X' (p + 1)) u0
      hW0 hW1 hW3 hW4 ih (hX (p + 1)) j

theorem lossSum_hasDerivAt (op : Ops ℝ)
    (hσ : ∀ v, HasDerivAt op.sigmoid (op.sigmoid_grad (op.sigmoid v)) v)
    (hτ : ∀ v, HasDerivAt op.tanh (op.tanh_grad (op.tanh v)) v)
    (L : GruLayer ℝ d_input d_mem) (bottom : Node ℝ d_input) (top : Node ℝ d_mem)
    (hlen : ValidLengths bottom)
    (Wu : ℝ → Weights ℝ d_input d_mem) (W' : Weights ℝ d_input d_mem)
    (xu : ℝ → Tensor4D ℝ d_input) (x' : Tensor4D ℝ d_input) (u0 : ℝ)
    (hW0 : ∀ l k, HasDerivAt (fun u => (Wu u).1 l k) (W'.1 l k) u0)
    (hW1 : ∀ l k, HasDerivAt (fun u => (Wu u).2.1 l k) (W'.2.1 l k) u0)
    (hW3 : ∀ l k, HasDerivAt (fun u => (Wu u).2.2.1 l k) (W'.2.2.1 l k) u0)
    (hW4 : ∀ l k, HasDerivAt (fun u => (Wu u).2.2.2 l k) (W'.2.2.2 l k) u0)
    (hx : ∀ b s t i, HasDerivAt (fun u => xu u b s t i) (x' b s t i) u0) :
    HasDerivAt (fun u => lossSum op (withWeights L (Wu u)) { bottom with data := xu u } top)
      (∑ b in Finset.range bottom.size0, ∑ s in Finset.range bottom.size1,
        ∑ p in Finset.range (bottom.length b s).toNat, ∑ j,
          tanSeq op (Wu u0) W' L.begin_h
            (visitRows L.reverse (bottom.length b s).toNat (xu u0 b s))
            (visitRows L.reverse (bottom.length b s).toNat (x' b s)) p 0 j) u0 := by
  have e : (fun u => lossSum op (withWeights L (Wu u)) { bottom with data := xu u } top)
      = fun u => ∑ b in Finset.range bottom.size0, ∑ s in Finset.range bottom.size1,
          ∑ p in Finset.range (bottom.length b s).toNat, ∑ j,
            hidSeq op (Wu u) L.begin_h
              (visitRows L.reverse (bottom.length b s).toNat (xu u b s)) p 0 j := by
    funext u
    exact lossSum_eq op (withWeights L (Wu u)) { bottom with data := xu u } top hlen
  rw [e]
  apply HasDerivAt.sum
  intro b _
  apply HasDerivAt.sum
  intro s _
  apply HasDerivAt.sum
  intro p _
  apply HasDerivAt.sum
  intro j _
  exact hidSeq_hasDerivAt op hσ hτ Wu W' L.begin_h
    (fun u => visitRows L.reverse (bottom.length b s).toNat (xu u b s))
    (visitRows L.reverse (bottom.length b s).toNat (x' b s)) u0 hW0 hW1 hW3 hW4
    (fun p i => hx b s _ i) p j

theorem lossSum_directional (op : Ops ℝ)
    (hσ : ∀ v, HasDerivAt op.sigmoid (op.sigmoid_grad (op.sigmoid v)) v)
    (hτ : ∀ v, HasDerivAt op.tanh (op.tanh_grad (op.tanh v)) v)
    (L : GruLayer ℝ d_input d_mem) (bottom : Node ℝ d_input) (top : Node ℝ d_mem)
    (hlen : ValidLengths bottom)
    (htop : ∀ b s t j, b < bottom.size0 → s < bottom.size1 → t < (bottom.length b s).toNat →
      top.diff b s t j = 1)
    (f : GruLayer ℝ d_input d_mem × Node ℝ d_mem) (hf : Forward op L bottom top = .ok f)
    (r : BpState ℝ d_input d_mem) (hr : Backprop op f.1 bottom f.2 = .ok r)
    (Wu : ℝ → Weights ℝ d_input d_mem) (W' : Weights ℝ d_input d_mem)
    (xu : ℝ → Tensor4D ℝ d_input) (x' : Tensor4D ℝ d_input) (u0 : ℝ)
    (hW0 : ∀ l k, HasDerivAt (fun u => (Wu u).1 l k) (W'.1 l k) u0)
    (hW1 : ∀ l k, HasDerivAt (fun u => (Wu u).2.1 l k) (W'.2.1 l k) u0)
    (hW3 : ∀ l k, HasDerivAt (fun u => (Wu u).2.2.1 l k) (W'.2.2.1 l k) u0)
    (hW4 : ∀ l k, HasDerivAt (fun u => (Wu u).2.2.2 l k) (W'.2.2.2 l k) u0)
    (hx : ∀ b s t i, HasDerivAt (fun u => xu u b s t i) (x' b s t i) u0)
    (e1 : Wu u0 = weightsOf L) (e2 : xu u0 = bottom.data) :
    HasDerivAt (fun u => lossSum op (withWeights L (Wu u)) { bottom with data := xu u } top)
      (ipW (grads r.layer - grads L) W'
        + ∑ b in Finset.range bottom.size0, ∑ s in Finset.range bottom.size1,
            ∑ t in Finset.range (bottom.length b s).toNat,
              ip (Slice (r.bottom.diff b s) t - Slice (bottom.diff b s) t)
                (Slice (x' b s) t)) u0 := by
  have h := lossSum_hasDerivAt op hσ hτ L bottom top hlen Wu W' xu x' u0 hW0 hW1 hW3 hW4 hx
  rw [e1, e2] at h
  obtain ⟨f2, r2, hf2, hr2, hid, -⟩ := backprop_adjoint op L bottom top hlen W' x'
  have ef : f2 = f := Except.ok.inj (hf2.symm.trans hf)
  subst ef
  have er : r2 = r := Except.ok.inj (hr2.symm.trans hr)
  subst er
  rw [← hid]
  refine HasDerivAt.congr_deriv h ?_
  apply Finset.sum_congr rfl
  intro b hb
  apply Finset.sum_congr rfl
  intro s hs
  apply Finset.sum_congr rfl
  intro p hp
  unfold ip
  apply Finset.sum_congr rfl
  intro j _
  have : Slice (top.diff b s) (rowOf L.reverse (bottom.length b s).toNat p) 0 j = 1 :=
    htop b s _ j (Finset.mem_range.mp hb) (Finset.mem_range.mp hs)
      (rowOf_lt _ _ _ (Finset.mem_range.mp hp))
  rw [this, one_mul]

omit d_input d_mem in
theorem setEntry_hasDerivAt {m n : Nat} (A : Tensor2D ℝ m n) (i : Fin m) (j : Fin n) (u0 : ℝ)
    (a : Fin m) (b : Fin n) :
    HasDerivAt (fun u => setEntry A i j u a b) (setEntry 0 i j 1 a b) u0 := by
  unfold setEntry
  split_ifs
  · exact hasDerivAt_id u0
  · exact hasDerivAt_const u0 _

omit d_input d_mem in
theorem setInput_hasDerivAt {n : Nat} (x : Tensor4D ℝ n) (b s t : Nat) (i : Fin n) (u0 : ℝ)
    (b2 s2 t2 : Nat) (i2 : Fin n) :
    HasDerivAt (fun u => setInput x b s t i u b2 s2 t2 i2)
      (setInput 0 b s t i 1 b2 s2 t2 i2) u0 := by
  unfold setInput
  split_ifs
  · exact hasDerivAt_id u0
  · exact hasDerivAt_const u0 _

theorem logistic_hasDerivAt (v : ℝ) :
    HasDerivAt (fun u : ℝ => 1 / (1 + Real.exp (-u)))
      (1 / (1 + Real.exp (-v)) * (1 - 1 / (1 + Real.exp (-v)))) v := by
  have h1 : HasDerivAt (fun u : ℝ => 1 + Real.exp (-u)) (-(Real.exp (-v))) v := by
    have := ((hasDerivAt_neg v).exp).const_add 1
    simpa using this
  have hne : 1 + Real.exp (-v) ≠ 0 := by positivity
  have h2 := h1.inv hne
  simp only [one_div]
  refine HasDerivAt.congr_deriv h2 ?_
  field_simp
  ring

theorem tanh_hasDerivAt (v : ℝ) :
    HasDerivAt Real.tanh (1 - Real.tanh v * Real.tanh v) v := by
  have h := (Real.hasDerivAt_sinh v).div (Real.hasDerivAt_cosh v) (Real.cosh_pos v).ne.symm
  have e : Real.tanh = fun y => Real.sinh y / Real.cosh y := funext Real.tanh_eq_sinh_div_cosh
  rw [e]
  refine HasDerivAt.congr_deriv h ?_
  have hc : Real.cosh v ≠ 0 := (Real.cosh_pos v).ne.symm
  beta_reduce
  rw [div_eq_iff (pow_ne_zero 2 hc)]
  have e1 : Real.sinh v / Real.cosh v * Real.cosh v = Real.sinh v := div_mul_cancel₀ _ hc
  linear_combination (Real.sinh v / Real.cosh v * Real.cosh v + Real.sinh v) * e1

theorem validLengths_exBottomR : ValidLengths exBottomR := by
  intro b _ s _
  simp [exBottomR]

/-- C5: over the reals, with activation functors whose gradient functors give the derivative
of the activation from its value, valid lengths, an output gradient that is all ones on the
valid prefix of every pair, and zeroed weight gradient accumulators and input gradient,
`Forward` then `Backprop` succeed, and each entry of the four weight gradient accumulators and
of the input gradient is the derivative of the loss "sum of the outputs on the valid prefixes"
with respect to the corresponding weight entry and input entry. -/
theorem C5_gradient_correctness (op : Ops ℝ)
    (hσ : ∀ v, HasDerivAt op.sigmoid (op.sigmoid_grad (op.sigmoid v)) v)
    (hτ : ∀ v, HasDerivAt op.tanh (op.tanh_grad (op.tanh v)) v)
    (L : GruLayer ℝ d_input d_mem) (bottom : Node ℝ d_input) (top : Node ℝ d_mem)
    (hlen : ValidLengths bottom)
    (htop : ∀ b s t j, b < bottom.size0 → s < bottom.size1 → t < (bottom.length b s).toNat →
      top.diff b s t j = 1)
    (hG : grads L = 0) (hbd : bottom.diff = 0) :
    ∃ f r, Forward op L bottom top = .ok f ∧ Backprop op f.1 bottom f.2 = .ok r ∧
      (∀ i j, HasDerivAt
        (fun u => lossSum op
          { L with params0 := { L.params0 with data := setEntry L.params0.data i j u } }
          bottom top)
        (r.layer.params0.diff i j) (L.params0.data i j)) ∧
      (∀ i j, HasDerivAt
        (fun u => lossSum op
          { L with params1 := { L.params1 with data := setEntry L.params1.data i j u } }
          bottom top)
        (r.layer.params1.diff i j) (L.params1.data i j)) ∧
      (∀ i j, HasDerivAt
        (fun u => lossSum op
          { L with params3 := { L.params3 with data := setEntry L.params3.data i j u } }
          bottom top)
        (r.layer.params3.diff i j) (L.params3.data i j)) ∧
      (∀ i j, HasDerivAt
        (fun u => lossSum op
          { L with params4 := { L.params4 with data := setEntry L.params4.data i j u } }
          bottom top)
        (r.layer.params4.diff i j) (L.params4.data i j)) ∧
      (∀ b s t i, HasDerivAt
        (fun u => lossSum op L { bottom with data := setInput bottom.data b s t i u } top)
        (r.bottom.diff b s t i) (bottom.data b s t i)) := by
  obtain ⟨f, r, hf, hr, -, hframe⟩ := backprop_adjoint op L bottom top hlen 0 0
  have hsub : ∀ b s t, Slice (r.bottom.diff b s) t - Slice (bottom.diff b s) t
      = Slice (r.bottom.diff b s) t := by
    intro b s t
    rw [hbd]
    funext a k
    simp [Slice]
  have hc : ∀ (m n : Nat) (A : Tensor2D ℝ m n) (u0 : ℝ) (l : Fin m) (k : Fin n),
      HasDerivAt (fun _ : ℝ => A l k) ((0 : Tensor2D ℝ m n) l k) u0 :=
    fun _ _ A u0 l k => hasDerivAt_const u0 (A l k)
  have hcx : ∀ (u0 : ℝ) b s t i,
      HasDerivAt (fun _ : ℝ => bottom.data b s t i) ((0 : Tensor4D ℝ d_input) b s t i) u0 :=
    fun u0 b s t i => hasDerivAt_const u0 _
  refine ⟨f, r, hf, hr, ?_, ?_, ?_, ?_, ?_⟩
  · intro i j
    have h := lossSum_directional op hσ hτ L bottom top hlen htop f hf r hr
      (fun u => (setEntry L.params0.data i j u, L.params1.data, L.params3.data, L.params4.data))
      (setEntry 0 i j 1, 0, 0, 0) (fun _ => bottom.data) 0 (L.params0.data i j)
      (setEntry_hasDerivAt _ i j _) (hc _ _ _ _) (hc _ _ _ _) (hc _ _ _ _) (hcx _)
      (by simp only [setEntry_self]; rfl) rfl
    refine HasDerivAt.congr_deriv h ?_
    simp only [hsub]
    rw [sum_ip_zero, hG, sub_zero, add_zero]
    simp only [ipW, ipM_zero_right, ipM_setEntry, add_zero]
    rfl
  · intro i j
    have h := lossSum_directional op hσ hτ L bottom top hlen htop f hf r hr
      (fun u => (L.params0.data, setEntry L.params1.data i j u, L.params3.data, L.params4.data))
      (0, setEntry 0 i j 1, 0, 0) (fun _ => bottom.data) 0 (L.params1.data i j)
      (hc _ _ _ _) (setEntry_hasDerivAt _ i j _) (hc _ _ _ _) (hc _ _ _ _) (hcx _)
      (by simp only [setEntry_self]; rfl) rfl
    refine HasDerivAt.congr_deriv h ?_
    simp only [hsub]
    rw [sum_ip_zero, hG, sub_zero, add_zero]
    simp only [ipW, ipM_zero_right, ipM_setEntry, add_zero, zero_add]
    rfl
  · intro i j
    have h := lossSum_directional op hσ hτ L bottom top hlen htop f hf r hr
      (fun u => (L.params0.data, L.params1.data, setEntry L.params3.data i j u, L.params4.data))
      (0, 0, setEntry 0 i j 1, 0) (fun _ => bottom.data) 0 (L.params3.data i j)
      (hc _ _ _ _) (hc _ _ _ _) (setEntry_hasDerivAt _ i j _) (hc _ _ _ _) (hcx _)
      (by simp only [setEntry_self]; rfl) rfl
    refine HasDerivAt.congr_deriv h ?_
    simp only [hsub]
    rw [sum_ip_zero, hG, sub_zero, add_zero]
    simp only [ipW, ipM_zero_right, ipM_setEntry, add_zero, zero_add]
    rfl
  · intro i j
    have h := lossSum_directional op hσ hτ L bottom top hlen htop f hf r hr
      (fun u => (L.params0.data, L.params1.data, L.params3.data, setEntry L.params4.data i j u))
      (0, 0, 0, setEntry 0 i j 1) (fun _ => bottom.data) 0 (L.params4.data i j)
      (hc _ _ _ _) (hc _ _ _ _) (hc _ _ _ _) (setEntry_hasDerivAt _ i j _) (hcx _)
      (by simp only [setEntry_self]; rfl) rfl
    refine HasDerivAt.congr_deriv h ?_
    simp only [hsub]
    rw [sum_ip_zero, hG, sub_zero, add_zero]
    simp only [ipW, ipM_zero_right, ipM_setEntry, add_zero, zero_add]
    rfl
  · intro b s t i
    have h := lossSum_directional op hσ hτ L bottom top hlen htop f hf r hr
      (fun _ => weightsOf L) 0 (fun u => setInput bottom.data b s t i u)
      (setInput 0 b s t i 1) (bottom.data b s t i)
      (hc _ _ _ _) (hc _ _ _ _) (hc _ _ _ _) (hc _ _ _ _)
      (setInput_hasDerivAt _ b s t i _) rfl (setInput_self _ b s t i)
    refine HasDerivAt.congr_deriv h ?_
    simp only [hsub]
    rw [ipW_zero_right, zero_add]
    apply sum_ip_setInput
    intro b2 s2 t2 hn
    rw [hframe b2 s2 t2 hn, hbd]
    rfl

theorem C5_gradient_correctness_witness :
    (∀ v, HasDerivAt (exOpsOf (fun u : ℝ => 1 / (1 + Real.exp (-u))) Real.tanh).sigmoid
      ((exOpsOf (fun u : ℝ => 1 / (1 + Real.exp (-u))) Real.tanh).sigmoid_grad
        ((exOpsOf (fun u : ℝ => 1 / (1 + Real.exp (-u))) Real.tanh).sigmoid v)) v) ∧
    (∀ v, HasDerivAt (exOpsOf (fun u : ℝ => 1 / (1 + Real.exp (-u))) Real.tanh).tanh
      ((exOpsOf (fun u : ℝ => 1 / (1 + Real.exp (-u))) Real.tanh).tanh_grad
        ((exOpsOf (fun u : ℝ => 1 / (1 + Real.exp (-u))) Real.tanh).tanh v)) v) ∧
    ValidLengths exBottomR ∧
    ∃ f r,
      Forward (exOpsOf (fun u : ℝ => 1 / (1 + Real.exp (-u))) Real.tanh) (exLayerR false)
        exBottomR exTopR = .ok f ∧
      Backprop (exOpsOf (fun u : ℝ => 1 / (1 + Real.exp (-u))) Real.tanh) f.1 exBottomR f.2
        = .ok r ∧
      (∀ i j, HasDerivAt
        (fun u => lossSum (exOpsOf (fun u : ℝ => 1 / (1 + Real.exp (-u))) Real.tanh)
          { exLayerR false with params0 :=
              { (exLayerR false).params0 with
                data := setEntry (exLayerR false).params0.data i j u } }
          exBottomR exTopR)
        (r.layer.params0.diff i j) ((exLayerR false).params0.data i j)) ∧
      (∀ i j, HasDerivAt
        (fun u => lossSum (exOpsOf (fun u : ℝ => 1 / (1 + Real.exp (-u))) Real.tanh)
          { exLayerR false with params1 :=
              { (exLayerR false).params1 with
                data := setEntry (exLayerR false).params1.data i j u } }
          exBottomR exTopR)
        (r.layer.params1.diff i j) ((exLayerR false).params1.data i j)) ∧
      (∀ i j, HasDerivAt
        (fun u => lossSum (exOpsOf (fun u : ℝ => 1 / (1 + Real.exp (-u))) Real.tanh)
          { exLayerR false with params3 :=
              { (exLayerR false).params3 with
                data := setEntry (exLayerR false).params3.data i j u } }
          exBottomR exTopR)
        (r.layer.params3.diff i j) ((exLayerR false).params3.data i j)) ∧
      (∀ i j, HasDerivAt
        (fun u => lossSum (exOpsOf (fun u : ℝ => 1 / (1 + Real.exp (-u))) Real.tanh)
          { exLayerR false with params4 :=
              { (exLayerR false).params4 with
                data := setEntry (exLayerR false).params4.data i j u } }
          exBottomR exTopR)
        (r.layer.params4.diff i j) ((exLayerR false).params4.data i j)) ∧
      (∀ b s t i, HasDerivAt
        (fun u => lossSum (exOpsOf (fun u : ℝ => 1 / (1 + Real.exp (-u))) Real.tanh)
          (exLayerR false) { exBottomR with data := setInput exBottomR.data b s t i u } exTopR)
        (r.bottom.diff b s t i) (exBottomR.data b s t i)) :=
  ⟨logistic_hasDerivAt, tanh_hasDerivAt, validLengths_exBottomR,
    C5_gradient_correctness (exOpsOf (fun u : ℝ => 1 / (1 + Real.exp (-u))) Real.tanh)
      logistic_hasDerivAt tanh_hasDerivAt (exLayerR false) exBottomR exTopR
      validLengths_exBottomR (fun _ _ _ _ _ _ _ => rfl) rfl rfl⟩

end Calculus

section Shapes

variable {α : Type} [CommRing α]

theorem vectorResize_getD {β : Type} (P : β → Prop) (v : List β) (n : Nat) (d : β)
    (hv : ∀ p ∈ v, P p) (hd : P d) (i : Nat) : P ((vectorResize v n d).getD i d) := by
  unfold vectorResize
  rw [List.getD_eq_getElem?_getD]
  cases h : ((v ++ List.replicate n d).take n)[i]? with
  | none => exact hd
  | some x =>
    have hx : x ∈ (v ++ List.replicate n d).take n := List.getElem?_mem h
    rcases List.mem_append.mp (List.mem_of_mem_take hx) with h1 | h1
    · exact hv x h1
    · rw [List.eq_of_mem_replicate h1]
      exact hd

theorem Resize_init (uninit : Shape4 → α) (nd : ShapedNode α) (d1 d2 d3 d4 : Nat)
    (hn : nd.need_diff = true) :
    nd.Resize uninit d1 d2 d3 d4 true
      = { data := { shape_ := (d1, d2, d3, d4), dptr_ := fun _ => 0 },
          diff := { shape_ := (d1, d2, d3, d4), dptr_ := fun _ => 0 },
          need_diff := true } := by
  simp [ShapedNode.Resize, TensorContainer.Resize, hn]

/-- C17: on one input node and one output node, with the setting `d_mem = H`, on a layer
whose parameter vector holds only nodes with `need_diff` set (it is empty in a layer that was
just constructed), `SetupLayer` succeeds; the hidden size of the layer is `H`, its input
width is the feature width `d_input` of the input node, the six parameter tensors have the
shapes `1 × 1 × d_input × 2H`, `1 × 1 × H × 2H`, `1 × 1 × 1 × 2H`, `1 × 1 × d_input × H`,
`1 × 1 × H × H` and `1 × 1 × 1 × H` in that order, and the gradient accumulator of each has
the same shape and is all zero. -/
theorem C17_SetupLayer_shapes (uninit : Shape4 → α)
    (filler : Nat → TensorContainer α Shape4 → Shape4 → α) (H : Nat) (reverse : Bool)
    (bottom0 top0 : ShapedNode α) (L0 : GruLayerState α)
    (hnd : ∀ p ∈ L0.params, p.need_diff = true) :
    ∃ L, SetupLayer uninit filler ⟨some H, reverse⟩ [bottom0] [top0] L0 = .ok L ∧
      L.d_mem = H ∧ L.d_input = bottom0.data.shape_.2.2.2 ∧
      L.params.map (fun p => p.data.shape_)
        = [(1, 1, L.d_input, 2 * H), (1, 1, H, 2 * H), (1, 1, 1, 2 * H),
           (1, 1, L.d_input, H), (1, 1, H, H), (1, 1, 1, H)] ∧
      L.params.map (fun p => p.diff.shape_) = L.params.map (fun p => p.data.shape_) ∧
      ∀ p ∈ L.params, ∀ i, p.diff.dptr_ i = 0 := by
  have hp : ∀ i, ((vectorResize L0.params 6 (ShapedNode.new true)).getD i
      (ShapedNode.new true)).need_diff = true :=
    fun i => vectorResize_getD (fun p : ShapedNode α => p.need_diff = true) L0.params 6
      (ShapedNode.new true) hnd rfl i
  have e : ∀ i d1 d2 d3 d4,
      ((vectorResize L0.params 6 (ShapedNode.new true)).getD i (ShapedNode.new true)).Resize
        uninit d1 d2 d3 d4 true
      = { data := { shape_ := (d1, d2, d3, d4), dptr_ := fun _ => 0 },
          diff := { shape_ := (d1, d2, d3, d4), dptr_ := fun _ => 0 },
          need_diff := true } :=
    fun i d1 d2 d3 d4 => Resize_init uninit _ d1 d2 d3 d4 (hp i)
  refine ⟨_, rfl, rfl, rfl, ?_, ?_, ?_⟩
  · simp only [e, ShapedNode.Init, List.map, Nat.one_mul]
    rfl
  · simp only [e, ShapedNode.Init, List.map]
    rfl
  · intro p hp2 i
    simp only [e, ShapedNode.Init, List.mem_cons, List.mem_singleton, List.not_mem_nil,
      or_false] at hp2
    rcases hp2 with h | h | h | h | h | h <;> rw [h] <;> rfl

theorem C17_SetupLayer_shapes_witness :
    ∃ L, SetupLayer (fun _ => (0 : ℚ)) (fun _ _ _ => 1) ⟨some 3, false⟩
        [⟨⟨(2, 1, 5, 4), fun _ => 0⟩, ⟨(2, 1, 5, 4), fun _ => 0⟩, true⟩] [ShapedNode.new true]
        ⟨0, 0, false, ⟨(0, 0), fun _ => 0⟩, ⟨(0, 0), fun _ => 0⟩, [],
          ⟨(0, 0, 0, 0), fun _ => 0⟩, ⟨(0, 0, 0, 0), fun _ => 0⟩, ⟨(0, 0, 0, 0), fun _ => 0⟩,
          ⟨(0, 0, 0, 0), fun _ => 0⟩⟩ = .ok L ∧
      L.d_mem = 3 ∧ L.d_input = 4 ∧
      L.params.map (fun p => p.data.shape_)
        = [(1, 1, L.d_input, 2 * 3), (1, 1, 3, 2 * 3), (1, 1, 1, 2 * 3),
           (1, 1, L.d_input, 3), (1, 1, 3, 3), (1, 1, 1, 3)] ∧
      L.params.map (fun p => p.diff.shape_) = L.params.map (fun p => p.data.shape_) ∧
      ∀ p ∈ L.params, ∀ i, p.diff.dptr_ i = 0 :=
  C17_SetupLayer_shapes (fun _ => (0 : ℚ)) (fun _ _ _ => 1) 3 false
    ⟨⟨(2, 1, 5, 4), fun _ => 0⟩, ⟨(2, 1, 5, 4), fun _ => 0⟩, true⟩ (ShapedNode.new true)
    ⟨0, 0, false, ⟨(0, 0), fun _ => 0⟩, ⟨(0, 0), fun _ => 0⟩, [],
      ⟨(0, 0, 0, 0), fun _ => 0⟩, ⟨(0, 0, 0, 0), fun _ => 0⟩, ⟨(0, 0, 0, 0), fun _ => 0⟩,
      ⟨(0, 0, 0, 0), fun _ => 0⟩⟩ (fun _ h => absurd h (List.not_mem_nil _))

/-- C18: for an input node of shape `(B, S, T, d_input)`, `Reshape` succeeds and gives the
data tensor of the output node the shape `(B, S, T, H)`, the candidate cache and its gradient
cache the shape `(B, S, T, H)` and the gate cache and its gradient cache the shape
`(B, S, T, 2H)`, `H` being the hidden size of the layer; and whenever `Forward` returns, the
length array of the output node is the length array of the input node, which it does under
the length precondition. -/
theorem C18_Reshape_shapes {d_input d_mem : Nat} (uninit : Shape4 → α)
    (bottom0 top0 : ShapedNode α) (L0 : GruLayerState α) (B S T D : Nat)
    (hshape : bottom0.data.shape_ = (B, S, T, D))
    (op : Ops α) (L : GruLayer α d_input d_mem) (bottom : Node α d_input) (top : Node α d_mem) :
    (∃ L1 top1, Reshape uninit [bottom0] [top0] L0 = .ok (L1, top1) ∧
      top1.data.shape_ = (B, S, T, L0.d_mem) ∧
      L1.c.shape_ = (B, S, T, L0.d_mem) ∧ L1.g.shape_ = (B, S, T, 2 * L0.d_mem) ∧
      L1.c_er.shape_ = (B, S, T, L0.d_mem) ∧ L1.g_er.shape_ = (B, S, T, 2 * L0.d_mem) ∧
      L1.d_mem = L0.d_mem) ∧
    (∀ f, Forward op L bottom top = .ok f → ∀ b s, f.2.length b s = bottom.length b s) ∧
    (ValidLengths bottom →
      ∃ f, Forward op L bottom top = .ok f ∧ ∀ b s, f.2.length b s = bottom.length b s) := by
  refine ⟨⟨_, _, rfl, ?_, ?_, ?_, ?_, ?_, rfl⟩, ?_, ?_⟩
  · simp [ShapedNode.ResizeShape, TensorContainer.Resize, hshape]
    split_ifs <;> rfl
  · simp [TensorContainer.Resize, hshape]
  · simp [TensorContainer.Resize, hshape, Nat.mul_comm]
  · simp [TensorContainer.Resize, hshape]
  · simp [TensorContainer.Resize, hshape, Nat.mul_comm]
  · intro f hf b s
    rw [Forward_length op L bottom top f hf]
  · intro hlen
    obtain ⟨f, hf, -⟩ := Forward_inv op L bottom top hlen
    exact ⟨f, hf, fun b s => by rw [Forward_length op L bottom top f hf]⟩

theorem C18_Reshape_shapes_witness :
    (∃ L1 top1, Reshape (fun _ => (0 : ℚ))
        [⟨⟨(2, 1, 5, 4), fun _ => 0⟩, ⟨(2, 1, 5, 4), fun _ => 0⟩, true⟩] [ShapedNode.new false]
        ⟨3, 4, false, ⟨(1, 3), fun _ => 0⟩, ⟨(1, 3), fun _ => 0⟩, [],
          ⟨(0, 0, 0, 0), fun _ => 0⟩, ⟨(0, 0, 0, 0), fun _ => 0⟩, ⟨(0, 0, 0, 0), fun _ => 0⟩,
          ⟨(0, 0, 0, 0), fun _ => 0⟩⟩ = .ok (L1, top1) ∧
      top1.data.shape_ = (2, 1, 5, 3) ∧
      L1.c.shape_ = (2, 1, 5, 3) ∧ L1.g.shape_ = (2, 1, 5, 2 * 3) ∧
      L1.c_er.shape_ = (2, 1, 5, 3) ∧ L1.g_er.shape_ = (2, 1, 5, 2 * 3) ∧
      L1.d_mem = 3) ∧
    (∀ f, Forward exOps (exLayer false 0) (exBottom 2 2) (exTop 2) = .ok f →
      ∀ b s, f.2.length b s = (exBottom 2 2).length b s) ∧
    (ValidLengths (exBottom 2 2) →
      ∃ f, Forward exOps (exLayer false 0) (exBottom 2 2) (exTop 2) = .ok f ∧
        ∀ b s, f.2.length b s = (exBottom 2 2).length b s) :=
  C18_Reshape_shapes (fun _ => (0 : ℚ))
    ⟨⟨(2, 1, 5, 4), fun _ => 0⟩, ⟨(2, 1, 5, 4), fun _ => 0⟩, true⟩ (ShapedNode.new false)
    ⟨3, 4, false, ⟨(1, 3), fun _ => 0⟩, ⟨(1, 3), fun _ => 0⟩, [],
      ⟨(0, 0, 0, 0), fun _ => 0⟩, ⟨(0, 0, 0, 0), fun _ => 0⟩, ⟨(0, 0, 0, 0), fun _ => 0⟩,
      ⟨(0, 0, 0, 0), fun _ => 0⟩⟩ 2 1 5 4 rfl exOps (exLayer false 0) (exBottom 2 2) (exTop 2)

end Shapes

section Bounds

variable {d_input d_mem : Nat}

theorem logistic_range (v : ℝ) :
    0 < 1 / (1 + Real.exp (-v)) ∧ 1 / (1 + Real.exp (-v)) < 1 := by
  have h := Real.exp_pos (-v)
  constructor
  · positivity
  · rw [div_lt_one (by positivity)]
    linarith

theorem tanh_range (v : ℝ) : -1 < Real.tanh v ∧ Real.tanh v < 1 := by
  have hc := Real.cosh_pos v
  rw [Real.tanh_eq_sinh_div_cosh]
  constructor
  · rw [lt_div_iff₀ hc]
    have := Real.cosh_add_sinh v
    have := Real.exp_pos v
    linarith
  · rw [div_lt_one hc]
    exact Real.sinh_lt_cosh v

theorem convex_bound (z h c : ℝ) (hz : 0 < z ∧ z < 1) (hh : -1 < h ∧ h < 1)
    (hc : -1 < c ∧ c < 1) : -1 < z * h + (1 - z) * c ∧ z * h + (1 - z) * c < 1 := by
  constructor
  · nlinarith [mul_pos hz.1 (show 0 < h + 1 by linarith),
      mul_pos (show 0 < 1 - z by linarith) (show 0 < c + 1 by linarith)]
  · nlinarith [mul_pos hz.1 (show 0 < 1 - h by linarith),
      mul_pos (show 0 < 1 - z by linarith) (show 0 < 1 - c by linarith)]

theorem wStep_bounds (op : Ops ℝ)
    (hσ : ∀ v, 0 < op.sigmoid v ∧ op.sigmoid v < 1)
    (hτ : ∀ v, -1 < op.tanh v ∧ op.tanh v < 1)
    (W : Weights ℝ d_input d_mem) (h : Tensor2D ℝ 1 d_mem) (x : Tensor2D ℝ 1 d_input)
    (hh : ∀ j, -1 < h 0 j ∧ h 0 j < 1) :
    (∀ k, 0 < (wStep op W h x).1 0 k ∧ (wStep op W h x).1 0 k < 1) ∧
    (∀ j, -1 < (wStep op W h x).2.1 0 j ∧ (wStep op W h x).2.1 0 j < 1) ∧
    (∀ j, -1 < (wStep op W h x).2.2 0 j ∧ (wStep op W h x).2.2 0 j < 1) := by
  have hg : ∀ k, 0 < (wStep op W h x).1 0 k ∧ (wStep op W h x).1 0 k < 1 :=
    fun k => hσ _
  have hc : ∀ j, -1 < (wStep op W h x).2.1 0 j ∧ (wStep op W h x).2.1 0 j < 1 :=
    fun j => hτ _
  refine ⟨hg, hc, ?_⟩
  intro j
  exact convex_bound _ _ _ (hg ⟨d_mem + j.1, by omega⟩) (hh j) (hc j)

theorem hidSeq_bounds (op : Ops ℝ)
    (hσ : ∀ v, 0 < op.sigmoid v ∧ op.sigmoid v < 1)
    (hτ : ∀ v, -1 < op.tanh v ∧ op.tanh v < 1)
    (W : Weights ℝ d_input d_mem) (begin_h : Tensor2D ℝ 1 d_mem)
    (hb : ∀ j, -1 < begin_h 0 j ∧ begin_h 0 j < 1) (X : Nat → Tensor2D ℝ 1 d_input) :
    ∀ p j, -1 < hidSeq op W begin_h X p 0 j ∧ hidSeq op W begin_h X p 0 j < 1 := by
  intro p
  induction p with
  | zero => exact (wStep_bounds op hσ hτ W begin_h (X 0) hb).2.2
  | succ p ih => exact (wStep_bounds op hσ hτ W _ (X (p + 1)) ih).2.2

theorem prevHid_bounds (op : Ops ℝ)
    (hσ : ∀ v, 0 < op.sigmoid v ∧ op.sigmoid v < 1)
    (hτ : ∀ v, -1 < op.tanh v ∧ op.tanh v < 1)
    (W : Weights ℝ d_input d_mem) (begin_h : Tensor2D ℝ 1 d_mem)
    (hb : ∀ j, -1 < begin_h 0 j ∧ begin_h 0 j < 1) (X : Nat → Tensor2D ℝ 1 d_input) :
    ∀ p j, -1 < prevHid op W begin_h X p 0 j ∧ prevHid op W begin_h X p 0 j < 1 := by
  intro p j
  unfold prevHid
  split_ifs
  · exact hb j
  · exact hidSeq_bounds op hσ hτ W begin_h hb X _ j

omit d_input d_mem in
theorem rowOf_rowOf (rev : Bool) (n t : Nat) (ht : t < n) :
    rowOf rev n (rowOf rev n t) = t ∧ rowOf rev n t < n := by
  cases rev
  · simp [rowOf, ht]
  · simp only [rowOf, if_true]
    omega

/-- C19: over the reals, for activation functors with `sigmoid` valued strictly between `0`
and `1` and `tanh` strictly between `-1` and `1`, a zero initial hidden state and valid
lengths, `Forward` succeeds and, for every pair inside the shape and every time index below
its valid length, every gate entry lies strictly between `0` and `1`, every candidate entry
strictly between `-1` and `1`, and every output hidden-state entry strictly between `-1`
and `1`. -/
theorem C19_boundedness (op : Ops ℝ)
    (hσ : ∀ v, 0 < op.sigmoid v ∧ op.sigmoid v < 1)
    (hτ : ∀ v, -1 < op.tanh v ∧ op.tanh v < 1)
    (L : GruLayer ℝ d_input d_mem) (hb : L.begin_h = 0)
    (bottom : Node ℝ d_input) (top : Node ℝ d_mem) (hlen : ValidLengths bottom) :
    ∃ f, Forward op L bottom top = .ok f ∧
      ∀ b s t, b < bottom.size0 → s < bottom.size1 → t < (bottom.length b s).toNat →
        (∀ k, 0 < f.1.g b s t k ∧ f.1.g b s t k < 1) ∧
        (∀ j, -1 < f.1.c b s t j ∧ f.1.c b s t j < 1) ∧
        (∀ j, -1 < f.2.data b s t j ∧ f.2.data b s t j < 1) := by
  obtain ⟨f, hf, cc, gg, dd, rfl, h1, -⟩ := Forward_inv op L bottom top hlen
  refine ⟨_, hf, ?_⟩
  intro b s t hb0 hs0 ht
  dsimp only
  obtain ⟨e, hp⟩ := rowOf_rowOf L.reverse (bottom.length b s).toNat t ht
  obtain ⟨-, -, h3⟩ := pair_forward_hidSeq op L bottom _ b s (h1 b s (Or.inl ⟨hb0, hs0⟩))
    (rowOf L.reverse (bottom.length b s).toNat t) hp
  rw [e] at h3
  have hbb : ∀ j, -1 < L.begin_h 0 j ∧ L.begin_h 0 j < 1 := by
    intro j
    rw [hb]
    simp
  have hw := wStep_bounds op hσ hτ (weightsOf L)
    (prevHid op (weightsOf L) L.begin_h
      (visitRows L.reverse (bottom.length b s).toNat (bottom.data b s))
      (rowOf L.reverse (bottom.length b s).toNat t))
    (visitRows L.reverse (bottom.length b s).toNat (bottom.data b s)
      (rowOf L.reverse (bottom.length b s).toNat t))
    (prevHid_bounds op hσ hτ (weightsOf L) L.begin_h hbb _ _)
  rw [← h3] at hw
  exact hw

theorem C19_boundedness_witness :
    (∀ v, 0 < (exOpsOf (fun u : ℝ => 1 / (1 + Real.exp (-u))) Real.tanh).sigmoid v ∧
      (exOpsOf (fun u : ℝ => 1 / (1 + Real.exp (-u))) Real.tanh).sigmoid v < 1) ∧
    (∀ v, -1 < (exOpsOf (fun u : ℝ => 1 / (1 + Real.exp (-u))) Real.tanh).tanh v ∧
      (exOpsOf (fun u : ℝ => 1 / (1 + Real.exp (-u))) Real.tanh).tanh v < 1) ∧
    ValidLengths exBottomR ∧
    ∃ f, Forward (exOpsOf (fun u : ℝ => 1 / (1 + Real.exp (-u))) Real.tanh) (exLayerR true)
        exBottomR exTopR = .ok f ∧
      ∀ b s t, b < exBottomR.size0 → s < exBottomR.size1 →
        t < (exBottomR.length b s).toNat →
        (∀ k, 0 < f.1.g b s t k ∧ f.1.g b s t k < 1) ∧
        (∀ j, -1 < f.1.c b s t j ∧ f.1.c b s t j < 1) ∧
        (∀ j, -1 < f.2.data b s t j ∧ f.2.data b s t j < 1) :=
  ⟨logistic_range, tanh_range, validLengths_exBottomR,
    C19_boundedness (exOpsOf (fun u : ℝ => 1 / (1 + Real.exp (-u))) Real.tanh)
      logistic_range tanh_range (exLayerR true) rfl exBottomR exTopR validLengths_exBottomR⟩

end Bounds

section ShapesResize

variable {α : Type} [CommRing α]

/-- C23: the two overloads of `Node::Resize` agree when the four extents are those of the
shape. With `init = true` the data tensor takes the requested shape and is all zero, and so
does the gradient tensor when `need_diff` is set, while it is untouched when `need_diff` is
not set. With `init = false` and the requested shape equal to the shape of the data tensor
the node is unchanged. With `init = false` and another shape the data tensor takes the
requested shape, and so does the gradient tensor when `need_diff` is set, while it is
untouched otherwise. The flag `need_diff` is never changed. -/
theorem C23_Node_Resize (uninit : Shape4 → α) (nd : ShapedNode α) (d1 d2 d3 d4 : Nat)
    (new_size : Shape4) (init : Bool) :
    nd.Resize uninit d1 d2 d3 d4 init = nd.ResizeShape uninit (d1, d2, d3, d4) init ∧
    (nd.ResizeShape uninit new_size init).need_diff = nd.need_diff ∧
    ((nd.ResizeShape uninit new_size true).data.shape_ = new_size ∧
      (∀ i, (nd.ResizeShape uninit new_size true).data.dptr_ i = 0) ∧
      (nd.need_diff = true →
        (nd.ResizeShape uninit new_size true).diff.shape_ = new_size ∧
        ∀ i, (nd.ResizeShape uninit new_size true).diff.dptr_ i = 0) ∧
      (nd.need_diff = false → (nd.ResizeShape uninit new_size true).diff = nd.diff)) ∧
    (new_size = nd.data.shape_ → nd.ResizeShape uninit new_size false = nd) ∧
    (new_size ≠ nd.data.shape_ →
      (nd.ResizeShape uninit new_size false).data.shape_ = new_size ∧
      (nd.need_diff = true → (nd.ResizeShape uninit new_size false).diff.shape_ = new_size) ∧
      (nd.need_diff = false → (nd.ResizeShape uninit new_size false).diff = nd.diff)) := by
  obtain ⟨data, diff, nf⟩ := nd
  refine ⟨rfl, ?_, ⟨?_, ?_, ?_, ?_⟩, ?_, ?_⟩
  · cases nf <;> cases init <;> by_cases h : new_size = data.shape_ <;>
      simp [ShapedNode.ResizeShape, h]
  · cases nf <;> simp [ShapedNode.ResizeShape, TensorContainer.Resize]
  · intro i
    cases nf <;> simp [ShapedNode.ResizeShape, TensorContainer.Resize]
  · intro h
    simp only at h
    subst h
    simp [ShapedNode.ResizeShape, TensorContainer.Resize]
  · intro h
    simp only at h
    subst h
    simp [ShapedNode.ResizeShape]
  · intro h
    simp only at h
    simp [ShapedNode.ResizeShape, h]
  · intro h
    simp only at h
    refine ⟨?_, ?_, ?_⟩
    · cases nf <;> simp [ShapedNode.ResizeShape, TensorContainer.ResizeShape, h]
    · intro hn
      simp only at hn
      subst hn
      simp [ShapedNode.ResizeShape, TensorContainer.ResizeShape, h]
    · intro hn
      simp only at hn
      subst hn
      simp [ShapedNode.ResizeShape, h]

theorem C23_Node_Resize_witness :
    (⟨⟨(2, 1, 5, 4), fun _ => 7⟩, ⟨(2, 1, 5, 4), fun _ => 8⟩, false⟩ : ShapedNode ℚ).ResizeShape
        (fun _ => 9) (2, 1, 5, 4) false
      = ⟨⟨(2, 1, 5, 4), fun _ => 7⟩, ⟨(2, 1, 5, 4), fun _ => 8⟩, false⟩ ∧
    ((⟨⟨(2, 1, 5, 4), fun _ => 7⟩, ⟨(2, 1, 5, 4), fun _ => 8⟩, false⟩ : ShapedNode ℚ).ResizeShape
        (fun _ => 9) (2, 1, 5, 4) true).diff = ⟨(2, 1, 5, 4), fun _ => 8⟩ ∧
    ((⟨⟨(2, 1, 5, 4), fun _ => 7⟩, ⟨(2, 1, 5, 4), fun _ => 8⟩, true⟩ : ShapedNode ℚ).ResizeShape
        (fun _ => 9) (3, 1, 5, 4) false).diff.shape_ = (3, 1, 5, 4) :=
  ⟨(C23_Node_Resize (fun _ => 9) ⟨⟨(2, 1, 5, 4), fun _ => 7⟩, ⟨(2, 1, 5, 4), fun _ => 8⟩, false⟩
      2 1 5 4 (2, 1, 5, 4) false).2.2.2.1 rfl,
    (C23_Node_Resize (fun _ => 9) ⟨⟨(2, 1, 5, 4), fun _ => 7⟩, ⟨(2, 1, 5, 4), fun _ => 8⟩, false⟩
      2 1 5 4 (2, 1, 5, 4) false).2.2.1.2.2.2 rfl,
    ((C23_Node_Resize (fun _ => 9) ⟨⟨(2, 1, 5, 4), fun _ => 7⟩, ⟨(2, 1, 5, 4), fun _ => 8⟩, true⟩
      2 1 5 4 (3, 1, 5, 4) false).2.2.2.2 (by decide)).2.1 rfl⟩

end ShapesResize

end layer
end textnet
